import Mathlib

/-!
Battleship: the game and the computer opponent's targeting heuristic.

A shallow embedding of `battleship.cpp`.  The data model follows the
declarations at the top of the source (`SquareState`, `Ship`, `Game`), the
functions follow the bodies of the member functions of `AIOpponent` and `Game`
statement by statement.  C++ `int` values are modelled as `Int`: for the ship sizes `2 .. 5`
the game passes as `s`, no value computed here comes near the limits of a
machine integer (weights stay below 2000, coordinates between -5 and 14).
For an arbitrary `int` `s` the arithmetic of `EvaluateGrid` and of the `Eval`
functions is also given in 32 bits (`wrap32`, `EvalUp32`, ...).

A grid `Square g[10][10]` is a function of two indices; only the indices
`0..9` are cells of the board, and no definition below reads the function
outside that range when it is called the way the source calls it.
-/

namespace Battleship

/-! ## Data model -/

/-- The enum `Gametype` of the source. -/
inductive Gametype where
  | CLASSIC | MULTIFIRE | CRUISE_MISSILES | HARDCORE
  deriving DecidableEq

/-- The enum `Gamestate` of the source. -/
inductive Gamestate where
  | WAITING | PLAYING | USERWON | COMPWON
  deriving DecidableEq

/-- The enum `SquareState` of the source. -/
inductive SquareState where
  | MISS | HIT | EMPTY | SHIP | SINK | SHOT_DOWN
  deriving DecidableEq

/-- The enum `ShipState` of the source. -/
inductive ShipState where
  | AFLOAT | SUNK
  deriving DecidableEq

/-- The enum `Player` of the source. -/
inductive Player where
  | USER | COMP
  deriving DecidableEq

/-- The class `Ship`: name, coordinates, state, size and health. -/
structure Ship where
  shipName : String
  shipCoords : List (Int × Int)
  shipState : ShipState
  shipSize : Int
  health : Int

/-- A grid `Square g[10][10]`, read as `g x y` for `g[x][y].getSquareState()`. -/
abbrev Grid := Int → Int → SquareState

/-- The data members of class `Game` (the log file and the stateless
`AIOpponent arty` carry no data the functions below read). -/
structure Game where
  gameState : Gamestate
  gameType : Gametype
  userShips : Grid
  playerTargeting : Grid
  compShips : Grid
  compTargeting : Grid
  userFleet : List Ship
  compFleet : List Ship

/-- The weight map `int tmp[10][10]` of `EvaluateGrid`. -/
abbrev Weights := Int → Int → Int

/-- The initial weight map `int tmp[10][10] = {0}`. -/
def zeroWeights : Weights := fun _ _ => 0

/-- The statement `tmp[x][y] += v`. -/
def addAt (tmp : Weights) (x y v : Int) : Weights :=
  fun a b => if a = x ∧ b = y then tmp a b + v else tmp a b

/-- The statement `tmp[x][y] = v`. -/
def setAt (tmp : Weights) (x y v : Int) : Weights :=
  fun a b => if a = x ∧ b = y then v else tmp a b

/-- The values `0, 1, ..., 9` a loop `for(int x = 0; x < 10; x++)` runs through. -/
def idx10 : List Int := [0, 1, 2, 3, 4, 5, 6, 7, 8, 9]

namespace AIOpponent

open SquareState

/-! ## The directional fit tests `EvalUp`, `EvalDown`, `EvalRight`, `EvalLeft`

Each loop `for(int n = 1; n < s - 1; n++)` runs `n` through `1 .. s-2`, that
is through `k + 1` for `k < (s - 2).toNat`; leaving the loop at the first MISS
or SINK cell with `isEmpty = false` is `List.all`. -/

/-- `AIOpponent::EvalUp`. -/
def EvalUp (game : Game) (x y s : Int) : Bool :=
  if y - (s - 1) < 0 then false
  else (List.range (s - 2).toNat).all fun (k : Nat) =>
    !(decide (game.compTargeting x (y - ((k : Int) + 1)) = MISS)
      || decide (game.compTargeting x (y - ((k : Int) + 1)) = SINK))

/-- `AIOpponent::EvalDown`. -/
def EvalDown (game : Game) (x y s : Int) : Bool :=
  if y + (s - 1) > 9 then false
  else (List.range (s - 2).toNat).all fun (k : Nat) =>
    !(decide (game.compTargeting x (y + ((k : Int) + 1)) = MISS)
      || decide (game.compTargeting x (y + ((k : Int) + 1)) = SINK))

/-- `AIOpponent::EvalRight`. -/
def EvalRight (game : Game) (x y s : Int) : Bool :=
  if x + (s - 1) > 9 then false
  else (List.range (s - 2).toNat).all fun (k : Nat) =>
    !(decide (game.compTargeting (x + ((k : Int) + 1)) y = MISS)
      || decide (game.compTargeting (x + ((k : Int) + 1)) y = SINK))

/-- `AIOpponent::EvalLeft`. -/
def EvalLeft (game : Game) (x y s : Int) : Bool :=
  if x - (s - 1) < 0 then false
  else (List.range (s - 2).toNat).all fun (k : Nat) =>
    !(decide (game.compTargeting (x - ((k : Int) + 1)) y = MISS)
      || decide (game.compTargeting (x - ((k : Int) + 1)) y = SINK))

/-! ## `EvaluateGrid`, first pair of loops: building the weight map -/

/-- The block `if(EvalUp(game, x, y, i)) for(n = 0; n < i - 1; n++) tmp[x][y-n] += 1;`. -/
def runUp (game : Game) (x y i : Int) (tmp : Weights) : Weights :=
  if EvalUp game x y i then
    (List.range (i - 1).toNat).foldl (fun t (n : Nat) => addAt t x (y - (n : Int)) 1) tmp
  else tmp

/-- The block `if(EvalDown(game, x, y, i)) for(n = 0; n < i - 1; n++) tmp[x][y+n] += 1;`. -/
def runDown (game : Game) (x y i : Int) (tmp : Weights) : Weights :=
  if EvalDown game x y i then
    (List.range (i - 1).toNat).foldl (fun t (n : Nat) => addAt t x (y + (n : Int)) 1) tmp
  else tmp

/-- The block `if(EvalLeft(game, x, y, i)) for(n = 0; n < i - 1; n++) tmp[x - n][y] += 1;`. -/
def runLeft (game : Game) (x y i : Int) (tmp : Weights) : Weights :=
  if EvalLeft game x y i then
    (List.range (i - 1).toNat).foldl (fun t (n : Nat) => addAt t (x - (n : Int)) y 1) tmp
  else tmp

/-- The block `if(EvalRight(game, x, y, i)) for(n = 0; n < i - 1; n++) tmp[x + n][y] += 1;`. -/
def runRight (game : Game) (x y i : Int) (tmp : Weights) : Weights :=
  if EvalRight game x y i then
    (List.range (i - 1).toNat).foldl (fun t (n : Nat) => addAt t (x + (n : Int)) y 1) tmp
  else tmp

/-- The body of `for(int i = s; i <= 5; i++)` for one candidate length `i`:
the four blocks in the order Up, Down, Left, Right. -/
def lengthStep (game : Game) (x y i : Int) (tmp : Weights) : Weights :=
  runRight game x y i (runLeft game x y i (runDown game x y i (runUp game x y i tmp)))

/-- The loop `for(int i = s; i <= 5; i++)` of an EMPTY cell: `i` runs through
`s + k` for `k < (5 - s + 1).toNat`. -/
def emptyStep (game : Game) (s x y : Int) (tmp : Weights) : Weights :=
  (List.range (5 - s + 1).toNat).foldl (fun t (k : Nat) => lengthStep game x y (s + (k : Int)) t) tmp

/-- The Up part of the HIT branch. -/
def hitUp (game : Game) (x y : Int) (tmp : Weights) : Weights :=
  if EvalUp game x y 3 then addAt (addAt tmp x (y - 1) 100) x (y - 2) 50
  else if EvalUp game x y 2 then addAt tmp x (y - 1) 100
  else tmp

/-- The Down part of the HIT branch. -/
def hitDown (game : Game) (x y : Int) (tmp : Weights) : Weights :=
  if EvalDown game x y 3 then addAt (addAt tmp x (y + 1) 100) x (y + 2) 50
  else if EvalDown game x y 2 then addAt tmp x (y + 1) 100
  else tmp

/-- The Left part of the HIT branch. -/
def hitLeft (game : Game) (x y : Int) (tmp : Weights) : Weights :=
  if EvalLeft game x y 3 then addAt (addAt tmp (x - 1) y 100) (x - 2) y 50
  else if EvalLeft game x y 2 then addAt tmp (x - 1) y 100
  else tmp

/-- The Right part of the HIT branch. -/
def hitRight (game : Game) (x y : Int) (tmp : Weights) : Weights :=
  if EvalRight game x y 3 then addAt (addAt tmp (x + 1) y 100) (x + 2) y 50
  else if EvalRight game x y 2 then addAt tmp (x + 1) y 100
  else tmp

/-- The branch `else if(tmpSS == HIT)`: Up, Down, Left, Right in this order. -/
def hitStep (game : Game) (x y : Int) (tmp : Weights) : Weights :=
  hitRight game x y (hitLeft game x y (hitDown game x y (hitUp game x y tmp)))

/-- The body of the first pair of loops for the cell `(x, y)`. -/
def cellStep (game : Game) (s x y : Int) (tmp : Weights) : Weights :=
  match game.compTargeting x y with
  | EMPTY => emptyStep game s x y tmp
  | HIT => hitStep game x y tmp
  | SHOT_DOWN => addAt tmp x y 1000
  | _ => tmp

/-- The first pair of loops of `EvaluateGrid`, started on the zero map: the
weight map before the selection loops. -/
def weighGrid (game : Game) (s : Int) : Weights :=
  idx10.foldl (fun t x => idx10.foldl (fun t y => cellStep game s x y t) t) zeroWeights

/-! ## `EvaluateGrid`, second pair of loops: zeroing and selection -/

/-- The local variables the selection loops change.  `highX` and `highY` are
declared without an initial value in the source (`int highX, highY;`), which is
`none` here; an assignment makes them `some`. -/
structure Selection where
  tmp : Weights
  high : Int
  highX : Option Int
  highY : Option Int

/-- The body of the second pair of loops for the cell `(x, y)`. -/
def selectStep (game : Game) (x y : Int) (st : Selection) : Selection :=
  let tmpSS := game.compTargeting x y
  let tmp := if tmpSS = HIT ∨ tmpSS = MISS ∨ tmpSS = SINK then setAt st.tmp x y 0 else st.tmp
  if tmp x y > st.high then
    { tmp := tmp, high := tmp x y, highX := some x, highY := some y }
  else
    { st with tmp := tmp }

/-- The second pair of loops, from `high = 0` and unset `highX`, `highY`. -/
def selectLoop (game : Game) (tmp : Weights) : Selection :=
  idx10.foldl (fun st x => idx10.foldl (fun st y => selectStep game x y st) st)
    { tmp := tmp, high := 0, highX := none, highY := none }

/-- `AIOpponent::EvaluateGrid`: the pair `make_pair(highY, highX)`, or `none`
when the function returns `highY` and `highX` without ever having assigned
them. -/
def EvaluateGrid (game : Game) (s : Int) : Option (Int × Int) :=
  let st := selectLoop game (weighGrid game s)
  match st.highY, st.highX with
  | some hY, some hX => some (hY, hX)
  | _, _ => none

/-- The weight map `tmp` as it is when `EvaluateGrid` returns (the argument the
commented-out `DisplayProbabilityGrid(tmp)` call would print). -/
def finalWeights (game : Game) (s : Int) : Weights :=
  (selectLoop game (weighGrid game s)).tmp

end AIOpponent

/-! ## The fleets and `SmallestShipAlive` -/

/-- The constructor `Ship(int s, string name)`: health equal to the size,
state AFLOAT, no coordinates yet. -/
def Ship.construct (s : Int) (name : String) : Ship :=
  { shipName := name, shipCoords := [], shipState := ShipState.AFLOAT, shipSize := s, health := s }

/-- `Game::ConstructFleets`: five ships are pushed onto each fleet. -/
def Game.ConstructFleets (game : Game) : Game :=
  { game with
    userFleet := game.userFleet ++
      [Ship.construct 5 "CARRIER", Ship.construct 4 "BATTLESHIP", Ship.construct 3 "CRUISER",
       Ship.construct 3 "SUBMARINE", Ship.construct 2 "DESTROYER"]
    compFleet := game.compFleet ++
      [Ship.construct 5 "CARRIER", Ship.construct 4 "BATTLESHIP", Ship.construct 3 "CRUISER",
       Ship.construct 3 "SUBMARINE", Ship.construct 2 "DESTROYER"] }

/-- The body of the loop of `SmallestShipAlive` for one ship. -/
def smallestStep (small : Int) (ship : Ship) : Int :=
  if ship.shipState = ShipState.AFLOAT then
    (if ship.shipSize < small then ship.shipSize else small)
  else small

/-- `AIOpponent::SmallestShipAlive`: `small` starts at 5 and the loop
`for(int i = 0; i < 5; i++)` reads `game.userFleet[i]`.  The source indexes the
vector without a check; an index past the end of the fleet leaves `small` as it
is here, and every statement below is about fleets of five ships. -/
def AIOpponent.SmallestShipAlive (game : Game) : Int :=
  (List.range 5).foldl
    (fun small i =>
      match game.userFleet[i]? with
      | some ship => smallestStep small ship
      | none => small)
    5

/-! ## `Game`: placement checks, hit resolution and forfeit

The member functions of `Game` the hit resolver is made of.  Output to the
terminal and to the log file is left out.  `ShootDownMissile` draws from
`rand()`; the drawn value is the argument `rnd` here.  A fleet is indexed as
`fleet[i]` in the source without a check: where the source writes to a ship at
an index that is not in the fleet the result is `none`. -/

/-- The call `grid[x][y].setSquareState(s)`. -/
def setSquareState (grid : Grid) (x y : Int) (s : SquareState) : Grid :=
  fun a b => if a = x ∧ b = y then s else grid a b

/-- `Ship::Damage`: `health--`, and the state becomes SUNK when health is 0. -/
def Ship.Damage (ship : Ship) : Ship :=
  { ship with
    health := ship.health - 1
    shipState := if ship.health - 1 = 0 then ShipState.SUNK else ship.shipState }

/-- The constructor `Game(Gametype gt)`: state WAITING, empty grids (every
`Square` is constructed EMPTY), empty fleets. -/
def Game.construct (gt : Gametype) : Game :=
  { gameState := Gamestate.WAITING, gameType := gt,
    userShips := fun _ _ => SquareState.EMPTY,
    playerTargeting := fun _ _ => SquareState.EMPTY,
    compShips := fun _ _ => SquareState.EMPTY,
    compTargeting := fun _ _ => SquareState.EMPTY, userFleet := [], compFleet := [] }

/-- `Game::CheckUp`. -/
def Game.CheckUp (game : Game) (x y s : Int) : Bool :=
  if y - (s - 1) < 0 then false
  else (List.range (s - 2).toNat).all fun (k : Nat) =>
    !(decide (game.userShips x (y - ((k : Int) + 1)) ≠ SquareState.EMPTY))

/-- `Game::CheckDown`. -/
def Game.CheckDown (game : Game) (x y s : Int) : Bool :=
  if y + (s - 1) > 9 then false
  else (List.range (s - 2).toNat).all fun (k : Nat) =>
    !(decide (game.userShips x (y + ((k : Int) + 1)) ≠ SquareState.EMPTY))

/-- `Game::CheckLeft`. -/
def Game.CheckLeft (game : Game) (x y s : Int) : Bool :=
  if x - (s - 1) < 0 then false
  else (List.range (s - 2).toNat).all fun (k : Nat) =>
    !(decide (game.userShips (x - ((k : Int) + 1)) y ≠ SquareState.EMPTY))

/-- `Game::CheckRight`. -/
def Game.CheckRight (game : Game) (x y s : Int) : Bool :=
  if x + (s - 1) > 9 then false
  else (List.range (s - 2).toNat).all fun (k : Nat) =>
    !(decide (game.userShips (x + ((k : Int) + 1)) y ≠ SquareState.EMPTY))

/-- `Game::PlaceShip`: every coordinate of `coords` becomes SHIP on the ship
grid of `p`. -/
def Game.PlaceShip (game : Game) (coords : List (Int × Int)) (p : Player) : Game :=
  if p = Player.USER then
    { game with
      userShips := coords.foldl (fun g c => setSquareState g c.1 c.2 SquareState.SHIP)
        game.userShips }
  else
    { game with
      compShips := coords.foldl (fun g c => setSquareState g c.1 c.2 SquareState.SHIP)
        game.compShips }

/-- `Game::IsFleetDestroyed`: `isDestroyed` starts true and the loop
`for(int i = 0; i < 5; i++)` clears it at every AFLOAT ship of the fleet of `p`. -/
def Game.IsFleetDestroyed (game : Game) (p : Player) : Bool :=
  (List.range 5).foldl
    (fun isDestroyed i =>
      match (if p = Player.USER then game.userFleet[i]? else game.compFleet[i]?) with
      | some ship => if ship.shipState = ShipState.AFLOAT then false else isDestroyed
      | none => isDestroyed)
    true

/-- `Game::ShootDownMissile`, for the value `rnd` that `rand()` returns:
`rng = rnd % 10 + 1`, shot down when `rng <= 8`. -/
def Game.ShootDownMissile (rnd : Nat) : Bool :=
  decide (rnd % 10 + 1 ≤ 8)

/-- `Game::GetShip`: `shipLoc` starts at 99; for each of the five ships of the
fleet that `p` fires at, every coordinate of the ship equal to `coords` sets
`shipLoc` to the index of the ship. -/
def Game.GetShip (game : Game) (coords : Int × Int) (p : Player) : Nat :=
  (List.range 5).foldl
    (fun shipLoc i =>
      let shipVec : List (Int × Int) :=
        match (if p = Player.USER then game.compFleet[i]? else game.userFleet[i]?) with
        | some ship => ship.shipCoords
        | none => []
      shipVec.foldl
        (fun shipLoc n => if coords.1 = n.1 ∧ coords.2 = n.2 then i else shipLoc) shipLoc)
    99

/-- `Game::SinkShip`: every coordinate of the ship at `shipLoc` of the fleet
that `p` fires at becomes SINK, on `playerTargeting` when the user fires, on
`compTargeting` and `userShips` when the computer fires. -/
def Game.SinkShip (game : Game) (shipLoc : Nat) (p : Player) : Option Game :=
  if p = Player.USER then
    match game.compFleet[shipLoc]? with
    | none => none
    | some ship =>
      some { game with
        playerTargeting := ship.shipCoords.foldl
          (fun g i => setSquareState g i.1 i.2 SquareState.SINK) game.playerTargeting }
  else
    match game.userFleet[shipLoc]? with
    | none => none
    | some ship =>
      some { game with
        compTargeting := ship.shipCoords.foldl
          (fun g i => setSquareState g i.1 i.2 SquareState.SINK) game.compTargeting
        userShips := ship.shipCoords.foldl
          (fun g i => setSquareState g i.1 i.2 SquareState.SINK) game.userShips }

/-- `Game::ShipHit`: the target becomes HIT (on `playerTargeting` when the
user fires, on `compTargeting` and `userShips` when the computer fires), the
ship `GetShip` finds is damaged, and it is sunk on the grids when its state is
SUNK after that. -/
def Game.ShipHit (game : Game) (tarCol tarRow : Int) (p : Player) : Option Game :=
  let shipLoc := game.GetShip (tarCol, tarRow) p
  if p = Player.USER then
    match game.compFleet[shipLoc]? with
    | none => none
    | some ship =>
      let game1 : Game := { game with
        playerTargeting := setSquareState game.playerTargeting tarCol tarRow SquareState.HIT
        compFleet := game.compFleet.set shipLoc ship.Damage }
      if ship.Damage.shipState = ShipState.SUNK then game1.SinkShip shipLoc p else some game1
  else
    match game.userFleet[shipLoc]? with
    | none => none
    | some ship =>
      let game1 : Game := { game with
        compTargeting := setSquareState game.compTargeting tarCol tarRow SquareState.HIT
        userShips := setSquareState game.userShips tarCol tarRow SquareState.HIT
        userFleet := game.userFleet.set shipLoc ship.Damage }
      if ship.Damage.shipState = ShipState.SUNK then game1.SinkShip shipLoc p else some game1

/-- The body of the loop of `Forfeit`: `fleet[i].setState(SUNK)`. -/
def forfeitStep (fleet : List Ship) (i : Nat) : List Ship :=
  match fleet[i]? with
  | some ship => fleet.set i { ship with shipState := ShipState.SUNK }
  | none => fleet

/-- `Game::Forfeit`: the loop `for(int i = 0; i < 5; i++)` sets the state of
the ship `i` of the fleet of `p` to SUNK. Both fleets hold five ships once
`ConstructFleets` has run; a position past the end of a shorter fleet is left
alone here. -/
def Game.Forfeit (game : Game) (p : Player) : Game :=
  if p = Player.USER then
    { game with userFleet := (List.range 5).foldl forfeitStep game.userFleet }
  else
    { game with compFleet := (List.range 5).foldl forfeitStep game.compFleet }

/-- `Game::CheckHit` for the target `(tarRow, tarCol) = (target.first,
target.second)` fired by `p`; `rnd` is what `rand()` returns if
`ShootDownMissile` is called. -/
def Game.CheckHit (game : Game) (target : Int × Int) (p : Player) (rnd : Nat) : Option Game :=
  let tarRow := target.1
  let tarCol := target.2
  if tarRow = 99 then some (game.Forfeit Player.USER)
  else if tarRow = 999 then some (game.Forfeit Player.COMP)
  else if p = Player.USER then
    let tmpSS := game.compShips tarCol tarRow
    if tmpSS = SquareState.SHIP ∨ tmpSS = SquareState.SHOT_DOWN then
      if game.gameType = Gametype.CRUISE_MISSILES ∨ game.gameType = Gametype.HARDCORE then
        if Game.ShootDownMissile rnd then
          some { game with
            playerTargeting :=
              setSquareState game.playerTargeting tarCol tarRow SquareState.SHOT_DOWN }
        else game.ShipHit tarCol tarRow p
      else game.ShipHit tarCol tarRow p
    else
      some { game with
        playerTargeting := setSquareState game.playerTargeting tarCol tarRow SquareState.MISS }
  else
    let tmpSS := game.userShips tarCol tarRow
    if tmpSS = SquareState.SHIP ∨ tmpSS = SquareState.SHOT_DOWN then
      if game.gameType = Gametype.CRUISE_MISSILES ∨ game.gameType = Gametype.HARDCORE then
        if Game.ShootDownMissile rnd then
          some { game with
            compTargeting :=
              setSquareState game.compTargeting tarCol tarRow SquareState.SHOT_DOWN
            userShips := setSquareState game.userShips tarCol tarRow SquareState.SHOT_DOWN }
        else game.ShipHit tarCol tarRow p
      else game.ShipHit tarCol tarRow p
    else
      some { game with
        compTargeting := setSquareState game.compTargeting tarCol tarRow SquareState.MISS
        userShips := setSquareState game.userShips tarCol tarRow SquareState.MISS }

/-! ## `Game`: turns, win check and manual placement

What the user types is an argument of the functions that read it: the lines
read by `PromptFire` and `PromptPlacement` are given after the conversion the
source applies to them (`FireInput`, `OriginInput`), the numbers read by
`DirectionMenu` as integers.  A function that waits for input when the given
input has run out returns `none`.  The value `rand()` returns during the `i`-th
`CheckHit` of a turn, if that call draws one, is `rnd i`. -/

/-- `Game::NumShipsAlive`: the number of AFLOAT ships among the five of the
fleet of `p`. -/
def Game.NumShipsAlive (game : Game) (p : Player) : Nat :=
  if p = Player.USER then
    (List.range 5).foldl
      (fun numShips i =>
        match game.userFleet[i]? with
        | some ship => if ship.shipState = ShipState.AFLOAT then numShips + 1 else numShips
        | none => numShips)
      0
  else
    (List.range 5).foldl
      (fun numShips i =>
        match game.compFleet[i]? with
        | some ship => if ship.shipState = ShipState.AFLOAT then numShips + 1 else numShips
        | none => numShips)
      0

/-- `Game::CheckWin`: the returned `win` and the game afterwards.  Both
branches assign `gameState = USERWON`. -/
def Game.CheckWin (game : Game) (p : Player) : Bool × Game :=
  if p = Player.USER then
    if game.IsFleetDestroyed Player.COMP then
      (true, { game with gameState := Gamestate.USERWON })
    else (false, game)
  else
    if game.IsFleetDestroyed Player.USER then
      (true, { game with gameState := Gamestate.USERWON })
    else (false, game)

/-- A line typed at the prompt of `PromptFire`: the secret option `~`, `ff`
or `FF`, the word that makes the computer forfeit, a line that is not a letter
followed by digits (or is longer than 3), or a letter and a number, given as
`inX` (the letter, `A` = 0) and `inY` (the number minus 1). -/
inductive FireInput where
  | secret
  | forfeit
  | cheat
  | malformed
  | coords (inX inY : Int)
  deriving DecidableEq

/-- `Game::PromptFire`: reads lines until one is valid and returns the target
with the lines left. -/
def Game.PromptFire (game : Game) : List FireInput → Option ((Int × Int) × List FireInput)
  | [] => none
  | FireInput.secret :: rest => game.PromptFire rest
  | FireInput.forfeit :: rest => some ((99, 99), rest)
  | FireInput.cheat :: rest => some ((999, 999), rest)
  | FireInput.malformed :: rest => game.PromptFire rest
  | FireInput.coords inX inY :: rest =>
    if inX > 9 ∨ inX < 0 ∨ inY > 9 ∨ inY < 0 then game.PromptFire rest
    else
      let tmpSS := game.playerTargeting inY inX
      if tmpSS ≠ SquareState.EMPTY then
        if tmpSS ≠ SquareState.SHOT_DOWN then game.PromptFire rest
        else some ((inX, inY), rest)
      else some ((inX, inY), rest)

/-- The first loop of the multi-fire branch of `PlayerTurn`:
`targetList.push_back(PromptFire())`, `numShips` times. -/
def Game.promptTargets (game : Game) :
    Nat → List FireInput → Option (List (Int × Int) × List FireInput)
  | 0, inputs => some ([], inputs)
  | n + 1, inputs =>
    match game.PromptFire inputs with
    | none => none
    | some (target, rest) =>
      match game.promptTargets n rest with
      | none => none
      | some (targetList, rest1) => some (target :: targetList, rest1)

/-- The second loop of the multi-fire branches of `PlayerTurn` and `CompTurn`:
`CheckHit(targetList[i], p)` for `i` from `first` on. -/
def Game.checkHits (game : Game) (p : Player) (rnd : Nat → Nat) :
    Nat → List (Int × Int) → Option Game
  | _, [] => some game
  | first, target :: rest =>
    match game.CheckHit target p (rnd first) with
    | none => none
    | some game1 => game1.checkHits p rnd (first + 1) rest

/-- The targets `PlayerTurn` collects before it resolves any: `numShips =
NumShipsAlive(USER)` targets in MULTIFIRE and HARDCORE, one otherwise. -/
def Game.playerTargets (game : Game) (inputs : List FireInput) :
    Option (List (Int × Int) × List FireInput) :=
  if game.gameType = Gametype.MULTIFIRE ∨ game.gameType = Gametype.HARDCORE then
    game.promptTargets (game.NumShipsAlive Player.USER) inputs
  else
    match game.PromptFire inputs with
    | none => none
    | some (target, rest) => some ([target], rest)

/-- `Game::PlayerTurn`: the collected targets are resolved by `CheckHit` in
the order they were entered. -/
def Game.PlayerTurn (game : Game) (inputs : List FireInput) (rnd : Nat → Nat) :
    Option (Game × List FireInput) :=
  match game.playerTargets inputs with
  | none => none
  | some (targetList, rest) =>
    match game.checkHits Player.USER rnd 0 targetList with
    | none => none
    | some game1 => some (game1, rest)

/-- The first loop of the multi-fire branch of `CompTurn`, `numShips` times:
`compTarget = arty.EvaluateGrid(*this, arty.SmallestShipAlive(*this))`, the
cell `compTargeting[compTarget.second][compTarget.first]` is set to MISS, and
the target is pushed onto `targetList`. -/
def Game.compTargets (game : Game) : Nat → Option (Game × List (Int × Int))
  | 0 => some (game, [])
  | n + 1 =>
    match AIOpponent.EvaluateGrid game (AIOpponent.SmallestShipAlive game) with
    | none => none
    | some compTarget =>
      match Game.compTargets
          { game with compTargeting :=
              setSquareState game.compTargeting compTarget.2 compTarget.1 SquareState.MISS } n with
      | none => none
      | some (game1, targetList) => some (game1, compTarget :: targetList)

/-- `Game::CompTurn`. -/
def Game.CompTurn (game : Game) (rnd : Nat → Nat) : Option Game :=
  if game.gameType = Gametype.MULTIFIRE ∨ game.gameType = Gametype.HARDCORE then
    match game.compTargets (game.NumShipsAlive Player.COMP) with
    | none => none
    | some (game1, targetList) => game1.checkHits Player.COMP rnd 0 targetList
  else
    match AIOpponent.EvaluateGrid game (AIOpponent.SmallestShipAlive game) with
    | none => none
    | some compTarget => game.CheckHit compTarget Player.COMP (rnd 0)

/-- A line typed at the prompt of `PromptPlacement`: a line that is not a
letter followed by digits (or is longer than 3), or a letter and a number,
given as `inX` (the letter, `A` = 0) and `inY` (the number minus 1). -/
inductive OriginInput where
  | malformed
  | coords (inX inY : Int)
  deriving DecidableEq

/-- `Game::DirectionMenu`: reads numbers until one is 1 .. 4 and the fit-check
of that direction holds, or is 5; returns the direction (99 for 5) with the
numbers left. -/
def Game.DirectionMenu (game : Game) (x y shipSize : Int) : List Int → Option (Int × List Int)
  | [] => none
  | input :: rest =>
    if input = 1 then
      if game.CheckRight x y shipSize then some (1, rest)
      else game.DirectionMenu x y shipSize rest
    else if input = 2 then
      if game.CheckDown x y shipSize then some (2, rest)
      else game.DirectionMenu x y shipSize rest
    else if input = 3 then
      if game.CheckLeft x y shipSize then some (3, rest)
      else game.DirectionMenu x y shipSize rest
    else if input = 4 then
      if game.CheckUp x y shipSize then some (4, rest)
      else game.DirectionMenu x y shipSize rest
    else if input = 5 then some (99, rest)
    else game.DirectionMenu x y shipSize rest

/-- The `switch(dir)` of `PromptPlacement`: the coordinates pushed onto
`shipVec` for the directions 1 .. 4, e.g. `for(int i = inY; i < inY +
shipSize; i++) shipVec.push_back(make_pair(i, inX))` for 1. -/
def placementCoords (inX inY shipSize dir : Int) : List (Int × Int) :=
  if dir = 1 then (List.range shipSize.toNat).map fun (k : Nat) => (inY + (k : Int), inX)
  else if dir = 2 then (List.range shipSize.toNat).map fun (k : Nat) => (inY, inX + (k : Int))
  else if dir = 3 then (List.range shipSize.toNat).map fun (k : Nat) => (inY - (k : Int), inX)
  else if dir = 4 then (List.range shipSize.toNat).map fun (k : Nat) => (inY, inX - (k : Int))
  else []

/-- The loop `while(!valid)` of `PromptPlacement` for a ship of size
`shipSize`: returns `shipVec` with the lines and numbers left. -/
def Game.promptOrigin (game : Game) (shipSize : Int) :
    List OriginInput → List Int → Option (List (Int × Int) × List OriginInput × List Int)
  | [], _ => none
  | OriginInput.malformed :: rest, dirs => game.promptOrigin shipSize rest dirs
  | OriginInput.coords inX inY :: rest, dirs =>
    if inX > 9 ∨ inX < 0 ∨ inY > 9 ∨ inY < 0 then game.promptOrigin shipSize rest dirs
    else if game.userShips inY inX ≠ SquareState.EMPTY then game.promptOrigin shipSize rest dirs
    else
      match game.DirectionMenu inY inX shipSize dirs with
      | none => none
      | some (dir, dirs1) =>
        if dir = 99 then game.promptOrigin shipSize rest dirs1
        else some (placementCoords inX inY shipSize dir, rest, dirs1)

/-- `Game::PromptPlacement`: after the loop, `PlaceShip(shipVec, USER)` and
`userFleet[shipLoc].setCoords(shipVec)`. -/
def Game.PromptPlacement (game : Game) (shipLoc : Nat) (origins : List OriginInput)
    (dirs : List Int) : Option (Game × List OriginInput × List Int) :=
  match game.userFleet[shipLoc]? with
  | none => none
  | some ship =>
    match game.promptOrigin ship.shipSize origins dirs with
    | none => none
    | some (shipVec, origins1, dirs1) =>
      some ({ game.PlaceShip shipVec Player.USER with
              userFleet := game.userFleet.set shipLoc { ship with shipCoords := shipVec } },
            origins1, dirs1)

/-- The loop of `ManualPlacement` over the ship indices. -/
def Game.promptPlacements (game : Game) :
    List Nat → List OriginInput → List Int → Option (Game × List OriginInput × List Int)
  | [], origins, dirs => some (game, origins, dirs)
  | shipLoc :: others, origins, dirs =>
    match game.PromptPlacement shipLoc origins dirs with
    | none => none
    | some (game1, origins1, dirs1) => game1.promptPlacements others origins1 dirs1

/-- `Game::ManualPlacement`: `PromptPlacement(i)` for `i` from 0 to 4. -/
def Game.ManualPlacement (game : Game) (origins : List OriginInput) (dirs : List Int) :
    Option (Game × List OriginInput × List Int) :=
  game.promptPlacements (List.range 5) origins dirs

/-! ## `Game`: random placement

The values `rand()` returns are an argument, a list that is consumed from the
front; a function that calls `rand()` when the list is empty returns `none`. -/

/-- A loop `do{ rng = rand() % 3 + 1; }while(again(rng));` of
`getRandomDirection`: the value kept, with the draws left. -/
def drawDirection (again : Int → Bool) : List Nat → Option (Int × List Nat)
  | [] => none
  | r :: rest =>
    if again (((r % 3 + 1 : Nat) : Int)) then drawDirection again rest
    else some ((((r % 3 + 1 : Nat) : Int)), rest)

/-- `Game::getRandomDirection`: 1 = right, 2 = down, 3 = left, 4 = up. -/
def Game.getRandomDirection (x y s : Int) (draws : List Nat) : Option (Int × List Nat) :=
  if x < s - 1 then
    if y < s - 1 then drawDirection (fun rng => decide (rng = 3 ∨ rng = 4)) draws
    else if y > 10 - s then drawDirection (fun rng => decide (rng = 2 ∨ rng = 3)) draws
    else drawDirection (fun rng => decide (rng = 3)) draws
  else if x > 10 - s then
    if y < s - 1 then drawDirection (fun rng => decide (rng = 1 ∨ rng = 4)) draws
    else if y > 10 - s then drawDirection (fun rng => decide (rng = 1 ∨ rng = 2)) draws
    else drawDirection (fun rng => decide (rng = 1)) draws
  else if y < s - 1 then drawDirection (fun rng => decide (rng = 4)) draws
  else if y > 10 - s then drawDirection (fun rng => decide (rng = 2)) draws
  else
    match draws with
    | [] => none
    | r :: rest => some ((((r % 3 + 1 : Nat) : Int)), rest)

/-- The coordinates the loops of the `switch` of `RandomPlace` run through:
case 1, `(i, y)` for `i` from `x` up to `x + shipSize - 1`; case 2, `(x, i)`
for `i` from `y` up; case 3, `(i, y)` for `i` from `x` down; case 4, `(x, i)`
for `i` from `y` down. No loop runs for another value. -/
def randomCoords (x y shipSize dir : Int) : List (Int × Int) :=
  if dir = 1 then (List.range shipSize.toNat).map fun (k : Nat) => (x + (k : Int), y)
  else if dir = 2 then (List.range shipSize.toNat).map fun (k : Nat) => (x, y + (k : Int))
  else if dir = 3 then (List.range shipSize.toNat).map fun (k : Nat) => (x - (k : Int), y)
  else if dir = 4 then (List.range shipSize.toNat).map fun (k : Nat) => (x, y - (k : Int))
  else []

/-- A loop of the `switch` in the USER branch of `RandomPlace`: each
coordinate is pushed onto `shipVec`, and the loop is left with `isEmpty =
false` at the first one that is not EMPTY. Returns `shipVec` and `isEmpty`. -/
def scanUser (grid : Grid) : List (Int × Int) → List (Int × Int) × Bool
  | [] => ([], true)
  | c :: rest =>
    if grid c.1 c.2 ≠ SquareState.EMPTY then ([c], false)
    else (c :: (scanUser grid rest).1, (scanUser grid rest).2)

/-- A loop of the `switch` in the COMP branch of `RandomPlace`: every
coordinate is pushed onto `shipVec`, and `isEmpty` is cleared at each one that
is not EMPTY. Returns `shipVec` and `isEmpty`. -/
def scanComp (grid : Grid) (cells : List (Int × Int)) : List (Int × Int) × Bool :=
  (cells, cells.all fun c => decide (grid c.1 c.2 = SquareState.EMPTY))

/-- The loop `while(!placed)` of `RandomPlace`, for at most `fuel` iterations.
An iteration draws `x` and `y`; when the cell is EMPTY on the ship grid of `p`
it draws a direction, scans the run and either places the ship or clears
`shipVec` and goes round again.  In the USER branch the `switch` has
`default: isEmpty = false`, in the COMP branch `case 0: isEmpty = false`. -/
def Game.randomPlaceLoop (game : Game) (shipLoc : Nat) (p : Player) :
    Nat → List Nat → Option (Game × List Nat)
  | 0, _ => none
  | _ + 1, [] => none
  | _ + 1, [_] => none
  | fuel + 1, rx :: ry :: draws =>
    if p = Player.USER then
      match game.userFleet[shipLoc]? with
      | none => none
      | some ship =>
        if game.userShips ((rx % 10 : Nat) : Int) ((ry % 10 : Nat) : Int) = SquareState.EMPTY then
          match Game.getRandomDirection ((rx % 10 : Nat) : Int) ((ry % 10 : Nat) : Int)
              ship.shipSize draws with
          | none => none
          | some (dir, draws1) =>
            let scan : List (Int × Int) × Bool :=
              if dir = 1 ∨ dir = 2 ∨ dir = 3 ∨ dir = 4 then
                scanUser game.userShips
                  (randomCoords ((rx % 10 : Nat) : Int) ((ry % 10 : Nat) : Int) ship.shipSize dir)
              else ([], false)
            if scan.2 = true then
              some (Game.PlaceShip
                { game with
                  userFleet := game.userFleet.set shipLoc { ship with shipCoords := scan.1 } }
                scan.1 p, draws1)
            else game.randomPlaceLoop shipLoc p fuel draws1
        else game.randomPlaceLoop shipLoc p fuel draws
    else
      match game.compFleet[shipLoc]? with
      | none => none
      | some ship =>
        if game.compShips ((rx % 10 : Nat) : Int) ((ry % 10 : Nat) : Int) = SquareState.EMPTY then
          match Game.getRandomDirection ((rx % 10 : Nat) : Int) ((ry % 10 : Nat) : Int)
              ship.shipSize draws with
          | none => none
          | some (dir, draws1) =>
            let scan : List (Int × Int) × Bool :=
              if dir = 0 then ([], false)
              else scanComp game.compShips
                (randomCoords ((rx % 10 : Nat) : Int) ((ry % 10 : Nat) : Int) ship.shipSize dir)
            if scan.2 = true then
              some (Game.PlaceShip
                { game with
                  compFleet := game.compFleet.set shipLoc { ship with shipCoords := scan.1 } }
                scan.1 p, draws1)
            else game.randomPlaceLoop shipLoc p fuel draws1
        else game.randomPlaceLoop shipLoc p fuel draws

/-- `Game::RandomPlace`. Every iteration of the loop takes at least two
draws, so `draws.length` iterations are never used up before the draws are:
`none` means that the draws ran out before the ship was placed. -/
def Game.RandomPlace (game : Game) (shipLoc : Nat) (p : Player) (draws : List Nat) :
    Option (Game × List Nat) :=
  game.randomPlaceLoop shipLoc p draws.length draws

/-- The loop of `RandomPlacement` over the ship indices. -/
def Game.randomPlaces (game : Game) (p : Player) :
    List Nat → List Nat → Option (Game × List Nat)
  | [], draws => some (game, draws)
  | shipLoc :: others, draws =>
    match game.RandomPlace shipLoc p draws with
    | none => none
    | some (game1, draws1) => game1.randomPlaces p others draws1

/-- `Game::RandomPlacement`: `RandomPlace(i, p)` for `i` from 0 to 4. -/
def Game.RandomPlacement (game : Game) (p : Player) (draws : List Nat) :
    Option (Game × List Nat) :=
  game.randomPlaces p (List.range 5) draws

/-! ## `Game`: the lines typed at the prompt of `PromptFire`

`PromptFire` as it reads the characters of a line.  The library calls are
modelled for the characters of ASCII, as in the "C" locale. -/

/-- `isdigit` of `<cctype>`. -/
def isdigit (c : Char) : Bool := decide (48 ≤ c.toNat ∧ c.toNat ≤ 57)

/-- `isupper` of `<cctype>`. -/
def isupper (c : Char) : Bool := decide (65 ≤ c.toNat ∧ c.toNat ≤ 90)

/-- `isalpha` of `<cctype>`. -/
def isalpha (c : Char) : Bool :=
  decide ((65 ≤ c.toNat ∧ c.toNat ≤ 90) ∨ (97 ≤ c.toNat ∧ c.toNat ≤ 122))

/-- `std::stoi` on a string that starts with decimal digits or is empty, as
`PromptFire` calls it (the characters passed have been tested with `isdigit`):
the value of the leading digits, and `none` when there is no digit to convert,
where `std::stoi` throws `std::invalid_argument`. -/
def stoi (str : List Char) : Option Int :=
  match str.takeWhile isdigit with
  | [] => none
  | d :: ds => some ((d :: ds).foldl (fun v c => 10 * v + ((c.toNat : Int) - 48)) 0)

/-- What one pass of the loop `while(!valid)` of `PromptFire` does with the
line read: `valid` is set and `target` assigned, or the loop goes round again
(after the secret display or an "Invalid entry" message), or an exception
leaves `stoi`; nothing in the program catches it. -/
inductive LineOutcome where
  | valid (target : Int × Int)
  | again
  | thrown
  deriving DecidableEq

/-- The body of the loop `while(!valid)` of `PromptFire` for the line `input`.
`input[0]` of an empty `std::string` is the character 0. -/
def Game.fireLine (game : Game) (input : String) : LineOutcome :=
  if input = "~" then LineOutcome.again
  else if input = "ff" ∨ input = "FF" then LineOutcome.valid (99, 99)
  else if input = "YOUSUNKMYBATTLESHIP" then LineOutcome.valid (999, 999)
  else if input.data.length > 3 then LineOutcome.again
  else
    let isNum : Bool := (input.data.drop 1).all isdigit
    if (!isalpha (input.data.headD (Char.ofNat 0)) || !isNum) = true then LineOutcome.again
    else
      let inX : Int :=
        if (!isupper (input.data.headD (Char.ofNat 0))) = true then
          ((input.data.headD (Char.ofNat 0)).toNat : Int) - 97
        else ((input.data.headD (Char.ofNat 0)).toNat : Int) - 65
      match stoi (input.data.drop 1) with
      | none => LineOutcome.thrown
      | some v =>
        let inY : Int := v - 1
        if inX > 9 ∨ inX < 0 ∨ inY > 9 ∨ inY < 0 then LineOutcome.again
        else
          let tmpSS := game.playerTargeting inY inX
          if tmpSS ≠ SquareState.EMPTY then
            if tmpSS ≠ SquareState.SHOT_DOWN then LineOutcome.again
            else LineOutcome.valid (inX, inY)
          else LineOutcome.valid (inX, inY)

/-- How a call of `PromptFire` ends: it returns `target` (with the lines not
read), it waits for a line that is not there, or it is left by an exception. -/
inductive FireOutcome where
  | returned (target : Int × Int) (rest : List String)
  | waiting
  | thrown
  deriving DecidableEq

/-- `Game::PromptFire` on the lines typed. -/
def Game.PromptFireLines (game : Game) : List String → FireOutcome
  | [] => FireOutcome.waiting
  | input :: rest =>
    match game.fireLine input with
    | LineOutcome.valid target => FireOutcome.returned target rest
    | LineOutcome.again => game.PromptFireLines rest
    | LineOutcome.thrown => FireOutcome.thrown

/-! ## Concrete inputs -/

/-- A game whose computer targeting grid is `g` (the other members are not
read by the targeting functions). -/
def gameOfTargeting (g : Grid) : Game :=
  { gameState := Gamestate.PLAYING, gameType := Gametype.CLASSIC,
    userShips := fun _ _ => SquareState.EMPTY,
    playerTargeting := fun _ _ => SquareState.EMPTY,
    compShips := fun _ _ => SquareState.EMPTY,
    compTargeting := g, userFleet := [], compFleet := [] }

/-- The targeting grid at the start of a game: every cell EMPTY. -/
def allEmpty : Game := gameOfTargeting fun _ _ => SquareState.EMPTY

/-- A targeting grid with one EMPTY cell, `(0, 0)`, and every other cell MISS. -/
def lonelyCell : Game :=
  gameOfTargeting fun x y => if x = 0 ∧ y = 0 then SquareState.EMPTY else SquareState.MISS

/-- A targeting grid with no cell left to shoot at: every cell MISS. -/
def allMiss : Game := gameOfTargeting fun _ _ => SquareState.MISS

/-- A targeting grid with a SHOT_DOWN cell at `(3, 7)`, a HIT cell at `(5, 5)`
and every other cell EMPTY. -/
def shotDownAt37 : Game :=
  gameOfTargeting fun x y =>
    if x = 3 ∧ y = 7 then SquareState.SHOT_DOWN
    else if x = 5 ∧ y = 5 then SquareState.HIT
    else SquareState.EMPTY

/-- A game with the given user fleet (nothing else is read by `SmallestShipAlive`). -/
def gameOfFleet (fleet : List Ship) : Game :=
  { gameState := Gamestate.PLAYING, gameType := Gametype.CLASSIC,
    userShips := fun _ _ => SquareState.EMPTY,
    playerTargeting := fun _ _ => SquareState.EMPTY,
    compShips := fun _ _ => SquareState.EMPTY,
    compTargeting := fun _ _ => SquareState.EMPTY, userFleet := fleet, compFleet := [] }

/-- The fleet `ConstructFleets` builds, with the DESTROYER sunk. -/
def fleetDestroyerSunk : List Ship :=
  [Ship.construct 5 "CARRIER", Ship.construct 4 "BATTLESHIP", Ship.construct 3 "CRUISER",
   Ship.construct 3 "SUBMARINE",
   { Ship.construct 2 "DESTROYER" with shipState := ShipState.SUNK, health := 0 }]

/-! ## The grid documented in the source -/

/-- The row `8 15 20 23 24 24 23 20 15 8` of the grid documented above
`DisplayProbabilityGrid`, halved: the documented grid is `docLine x + docLine y`. -/
def docLine (c : Int) : Int := [4, 11, 16, 19, 20, 20, 19, 16, 11, 4].getD c.toNat 0

/-- The example grid in the comment above `DisplayProbabilityGrid`, rows A to J. -/
def documentedGrid : List (List Int) :=
  [[8, 15, 20, 23, 24, 24, 23, 20, 15, 8],
   [15, 22, 27, 30, 31, 31, 30, 27, 22, 15],
   [20, 27, 32, 35, 36, 36, 35, 32, 27, 20],
   [23, 30, 35, 38, 39, 39, 38, 35, 30, 23],
   [24, 31, 36, 39, 40, 40, 39, 36, 31, 24],
   [24, 31, 36, 39, 40, 40, 39, 36, 31, 24],
   [23, 30, 35, 38, 39, 39, 38, 35, 30, 23],
   [20, 27, 32, 35, 36, 36, 35, 32, 27, 20],
   [15, 22, 27, 30, 31, 31, 30, 27, 22, 15],
   [8, 15, 20, 23, 24, 24, 23, 20, 15, 8]]

/-- The entry the documented grid shows for `grid[col][row]`:
`DisplayProbabilityGrid` prints `grid[col][row]` in the line of `row`. -/
def documentedAt (col row : Int) : Int :=
  (documentedGrid.getD row.toNat []).getD col.toNat 0

/-! ## Derived notions used in the proofs -/

/-- The pair `(a, b)` indexes a cell of the 10 by 10 board. -/
def onBoard (a b : Int) : Prop := (0 ≤ a ∧ a ≤ 9) ∧ (0 ≤ b ∧ b ≤ 9)

instance (a b : Int) : Decidable (onBoard a b) := by
  unfold onBoard; infer_instance

/-- A map transformer that only adds to the cells: its effect on any map is
its effect on the zero map, added cell by cell. -/
def Additive (f : Weights → Weights) : Prop :=
  ∀ t a b, f t a b = t a b + f zeroWeights a b

/-- What the body of the length loop adds to the cell `(a, b)` when it runs
for the cell `(x, y)` and the length `i`: one for each direction whose run fits
and covers `(a, b)` with one of its first `i - 1` cells. -/
def lengthGain (game : Game) (x y i a b : Int) : Int :=
  (if AIOpponent.EvalUp game x y i = true ∧ a = x ∧ 0 ≤ y - b ∧ y - b < i - 1 then 1 else 0)
  + (if AIOpponent.EvalDown game x y i = true ∧ a = x ∧ 0 ≤ b - y ∧ b - y < i - 1 then 1 else 0)
  + (if AIOpponent.EvalLeft game x y i = true ∧ b = y ∧ 0 ≤ x - a ∧ x - a < i - 1 then 1 else 0)
  + (if AIOpponent.EvalRight game x y i = true ∧ b = y ∧ 0 ≤ a - x ∧ a - x < i - 1 then 1 else 0)

/-- What the HIT branch adds to the cell `(a, b)` when it runs for the cell
`(x, y)`: per direction, 100 one step away and 50 two steps away when a run of
length 3 fits, else 100 one step away when a run of length 2 fits. -/
def hitGain (game : Game) (x y a b : Int) : Int :=
  (if AIOpponent.EvalUp game x y 3 = true then
      (if a = x ∧ b = y - 1 then 100 else 0) + (if a = x ∧ b = y - 2 then 50 else 0)
    else if AIOpponent.EvalUp game x y 2 = true then (if a = x ∧ b = y - 1 then 100 else 0)
    else 0)
  + (if AIOpponent.EvalDown game x y 3 = true then
      (if a = x ∧ b = y + 1 then 100 else 0) + (if a = x ∧ b = y + 2 then 50 else 0)
    else if AIOpponent.EvalDown game x y 2 = true then (if a = x ∧ b = y + 1 then 100 else 0)
    else 0)
  + (if AIOpponent.EvalLeft game x y 3 = true then
      (if a = x - 1 ∧ b = y then 100 else 0) + (if a = x - 2 ∧ b = y then 50 else 0)
    else if AIOpponent.EvalLeft game x y 2 = true then (if a = x - 1 ∧ b = y then 100 else 0)
    else 0)
  + (if AIOpponent.EvalRight game x y 3 = true then
      (if a = x + 1 ∧ b = y then 100 else 0) + (if a = x + 2 ∧ b = y then 50 else 0)
    else if AIOpponent.EvalRight game x y 2 = true then (if a = x + 1 ∧ b = y then 100 else 0)
    else 0)

/-- The cells of the board in the order both pairs of loops visit them: the
first index in the outer loop, the second in the inner loop. -/
def scanOrder : List (Int × Int) :=
  idx10.flatMap fun x => idx10.map fun y => (x, y)

/-- The cell `p` is visited strictly before the cell `q`. -/
def scanBefore (p q : Int × Int) : Prop :=
  p.1 < q.1 ∨ (p.1 = q.1 ∧ p.2 < q.2)

instance (p q : Int × Int) : Decidable (scanBefore p q) := by
  unfold scanBefore; infer_instance

/-- The test `tmpSS == HIT || tmpSS == MISS || tmpSS == SINK` of the selection
loop for the cell `(a, b)`. -/
def zeroed (game : Game) (a b : Int) : Prop :=
  game.compTargeting a b = SquareState.HIT ∨ game.compTargeting a b = SquareState.MISS
    ∨ game.compTargeting a b = SquareState.SINK

instance (game : Game) (a b : Int) : Decidable (zeroed game a b) := by
  unfold zeroed; infer_instance

/-- The map `tmp0` with the cells in state HIT, MISS or SINK set to zero. -/
def settled (game : Game) (tmp0 : Weights) : Weights :=
  fun a b => if zeroed game a b then 0 else tmp0 a b

/-- The state of the selection loops after the cells of `l`, started on the
map `tmp0`: the cells of `l` are settled, `high` bounds them, and `highX`,
`highY` are either still unset (with `high = 0`) or name the first cell of `l`
whose settled weight is `high`. -/
def SelInv (game : Game) (tmp0 : Weights) (l : List (Int × Int))
    (st : AIOpponent.Selection) : Prop :=
  (∀ a b, st.tmp a b = if (a, b) ∈ l then settled game tmp0 a b else tmp0 a b) ∧
  0 ≤ st.high ∧
  (∀ p ∈ l, settled game tmp0 p.1 p.2 ≤ st.high) ∧
  ((st.high = 0 ∧ st.highX = none ∧ st.highY = none) ∨
    (0 < st.high ∧ ∃ l1 l2 x y, l = l1 ++ (x, y) :: l2 ∧
      st.highX = some x ∧ st.highY = some y ∧ settled game tmp0 x y = st.high ∧
      ∀ q ∈ l1, settled game tmp0 q.1 q.2 < st.high))

/-- A bound on what the fit-count loops of a cell add to another cell of the
same row or column, `d` being the signed distance from the second to the
first along that line. -/
def fitV (d : Int) : Int :=
  (if 0 ≤ d ∧ d ≤ 3 then 4 - d else 0) + (if -3 ≤ d ∧ d ≤ 0 then 4 + d else 0)

/-- A bound on what the HIT branch of a cell adds to another cell of the same
row or column at signed distance `d`. -/
def hitV (d : Int) : Int :=
  (if d = 1 ∨ d = -1 then 100 else 0) + (if d = 2 ∨ d = -2 then 50 else 0)

/-- A bound on what the loop body of a cell that is not SHOT_DOWN adds along a line. -/
def capV (d : Int) : Int := fitV d + hitV d

/-- A bound on what the loop body of the cell `(x, y)` adds to the cell `(a, b)`. -/
def capCell (x y a b : Int) : Int :=
  (if a = x then capV (y - b) else 0) + (if b = y then capV (x - a) else 0)

/-- On the all-EMPTY board: what the loop body of a cell at position `z` of a
line (a column or a row) adds, over the lengths `s .. 5`, to the cell at
position `c` of the same line.  The first summand is the run towards the
smaller indices (Up or Left), the second the run towards the larger ones. -/
def lineGain (s z c : Int) : Int :=
  ((List.range (5 - s + 1).toNat).map fun (k : Nat) =>
    (if 0 ≤ z - (s + (k : Int) - 1) ∧ 0 ≤ z - c ∧ z - c < s + (k : Int) - 1 then (1 : Int) else 0)
    + (if z + (s + (k : Int) - 1) ≤ 9 ∧ 0 ≤ c - z ∧ c - z < s + (k : Int) - 1 then 1 else 0)).sum

/-- On the all-EMPTY board: what a cell at position `c` of a line receives
from the ten cells of that line. -/
def lineWeight (s c : Int) : Int := (idx10.map fun z => lineGain s z c).sum

/-- The sum of a weight map over the 100 cells of the board. -/
def boardSum (t : Weights) : Int :=
  (idx10.map fun a => (idx10.map fun b => t a b).sum).sum

/-! ## Derived notions for the fit-checks and the hit resolver -/

/-- The four directions of a run. -/
inductive Direction where
  | up | down | left | right
  deriving DecidableEq

/-- The step of a direction along the first grid index. -/
def Direction.dx : Direction → Int
  | Direction.left => -1
  | Direction.right => 1
  | _ => 0

/-- The step of a direction along the second grid index. -/
def Direction.dy : Direction → Int
  | Direction.up => -1
  | Direction.down => 1
  | _ => 0

/-- The disqualification policy of placement: any cell that is not EMPTY. -/
def occupied (st : SquareState) : Bool := decide (st ≠ SquareState.EMPTY)

/-- The disqualification policy of targeting: a MISS or SINK cell. -/
def missOrSunk (st : SquareState) : Bool :=
  decide (st = SquareState.MISS) || decide (st = SquareState.SINK)

/-- The contract `fits(boardGrid, x, y, length, direction)` in the words of the
specification: the `length` contiguous cells starting at `(x, y)` and extending
in `direction` stay within the 10 by 10 bounds, and every cell strictly between
the two endpoints (the cells `1 .. length - 2` of the run) is free of a
disqualifying state. -/
def fitsSpec (boardGrid : Grid) (disqualifying : SquareState → Bool) (x y length : Int)
    (direction : Direction) : Bool :=
  ((List.range length.toNat).all fun (n : Nat) =>
    decide (onBoard (x + direction.dx * (n : Int)) (y + direction.dy * (n : Int))))
  && ((List.range (length - 2).toNat).all fun (k : Nat) =>
    !disqualifying (boardGrid (x + direction.dx * ((k : Int) + 1))
      (y + direction.dy * ((k : Int) + 1))))

/-- The placement fit-check of a direction: `CheckUp`, `CheckDown`, `CheckLeft`
or `CheckRight`. -/
def Game.Check (game : Game) (d : Direction) (x y s : Int) : Bool :=
  match d with
  | Direction.up => game.CheckUp x y s
  | Direction.down => game.CheckDown x y s
  | Direction.left => game.CheckLeft x y s
  | Direction.right => game.CheckRight x y s

/-- The targeting fit-check of a direction: `EvalUp`, `EvalDown`, `EvalLeft` or
`EvalRight`. -/
def AIOpponent.Eval (game : Game) (d : Direction) (x y s : Int) : Bool :=
  match d with
  | Direction.up => AIOpponent.EvalUp game x y s
  | Direction.down => AIOpponent.EvalDown game x y s
  | Direction.left => AIOpponent.EvalLeft game x y s
  | Direction.right => AIOpponent.EvalRight game x y s

/-- The side `p` fires at. -/
def Player.opponent : Player → Player
  | Player.USER => Player.COMP
  | Player.COMP => Player.USER

/-- The fleet of a side. -/
def Game.fleetOf (game : Game) (side : Player) : List Ship :=
  if side = Player.USER then game.userFleet else game.compFleet

/-- The targeting grid of a side: where its own shots are recorded. -/
def Game.targetingOf (game : Game) (side : Player) : Grid :=
  if side = Player.USER then game.playerTargeting else game.compTargeting

/-- The own-ship grid of a side. -/
def Game.shipsOf (game : Game) (side : Player) : Grid :=
  if side = Player.USER then game.userShips else game.compShips

/-- The coordinates of the ship at index `i` of a fleet (none past the end). -/
def coordsAt (fleet : List Ship) (i : Nat) : List (Int × Int) :=
  match fleet[i]? with
  | some ship => ship.shipCoords
  | none => []

/-- The conditions under which `CheckHit` calls `ShipHit`: the target is not
a forfeit sentinel, the cell is SHIP or SHOT_DOWN on the defender's ship grid,
and the shot is not intercepted (the game type has no interception, or
`ShootDownMissile` returns false). -/
def Game.hitApplies (game : Game) (target : Int × Int) (p : Player) (rnd : Nat) : Prop :=
  target.1 ≠ 99 ∧ target.1 ≠ 999 ∧
  (game.shipsOf p.opponent target.2 target.1 = SquareState.SHIP ∨
    game.shipsOf p.opponent target.2 target.1 = SquareState.SHOT_DOWN) ∧
  ¬ ((game.gameType = Gametype.CRUISE_MISSILES ∨ game.gameType = Gametype.HARDCORE) ∧
    Game.ShootDownMissile rnd = true)

instance (game : Game) (target : Int × Int) (p : Player) (rnd : Nat) :
    Decidable (game.hitApplies target p rnd) := by
  unfold Game.hitApplies; infer_instance

/-- The conditions under which `CheckHit` treats a shot as intercepted. -/
def Game.intercepted (game : Game) (target : Int × Int) (p : Player) (rnd : Nat) : Prop :=
  target.1 ≠ 99 ∧ target.1 ≠ 999 ∧
  (game.shipsOf p.opponent target.2 target.1 = SquareState.SHIP ∨
    game.shipsOf p.opponent target.2 target.1 = SquareState.SHOT_DOWN) ∧
  (game.gameType = Gametype.CRUISE_MISSILES ∨ game.gameType = Gametype.HARDCORE) ∧
  Game.ShootDownMissile rnd = true

instance (game : Game) (target : Int × Int) (p : Player) (rnd : Nat) :
    Decidable (game.intercepted target p rnd) := by
  unfold Game.intercepted; infer_instance

/-- A grid with every coordinate of `coords` set to `v`, in the order of the list. -/
def setAll (coords : List (Int × Int)) (v : SquareState) (grid : Grid) : Grid :=
  coords.foldl (fun g i => setSquareState g i.1 i.2 v) grid

/-- What `CheckHit` does on the branches that mark one cell without calling
`ShipHit`: the user's shot is recorded on `playerTargeting`; the computer's
shot is recorded on `compTargeting` and on `userShips`. -/
def Game.markShot (game : Game) (tarCol tarRow : Int) (p : Player) (v : SquareState) : Game :=
  if p = Player.USER then
    { game with playerTargeting := setSquareState game.playerTargeting tarCol tarRow v }
  else
    { game with
      compTargeting := setSquareState game.compTargeting tarCol tarRow v
      userShips := setSquareState game.userShips tarCol tarRow v }

/-- One call of `CheckHit`: the target pair, the firing side and the value
that `rand()` would return. -/
structure Shot where
  target : Int × Int
  p : Player
  rnd : Nat

/-- The shots resolved by `CheckHit` one after the other. -/
def Game.resolveShots : Game → List Shot → Option Game
  | game, [] => some game
  | game, shot :: rest =>
    match game.CheckHit shot.target shot.p shot.rnd with
    | none => none
    | some game1 => game1.resolveShots rest

/-- The number of shots of a sequence at which `CheckHit` calls `ShipHit`
against the ship at index `j` of the fleet of `side`. -/
def Game.hitsRegistered : Game → Player → Nat → List Shot → Nat
  | _, _, _, [] => 0
  | game, side, j, shot :: rest =>
    (if shot.p.opponent = side ∧ game.hitApplies shot.target shot.p shot.rnd ∧
        game.GetShip (shot.target.2, shot.target.1) shot.p = j then 1 else 0) +
    match game.CheckHit shot.target shot.p shot.rnd with
    | none => 0
    | some game1 => game1.hitsRegistered side j rest

/-- The first component of the target pair that `CheckHit` reads as the
forfeit of a side: 99 for the user, 999 for the computer. -/
def forfeitSentinel : Player → Int
  | Player.USER => 99
  | Player.COMP => 999

/-! ## Derived notions for turns and placement -/

/-- The shots the second loop of a multi-fire turn resolves: the target list
of `p` with the draws `rnd first`, `rnd (first + 1)`, ... -/
def shotsOf (p : Player) (rnd : Nat → Nat) : Nat → List (Int × Int) → List Shot
  | _, [] => []
  | first, target :: rest => ⟨target, p, rnd first⟩ :: shotsOf p rnd (first + 1) rest

/-- The cell a shot is aimed at: `(tarCol, tarRow)`. -/
def Shot.cell (shot : Shot) : Int × Int := (shot.target.2, shot.target.1)

/-- The coordinates of all ships of a fleet. -/
def fleetCells (fleet : List Ship) : List (Int × Int) := fleet.flatMap Ship.shipCoords

/-- The contract `shotsPerTurn(variant, vesselsAfloat)`, written from the
specification: 1 for the two variants without multi-fire, else
`vesselsAfloat`. -/
def shotsPerTurn (variant : Gametype) (vesselsAfloat : Nat) : Nat :=
  if variant = Gametype.CLASSIC ∨ variant = Gametype.CRUISE_MISSILES then 1 else vesselsAfloat

/-- A fleet as placement leaves it, and the ship grid of its side showing it:
five ships, each AFLOAT with its health the number of its coordinates and at
least 1; no coordinate occurs twice, within a ship or in two ships; every
coordinate is SHIP on the grid, and no other cell of the board is SHIP or
SHOT_DOWN. -/
def Game.freshFleet (game : Game) (side : Player) : Prop :=
  (game.fleetOf side).length = 5 ∧
  (∀ ship ∈ game.fleetOf side, ship.shipState = ShipState.AFLOAT ∧
    ship.health = (ship.shipCoords.length : Int) ∧ 0 < ship.health) ∧
  (fleetCells (game.fleetOf side)).Nodup ∧
  (∀ c ∈ fleetCells (game.fleetOf side), game.shipsOf side c.1 c.2 = SquareState.SHIP) ∧
  (∀ c ∈ scanOrder, c ∉ fleetCells (game.fleetOf side) →
    game.shipsOf side c.1 c.2 ≠ SquareState.SHIP ∧
    game.shipsOf side c.1 c.2 ≠ SquareState.SHOT_DOWN)

instance (game : Game) (side : Player) : Decidable (game.freshFleet side) := by
  unfold Game.freshFleet; infer_instance

/-- The state of the fleet of `side` and of its ship grid after shots at the
cells `fired`, in a game without interception: the ships keep the coordinates
`coords`, the health of a ship is the number of its coordinates not fired at,
a ship is SUNK exactly when its health is 0, the coordinates not fired at are
SHIP on the grid and no other cell of the board is SHIP or SHOT_DOWN. -/
def Game.shotInv (game : Game) (side : Player) (coords : List (List (Int × Int)))
    (fired : List (Int × Int)) : Prop :=
  (game.gameType = Gametype.CLASSIC ∨ game.gameType = Gametype.MULTIFIRE) ∧
  (game.fleetOf side).length = 5 ∧
  (game.fleetOf side).map Ship.shipCoords = coords ∧
  coords.flatten.Nodup ∧
  (∀ ship ∈ game.fleetOf side,
    ship.health = ((ship.shipCoords.filter fun c => decide (c ∉ fired)).length : Int) ∧
    (ship.shipState = ShipState.SUNK ↔ ship.health = 0)) ∧
  (∀ c ∈ coords.flatten, c ∉ fired → game.shipsOf side c.1 c.2 = SquareState.SHIP) ∧
  (∀ a b, onBoard a b → (a, b) ∉ coords.flatten →
    game.shipsOf side a b ≠ SquareState.SHIP ∧ game.shipsOf side a b ≠ SquareState.SHOT_DOWN)

/-- The turns of the user one after the other, `n` of them, each with the
draw 0 at every shot: the lines the first turn leaves are those the next
turn reads. -/
def Game.playerTurns : Nat → Game → List FireInput → Option (Game × List FireInput)
  | 0, game, inputs => some (game, inputs)
  | n + 1, game, inputs =>
    match game.PlayerTurn inputs (fun _ => 0) with
    | none => none
    | some (game1, rest) => Game.playerTurns n game1 rest

/-! ## Derived notions for the heuristic near a HIT cell, placement and play -/

/-- The cell `(a, b)` lies in the column or the row of the cell `(x, y)`, at
distance `d` from it. -/
def inLineAt (x y a b d : Int) : Prop :=
  (a = x ∧ (b = y + d ∨ b = y - d)) ∨ (b = y ∧ (a = x + d ∨ a = x - d))

instance (x y a b d : Int) : Decidable (inLineAt x y a b d) := by
  unfold inLineAt; infer_instance

/-- The game before the ships are placed: `Game(gt)` followed by
`ConstructFleets()`. -/
def freshGame (gt : Gametype) : Game := (Game.construct gt).ConstructFleets

/-- The state `RandomPlace` leaves when it places the ship `ship` of the
fleet of `p` on the cells `coords`. -/
def Game.placedAs (game game1 : Game) (shipLoc : Nat) (p : Player) (ship : Ship)
    (coords : List (Int × Int)) : Prop :=
  game1.fleetOf p = (game.fleetOf p).set shipLoc { ship with shipCoords := coords } ∧
  (∀ a b, game1.shipsOf p a b = if (a, b) ∈ coords then SquareState.SHIP else game.shipsOf p a b) ∧
  game1.fleetOf p.opponent = game.fleetOf p.opponent ∧
  game1.shipsOf p.opponent = game.shipsOf p.opponent ∧
  game1.playerTargeting = game.playerTargeting ∧
  game1.compTargeting = game.compTargeting ∧
  game1.gameType = game.gameType ∧ game1.gameState = game.gameState

/-- Some ship of the fleet of `side` is SUNK and has `c` among its coordinates. -/
def Game.sunkAt (game : Game) (side : Player) (c : Int × Int) : Prop :=
  ∃ ship ∈ game.fleetOf side, ship.shipState = ShipState.SUNK ∧ c ∈ ship.shipCoords

/-- Some shot of the list was fired by `side` at the cell `c`. -/
def firedAt (shots : List Shot) (side : Player) (c : Int × Int) : Prop :=
  ∃ shot ∈ shots, shot.p = side ∧ shot.cell = c

/-- The first half of `CompTurn`: the targets it collects and the game when
the collection ends (with the provisional MISS marks of the multi-fire
branch); the second half resolves them with `CheckHit`. -/
def Game.compTurnTargets (game : Game) : Option (Game × List (Int × Int)) :=
  if game.gameType = Gametype.MULTIFIRE ∨ game.gameType = Gametype.HARDCORE then
    game.compTargets (game.NumShipsAlive Player.COMP)
  else
    match AIOpponent.EvaluateGrid game (AIOpponent.SmallestShipAlive game) with
    | none => none
    | some compTarget => some (game, [compTarget])

/-- The games reached from `start` by turns of the user and of the computer
and by calls of `CheckWin`, in any order, with the shots `CheckHit` has
resolved on the way. -/
inductive Game.ReachedBy (start : Game) : Game → List Shot → Prop where
  | init : Game.ReachedBy start start []
  | playerTurn (game game1 : Game) (shots : List Shot) (inputs rest : List FireInput)
      (targetList : List (Int × Int)) (rnd : Nat → Nat) :
      Game.ReachedBy start game shots →
      game.playerTargets inputs = some (targetList, rest) →
      game.PlayerTurn inputs rnd = some (game1, rest) →
      Game.ReachedBy start game1 (shots ++ shotsOf Player.USER rnd 0 targetList)
  | compTurn (game gameM game1 : Game) (shots : List Shot)
      (targetList : List (Int × Int)) (rnd : Nat → Nat) :
      Game.ReachedBy start game shots →
      game.compTurnTargets = some (gameM, targetList) →
      game.CompTurn rnd = some game1 →
      Game.ReachedBy start game1 (shots ++ shotsOf Player.COMP rnd 0 targetList)
  | checkWin (game : Game) (shots : List Shot) (p : Player) :
      Game.ReachedBy start game shots →
      Game.ReachedBy start (game.CheckWin p).2 shots

/-- No cell of a targeting grid is SHIP, and a cell that is not EMPTY has been
fired at by the owner of the grid, or is one of the targets `marked` of the
computer's current batch, or is a coordinate of a SUNK ship of the other
side. -/
def Game.observedOnly (game : Game) (shots : List Shot) (marked : List (Int × Int)) : Prop :=
  ∀ (side : Player) (a b : Int), game.targetingOf side a b ≠ SquareState.SHIP ∧
    (game.targetingOf side a b ≠ SquareState.EMPTY →
      firedAt shots side (a, b) ∨ (side = Player.COMP ∧ (b, a) ∈ marked) ∨
        game.sunkAt side.opponent (a, b))

/-- Every cell that is SHIP or SHOT_DOWN on `userShips` is a coordinate of
one of the five ships of the user's fleet. -/
def Game.userCellsOwned (game : Game) : Prop :=
  ∀ a b, (game.userShips a b = SquareState.SHIP ∨ game.userShips a b = SquareState.SHOT_DOWN) →
    ∃ i, i < 5 ∧ (a, b) ∈ coordsAt game.userFleet i

/-! ## The array accesses of `EvaluateGrid`

The accesses `EvaluateGrid` and the `Eval` functions make to the two arrays,
`game.compTargeting` and the weight map `tmp`, in the order of the source,
each with the index pair it uses. Accesses that follow each other and read
the same element are listed once. -/

/-- One access: a read of `game.compTargeting[i][j]`, the statement
`tmp[i][j] += v`, the statement `tmp[i][j] = 0`, or a read of `tmp[i][j]`. -/
inductive Access where
  | readGrid (i j : Int)
  | addWeight (i j v : Int)
  | zeroWeight (i j : Int)
  | readWeight (i j : Int)

/-- The index pair an access uses. -/
def Access.index : Access → Int × Int
  | Access.readGrid i j => (i, j)
  | Access.addWeight i j _ => (i, j)
  | Access.zeroWeight i j => (i, j)
  | Access.readWeight i j => (i, j)

/-- The weight map after an access. -/
def Access.apply (tmp : Weights) : Access → Weights
  | Access.readGrid _ _ => tmp
  | Access.addWeight i j v => addAt tmp i j v
  | Access.zeroWeight i j => setAt tmp i j 0
  | Access.readWeight _ _ => tmp

/-- The reads of the loop of an `Eval` function that visits `cells`: each
cell is read, and the loop is left at the first that is MISS or SINK. -/
def readsUntil (game : Game) : List (Int × Int) → List Access
  | [] => []
  | c :: rest =>
    Access.readGrid c.1 c.2 ::
      (if game.compTargeting c.1 c.2 = SquareState.MISS
          ∨ game.compTargeting c.1 c.2 = SquareState.SINK then []
        else readsUntil game rest)

namespace AIOpponent

open SquareState

/-- The accesses of `EvalUp(game, x, y, s)`. -/
def evalUpAccesses (game : Game) (x y s : Int) : List Access :=
  if y - (s - 1) < 0 then []
  else readsUntil game ((List.range (s - 2).toNat).map fun (k : Nat) => (x, y - ((k : Int) + 1)))

/-- The accesses of `EvalDown(game, x, y, s)`. -/
def evalDownAccesses (game : Game) (x y s : Int) : List Access :=
  if y + (s - 1) > 9 then []
  else readsUntil game ((List.range (s - 2).toNat).map fun (k : Nat) => (x, y + ((k : Int) + 1)))

/-- The accesses of `EvalRight(game, x, y, s)`. -/
def evalRightAccesses (game : Game) (x y s : Int) : List Access :=
  if x + (s - 1) > 9 then []
  else readsUntil game ((List.range (s - 2).toNat).map fun (k : Nat) => (x + ((k : Int) + 1), y))

/-- The accesses of `EvalLeft(game, x, y, s)`. -/
def evalLeftAccesses (game : Game) (x y s : Int) : List Access :=
  if x - (s - 1) < 0 then []
  else readsUntil game ((List.range (s - 2).toNat).map fun (k : Nat) => (x - ((k : Int) + 1), y))

/-- The accesses of the block `if(EvalUp(game, x, y, i)) for(...) tmp[x][y-n] += 1;`. -/
def runUpAccesses (game : Game) (x y i : Int) : List Access :=
  evalUpAccesses game x y i ++
    (if EvalUp game x y i then
      (List.range (i - 1).toNat).map fun (n : Nat) => Access.addWeight x (y - (n : Int)) 1
    else [])

/-- The accesses of the block `if(EvalDown(game, x, y, i)) for(...) tmp[x][y+n] += 1;`. -/
def runDownAccesses (game : Game) (x y i : Int) : List Access :=
  evalDownAccesses game x y i ++
    (if EvalDown game x y i then
      (List.range (i - 1).toNat).map fun (n : Nat) => Access.addWeight x (y + (n : Int)) 1
    else [])

/-- The accesses of the block `if(EvalLeft(game, x, y, i)) for(...) tmp[x - n][y] += 1;`. -/
def runLeftAccesses (game : Game) (x y i : Int) : List Access :=
  evalLeftAccesses game x y i ++
    (if EvalLeft game x y i then
      (List.range (i - 1).toNat).map fun (n : Nat) => Access.addWeight (x - (n : Int)) y 1
    else [])

/-- The accesses of the block `if(EvalRight(game, x, y, i)) for(...) tmp[x + n][y] += 1;`. -/
def runRightAccesses (game : Game) (x y i : Int) : List Access :=
  evalRightAccesses game x y i ++
    (if EvalRight game x y i then
      (List.range (i - 1).toNat).map fun (n : Nat) => Access.addWeight (x + (n : Int)) y 1
    else [])

/-- The accesses of the body of `for(int i = s; i <= 5; i++)` for the length `i`. -/
def lengthAccesses (game : Game) (x y i : Int) : List Access :=
  runUpAccesses game x y i ++ runDownAccesses game x y i ++ runLeftAccesses game x y i ++
    runRightAccesses game x y i

/-- The accesses of the loop `for(int i = s; i <= 5; i++)` of an EMPTY cell. -/
def emptyAccesses (game : Game) (s x y : Int) : List Access :=
  (List.range (5 - s + 1).toNat).flatMap fun (k : Nat) => lengthAccesses game x y (s + (k : Int))

/-- The accesses of the Up part of the HIT branch. -/
def hitUpAccesses (game : Game) (x y : Int) : List Access :=
  evalUpAccesses game x y 3 ++
    (if EvalUp game x y 3 then [Access.addWeight x (y - 1) 100, Access.addWeight x (y - 2) 50]
    else evalUpAccesses game x y 2 ++
      (if EvalUp game x y 2 then [Access.addWeight x (y - 1) 100] else []))

/-- The accesses of the Down part of the HIT branch. -/
def hitDownAccesses (game : Game) (x y : Int) : List Access :=
  evalDownAccesses game x y 3 ++
    (if EvalDown game x y 3 then [Access.addWeight x (y + 1) 100, Access.addWeight x (y + 2) 50]
    else evalDownAccesses game x y 2 ++
      (if EvalDown game x y 2 then [Access.addWeight x (y + 1) 100] else []))

/-- The accesses of the Left part of the HIT branch. -/
def hitLeftAccesses (game : Game) (x y : Int) : List Access :=
  evalLeftAccesses game x y 3 ++
    (if EvalLeft game x y 3 then [Access.addWeight (x - 1) y 100, Access.addWeight (x - 2) y 50]
    else evalLeftAccesses game x y 2 ++
      (if EvalLeft game x y 2 then [Access.addWeight (x - 1) y 100] else []))

/-- The accesses of the Right part of the HIT branch. -/
def hitRightAccesses (game : Game) (x y : Int) : List Access :=
  evalRightAccesses game x y 3 ++
    (if EvalRight game x y 3 then [Access.addWeight (x + 1) y 100, Access.addWeight (x + 2) y 50]
    else evalRightAccesses game x y 2 ++
      (if EvalRight game x y 2 then [Access.addWeight (x + 1) y 100] else []))

/-- The accesses of the branch `else if(tmpSS == HIT)`. -/
def hitAccesses (game : Game) (x y : Int) : List Access :=
  hitUpAccesses game x y ++ hitDownAccesses game x y ++ hitLeftAccesses game x y ++
    hitRightAccesses game x y

/-- The accesses of the body of the first pair of loops for the cell `(x, y)`:
the read `tmpSS = game.compTargeting[x][y]`, then those of the branch taken. -/
def cellAccesses (game : Game) (s x y : Int) : List Access :=
  Access.readGrid x y ::
    (match game.compTargeting x y with
      | EMPTY => emptyAccesses game s x y
      | HIT => hitAccesses game x y
      | SHOT_DOWN => [Access.addWeight x y 1000]
      | _ => [])

/-- The accesses of the first pair of loops of `EvaluateGrid`. -/
def weighAccesses (game : Game) (s : Int) : List Access :=
  idx10.flatMap fun x => idx10.flatMap fun y => cellAccesses game s x y

/-- The accesses of the second pair of loops of `EvaluateGrid`: for each cell
the read `tmpSS = game.compTargeting[x][y]`, the statement `tmp[x][y] = 0`
when the cell is HIT, MISS or SINK, and the read of `tmp[x][y]` for the
comparison with `high` (and the assignment that follows it). -/
def selectAccesses (game : Game) : List Access :=
  idx10.flatMap fun x => idx10.flatMap fun y =>
    Access.readGrid x y ::
      ((if game.compTargeting x y = HIT ∨ game.compTargeting x y = MISS
          ∨ game.compTargeting x y = SINK then [Access.zeroWeight x y] else [])
        ++ [Access.readWeight x y])

/-- The accesses of `EvaluateGrid(game, s)`. -/
def evaluateGridAccesses (game : Game) (s : Int) : List Access :=
  weighAccesses game s ++ selectAccesses game

end AIOpponent

/-! ## The `int` arithmetic of `EvaluateGrid` and the `Eval` functions in 32 bits

`x`, `y`, `s`, `i` and `n` are C++ `int`s of 32 bits. Above they are unbounded
integers, which is exact as long as no operation leaves the range of `int`.
Here every subtraction and addition of the source is reduced modulo `2 ^ 32`
into that range, which is what the compiled program computes (for the C++
standard a signed overflow is undefined). -/

/-- The value of an `int` operation whose exact result is `v`: `v` when
`-2 ^ 31 ≤ v < 2 ^ 31`, else `v` reduced modulo `2 ^ 32` into that range. -/
def wrap32 (v : Int) : Int := (v + 2147483648) % 4294967296 - 2147483648

namespace AIOpponent

open SquareState

/-- `AIOpponent::EvalUp` in 32-bit arithmetic. -/
def EvalUp32 (game : Game) (x y s : Int) : Bool :=
  if wrap32 (y - wrap32 (s - 1)) < 0 then false
  else (List.range (wrap32 (s - 1) - 1).toNat).all fun (k : Nat) =>
    !(decide (game.compTargeting x (wrap32 (y - ((k : Int) + 1))) = MISS)
      || decide (game.compTargeting x (wrap32 (y - ((k : Int) + 1))) = SINK))

/-- `AIOpponent::EvalDown` in 32-bit arithmetic. -/
def EvalDown32 (game : Game) (x y s : Int) : Bool :=
  if wrap32 (y + wrap32 (s - 1)) > 9 then false
  else (List.range (wrap32 (s - 1) - 1).toNat).all fun (k : Nat) =>
    !(decide (game.compTargeting x (wrap32 (y + ((k : Int) + 1))) = MISS)
      || decide (game.compTargeting x (wrap32 (y + ((k : Int) + 1))) = SINK))

/-- `AIOpponent::EvalRight` in 32-bit arithmetic. -/
def EvalRight32 (game : Game) (x y s : Int) : Bool :=
  if wrap32 (x + wrap32 (s - 1)) > 9 then false
  else (List.range (wrap32 (s - 1) - 1).toNat).all fun (k : Nat) =>
    !(decide (game.compTargeting (wrap32 (x + ((k : Int) + 1))) y = MISS)
      || decide (game.compTargeting (wrap32 (x + ((k : Int) + 1))) y = SINK))

/-- `AIOpponent::EvalLeft` in 32-bit arithmetic. -/
def EvalLeft32 (game : Game) (x y s : Int) : Bool :=
  if wrap32 (x - wrap32 (s - 1)) < 0 then false
  else (List.range (wrap32 (s - 1) - 1).toNat).all fun (k : Nat) =>
    !(decide (game.compTargeting (wrap32 (x - ((k : Int) + 1))) y = MISS)
      || decide (game.compTargeting (wrap32 (x - ((k : Int) + 1))) y = SINK))

/-- The accesses of `EvalUp(game, x, y, s)` in 32-bit arithmetic. -/
def evalUpAccesses32 (game : Game) (x y s : Int) : List Access :=
  if wrap32 (y - wrap32 (s - 1)) < 0 then []
  else readsUntil game ((List.range (wrap32 (s - 1) - 1).toNat).map fun (k : Nat) =>
    (x, wrap32 (y - ((k : Int) + 1))))

/-- The accesses of `EvalDown(game, x, y, s)` in 32-bit arithmetic. -/
def evalDownAccesses32 (game : Game) (x y s : Int) : List Access :=
  if wrap32 (y + wrap32 (s - 1)) > 9 then []
  else readsUntil game ((List.range (wrap32 (s - 1) - 1).toNat).map fun (k : Nat) =>
    (x, wrap32 (y + ((k : Int) + 1))))

/-- The accesses of `EvalRight(game, x, y, s)` in 32-bit arithmetic. -/
def evalRightAccesses32 (game : Game) (x y s : Int) : List Access :=
  if wrap32 (x + wrap32 (s - 1)) > 9 then []
  else readsUntil game ((List.range (wrap32 (s - 1) - 1).toNat).map fun (k : Nat) =>
    (wrap32 (x + ((k : Int) + 1)), y))

/-- The accesses of `EvalLeft(game, x, y, s)` in 32-bit arithmetic. -/
def evalLeftAccesses32 (game : Game) (x y s : Int) : List Access :=
  if wrap32 (x - wrap32 (s - 1)) < 0 then []
  else readsUntil game ((List.range (wrap32 (s - 1) - 1).toNat).map fun (k : Nat) =>
    (wrap32 (x - ((k : Int) + 1)), y))

/-- The accesses of the block `if(EvalUp(game, x, y, i)) for(n = 0; n < i - 1; n++)
tmp[x][y-n] += 1;` in 32-bit arithmetic. -/
def runUpAccesses32 (game : Game) (x y i : Int) : List Access :=
  evalUpAccesses32 game x y i ++
    (if EvalUp32 game x y i then
      (List.range (wrap32 (i - 1)).toNat).map fun (n : Nat) =>
        Access.addWeight x (wrap32 (y - (n : Int))) 1
    else [])

/-- The accesses of the block `if(EvalDown(game, x, y, i)) for(n = 0; n < i - 1; n++)
tmp[x][y+n] += 1;` in 32-bit arithmetic. -/
def runDownAccesses32 (game : Game) (x y i : Int) : List Access :=
  evalDownAccesses32 game x y i ++
    (if EvalDown32 game x y i then
      (List.range (wrap32 (i - 1)).toNat).map fun (n : Nat) =>
        Access.addWeight x (wrap32 (y + (n : Int))) 1
    else [])

/-- The accesses of the block `if(EvalLeft(game, x, y, i)) for(n = 0; n < i - 1; n++)
tmp[x - n][y] += 1;` in 32-bit arithmetic. -/
def runLeftAccesses32 (game : Game) (x y i : Int) : List Access :=
  evalLeftAccesses32 game x y i ++
    (if EvalLeft32 game x y i then
      (List.range (wrap32 (i - 1)).toNat).map fun (n : Nat) =>
        Access.addWeight (wrap32 (x - (n : Int))) y 1
    else [])

/-- The accesses of the block `if(EvalRight(game, x, y, i)) for(n = 0; n < i - 1; n++)
tmp[x + n][y] += 1;` in 32-bit arithmetic. -/
def runRightAccesses32 (game : Game) (x y i : Int) : List Access :=
  evalRightAccesses32 game x y i ++
    (if EvalRight32 game x y i then
      (List.range (wrap32 (i - 1)).toNat).map fun (n : Nat) =>
        Access.addWeight (wrap32 (x + (n : Int))) y 1
    else [])

/-- The accesses of the body of `for(int i = s; i <= 5; i++)` for the length
`i`, in 32-bit arithmetic. -/
def lengthAccesses32 (game : Game) (x y i : Int) : List Access :=
  runUpAccesses32 game x y i ++ runDownAccesses32 game x y i ++ runLeftAccesses32 game x y i ++
    runRightAccesses32 game x y i

/-- The accesses of the loop `for(int i = s; i <= 5; i++)` of an EMPTY cell,
in 32-bit arithmetic: `i` runs through `s + k` for `k < (5 - s + 1).toNat`, and
`i++` does not leave the range of `int` since `i ≤ 5`. -/
def emptyAccesses32 (game : Game) (s x y : Int) : List Access :=
  (List.range (5 - s + 1).toNat).flatMap fun (k : Nat) => lengthAccesses32 game x y (s + (k : Int))

/-- The accesses of the Up part of the HIT branch, in 32-bit arithmetic. -/
def hitUpAccesses32 (game : Game) (x y : Int) : List Access :=
  evalUpAccesses32 game x y 3 ++
    (if EvalUp32 game x y 3 then
      [Access.addWeight x (wrap32 (y - 1)) 100, Access.addWeight x (wrap32 (y - 2)) 50]
    else evalUpAccesses32 game x y 2 ++
      (if EvalUp32 game x y 2 then [Access.addWeight x (wrap32 (y - 1)) 100] else []))

/-- The accesses of the Down part of the HIT branch, in 32-bit arithmetic. -/
def hitDownAccesses32 (game : Game) (x y : Int) : List Access :=
  evalDownAccesses32 game x y 3 ++
    (if EvalDown32 game x y 3 then
      [Access.addWeight x (wrap32 (y + 1)) 100, Access.addWeight x (wrap32 (y + 2)) 50]
    else evalDownAccesses32 game x y 2 ++
      (if EvalDown32 game x y 2 then [Access.addWeight x (wrap32 (y + 1)) 100] else []))

/-- The accesses of the Left part of the HIT branch, in 32-bit arithmetic. -/
def hitLeftAccesses32 (game : Game) (x y : Int) : List Access :=
  evalLeftAccesses32 game x y 3 ++
    (if EvalLeft32 game x y 3 then
      [Access.addWeight (wrap32 (x - 1)) y 100, Access.addWeight (wrap32 (x - 2)) y 50]
    else evalLeftAccesses32 game x y 2 ++
      (if EvalLeft32 game x y 2 then [Access.addWeight (wrap32 (x - 1)) y 100] else []))

/-- The accesses of the Right part of the HIT branch, in 32-bit arithmetic. -/
def hitRightAccesses32 (game : Game) (x y : Int) : List Access :=
  evalRightAccesses32 game x y 3 ++
    (if EvalRight32 game x y 3 then
      [Access.addWeight (wrap32 (x + 1)) y 100, Access.addWeight (wrap32 (x + 2)) y 50]
    else evalRightAccesses32 game x y 2 ++
      (if EvalRight32 game x y 2 then [Access.addWeight (wrap32 (x + 1)) y 100] else []))

/-- The accesses of the branch `else if(tmpSS == HIT)`, in 32-bit arithmetic. -/
def hitAccesses32 (game : Game) (x y : Int) : List Access :=
  hitUpAccesses32 game x y ++ hitDownAccesses32 game x y ++ hitLeftAccesses32 game x y ++
    hitRightAccesses32 game x y

/-- The accesses of the body of the first pair of loops for the cell `(x, y)`,
in 32-bit arithmetic. -/
def cellAccesses32 (game : Game) (s x y : Int) : List Access :=
  Access.readGrid x y ::
    (match game.compTargeting x y with
      | EMPTY => emptyAccesses32 game s x y
      | HIT => hitAccesses32 game x y
      | SHOT_DOWN => [Access.addWeight x y 1000]
      | _ => [])

/-- The accesses of the first pair of loops of `EvaluateGrid`, in 32-bit
arithmetic. -/
def weighAccesses32 (game : Game) (s : Int) : List Access :=
  idx10.flatMap fun x => idx10.flatMap fun y => cellAccesses32 game s x y

/-- The accesses of `EvaluateGrid(game, s)` in 32-bit arithmetic (the second
pair of loops computes no index). -/
def evaluateGridAccesses32 (game : Game) (s : Int) : List Access :=
  weighAccesses32 game s ++ selectAccesses game

end AIOpponent

/-! ## Concrete games -/

/-- The user's grid after the CARRIER has been placed downwards from `(2, 0)`
(the cells `(2, 0) .. (2, 4)`) in a game just constructed. -/
def carrierPlaced : Game :=
  ((Game.construct Gametype.CLASSIC).ConstructFleets).PlaceShip
    [(2, 0), (2, 1), (2, 2), (2, 3), (2, 4)] Player.USER

/-- A targeting grid with a MISS at `(2, 0)`, a HIT at `(1, 0)` and `(1, 5)`
and every other cell EMPTY. -/
def missAt20 : Game :=
  gameOfTargeting fun x y =>
    if x = 2 ∧ y = 0 then SquareState.MISS
    else if x = 1 ∧ (y = 0 ∨ y = 5) then SquareState.HIT
    else SquareState.EMPTY

/-- The cells `(0, y) .. (n - 1, y)`. -/
def rowCoords (y : Int) (n : Nat) : List (Int × Int) :=
  (List.range n).map fun (i : Nat) => ((i : Int), y)

/-- The five ships of a fleet, each placed rightwards from column 0, on the
rows 0, 2, 4, 6 and 8. -/
def placedFleet : List Ship :=
  [ { Ship.construct 5 "CARRIER" with shipCoords := rowCoords 0 5 },
    { Ship.construct 4 "BATTLESHIP" with shipCoords := rowCoords 2 4 },
    { Ship.construct 3 "CRUISER" with shipCoords := rowCoords 4 3 },
    { Ship.construct 3 "SUBMARINE" with shipCoords := rowCoords 6 3 },
    { Ship.construct 2 "DESTROYER" with shipCoords := rowCoords 8 2 } ]

/-- A game of type `gt` in which both sides have placed `placedFleet`. -/
def placedGame (gt : Gametype) : Game :=
  placedFleet.foldl
    (fun game ship => (game.PlaceShip ship.shipCoords Player.USER).PlaceShip ship.shipCoords Player.COMP)
    { Game.construct gt with
      gameState := Gamestate.PLAYING
      userFleet := placedFleet
      compFleet := placedFleet }

/-- The placed CLASSIC game after the computer has hit the cell `(0, 8)` of
the user's DESTROYER, which is left with health 1. -/
def userDestroyerHit : Game :=
  { placedGame Gametype.CLASSIC with
    compTargeting := setSquareState (placedGame Gametype.CLASSIC).compTargeting 0 8 SquareState.HIT
    userShips := setSquareState (placedGame Gametype.CLASSIC).userShips 0 8 SquareState.HIT
    userFleet := placedFleet.set 4
      { Ship.construct 2 "DESTROYER" with shipCoords := rowCoords 8 2, health := 1 } }

/-- The game `userDestroyerHit` after the computer has also hit the cell
`(1, 8)`: the user's DESTROYER is sunk. -/
def userDestroyerSunk : Game :=
  { userDestroyerHit with
    compTargeting := setAll (rowCoords 8 2) SquareState.SINK
      (setSquareState userDestroyerHit.compTargeting 1 8 SquareState.HIT)
    userShips := setAll (rowCoords 8 2) SquareState.SINK
      (setSquareState userDestroyerHit.userShips 1 8 SquareState.HIT)
    userFleet := userDestroyerHit.userFleet.set 4
      { Ship.construct 2 "DESTROYER" with
        shipCoords := rowCoords 8 2, health := 0, shipState := ShipState.SUNK } }

/-- The cells `(x0, y) .. (x0 + n - 1, y)`. -/
def rowCoordsFrom (x0 y : Int) (n : Nat) : List (Int × Int) :=
  (List.range n).map fun (i : Nat) => (x0 + (i : Int), y)

/-- The five ships of a fleet, each placed rightwards from column 2, on the
rows 0, 2, 4, 6 and 8; the CRUISER lies on `(2, 4), (3, 4), (4, 4)`. -/
def centreFleet : List Ship :=
  [ { Ship.construct 5 "CARRIER" with shipCoords := rowCoordsFrom 2 0 5 },
    { Ship.construct 4 "BATTLESHIP" with shipCoords := rowCoordsFrom 2 2 4 },
    { Ship.construct 3 "CRUISER" with shipCoords := rowCoordsFrom 2 4 3 },
    { Ship.construct 3 "SUBMARINE" with shipCoords := rowCoordsFrom 2 6 3 },
    { Ship.construct 2 "DESTROYER" with shipCoords := rowCoordsFrom 2 8 2 } ]

/-- A game of type `gt` in which the user has placed `centreFleet` and the
computer `placedFleet`, before the first shot. -/
def centreGame (gt : Gametype) : Game :=
  placedFleet.foldl
    (fun game ship => game.PlaceShip ship.shipCoords Player.COMP)
    (centreFleet.foldl
      (fun game ship => game.PlaceShip ship.shipCoords Player.USER)
      { Game.construct gt with
        gameState := Gamestate.PLAYING
        userFleet := centreFleet
        compFleet := placedFleet })

/-- The game `centreGame MULTIFIRE` after the computer has selected its first
target `(4, 4)` and set the cell to MISS on `compTargeting`. -/
def centreMarked : Game :=
  { centreGame Gametype.MULTIFIRE with
    compTargeting :=
      setSquareState (centreGame Gametype.MULTIFIRE).compTargeting 4 4 SquareState.MISS }

/-- Shots of `p`, all with the draw 0, at the cells `cells` in their order
(the target pair of the cell `(x, y)` is `(y, x)`). -/
def shotsAt (p : Player) (cells : List (Int × Int)) : List Shot :=
  cells.map fun c => ⟨(c.2, c.1), p, 0⟩

/-- The lines the user types in `ManualPlacement` to lay the CARRIER from `A3`
and the BATTLESHIP from `A6`, then the other three ships from `G1`, `H1` and
`I1`. -/
def overlapOrigins : List OriginInput :=
  [OriginInput.coords 0 2, OriginInput.coords 0 5, OriginInput.coords 6 0,
    OriginInput.coords 7 0, OriginInput.coords 8 0]

/-- The directions the user chooses for them: down, left, right, right, right. -/
def overlapDirections : List Int := [2, 3, 1, 1, 1]

/-- A targeting grid with a HIT at `(4, 4)`, a MISS at `(4, 3)` and every
other cell EMPTY. -/
def hitAt44 : Game :=
  gameOfTargeting fun x y =>
    if x = 4 ∧ y = 4 then SquareState.HIT
    else if x = 4 ∧ y = 3 then SquareState.MISS
    else SquareState.EMPTY

/-- The user's ship grid and fleet after `RandomPlace(0, USER)` has laid the
CARRIER from `(3, 4)` to the right in the game just constructed. -/
def carrierAtRandom : Game :=
  Game.PlaceShip
    { freshGame Gametype.CLASSIC with
      userFleet := (freshGame Gametype.CLASSIC).userFleet.set 0
        { Ship.construct 5 "CARRIER" with
          shipCoords := [(3, 4), (4, 4), (5, 4), (6, 4), (7, 4)] } }
    [(3, 4), (4, 4), (5, 4), (6, 4), (7, 4)] Player.USER

/-- The fleet `placedFleet` with the ships at the indices below `k` SUNK, at
health 0. -/
def sunkBelow (k : Nat) : List Ship :=
  placedFleet.enum.map fun (r : Nat × Ship) =>
    if r.1 < k then { r.2 with shipState := ShipState.SUNK, health := 0 } else r.2

/-- A MULTIFIRE game late in play: both sides placed `placedFleet`; the
computer has fired at every cell but the two of the user's DESTROYER, `(0, 8)`
and `(1, 8)`, and has sunk the other four ships; the user has sunk the
computer's CARRIER, BATTLESHIP and CRUISER and fired nowhere else. -/
def lateGame : Game :=
  { gameState := Gamestate.PLAYING, gameType := Gametype.MULTIFIRE,
    userShips := fun x y =>
      if y = 8 ∧ (x = 0 ∨ x = 1) then SquareState.SHIP
      else if (y = 0 ∧ 0 ≤ x ∧ x ≤ 4) ∨ (y = 2 ∧ 0 ≤ x ∧ x ≤ 3) ∨ (y = 4 ∧ 0 ≤ x ∧ x ≤ 2)
          ∨ (y = 6 ∧ 0 ≤ x ∧ x ≤ 2) then SquareState.SINK
      else SquareState.MISS,
    playerTargeting := fun x y =>
      if (y = 0 ∧ 0 ≤ x ∧ x ≤ 4) ∨ (y = 2 ∧ 0 ≤ x ∧ x ≤ 3) ∨ (y = 4 ∧ 0 ≤ x ∧ x ≤ 2)
      then SquareState.SINK else SquareState.EMPTY,
    compShips := (placedGame Gametype.MULTIFIRE).compShips,
    compTargeting := fun x y =>
      if y = 8 ∧ (x = 0 ∨ x = 1) then SquareState.EMPTY
      else if (y = 0 ∧ 0 ≤ x ∧ x ≤ 4) ∨ (y = 2 ∧ 0 ≤ x ∧ x ≤ 3) ∨ (y = 4 ∧ 0 ≤ x ∧ x ≤ 2)
          ∨ (y = 6 ∧ 0 ≤ x ∧ x ≤ 2) then SquareState.SINK
      else SquareState.MISS,
    userFleet := sunkBelow 4, compFleet := sunkBelow 3 }

/-- The lines the user types in four turns of five shots: `A1` five times;
`C1` four times, then `E1`; `E2` twice, then `G1` three times; `I1` twice, then
`J1`, `J2` and `J3`. -/
def repeatedLines : List FireInput :=
  [FireInput.coords 0 0, FireInput.coords 0 0, FireInput.coords 0 0, FireInput.coords 0 0,
    FireInput.coords 0 0,
    FireInput.coords 2 0, FireInput.coords 2 0, FireInput.coords 2 0, FireInput.coords 2 0,
    FireInput.coords 4 0,
    FireInput.coords 4 1, FireInput.coords 4 1, FireInput.coords 6 0, FireInput.coords 6 0,
    FireInput.coords 6 0,
    FireInput.coords 8 0, FireInput.coords 8 0, FireInput.coords 9 0, FireInput.coords 9 1,
    FireInput.coords 9 2]

end Battleship

namespace Battleship

open SquareState AIOpponent

/-! ## Additive map transformers -/

theorem additive_addAt (x y v : Int) : Additive (fun t => addAt t x y v) := by
  intro t a b
  simp only [addAt, zeroWeights]
  split_ifs <;> simp

theorem foldl_additive_apply {α : Type} (step : α → Weights → Weights)
    (h : ∀ k, Additive (step k)) (l : List α) (t : Weights) (a b : Int) :
    l.foldl (fun t k => step k t) t a b
      = t a b + (l.map fun k => step k zeroWeights a b).sum := by
  induction l generalizing t with
  | nil => simp
  | cons k l ih =>
    simp only [List.foldl_cons, List.map_cons, List.sum_cons]
    rw [ih, h k t]
    ring

theorem additive_foldl {α : Type} (step : α → Weights → Weights)
    (h : ∀ k, Additive (step k)) (l : List α) :
    Additive (fun t => l.foldl (fun t k => step k t) t) := by
  intro t a b
  show l.foldl (fun t k => step k t) t a b
    = t a b + l.foldl (fun t k => step k t) zeroWeights a b
  rw [foldl_additive_apply step h l t, foldl_additive_apply step h l zeroWeights]
  simp [zeroWeights]

/-- Summing the indicator of `d = n` over `n < m`. -/
theorem sum_range_indicator (m : Nat) (d : Int) :
    ((List.range m).map fun n : Nat => if d = (n : Int) then (1 : Int) else 0).sum
      = if 0 ≤ d ∧ d < (m : Int) then 1 else 0 := by
  induction m with
  | zero =>
    simp
    omega
  | succ m ih =>
    rw [List.range_succ, List.map_append, List.sum_append, ih]
    simp only [List.map_cons, List.map_nil, List.sum_cons, List.sum_nil, add_zero]
    push_cast
    split_ifs <;> omega

/-- The increments of one run: `m` cells from `(x, y)` in the direction `(dx, dy)`. -/
theorem run_apply (m : Nat) (x y : Int) (t : Weights) (a b : Int) :
    ((List.range m).foldl (fun t (n : Nat) => addAt t x (y - (n : Int)) 1) t a b
      = t a b + if a = x ∧ 0 ≤ y - b ∧ y - b < (m : Int) then 1 else 0) ∧
    ((List.range m).foldl (fun t (n : Nat) => addAt t x (y + (n : Int)) 1) t a b
      = t a b + if a = x ∧ 0 ≤ b - y ∧ b - y < (m : Int) then 1 else 0) ∧
    ((List.range m).foldl (fun t (n : Nat) => addAt t (x - (n : Int)) y 1) t a b
      = t a b + if b = y ∧ 0 ≤ x - a ∧ x - a < (m : Int) then 1 else 0) ∧
    ((List.range m).foldl (fun t (n : Nat) => addAt t (x + (n : Int)) y 1) t a b
      = t a b + if b = y ∧ 0 ≤ a - x ∧ a - x < (m : Int) then 1 else 0) := by
  refine ⟨?_, ?_, ?_, ?_⟩
  · rw [foldl_additive_apply (fun (n : Nat) t => addAt t x (y - (n : Int)) 1)
      (fun n => additive_addAt _ _ _)]
    congr 1
    have h := sum_range_indicator m (y - b)
    by_cases hax : a = x
    · simp only [addAt, zeroWeights, hax, true_and, zero_add]
      rw [← h]
      congr 1
      apply List.map_congr_left
      intro n _
      by_cases hn : b = y - (n : Int)
      · rw [if_pos hn, if_pos (by omega)]
      · rw [if_neg hn, if_neg (by omega)]
    · simp [addAt, zeroWeights, hax]
  · rw [foldl_additive_apply (fun (n : Nat) t => addAt t x (y + (n : Int)) 1)
      (fun n => additive_addAt _ _ _)]
    congr 1
    have h := sum_range_indicator m (b - y)
    by_cases hax : a = x
    · simp only [addAt, zeroWeights, hax, true_and, zero_add]
      rw [← h]
      congr 1
      apply List.map_congr_left
      intro n _
      by_cases hn : b = y + (n : Int)
      · rw [if_pos hn, if_pos (by omega)]
      · rw [if_neg hn, if_neg (by omega)]
    · simp [addAt, zeroWeights, hax]
  · rw [foldl_additive_apply (fun (n : Nat) t => addAt t (x - (n : Int)) y 1)
      (fun n => additive_addAt _ _ _)]
    congr 1
    have h := sum_range_indicator m (x - a)
    by_cases hby : b = y
    · simp only [addAt, zeroWeights, hby, and_true, true_and, zero_add]
      rw [← h]
      congr 1
      apply List.map_congr_left
      intro n _
      by_cases hn : a = x - (n : Int)
      · rw [if_pos hn, if_pos (by omega)]
      · rw [if_neg hn, if_neg (by omega)]
    · simp [addAt, zeroWeights, hby]
  · rw [foldl_additive_apply (fun (n : Nat) t => addAt t (x + (n : Int)) y 1)
      (fun n => additive_addAt _ _ _)]
    congr 1
    have h := sum_range_indicator m (a - x)
    by_cases hby : b = y
    · simp only [addAt, zeroWeights, hby, and_true, true_and, zero_add]
      rw [← h]
      congr 1
      apply List.map_congr_left
      intro n _
      by_cases hn : a = x + (n : Int)
      · rw [if_pos hn, if_pos (by omega)]
      · rw [if_neg hn, if_neg (by omega)]
    · simp [addAt, zeroWeights, hby]


/-! ## What each block of the first pair of loops adds -/

theorem toNat_bound (d i : Int) (h : 0 ≤ d) : d < ((i - 1).toNat : Int) ↔ d < i - 1 := by
  omega

theorem runUp_apply (game : Game) (x y i : Int) (t : Weights) (a b : Int) :
    runUp game x y i t a b = t a b +
      if EvalUp game x y i = true ∧ a = x ∧ 0 ≤ y - b ∧ y - b < i - 1 then 1 else 0 := by
  unfold runUp
  by_cases h : EvalUp game x y i = true
  · rw [if_pos h, (run_apply _ x y t a b).1]
    congr 1
    by_cases hd : 0 ≤ y - b
    · simp only [h, hd, true_and, toNat_bound _ i hd]
    · simp [hd]
  · simp [h]

theorem runDown_apply (game : Game) (x y i : Int) (t : Weights) (a b : Int) :
    runDown game x y i t a b = t a b +
      if EvalDown game x y i = true ∧ a = x ∧ 0 ≤ b - y ∧ b - y < i - 1 then 1 else 0 := by
  unfold runDown
  by_cases h : EvalDown game x y i = true
  · rw [if_pos h, (run_apply _ x y t a b).2.1]
    congr 1
    by_cases hd : 0 ≤ b - y
    · simp only [h, hd, true_and, toNat_bound _ i hd]
    · simp [hd]
  · simp [h]

theorem runLeft_apply (game : Game) (x y i : Int) (t : Weights) (a b : Int) :
    runLeft game x y i t a b = t a b +
      if EvalLeft game x y i = true ∧ b = y ∧ 0 ≤ x - a ∧ x - a < i - 1 then 1 else 0 := by
  unfold runLeft
  by_cases h : EvalLeft game x y i = true
  · rw [if_pos h, (run_apply _ x y t a b).2.2.1]
    congr 1
    by_cases hd : 0 ≤ x - a
    · simp only [h, hd, true_and, toNat_bound _ i hd]
    · simp [hd]
  · simp [h]

theorem runRight_apply (game : Game) (x y i : Int) (t : Weights) (a b : Int) :
    runRight game x y i t a b = t a b +
      if EvalRight game x y i = true ∧ b = y ∧ 0 ≤ a - x ∧ a - x < i - 1 then 1 else 0 := by
  unfold runRight
  by_cases h : EvalRight game x y i = true
  · rw [if_pos h, (run_apply _ x y t a b).2.2.2]
    congr 1
    by_cases hd : 0 ≤ a - x
    · simp only [h, hd, true_and, toNat_bound _ i hd]
    · simp [hd]
  · simp [h]

theorem lengthStep_apply (game : Game) (x y i : Int) (t : Weights) (a b : Int) :
    lengthStep game x y i t a b = t a b + lengthGain game x y i a b := by
  unfold lengthStep lengthGain
  rw [runRight_apply, runLeft_apply, runDown_apply, runUp_apply]
  ring

theorem additive_lengthStep (game : Game) (x y i : Int) :
    Additive (lengthStep game x y i) := by
  intro t a b
  rw [lengthStep_apply, lengthStep_apply game x y i zeroWeights]
  simp [zeroWeights]

theorem emptyStep_apply (game : Game) (s x y : Int) (t : Weights) (a b : Int) :
    emptyStep game s x y t a b = t a b +
      ((List.range (5 - s + 1).toNat).map fun (k : Nat) =>
        lengthGain game x y (s + (k : Int)) a b).sum := by
  unfold emptyStep
  rw [foldl_additive_apply (fun (k : Nat) t => lengthStep game x y (s + (k : Int)) t)
    (fun k => additive_lengthStep game x y _)]
  congr 2
  apply List.map_congr_left
  intro k _
  rw [lengthStep_apply]
  simp [zeroWeights]

theorem hitUp_apply (game : Game) (x y : Int) (t : Weights) (a b : Int) :
    hitUp game x y t a b = t a b +
      (if EvalUp game x y 3 = true then
        (if a = x ∧ b = y - 1 then 100 else 0) + (if a = x ∧ b = y - 2 then 50 else 0)
      else if EvalUp game x y 2 = true then (if a = x ∧ b = y - 1 then 100 else 0)
      else 0) := by
  unfold hitUp
  by_cases h3 : EvalUp game x y 3 = true <;> by_cases h2 : EvalUp game x y 2 = true <;>
    simp only [h3, h2, if_true, if_false, Bool.false_eq_true] <;>
    (try simp only [addAt]) <;> (try split_ifs) <;> omega

theorem hitDown_apply (game : Game) (x y : Int) (t : Weights) (a b : Int) :
    hitDown game x y t a b = t a b +
      (if EvalDown game x y 3 = true then
        (if a = x ∧ b = y + 1 then 100 else 0) + (if a = x ∧ b = y + 2 then 50 else 0)
      else if EvalDown game x y 2 = true then (if a = x ∧ b = y + 1 then 100 else 0)
      else 0) := by
  unfold hitDown
  by_cases h3 : EvalDown game x y 3 = true <;> by_cases h2 : EvalDown game x y 2 = true <;>
    simp only [h3, h2, if_true, if_false, Bool.false_eq_true] <;>
    (try simp only [addAt]) <;> (try split_ifs) <;> omega

theorem hitLeft_apply (game : Game) (x y : Int) (t : Weights) (a b : Int) :
    hitLeft game x y t a b = t a b +
      (if EvalLeft game x y 3 = true then
        (if a = x - 1 ∧ b = y then 100 else 0) + (if a = x - 2 ∧ b = y then 50 else 0)
      else if EvalLeft game x y 2 = true then (if a = x - 1 ∧ b = y then 100 else 0)
      else 0) := by
  unfold hitLeft
  by_cases h3 : EvalLeft game x y 3 = true <;> by_cases h2 : EvalLeft game x y 2 = true <;>
    simp only [h3, h2, if_true, if_false, Bool.false_eq_true] <;>
    (try simp only [addAt]) <;> (try split_ifs) <;> omega

theorem hitRight_apply (game : Game) (x y : Int) (t : Weights) (a b : Int) :
    hitRight game x y t a b = t a b +
      (if EvalRight game x y 3 = true then
        (if a = x + 1 ∧ b = y then 100 else 0) + (if a = x + 2 ∧ b = y then 50 else 0)
      else if EvalRight game x y 2 = true then (if a = x + 1 ∧ b = y then 100 else 0)
      else 0) := by
  unfold hitRight
  by_cases h3 : EvalRight game x y 3 = true <;> by_cases h2 : EvalRight game x y 2 = true <;>
    simp only [h3, h2, if_true, if_false, Bool.false_eq_true] <;>
    (try simp only [addAt]) <;> (try split_ifs) <;> omega

theorem hitStep_apply (game : Game) (x y : Int) (t : Weights) (a b : Int) :
    hitStep game x y t a b = t a b + hitGain game x y a b := by
  unfold hitStep hitGain
  rw [hitRight_apply, hitLeft_apply, hitDown_apply, hitUp_apply]
  ring

/-- What the body of the first pair of loops adds to `(a, b)` when it runs for
the cell `(x, y)`. -/
theorem cellStep_apply (game : Game) (s x y : Int) (t : Weights) (a b : Int) :
    cellStep game s x y t a b = t a b +
      (match game.compTargeting x y with
        | EMPTY => ((List.range (5 - s + 1).toNat).map fun (k : Nat) =>
            lengthGain game x y (s + (k : Int)) a b).sum
        | HIT => hitGain game x y a b
        | SHOT_DOWN => if a = x ∧ b = y then 1000 else 0
        | _ => 0) := by
  unfold cellStep
  cases h : game.compTargeting x y
  · simp
  · simp only [hitStep_apply]
  · simp only [emptyStep_apply]
  · simp
  · simp
  · simp only [addAt]
    split_ifs <;> simp

theorem additive_cellStep (game : Game) (s x y : Int) : Additive (cellStep game s x y) := by
  intro t a b
  rw [cellStep_apply, cellStep_apply game s x y zeroWeights]
  simp [zeroWeights]

/-- The weight map before selection, cell by cell: the sum over all cells
`(x, y)` of what the loop body for `(x, y)` adds. -/
theorem weighGrid_apply (game : Game) (s a b : Int) :
    weighGrid game s a b =
      (idx10.map fun x => (idx10.map fun y => cellStep game s x y zeroWeights a b).sum).sum := by
  unfold weighGrid
  rw [foldl_additive_apply
    (fun (x : Int) t => idx10.foldl (fun t y => cellStep game s x y t) t)
    (fun x => additive_foldl (fun (y : Int) t => cellStep game s x y t)
      (fun y => additive_cellStep game s x y) idx10)]
  simp only [zeroWeights, zero_add]
  congr 2
  funext x
  rw [foldl_additive_apply (fun (y : Int) t => cellStep game s x y t)
    (fun y => additive_cellStep game s x y)]
  simp [zeroWeights]


/-! ## The selection loops -/

theorem selectLoop_eq_scan (game : Game) (tmp : Weights) :
    selectLoop game tmp = scanOrder.foldl (fun st p => selectStep game p.1 p.2 st)
      { tmp := tmp, high := 0, highX := none, highY := none } := by
  simp only [selectLoop, scanOrder, idx10, List.flatMap_cons, List.flatMap_nil, List.map_cons,
    List.map_nil, List.foldl_cons, List.foldl_nil, List.cons_append, List.nil_append,
    List.append_nil]

theorem selInv_step (game : Game) (tmp0 : Weights) (l : List (Int × Int))
    (st : Selection) (x y : Int) (h : SelInv game tmp0 l st) :
    SelInv game tmp0 (l ++ [(x, y)]) (selectStep game x y st) := by
  obtain ⟨h1, h2, h3, h4⟩ := h
  -- the map after the zeroing statement
  have htmp : ∀ a b, (if game.compTargeting x y = HIT ∨ game.compTargeting x y = MISS
        ∨ game.compTargeting x y = SINK then setAt st.tmp x y 0 else st.tmp) a b
      = if (a, b) ∈ l ++ [(x, y)] then settled game tmp0 a b else tmp0 a b := by
    intro a b
    by_cases hab : a = x ∧ b = y
    · obtain ⟨rfl, rfl⟩ := hab
      simp only [List.mem_append, List.mem_singleton, or_true, if_true]
      by_cases hz : zeroed game a b
      · have hz' := hz
        unfold zeroed at hz'
        simp [hz', setAt, settled, hz]
      · have hz' := hz
        unfold zeroed at hz'
        rw [if_neg hz', h1]
        simp [settled, hz]
    · have hmem : ((a, b) ∈ l ++ [(x, y)]) ↔ (a, b) ∈ l := by
        simp only [List.mem_append, List.mem_singleton, Prod.mk.injEq]
        tauto
      simp only [hmem]
      rw [← h1]
      split_ifs
      · simp [setAt, hab]
      · rfl
  have hxy := htmp x y
  simp only [List.mem_append, List.mem_singleton, or_true, if_true] at hxy
  unfold selectStep
  simp only []
  by_cases hgt : (if game.compTargeting x y = HIT ∨ game.compTargeting x y = MISS
        ∨ game.compTargeting x y = SINK then setAt st.tmp x y 0 else st.tmp) x y > st.high
  · rw [if_pos hgt]
    rw [hxy] at hgt
    refine ⟨htmp, ?_, ?_, ?_⟩
    · dsimp only
      rw [hxy]; omega
    · intro p hp
      show _ ≤ (if _ then _ else _ : Weights) x y
      rw [hxy]
      rcases List.mem_append.1 hp with hp | hp
      · have := h3 p hp; omega
      · rw [List.mem_singleton] at hp
        subst hp
        exact le_refl _
    · right
      refine ⟨?_, l, [], x, y, rfl, rfl, rfl, ?_, ?_⟩
      · show 0 < (if _ then _ else _ : Weights) x y
        rw [hxy]; omega
      · exact hxy.symm
      · intro q hq
        show _ < (if _ then _ else _ : Weights) x y
        rw [hxy]
        have := h3 q hq; omega
  · rw [if_neg hgt]
    rw [hxy] at hgt
    refine ⟨htmp, h2, ?_, ?_⟩
    · intro p hp
      show _ ≤ st.high
      rcases List.mem_append.1 hp with hp | hp
      · exact h3 p hp
      · rw [List.mem_singleton] at hp
        subst hp
        show settled game tmp0 x y ≤ st.high
        omega
    · rcases h4 with h4 | ⟨hpos, l1, l2, x0, y0, hl, hx, hy, hv, hlt⟩
      · left; exact h4
      · right
        refine ⟨hpos, l1, l2 ++ [(x, y)], x0, y0, ?_, hx, hy, hv, hlt⟩
        rw [hl]; simp

theorem selInv_foldl (game : Game) (tmp0 : Weights) (l' : List (Int × Int)) :
    ∀ (l : List (Int × Int)) (st : Selection), SelInv game tmp0 l st →
      SelInv game tmp0 (l ++ l') (l'.foldl (fun st p => selectStep game p.1 p.2 st) st) := by
  induction l' with
  | nil => intro l st h; simpa using h
  | cons p l' ih =>
    intro l st h
    have hstep := selInv_step game tmp0 l st p.1 p.2 h
    have := ih (l ++ [(p.1, p.2)]) _ hstep
    simpa using this

theorem selInv_selectLoop (game : Game) (tmp0 : Weights) :
    SelInv game tmp0 scanOrder (selectLoop game tmp0) := by
  rw [selectLoop_eq_scan]
  have h0 : SelInv game tmp0 []
      { tmp := tmp0, high := 0, highX := none, highY := none } := by
    refine ⟨?_, le_refl _, ?_, Or.inl ⟨rfl, rfl, rfl⟩⟩
    · intro a b; simp
    · intro p hp; simp at hp
  simpa using selInv_foldl game tmp0 scanOrder [] _ h0

theorem mem_scanOrder (a b : Int) :
    (a, b) ∈ scanOrder ↔ (0 ≤ a ∧ a ≤ 9) ∧ (0 ≤ b ∧ b ≤ 9) := by
  have hidx : ∀ z : Int, z ∈ idx10 ↔ (0 ≤ z ∧ z ≤ 9) := by
    intro z
    simp only [idx10, List.mem_cons, List.mem_singleton, List.not_mem_nil, or_false]
    omega
  unfold scanOrder
  simp only [List.mem_flatMap, List.mem_map, Prod.mk.injEq]
  constructor
  · rintro ⟨x, hx, y, hy, rfl, rfl⟩
    exact ⟨(hidx _).1 hx, (hidx _).1 hy⟩
  · rintro ⟨ha, hb⟩
    exact ⟨a, (hidx a).2 ha, b, (hidx b).2 hb, rfl, rfl⟩

theorem scanOrder_sorted : scanOrder.Pairwise scanBefore := by
  decide!


/-! ## What `EvaluateGrid` returns, in terms of the settled weight map -/

/-- On the board, the final weight map is the weighed map with the HIT, MISS
and SINK cells set to zero. -/
theorem finalWeights_apply (game : Game) (s a b : Int) (h : onBoard a b) :
    finalWeights game s a b = settled game (weighGrid game s) a b := by
  have hinv := selInv_selectLoop game (weighGrid game s)
  unfold finalWeights
  rw [hinv.1 a b, if_pos ((mem_scanOrder a b).2 h)]

/-- When some cell of the board has a positive settled weight, `EvaluateGrid`
returns the first cell of maximal settled weight. -/
theorem evaluateGrid_some (game : Game) (s : Int)
    (h : ∃ a b, onBoard a b ∧ 0 < settled game (weighGrid game s) a b) :
    ∃ hx hy, onBoard hx hy ∧ EvaluateGrid game s = some (hy, hx) ∧
      0 < settled game (weighGrid game s) hx hy ∧
      ∀ a b, onBoard a b →
        settled game (weighGrid game s) a b ≤ settled game (weighGrid game s) hx hy ∧
        (settled game (weighGrid game s) a b = settled game (weighGrid game s) hx hy →
          hx < a ∨ (hx = a ∧ hy ≤ b)) := by
  obtain ⟨a0, b0, hab0, hpos0⟩ := h
  obtain ⟨_, _, h3, h4⟩ := selInv_selectLoop game (weighGrid game s)
  rcases h4 with ⟨h0, _, _⟩ | ⟨hpos, l1, l2, x, y, hl, hx, hy, hv, hlt⟩
  · have := h3 (a0, b0) ((mem_scanOrder a0 b0).2 hab0)
    simp only at this
    omega
  · have hmem : (x, y) ∈ scanOrder := by rw [hl]; simp
    refine ⟨x, y, (mem_scanOrder x y).1 hmem, ?_, by omega, ?_⟩
    · unfold EvaluateGrid
      simp only [hx, hy]
    · intro a b hab
      have hab' := (mem_scanOrder a b).2 hab
      refine ⟨by rw [hv]; exact h3 (a, b) hab', ?_⟩
      intro heq
      have hsorted := scanOrder_sorted
      rw [hl] at hab' hsorted
      rcases List.mem_append.1 hab' with h1 | h1
      · have := hlt (a, b) h1
        simp only at this
        omega
      · rcases List.mem_cons.1 h1 with h1 | h1
        · simp only [Prod.mk.injEq] at h1
          omega
        · have hb := (List.pairwise_cons.1 (List.pairwise_append.1 hsorted).2.1).1 (a, b) h1
          unfold scanBefore at hb
          simp only at hb
          omega

/-- When no cell of the board has a positive settled weight, the selection
loops never assign `highX` and `highY`. -/
theorem evaluateGrid_none (game : Game) (s : Int)
    (h : ∀ a b, onBoard a b → settled game (weighGrid game s) a b ≤ 0) :
    EvaluateGrid game s = none := by
  obtain ⟨_, _, _, h4⟩ := selInv_selectLoop game (weighGrid game s)
  rcases h4 with ⟨_, hx, hy⟩ | ⟨hpos, l1, l2, x, y, hl, hx, hy, hv, hlt⟩
  · unfold EvaluateGrid
    simp only [hx, hy]
  · have hmem : (x, y) ∈ scanOrder := by rw [hl]; simp
    have := h x y ((mem_scanOrder x y).1 hmem)
    omega

/-! ## Weights are sums of non-negative gains -/

theorem lengthGain_nonneg (game : Game) (x y i a b : Int) : 0 ≤ lengthGain game x y i a b := by
  unfold lengthGain
  have h : ∀ (p : Prop) [Decidable p], (0 : Int) ≤ if p then 1 else 0 := by
    intro p _; split_ifs <;> omega
  have h1 := h (EvalUp game x y i = true ∧ a = x ∧ 0 ≤ y - b ∧ y - b < i - 1)
  have h2 := h (EvalDown game x y i = true ∧ a = x ∧ 0 ≤ b - y ∧ b - y < i - 1)
  have h3 := h (EvalLeft game x y i = true ∧ b = y ∧ 0 ≤ x - a ∧ x - a < i - 1)
  have h4 := h (EvalRight game x y i = true ∧ b = y ∧ 0 ≤ a - x ∧ a - x < i - 1)
  omega

theorem hitTerm_bounds (e3 e2 p q : Prop) [Decidable e3] [Decidable e2] [Decidable p]
    [Decidable q] :
    (0 : Int) ≤ (if e3 then (if p then 100 else 0) + (if q then 50 else 0)
        else if e2 then (if p then 100 else 0) else 0) ∧
    (if e3 then (if p then 100 else 0) + (if q then 50 else 0)
        else if e2 then (if p then 100 else 0) else 0)
      ≤ (if p then (100 : Int) else 0) + (if q then 50 else 0) := by
  split_ifs <;> omega

theorem hitGain_nonneg (game : Game) (x y a b : Int) : 0 ≤ hitGain game x y a b := by
  unfold hitGain
  have h1 := (hitTerm_bounds (EvalUp game x y 3 = true) (EvalUp game x y 2 = true)
    (a = x ∧ b = y - 1) (a = x ∧ b = y - 2)).1
  have h2 := (hitTerm_bounds (EvalDown game x y 3 = true) (EvalDown game x y 2 = true)
    (a = x ∧ b = y + 1) (a = x ∧ b = y + 2)).1
  have h3 := (hitTerm_bounds (EvalLeft game x y 3 = true) (EvalLeft game x y 2 = true)
    (a = x - 1 ∧ b = y) (a = x - 2 ∧ b = y)).1
  have h4 := (hitTerm_bounds (EvalRight game x y 3 = true) (EvalRight game x y 2 = true)
    (a = x + 1 ∧ b = y) (a = x + 2 ∧ b = y)).1
  omega

theorem cellStep_zero_nonneg (game : Game) (s x y a b : Int) :
    0 ≤ cellStep game s x y zeroWeights a b := by
  rw [cellStep_apply]
  simp only [zeroWeights, zero_add]
  cases game.compTargeting x y
  · simp
  · exact hitGain_nonneg game x y a b
  · apply List.sum_nonneg
    intro v hv
    rw [List.mem_map] at hv
    obtain ⟨k, _, rfl⟩ := hv
    exact lengthGain_nonneg game x y _ a b
  · simp
  · simp
  · show (0 : Int) ≤ if a = x ∧ b = y then 1000 else 0
    split_ifs <;> omega

theorem weighGrid_nonneg (game : Game) (s a b : Int) : 0 ≤ weighGrid game s a b := by
  rw [weighGrid_apply]
  apply List.sum_nonneg
  intro v hv
  rw [List.mem_map] at hv
  obtain ⟨x, _, rfl⟩ := hv
  apply List.sum_nonneg
  intro v hv
  rw [List.mem_map] at hv
  obtain ⟨y, _, rfl⟩ := hv
  exact cellStep_zero_nonneg game s x y a b

theorem mem_idx10 (z : Int) : z ∈ idx10 ↔ (0 ≤ z ∧ z ≤ 9) := by
  simp only [idx10, List.mem_cons, List.mem_singleton, List.not_mem_nil, or_false]
  omega

/-- A cell of the board weighs at least what its own loop body adds to it. -/
theorem weighGrid_ge_own (game : Game) (s a b : Int) (h : onBoard a b) :
    cellStep game s a b zeroWeights a b ≤ weighGrid game s a b := by
  rw [weighGrid_apply]
  have hinner : cellStep game s a b zeroWeights a b
      ≤ (idx10.map fun y => cellStep game s a y zeroWeights a b).sum := by
    apply List.single_le_sum
    · intro v hv
      rw [List.mem_map] at hv
      obtain ⟨y, _, rfl⟩ := hv
      exact cellStep_zero_nonneg game s a y a b
    · exact List.mem_map.2 ⟨b, (mem_idx10 b).2 h.2, rfl⟩
  refine le_trans hinner ?_
  apply List.single_le_sum
  · intro v hv
    rw [List.mem_map] at hv
    obtain ⟨x, _, rfl⟩ := hv
    apply List.sum_nonneg
    intro v hv
    rw [List.mem_map] at hv
    obtain ⟨y, _, rfl⟩ := hv
    exact cellStep_zero_nonneg game s x y a b
  · exact List.mem_map.2 ⟨a, (mem_idx10 a).2 h.1, rfl⟩



/-! ## Sums over the ten indices -/

theorem sum_idx10_ite (c : Int) (hc : c ∈ idx10) (F : Int → Int) :
    (idx10.map fun z => if c = z then F z else 0).sum = F c := by
  simp only [idx10, List.mem_cons, List.mem_singleton, List.not_mem_nil, or_false] at hc
  rcases hc with rfl | rfl | rfl | rfl | rfl | rfl | rfl | rfl | rfl | rfl <;>
    simp [idx10]

theorem sum_map_ite_const {α : Type} (l : List α) (c : Prop) [Decidable c] (F : α → Int) :
    (l.map fun y => if c then F y else 0).sum = if c then (l.map F).sum else 0 := by
  split_ifs <;> simp

/-- A double sum over the board of terms that live on the column `a` and on
the row `b` is the sum along the column plus the sum along the row. -/
theorem sum_cross (a b : Int) (ha : a ∈ idx10) (hb : b ∈ idx10) (F G : Int → Int) :
    (idx10.map fun x =>
        (idx10.map fun y => (if a = x then F y else 0) + (if b = y then G x else 0)).sum).sum
      = (idx10.map F).sum + (idx10.map G).sum := by
  simp only [List.sum_map_add, sum_map_ite_const]
  rw [sum_idx10_ite a ha (fun _ => (idx10.map F).sum)]
  congr 1
  congr 1
  apply List.map_congr_left
  intro x _
  exact sum_idx10_ite b hb (fun _ => G x)

/-! ## Bounds on the gains -/

theorem sum_range_ge_le (n : Nat) (s c : Int) :
    ((List.range n).map fun (k : Nat) => if c ≤ s + (k : Int) then (1 : Int) else 0).sum
      ≤ max 0 (s + (n : Int) - c) := by
  induction n with
  | zero => simp
  | succ n ih =>
    rw [List.range_succ, List.map_append, List.sum_append]
    simp only [List.map_cons, List.map_nil, List.sum_cons, List.sum_nil, add_zero]
    push_cast
    split_ifs <;> omega

theorem fit_sum_le (s d : Int) (P : Prop) [Decidable P] :
    ((List.range (5 - s + 1).toNat).map fun (k : Nat) =>
        if P ∧ 0 ≤ d ∧ d < s + (k : Int) - 1 then (1 : Int) else 0).sum
      ≤ if P ∧ 0 ≤ d ∧ d ≤ 3 then 4 - d else 0 := by
  by_cases hP : P ∧ 0 ≤ d
  · have heq : ((List.range (5 - s + 1).toNat).map fun (k : Nat) =>
          if P ∧ 0 ≤ d ∧ d < s + (k : Int) - 1 then (1 : Int) else 0)
        = ((List.range (5 - s + 1).toNat).map fun (k : Nat) =>
          if d + 2 ≤ s + (k : Int) then (1 : Int) else 0) := by
      apply List.map_congr_left
      intro k _
      by_cases hk : d + 2 ≤ s + (k : Int)
      · rw [if_pos hk, if_pos ⟨hP.1, hP.2, by omega⟩]
      · rw [if_neg hk, if_neg (by omega)]
    rw [heq]
    have hc : (P ∧ 0 ≤ d ∧ d ≤ 3) ↔ d ≤ 3 := ⟨fun h => h.2.2, fun h => ⟨hP.1, hP.2, h⟩⟩
    simp only [hc]
    by_cases hs : 6 ≤ s
    · have h0 : (5 - s + 1).toNat = 0 := by omega
      rw [h0]
      simp only [List.range_zero, List.map_nil, List.sum_nil]
      split_ifs <;> omega
    · have hle := sum_range_ge_le (5 - s + 1).toNat s (d + 2)
      have hn : ((5 - s + 1).toNat : Int) = 6 - s := by omega
      rw [hn] at hle
      rcases le_max_iff.1 hle with h | h <;> split_ifs <;> omega
  · have heq : ((List.range (5 - s + 1).toNat).map fun (k : Nat) =>
          if P ∧ 0 ≤ d ∧ d < s + (k : Int) - 1 then (1 : Int) else 0)
        = ((List.range (5 - s + 1).toNat).map fun (_ : Nat) => (0 : Int)) := by
      apply List.map_congr_left
      intro k _
      rw [if_neg]
      tauto
    rw [heq, List.sum_map_zero]
    split_ifs <;> omega

theorem fitV_nonneg (d : Int) : 0 ≤ fitV d := by
  unfold fitV; split_ifs <;> omega

theorem hitV_nonneg (d : Int) : 0 ≤ hitV d := by
  unfold hitV; split_ifs <;> omega

theorem capCell_nonneg (x y a b : Int) : 0 ≤ capCell x y a b := by
  have h1 := fitV_nonneg (y - b)
  have h2 := hitV_nonneg (y - b)
  have h3 := fitV_nonneg (x - a)
  have h4 := hitV_nonneg (x - a)
  unfold capCell capV
  split_ifs <;> omega

theorem ind_drop (e p : Prop) [Decidable e] [Decidable p] :
    (if e ∧ p then (1 : Int) else 0) ≤ if p then 1 else 0 := by
  split_ifs <;> first | omega | tauto

/-- The fit-count loops of the cell `(x, y)` add at most `fitV` along its
column and its row, and nothing elsewhere. -/
theorem emptyGain_le (game : Game) (s x y a b : Int) :
    ((List.range (5 - s + 1).toNat).map fun (k : Nat) =>
        lengthGain game x y (s + (k : Int)) a b).sum
      ≤ (if a = x then fitV (y - b) else 0) + (if b = y then fitV (x - a) else 0) := by
  have hterm : ∀ k ∈ List.range (5 - s + 1).toNat,
      lengthGain game x y (s + (k : Int)) a b
        ≤ (((if a = x ∧ 0 ≤ y - b ∧ y - b < s + (k : Int) - 1 then (1 : Int) else 0)
          + (if a = x ∧ 0 ≤ b - y ∧ b - y < s + (k : Int) - 1 then (1 : Int) else 0))
          + (if b = y ∧ 0 ≤ x - a ∧ x - a < s + (k : Int) - 1 then (1 : Int) else 0))
          + (if b = y ∧ 0 ≤ a - x ∧ a - x < s + (k : Int) - 1 then (1 : Int) else 0) := by
    intro k _
    unfold lengthGain
    have h1 := ind_drop (EvalUp game x y (s + (k : Int)) = true)
      (a = x ∧ 0 ≤ y - b ∧ y - b < s + (k : Int) - 1)
    have h2 := ind_drop (EvalDown game x y (s + (k : Int)) = true)
      (a = x ∧ 0 ≤ b - y ∧ b - y < s + (k : Int) - 1)
    have h3 := ind_drop (EvalLeft game x y (s + (k : Int)) = true)
      (b = y ∧ 0 ≤ x - a ∧ x - a < s + (k : Int) - 1)
    have h4 := ind_drop (EvalRight game x y (s + (k : Int)) = true)
      (b = y ∧ 0 ≤ a - x ∧ a - x < s + (k : Int) - 1)
    omega
  refine le_trans (List.sum_le_sum hterm) ?_
  simp only [List.sum_map_add]
  have hU := fit_sum_le s (y - b) (a = x)
  have hD := fit_sum_le s (b - y) (a = x)
  have hL := fit_sum_le s (x - a) (b = y)
  have hR := fit_sum_le s (a - x) (b = y)
  have hV : (if a = x ∧ 0 ≤ y - b ∧ y - b ≤ 3 then 4 - (y - b) else 0)
      + (if a = x ∧ 0 ≤ b - y ∧ b - y ≤ 3 then 4 - (b - y) else 0)
      ≤ (if a = x then fitV (y - b) else 0) := by
    unfold fitV
    split_ifs <;> omega
  have hH : (if b = y ∧ 0 ≤ x - a ∧ x - a ≤ 3 then 4 - (x - a) else 0)
      + (if b = y ∧ 0 ≤ a - x ∧ a - x ≤ 3 then 4 - (a - x) else 0)
      ≤ (if b = y then fitV (x - a) else 0) := by
    unfold fitV
    split_ifs <;> omega
  omega

/-- The HIT branch of the cell `(x, y)` adds at most `hitV` along its column
and its row, and nothing elsewhere. -/
theorem hitGain_le (game : Game) (x y a b : Int) :
    hitGain game x y a b
      ≤ (if a = x then hitV (y - b) else 0) + (if b = y then hitV (x - a) else 0) := by
  unfold hitGain
  have h1 := (hitTerm_bounds (EvalUp game x y 3 = true) (EvalUp game x y 2 = true)
    (a = x ∧ b = y - 1) (a = x ∧ b = y - 2)).2
  have h2 := (hitTerm_bounds (EvalDown game x y 3 = true) (EvalDown game x y 2 = true)
    (a = x ∧ b = y + 1) (a = x ∧ b = y + 2)).2
  have h3 := (hitTerm_bounds (EvalLeft game x y 3 = true) (EvalLeft game x y 2 = true)
    (a = x - 1 ∧ b = y) (a = x - 2 ∧ b = y)).2
  have h4 := (hitTerm_bounds (EvalRight game x y 3 = true) (EvalRight game x y 2 = true)
    (a = x + 1 ∧ b = y) (a = x + 2 ∧ b = y)).2
  have hV : ((if a = x ∧ b = y - 1 then (100 : Int) else 0) + (if a = x ∧ b = y - 2 then 50 else 0))
      + ((if a = x ∧ b = y + 1 then (100 : Int) else 0) + (if a = x ∧ b = y + 2 then 50 else 0))
      ≤ (if a = x then hitV (y - b) else 0) := by
    unfold hitV
    split_ifs <;> omega
  have hH : ((if a = x - 1 ∧ b = y then (100 : Int) else 0) + (if a = x - 2 ∧ b = y then 50 else 0))
      + ((if a = x + 1 ∧ b = y then (100 : Int) else 0) + (if a = x + 2 ∧ b = y then 50 else 0))
      ≤ (if b = y then hitV (x - a) else 0) := by
    unfold hitV
    split_ifs <;> omega
  omega

/-- What the loop body of the cell `(x, y)` adds to a different cell, or to
itself when it is not SHOT_DOWN, is at most `capCell`. -/
theorem cellStep_le_cap (game : Game) (s x y a b : Int)
    (h : game.compTargeting x y = SHOT_DOWN → ¬ (a = x ∧ b = y)) :
    cellStep game s x y zeroWeights a b ≤ capCell x y a b := by
  rw [cellStep_apply]
  simp only [zeroWeights, zero_add]
  have hf1 := fitV_nonneg (y - b)
  have hh1 := hitV_nonneg (y - b)
  have hf2 := fitV_nonneg (x - a)
  have hh2 := hitV_nonneg (x - a)
  have hcap := capCell_nonneg x y a b
  cases hst : game.compTargeting x y
  · simpa using hcap
  · have := hitGain_le game x y a b
    show hitGain game x y a b ≤ capCell x y a b
    unfold capCell capV
    split_ifs at this ⊢ <;> omega
  · have := emptyGain_le game s x y a b
    show ((List.range (5 - s + 1).toNat).map fun (k : Nat) =>
        lengthGain game x y (s + (k : Int)) a b).sum ≤ capCell x y a b
    unfold capCell capV
    split_ifs at this ⊢ <;> omega
  · simpa using hcap
  · simpa using hcap
  · show (if a = x ∧ b = y then (1000 : Int) else 0) ≤ capCell x y a b
    rw [if_neg (h hst)]
    exact hcap

theorem capV_line_sum : ∀ c ∈ idx10, (idx10.map fun z => capV (z - c)).sum ≤ 320 := by
  decide!

/-- A cell of the board that is not SHOT_DOWN weighs at most 640. -/
theorem weighGrid_le (game : Game) (s a b : Int) (hab : onBoard a b)
    (hns : game.compTargeting a b ≠ SHOT_DOWN) : weighGrid game s a b ≤ 640 := by
  rw [weighGrid_apply]
  have hle : (idx10.map fun x => (idx10.map fun y => cellStep game s x y zeroWeights a b).sum).sum
      ≤ (idx10.map fun x => (idx10.map fun y => capCell x y a b).sum).sum := by
    apply List.sum_le_sum
    intro x _
    apply List.sum_le_sum
    intro y _
    apply cellStep_le_cap
    rintro hsd ⟨rfl, rfl⟩
    exact hns hsd
  refine le_trans hle ?_
  unfold capCell
  rw [sum_cross a b ((mem_idx10 a).2 hab.1) ((mem_idx10 b).2 hab.2)
    (fun y => capV (y - b)) (fun x => capV (x - a))]
  have h1 := capV_line_sum b ((mem_idx10 b).2 hab.2)
  have h2 := capV_line_sum a ((mem_idx10 a).2 hab.1)
  omega

/-- A SHOT_DOWN cell of the board weighs at least 1000. -/
theorem weighGrid_shotDown (game : Game) (s a b : Int) (hab : onBoard a b)
    (hsd : game.compTargeting a b = SHOT_DOWN) : 1000 ≤ weighGrid game s a b := by
  refine le_trans ?_ (weighGrid_ge_own game s a b hab)
  rw [cellStep_apply, hsd]
  simp [zeroWeights]


/-! ## Reflections of the board -/

theorem all_range_congr (n : Nat) (p q : Nat → Bool) (h : ∀ k, k < n → p k = q k) :
    (List.range n).all p = (List.range n).all q := by
  apply Bool.eq_iff_iff.2
  simp only [List.all_eq_true, List.mem_range]
  constructor
  · intro H k hk; rw [← h k hk]; exact H k hk
  · intro H k hk; rw [h k hk]; exact H k hk

theorem sum_idx10_reflect (F : Int → Int) :
    (idx10.map fun x => F (9 - x)).sum = (idx10.map F).sum := by
  simp only [idx10, List.map_cons, List.map_nil, List.sum_cons, List.sum_nil]
  norm_num
  ring

theorem ind_congr (e p q : Prop) [Decidable e] [Decidable p] [Decidable q] (h : p ↔ q) :
    (if e ∧ p then (1 : Int) else 0) = if e ∧ q then 1 else 0 := by
  simp only [h]

/-! ### Reflection of the first index -/




theorem evalUp_reflX (game : Game)
    (hsym : ∀ x y, onBoard x y → game.compTargeting (9 - x) y = game.compTargeting x y)
    (x y i : Int) (h : onBoard x y) :
    EvalUp game (9 - x) y i = EvalUp game x y i := by
  unfold EvalUp
  by_cases hb : y - (i - 1) < 0
  · rw [if_pos hb, if_pos hb]
  · rw [if_neg hb, if_neg hb]
    apply all_range_congr
    intro k hk
    have hc : onBoard x (y - ((k : Int) + 1)) := by
      unfold onBoard at *; omega
    rw [hsym _ _ hc]

theorem evalDown_reflX (game : Game)
    (hsym : ∀ x y, onBoard x y → game.compTargeting (9 - x) y = game.compTargeting x y)
    (x y i : Int) (h : onBoard x y) :
    EvalDown game (9 - x) y i = EvalDown game x y i := by
  unfold EvalDown
  by_cases hb : y + (i - 1) > 9
  · rw [if_pos hb, if_pos hb]
  · rw [if_neg hb, if_neg hb]
    apply all_range_congr
    intro k hk
    have hc : onBoard x (y + ((k : Int) + 1)) := by
      unfold onBoard at *; omega
    rw [hsym _ _ hc]

theorem evalLeft_reflX (game : Game)
    (hsym : ∀ x y, onBoard x y → game.compTargeting (9 - x) y = game.compTargeting x y)
    (x y i : Int) (h : onBoard x y) :
    EvalLeft game (9 - x) y i = EvalRight game x y i := by
  unfold EvalLeft EvalRight
  by_cases hb : x + (i - 1) > 9
  · rw [if_pos hb, if_pos (by omega)]
  · rw [if_neg hb, if_neg (by omega)]
    apply all_range_congr
    intro k hk
    have hc : onBoard (x + ((k : Int) + 1)) y := by
      unfold onBoard at *; omega
    have he : 9 - x - ((k : Int) + 1) = 9 - (x + ((k : Int) + 1)) := by ring
    rw [he, hsym _ _ hc]

theorem evalRight_reflX (game : Game)
    (hsym : ∀ x y, onBoard x y → game.compTargeting (9 - x) y = game.compTargeting x y)
    (x y i : Int) (h : onBoard x y) :
    EvalRight game (9 - x) y i = EvalLeft game x y i := by
  unfold EvalLeft EvalRight
  by_cases hb : x - (i - 1) < 0
  · rw [if_pos hb, if_pos (by omega)]
  · rw [if_neg hb, if_neg (by omega)]
    apply all_range_congr
    intro k hk
    have hc : onBoard (x - ((k : Int) + 1)) y := by
      unfold onBoard at *; omega
    have he : 9 - x + ((k : Int) + 1) = 9 - (x - ((k : Int) + 1)) := by ring
    rw [he, hsym _ _ hc]

theorem lengthGain_reflX (game : Game)
    (hsym : ∀ x y, onBoard x y → game.compTargeting (9 - x) y = game.compTargeting x y)
    (x y i a b : Int) (h : onBoard x y) :
    lengthGain game (9 - x) y i (9 - a) b = lengthGain game x y i a b := by
  unfold lengthGain
  rw [evalUp_reflX game hsym x y i h, evalDown_reflX game hsym x y i h,
    evalLeft_reflX game hsym x y i h, evalRight_reflX game hsym x y i h]
  rw [ind_congr (EvalUp game x y i = true) (9 - a = 9 - x ∧ 0 ≤ y - b ∧ y - b < i - 1)
      (a = x ∧ 0 ≤ y - b ∧ y - b < i - 1) (by omega),
    ind_congr (EvalDown game x y i = true) (9 - a = 9 - x ∧ 0 ≤ b - y ∧ b - y < i - 1)
      (a = x ∧ 0 ≤ b - y ∧ b - y < i - 1) (by omega),
    ind_congr (EvalRight game x y i = true) (b = y ∧ 0 ≤ 9 - x - (9 - a) ∧ 9 - x - (9 - a) < i - 1)
      (b = y ∧ 0 ≤ a - x ∧ a - x < i - 1) (by omega),
    ind_congr (EvalLeft game x y i = true) (b = y ∧ 0 ≤ 9 - a - (9 - x) ∧ 9 - a - (9 - x) < i - 1)
      (b = y ∧ 0 ≤ x - a ∧ x - a < i - 1) (by omega)]
  ring

theorem cellStep_reflX (game : Game)
    (hsym : ∀ x y, onBoard x y → game.compTargeting (9 - x) y = game.compTargeting x y)
    (s x y a b : Int) (h : onBoard x y)
    (hne : game.compTargeting x y ≠ HIT ∧ game.compTargeting x y ≠ SHOT_DOWN) :
    cellStep game s (9 - x) y zeroWeights (9 - a) b = cellStep game s x y zeroWeights a b := by
  rw [cellStep_apply, cellStep_apply, hsym x y h]
  simp only [zeroWeights, zero_add]
  cases hst : game.compTargeting x y
  · rfl
  · exact absurd hst hne.1
  · simp only
    congr 1
    apply List.map_congr_left
    intro k _
    exact lengthGain_reflX game hsym x y _ a b h
  · rfl
  · rfl
  · exact absurd hst hne.2

theorem weighGrid_reflX (game : Game)
    (hsym : ∀ x y, onBoard x y → game.compTargeting (9 - x) y = game.compTargeting x y)
    (s a b : Int)
    (hne : ∀ x y, onBoard x y →
      game.compTargeting x y ≠ HIT ∧ game.compTargeting x y ≠ SHOT_DOWN) :
    weighGrid game s (9 - a) b = weighGrid game s a b := by
  rw [weighGrid_apply, weighGrid_apply,
    ← sum_idx10_reflect (fun x => (idx10.map fun y => cellStep game s x y zeroWeights a b).sum)]
  congr 1
  apply List.map_congr_left
  intro x hx
  congr 1
  apply List.map_congr_left
  intro y hy
  have hxy : onBoard (9 - x) y := by
    have := (mem_idx10 x).1 hx
    have := (mem_idx10 y).1 hy
    unfold onBoard; omega
  have := cellStep_reflX game hsym s (9 - x) y a b hxy (hne _ _ hxy)
  rw [sub_sub_cancel] at this
  exact this

theorem finalWeights_reflX (game : Game)
    (hsym : ∀ x y, onBoard x y → game.compTargeting (9 - x) y = game.compTargeting x y)
    (s a b : Int) (hab : onBoard a b)
    (hne : ∀ x y, onBoard x y →
      game.compTargeting x y ≠ HIT ∧ game.compTargeting x y ≠ SHOT_DOWN) :
    finalWeights game s (9 - a) b = finalWeights game s a b := by
  have hab' : onBoard (9 - a) b := by unfold onBoard at *; omega
  rw [finalWeights_apply game s a b hab, finalWeights_apply game s _ b hab']
  unfold settled zeroed
  simp only [hsym a b hab, weighGrid_reflX game hsym s a b hne]


/-! ### Reflection of the second index -/




theorem evalLeft_reflY (game : Game)
    (hsym : ∀ x y, onBoard x y → game.compTargeting x (9 - y) = game.compTargeting x y)
    (x y i : Int) (h : onBoard x y) :
    EvalLeft game x (9 - y) i = EvalLeft game x y i := by
  unfold EvalLeft
  by_cases hb : x - (i - 1) < 0
  · rw [if_pos hb, if_pos hb]
  · rw [if_neg hb, if_neg hb]
    apply all_range_congr
    intro k hk
    have hc : onBoard (x - ((k : Int) + 1)) y := by
      unfold onBoard at *; omega
    rw [hsym _ _ hc]

theorem evalRight_reflY (game : Game)
    (hsym : ∀ x y, onBoard x y → game.compTargeting x (9 - y) = game.compTargeting x y)
    (x y i : Int) (h : onBoard x y) :
    EvalRight game x (9 - y) i = EvalRight game x y i := by
  unfold EvalRight
  by_cases hb : x + (i - 1) > 9
  · rw [if_pos hb, if_pos hb]
  · rw [if_neg hb, if_neg hb]
    apply all_range_congr
    intro k hk
    have hc : onBoard (x + ((k : Int) + 1)) y := by
      unfold onBoard at *; omega
    rw [hsym _ _ hc]

theorem evalUp_reflY (game : Game)
    (hsym : ∀ x y, onBoard x y → game.compTargeting x (9 - y) = game.compTargeting x y)
    (x y i : Int) (h : onBoard x y) :
    EvalUp game x (9 - y) i = EvalDown game x y i := by
  unfold EvalUp EvalDown
  by_cases hb : y + (i - 1) > 9
  · rw [if_pos hb, if_pos (by omega)]
  · rw [if_neg hb, if_neg (by omega)]
    apply all_range_congr
    intro k hk
    have hc : onBoard x (y + ((k : Int) + 1)) := by
      unfold onBoard at *; omega
    have he : 9 - y - ((k : Int) + 1) = 9 - (y + ((k : Int) + 1)) := by ring
    rw [he, hsym _ _ hc]

theorem evalDown_reflY (game : Game)
    (hsym : ∀ x y, onBoard x y → game.compTargeting x (9 - y) = game.compTargeting x y)
    (x y i : Int) (h : onBoard x y) :
    EvalDown game x (9 - y) i = EvalUp game x y i := by
  unfold EvalUp EvalDown
  by_cases hb : y - (i - 1) < 0
  · rw [if_pos hb, if_pos (by omega)]
  · rw [if_neg hb, if_neg (by omega)]
    apply all_range_congr
    intro k hk
    have hc : onBoard x (y - ((k : Int) + 1)) := by
      unfold onBoard at *; omega
    have he : 9 - y + ((k : Int) + 1) = 9 - (y - ((k : Int) + 1)) := by ring
    rw [he, hsym _ _ hc]

theorem lengthGain_reflY (game : Game)
    (hsym : ∀ x y, onBoard x y → game.compTargeting x (9 - y) = game.compTargeting x y)
    (x y i a b : Int) (h : onBoard x y) :
    lengthGain game x (9 - y) i a (9 - b) = lengthGain game x y i a b := by
  unfold lengthGain
  rw [evalUp_reflY game hsym x y i h, evalDown_reflY game hsym x y i h,
    evalLeft_reflY game hsym x y i h, evalRight_reflY game hsym x y i h]
  rw [ind_congr (EvalDown game x y i = true) (a = x ∧ 0 ≤ 9 - y - (9 - b) ∧ 9 - y - (9 - b) < i - 1)
      (a = x ∧ 0 ≤ b - y ∧ b - y < i - 1) (by omega),
    ind_congr (EvalUp game x y i = true) (a = x ∧ 0 ≤ 9 - b - (9 - y) ∧ 9 - b - (9 - y) < i - 1)
      (a = x ∧ 0 ≤ y - b ∧ y - b < i - 1) (by omega),
    ind_congr (EvalLeft game x y i = true) (9 - b = 9 - y ∧ 0 ≤ x - a ∧ x - a < i - 1)
      (b = y ∧ 0 ≤ x - a ∧ x - a < i - 1) (by omega),
    ind_congr (EvalRight game x y i = true) (9 - b = 9 - y ∧ 0 ≤ a - x ∧ a - x < i - 1)
      (b = y ∧ 0 ≤ a - x ∧ a - x < i - 1) (by omega)]
  ring

theorem cellStep_reflY (game : Game)
    (hsym : ∀ x y, onBoard x y → game.compTargeting x (9 - y) = game.compTargeting x y)
    (s x y a b : Int) (h : onBoard x y)
    (hne : game.compTargeting x y ≠ HIT ∧ game.compTargeting x y ≠ SHOT_DOWN) :
    cellStep game s x (9 - y) zeroWeights a (9 - b) = cellStep game s x y zeroWeights a b := by
  rw [cellStep_apply, cellStep_apply, hsym x y h]
  simp only [zeroWeights, zero_add]
  cases hst : game.compTargeting x y
  · rfl
  · exact absurd hst hne.1
  · simp only
    congr 1
    apply List.map_congr_left
    intro k _
    exact lengthGain_reflY game hsym x y _ a b h
  · rfl
  · rfl
  · exact absurd hst hne.2

theorem weighGrid_reflY (game : Game)
    (hsym : ∀ x y, onBoard x y → game.compTargeting x (9 - y) = game.compTargeting x y)
    (s a b : Int)
    (hne : ∀ x y, onBoard x y →
      game.compTargeting x y ≠ HIT ∧ game.compTargeting x y ≠ SHOT_DOWN) :
    weighGrid game s a (9 - b) = weighGrid game s a b := by
  rw [weighGrid_apply, weighGrid_apply]
  congr 1
  apply List.map_congr_left
  intro x hx
  rw [← sum_idx10_reflect (fun y => cellStep game s x y zeroWeights a b)]
  congr 1
  apply List.map_congr_left
  intro y hy
  have hxy : onBoard x (9 - y) := by
    have := (mem_idx10 x).1 hx
    have := (mem_idx10 y).1 hy
    unfold onBoard; omega
  have := cellStep_reflY game hsym s x (9 - y) a b hxy (hne _ _ hxy)
  rw [sub_sub_cancel] at this
  exact this

theorem finalWeights_reflY (game : Game)
    (hsym : ∀ x y, onBoard x y → game.compTargeting x (9 - y) = game.compTargeting x y)
    (s a b : Int) (hab : onBoard a b)
    (hne : ∀ x y, onBoard x y →
      game.compTargeting x y ≠ HIT ∧ game.compTargeting x y ≠ SHOT_DOWN) :
    finalWeights game s a (9 - b) = finalWeights game s a b := by
  have hab' : onBoard a (9 - b) := by unfold onBoard at *; omega
  rw [finalWeights_apply game s a b hab, finalWeights_apply game s a _ hab']
  unfold settled zeroed
  simp only [hsym a b hab, weighGrid_reflY game hsym s a b hne]





/-! ## The all-EMPTY board -/

theorem allEmpty_state (x y : Int) : allEmpty.compTargeting x y = EMPTY := rfl

theorem evalUp_allEmpty (x y i : Int) : EvalUp allEmpty x y i = true ↔ 0 ≤ y - (i - 1) := by
  unfold EvalUp
  simp only [allEmpty_state]
  split_ifs with h
  · simp; omega
  · simp; omega

theorem evalDown_allEmpty (x y i : Int) : EvalDown allEmpty x y i = true ↔ y + (i - 1) ≤ 9 := by
  unfold EvalDown
  simp only [allEmpty_state]
  split_ifs with h
  · simp; omega
  · simp; omega

theorem evalLeft_allEmpty (x y i : Int) : EvalLeft allEmpty x y i = true ↔ 0 ≤ x - (i - 1) := by
  unfold EvalLeft
  simp only [allEmpty_state]
  split_ifs with h
  · simp; omega
  · simp; omega

theorem evalRight_allEmpty (x y i : Int) : EvalRight allEmpty x y i = true ↔ x + (i - 1) ≤ 9 := by
  unfold EvalRight
  simp only [allEmpty_state]
  split_ifs with h
  · simp; omega
  · simp; omega

theorem lengthGain_allEmpty (x y i a b : Int) :
    lengthGain allEmpty x y i a b
      = (if a = x then
          (if 0 ≤ y - (i - 1) ∧ 0 ≤ y - b ∧ y - b < i - 1 then (1 : Int) else 0)
          + (if y + (i - 1) ≤ 9 ∧ 0 ≤ b - y ∧ b - y < i - 1 then 1 else 0) else 0)
        + (if b = y then
          (if 0 ≤ x - (i - 1) ∧ 0 ≤ x - a ∧ x - a < i - 1 then (1 : Int) else 0)
          + (if x + (i - 1) ≤ 9 ∧ 0 ≤ a - x ∧ a - x < i - 1 then 1 else 0) else 0) := by
  unfold lengthGain
  simp only [evalUp_allEmpty, evalDown_allEmpty, evalLeft_allEmpty, evalRight_allEmpty]
  have hV : (if 0 ≤ y - (i - 1) ∧ a = x ∧ 0 ≤ y - b ∧ y - b < i - 1 then (1 : Int) else 0)
      + (if y + (i - 1) ≤ 9 ∧ a = x ∧ 0 ≤ b - y ∧ b - y < i - 1 then 1 else 0)
      = (if a = x then
          (if 0 ≤ y - (i - 1) ∧ 0 ≤ y - b ∧ y - b < i - 1 then (1 : Int) else 0)
          + (if y + (i - 1) ≤ 9 ∧ 0 ≤ b - y ∧ b - y < i - 1 then 1 else 0) else 0) := by
    split_ifs <;> omega
  have hH : (if 0 ≤ x - (i - 1) ∧ b = y ∧ 0 ≤ x - a ∧ x - a < i - 1 then (1 : Int) else 0)
      + (if x + (i - 1) ≤ 9 ∧ b = y ∧ 0 ≤ a - x ∧ a - x < i - 1 then 1 else 0)
      = (if b = y then
          (if 0 ≤ x - (i - 1) ∧ 0 ≤ x - a ∧ x - a < i - 1 then (1 : Int) else 0)
          + (if x + (i - 1) ≤ 9 ∧ 0 ≤ a - x ∧ a - x < i - 1 then 1 else 0) else 0) := by
    split_ifs <;> omega
  omega

theorem cellStep_allEmpty (s x y a b : Int) :
    cellStep allEmpty s x y zeroWeights a b
      = (if a = x then lineGain s y b else 0) + (if b = y then lineGain s x a else 0) := by
  rw [cellStep_apply, allEmpty_state]
  simp only [zeroWeights, zero_add, lengthGain_allEmpty, lineGain, List.sum_map_add,
    sum_map_ite_const]

/-- On the all-EMPTY board the weight of a cell is the sum of what it receives
along its column and along its row. -/
theorem weighGrid_allEmpty (s a b : Int) (hab : onBoard a b) :
    weighGrid allEmpty s a b = lineWeight s b + lineWeight s a := by
  rw [weighGrid_apply]
  simp only [cellStep_allEmpty]
  exact sum_cross a b ((mem_idx10 a).2 hab.1) ((mem_idx10 b).2 hab.2)
    (fun y => lineGain s y b) (fun x => lineGain s x a)

theorem finalWeights_allEmpty (s a b : Int) (hab : onBoard a b) :
    finalWeights allEmpty s a b = lineWeight s a + lineWeight s b := by
  rw [finalWeights_apply allEmpty s a b hab]
  unfold settled zeroed
  simp only [allEmpty_state]
  rw [weighGrid_allEmpty s a b hab]
  simp
  ring

theorem lineWeight_two : ∀ c ∈ idx10, lineWeight 2 c = docLine c := by
  decide!

theorem lineWeight_five :
    ∀ c ∈ idx10, lineWeight 5 c ≤ 8 ∧ (lineWeight 5 c = 8 → c = 4 ∨ c = 5) := by
  decide!

theorem lineWeight_five_four : lineWeight 5 4 = 8 := by
  decide!

theorem documentedGrid_eq :
    ∀ x ∈ idx10, ∀ y ∈ idx10, documentedAt x y = docLine x + docLine y := by
  decide!

theorem docLine_le : ∀ c ∈ idx10, docLine c ≤ 20 := by
  decide!

/-! ## Sums over the board -/

theorem sum_idx10_ite' (c : Int) (hc : c ∈ idx10) (F : Int → Int) :
    (idx10.map fun z => if z = c then F z else 0).sum = F c := by
  rw [← sum_idx10_ite c hc F]
  congr 1
  apply List.map_congr_left
  intro z _
  by_cases h : z = c
  · rw [if_pos h, if_pos h.symm]
  · rw [if_neg h, if_neg (fun h' => h h'.symm)]

theorem boardSum_addAt (t : Weights) (x y v : Int) (h : onBoard x y) :
    boardSum (addAt t x y v) = boardSum t + v := by
  unfold boardSum
  have hterm : ∀ a b, addAt t x y v a b
      = t a b + (if a = x then (if b = y then v else 0) else 0) := by
    intro a b
    unfold addAt
    split_ifs <;> omega
  simp only [hterm, List.sum_map_add, sum_map_ite_const]
  rw [sum_idx10_ite' y ((mem_idx10 y).2 h.2) (fun _ => v),
    sum_idx10_ite' x ((mem_idx10 x).2 h.1) (fun _ => v)]

theorem boardSum_run {α : Type} (l : List α) (px py : α → Int)
    (h : ∀ n ∈ l, onBoard (px n) (py n)) (t : Weights) :
    boardSum (l.foldl (fun t n => addAt t (px n) (py n) 1) t) = boardSum t + (l.length : Int) := by
  induction l generalizing t with
  | nil => simp
  | cons n l ih =>
    simp only [List.foldl_cons, List.length_cons]
    rw [ih (fun m hm => h m (List.mem_cons_of_mem _ hm)),
      boardSum_addAt t _ _ 1 (h n (List.mem_cons_self _ _))]
    push_cast
    ring

theorem evalUp_bound (game : Game) (x y i : Int) (h : EvalUp game x y i = true) :
    0 ≤ y - (i - 1) := by
  unfold EvalUp at h
  split_ifs at h with hb
  omega

theorem evalDown_bound (game : Game) (x y i : Int) (h : EvalDown game x y i = true) :
    y + (i - 1) ≤ 9 := by
  unfold EvalDown at h
  split_ifs at h with hb
  omega

theorem evalLeft_bound (game : Game) (x y i : Int) (h : EvalLeft game x y i = true) :
    0 ≤ x - (i - 1) := by
  unfold EvalLeft at h
  split_ifs at h with hb
  omega

theorem evalRight_bound (game : Game) (x y i : Int) (h : EvalRight game x y i = true) :
    x + (i - 1) ≤ 9 := by
  unfold EvalRight at h
  split_ifs at h with hb
  omega

/-- A run that fits adds `i - 1` to the sum of the weight map. -/
theorem boardSum_runs (game : Game) (x y i : Int) (hxy : onBoard x y) (hi : 1 ≤ i)
    (t : Weights) :
    (EvalUp game x y i = true → boardSum (runUp game x y i t) = boardSum t + (i - 1)) ∧
    (EvalDown game x y i = true → boardSum (runDown game x y i t) = boardSum t + (i - 1)) ∧
    (EvalLeft game x y i = true → boardSum (runLeft game x y i t) = boardSum t + (i - 1)) ∧
    (EvalRight game x y i = true → boardSum (runRight game x y i t) = boardSum t + (i - 1)) := by
  have hlen : (((List.range (i - 1).toNat).length : Nat) : Int) = i - 1 := by
    rw [List.length_range]; omega
  unfold onBoard at hxy
  refine ⟨?_, ?_, ?_, ?_⟩
  · intro h
    have hb := evalUp_bound game x y i h
    unfold runUp
    rw [if_pos h, boardSum_run (List.range (i - 1).toNat) (fun _ => x) (fun n => y - (n : Int)),
      hlen]
    intro n hn
    rw [List.mem_range] at hn
    unfold onBoard; omega
  · intro h
    have hb := evalDown_bound game x y i h
    unfold runDown
    rw [if_pos h, boardSum_run (List.range (i - 1).toNat) (fun _ => x) (fun n => y + (n : Int)),
      hlen]
    intro n hn
    rw [List.mem_range] at hn
    unfold onBoard; omega
  · intro h
    have hb := evalLeft_bound game x y i h
    unfold runLeft
    rw [if_pos h, boardSum_run (List.range (i - 1).toNat) (fun n => x - (n : Int)) (fun _ => y),
      hlen]
    intro n hn
    rw [List.mem_range] at hn
    unfold onBoard; omega
  · intro h
    have hb := evalRight_bound game x y i h
    unfold runRight
    rw [if_pos h, boardSum_run (List.range (i - 1).toNat) (fun n => x + (n : Int)) (fun _ => y),
      hlen]
    intro n hn
    rw [List.mem_range] at hn
    unfold onBoard; omega



/-! ## `SmallestShipAlive` -/

theorem smallestShipAlive_eq_foldl (game : Game) (h : game.userFleet.length = 5) :
    SmallestShipAlive game = game.userFleet.foldl smallestStep 5 := by
  unfold SmallestShipAlive
  match hf : game.userFleet, h with
  | [a, b, c, d, e], _ => simp [List.range_succ]

theorem smallest_foldl_spec (l : List Ship) (m : Int) :
    l.foldl smallestStep m ≤ m ∧
    (∀ ship ∈ l, ship.shipState = ShipState.AFLOAT → l.foldl smallestStep m ≤ ship.shipSize) ∧
    (l.foldl smallestStep m = m ∨
      ∃ ship ∈ l, ship.shipState = ShipState.AFLOAT ∧ l.foldl smallestStep m = ship.shipSize) := by
  induction l generalizing m with
  | nil => simp
  | cons a l ih =>
    simp only [List.foldl_cons, List.mem_cons]
    obtain ⟨h1, h2, h3⟩ := ih (smallestStep m a)
    have hstep : smallestStep m a ≤ m ∧
        (a.shipState = ShipState.AFLOAT → smallestStep m a ≤ a.shipSize) ∧
        (smallestStep m a = m ∨
          (a.shipState = ShipState.AFLOAT ∧ smallestStep m a = a.shipSize)) := by
      unfold smallestStep
      split_ifs with hs hlt
      · exact ⟨by omega, fun _ => le_refl _, Or.inr ⟨hs, rfl⟩⟩
      · exact ⟨le_refl _, fun _ => by omega, Or.inl rfl⟩
      · exact ⟨le_refl _, fun h => absurd h hs, Or.inl rfl⟩
    refine ⟨le_trans h1 hstep.1, ?_, ?_⟩
    · rintro ship (rfl | hmem) hs
      · exact le_trans h1 (hstep.2.1 hs)
      · exact h2 ship hmem hs
    · rcases h3 with h3 | ⟨ship, hmem, hs, heq⟩
      · rcases hstep.2.2 with h4 | ⟨hs, h4⟩
        · left; rw [h3, h4]
        · right; exact ⟨a, Or.inl rfl, hs, by rw [h3, h4]⟩
      · right; exact ⟨ship, Or.inr hmem, hs, heq⟩


/-! ## Positive weights -/

theorem settled_le (game : Game) (s a b : Int) :
    settled game (weighGrid game s) a b ≤ weighGrid game s a b := by
  have := weighGrid_nonneg game s a b
  unfold settled
  split_ifs <;> omega

theorem settled_pos_not_zeroed (game : Game) (tmp0 : Weights) (a b : Int)
    (h : 0 < settled game tmp0 a b) : ¬ zeroed game a b := by
  intro hz
  unfold settled at h
  rw [if_pos hz] at h
  omega

theorem settled_of_not_zeroed (game : Game) (tmp0 : Weights) (a b : Int)
    (h : ¬ zeroed game a b) : settled game tmp0 a b = tmp0 a b := by
  unfold settled
  rw [if_neg h]

theorem not_zeroed_of_shotDown (game : Game) (a b : Int)
    (h : game.compTargeting a b = SHOT_DOWN) : ¬ zeroed game a b := by
  intro hz
  unfold zeroed at hz
  rw [h] at hz
  rcases hz with hz | hz | hz <;> exact absurd hz (by decide)

theorem not_zeroed_of_empty (game : Game) (a b : Int)
    (h : game.compTargeting a b = EMPTY) : ¬ zeroed game a b := by
  intro hz
  unfold zeroed at hz
  rw [h] at hz
  rcases hz with hz | hz | hz <;> exact absurd hz (by decide)

/-- With `s ≤ 2` an EMPTY cell of the board gets a positive weight: a run of
length 2 fits upwards or downwards from it. -/
theorem weighGrid_pos_of_empty (game : Game) (s a b : Int) (hab : onBoard a b) (hs : s ≤ 2)
    (hE : game.compTargeting a b = EMPTY) : 0 < weighGrid game s a b := by
  refine lt_of_lt_of_le ?_ (weighGrid_ge_own game s a b hab)
  rw [cellStep_apply, hE]
  simp only [zeroWeights, zero_add]
  have hmem : lengthGain game a b (s + (((2 - s).toNat : Nat) : Int)) a b
      ∈ (List.range (5 - s + 1).toNat).map fun (k : Nat) =>
        lengthGain game a b (s + (k : Int)) a b := by
    apply List.mem_map.2
    refine ⟨(2 - s).toNat, ?_, rfl⟩
    rw [List.mem_range]
    omega
  have hle := List.single_le_sum (fun v hv => by
    rw [List.mem_map] at hv
    obtain ⟨k, _, rfl⟩ := hv
    exact lengthGain_nonneg game a b _ a b) _ hmem
  refine lt_of_lt_of_le ?_ hle
  have h2 : s + (((2 - s).toNat : Nat) : Int) = 2 := by omega
  rw [h2]
  unfold lengthGain
  unfold onBoard at hab
  have hU : (0 : Int) ≤ if EvalUp game a b 2 = true ∧ a = a ∧ 0 ≤ b - b ∧ b - b < 2 - 1
      then 1 else 0 := by split_ifs <;> omega
  have hL : (0 : Int) ≤ if EvalLeft game a b 2 = true ∧ b = b ∧ 0 ≤ a - a ∧ a - a < 2 - 1
      then 1 else 0 := by split_ifs <;> omega
  have hR : (0 : Int) ≤ if EvalRight game a b 2 = true ∧ b = b ∧ 0 ≤ a - a ∧ a - a < 2 - 1
      then 1 else 0 := by split_ifs <;> omega
  have hD : (0 : Int) ≤ if EvalDown game a b 2 = true ∧ a = a ∧ 0 ≤ b - b ∧ b - b < 2 - 1
      then 1 else 0 := by split_ifs <;> omega
  by_cases hb : 1 ≤ b
  · have hup : EvalUp game a b 2 = true := by
      unfold EvalUp
      rw [if_neg (by omega)]
      simp
    rw [if_pos ⟨hup, rfl, by omega, by omega⟩]
    omega
  · have hdown : EvalDown game a b 2 = true := by
      unfold EvalDown
      rw [if_neg (by omega)]
      simp
    rw [if_pos (⟨hdown, rfl, by omega, by omega⟩ :
      EvalDown game a b 2 = true ∧ a = a ∧ 0 ≤ b - b ∧ b - b < 2 - 1)]
    omega


/-! ## The claims about `EvaluateGrid` -/

/-- C1 (amended): on every targeting grid on which some cell of the board ends
with a positive weight, which is the case when the grid has a SHOT_DOWN cell
and, for `s ≤ 2`, when it has an EMPTY cell, `EvaluateGrid` returns a
coordinate of the board that names a cell whose state is not HIT, not MISS and
not SINK (the returned pair is `(highY, highX)`, the cell is
`compTargeting[highX][highY]`). -/
theorem evaluateGrid_avoids_shot_cells (game : Game) (s : Int)
    (h : (∃ a b, onBoard a b ∧ game.compTargeting a b = SHOT_DOWN) ∨
      (s ≤ 2 ∧ ∃ a b, onBoard a b ∧ game.compTargeting a b = EMPTY) ∨
      (∃ a b, onBoard a b ∧ 0 < finalWeights game s a b)) :
    ∃ hx hy, onBoard hx hy ∧ EvaluateGrid game s = some (hy, hx) ∧
      game.compTargeting hx hy ≠ HIT ∧ game.compTargeting hx hy ≠ MISS ∧
      game.compTargeting hx hy ≠ SINK := by
  have hpos : ∃ a b, onBoard a b ∧ 0 < settled game (weighGrid game s) a b := by
    rcases h with ⟨a, b, hab, hsd⟩ | ⟨hs, a, b, hab, hE⟩ | ⟨a, b, hab, hp⟩
    · refine ⟨a, b, hab, ?_⟩
      have := weighGrid_shotDown game s a b hab hsd
      rw [settled_of_not_zeroed game _ a b (not_zeroed_of_shotDown game a b hsd)]
      omega
    · refine ⟨a, b, hab, ?_⟩
      have := weighGrid_pos_of_empty game s a b hab hs hE
      rw [settled_of_not_zeroed game _ a b (not_zeroed_of_empty game a b hE)]
      omega
    · exact ⟨a, b, hab, by rw [← finalWeights_apply game s a b hab]; exact hp⟩
  obtain ⟨hx, hy, hb, hres, hp, _⟩ := evaluateGrid_some game s hpos
  have hz := settled_pos_not_zeroed game _ hx hy hp
  unfold zeroed at hz
  exact ⟨hx, hy, hb, hres, fun h => hz (Or.inl h), fun h => hz (Or.inr (Or.inl h)),
    fun h => hz (Or.inr (Or.inr h))⟩

/-- C1, witness: the grid with the single EMPTY cell `(0, 0)` and `s = 2`. -/
theorem evaluateGrid_avoids_shot_cells_witness :
    ((∃ a b, onBoard a b ∧ lonelyCell.compTargeting a b = SHOT_DOWN) ∨
      ((2 : Int) ≤ 2 ∧ ∃ a b, onBoard a b ∧ lonelyCell.compTargeting a b = EMPTY) ∨
      (∃ a b, onBoard a b ∧ 0 < finalWeights lonelyCell 2 a b)) ∧
    ∃ hx hy, onBoard hx hy ∧ EvaluateGrid lonelyCell 2 = some (hy, hx) ∧
      lonelyCell.compTargeting hx hy ≠ HIT ∧ lonelyCell.compTargeting hx hy ≠ MISS ∧
      lonelyCell.compTargeting hx hy ≠ SINK :=
  have h : (∃ a b, onBoard a b ∧ lonelyCell.compTargeting a b = SHOT_DOWN) ∨
      ((2 : Int) ≤ 2 ∧ ∃ a b, onBoard a b ∧ lonelyCell.compTargeting a b = EMPTY) ∨
      (∃ a b, onBoard a b ∧ 0 < finalWeights lonelyCell 2 a b) :=
    Or.inr (Or.inl ⟨le_refl _, 0, 0, by decide, by decide⟩)
  ⟨h, evaluateGrid_avoids_shot_cells lonelyCell 2 h⟩

/-- C1, counterexample: the grid with the single EMPTY cell `(0, 0)`, every
other cell MISS, and `s = 3`.  No run of length 3, 4 or 5 fits from `(0, 0)`,
every weight is zero, and `EvaluateGrid` returns `highY`, `highX` without having
assigned them: no cell that is not HIT, MISS or SINK is named. -/
theorem evaluateGrid_lonelyCell_counterexample :
    (∃ a b, onBoard a b ∧
      (lonelyCell.compTargeting a b = EMPTY ∨ lonelyCell.compTargeting a b = SHOT_DOWN)) ∧
    EvaluateGrid lonelyCell 3 = none ∧
    ¬ ∃ hx hy, EvaluateGrid lonelyCell 3 = some (hy, hx) ∧
      lonelyCell.compTargeting hx hy ≠ HIT ∧ lonelyCell.compTargeting hx hy ≠ MISS ∧
      lonelyCell.compTargeting hx hy ≠ SINK := by
  have hnone : EvaluateGrid lonelyCell 3 = none := by decide!
  refine ⟨⟨0, 0, by decide, Or.inl (by decide)⟩, hnone, ?_⟩
  rintro ⟨hx, hy, hres, _⟩
  rw [hnone] at hres
  exact absurd hres (by simp)

/-- C2: on every targeting grid with a SHOT_DOWN cell on the board, and for
every `s`, `EvaluateGrid` returns a SHOT_DOWN cell, which is the SHOT_DOWN cell
when there is only one; a cell that is not SHOT_DOWN weighs at most 640, before
and after the zeroing, and a SHOT_DOWN cell weighs at least 1000. -/
theorem evaluateGrid_prefers_shotDown (game : Game) (s : Int)
    (h : ∃ a b, onBoard a b ∧ game.compTargeting a b = SHOT_DOWN) :
    (∃ hx hy, onBoard hx hy ∧ EvaluateGrid game s = some (hy, hx) ∧
      game.compTargeting hx hy = SHOT_DOWN) ∧
    (∀ a0 b0, (∀ a b, onBoard a b → game.compTargeting a b = SHOT_DOWN → a = a0 ∧ b = b0) →
      EvaluateGrid game s = some (b0, a0)) ∧
    (∀ a b, onBoard a b → game.compTargeting a b ≠ SHOT_DOWN →
      weighGrid game s a b ≤ 640 ∧ finalWeights game s a b ≤ 640) ∧
    (∀ a b, onBoard a b → game.compTargeting a b = SHOT_DOWN →
      1000 ≤ weighGrid game s a b ∧ 1000 ≤ finalWeights game s a b) := by
  have hsd : ∀ a b, onBoard a b → game.compTargeting a b = SHOT_DOWN →
      settled game (weighGrid game s) a b = weighGrid game s a b := by
    intro a b _ hst
    exact settled_of_not_zeroed game _ a b (not_zeroed_of_shotDown game a b hst)
  have hmain : ∃ hx hy, onBoard hx hy ∧ EvaluateGrid game s = some (hy, hx) ∧
      game.compTargeting hx hy = SHOT_DOWN := by
    obtain ⟨a, b, hab, hst⟩ := h
    have h1000 := weighGrid_shotDown game s a b hab hst
    obtain ⟨hx, hy, hb, hres, _, hmax⟩ :=
      evaluateGrid_some game s ⟨a, b, hab, by rw [hsd a b hab hst]; omega⟩
    refine ⟨hx, hy, hb, hres, ?_⟩
    by_contra hne
    have h640 := weighGrid_le game s hx hy hb hne
    have hle := settled_le game s hx hy
    have := (hmax a b hab).1
    rw [hsd a b hab hst] at this
    omega
  refine ⟨hmain, ?_, ?_, ?_⟩
  · intro a0 b0 huniq
    obtain ⟨hx, hy, hb, hres, hst⟩ := hmain
    obtain ⟨rfl, rfl⟩ := huniq hx hy hb hst
    exact hres
  · intro a b hab hne
    have h640 := weighGrid_le game s a b hab hne
    have hle := settled_le game s a b
    rw [finalWeights_apply game s a b hab]
    omega
  · intro a b hab hst
    have h1000 := weighGrid_shotDown game s a b hab hst
    rw [finalWeights_apply game s a b hab, hsd a b hab hst]
    omega

/-- C2, witness: the grid with a SHOT_DOWN cell at `(3, 7)` and a HIT cell at
`(5, 5)`, with `s = 2`: the returned pair is `(7, 3)`. -/
theorem evaluateGrid_prefers_shotDown_witness :
    (∃ a b, onBoard a b ∧ shotDownAt37.compTargeting a b = SHOT_DOWN) ∧
    EvaluateGrid shotDownAt37 2 = some (7, 3) :=
  have h : ∃ a b, onBoard a b ∧ shotDownAt37.compTargeting a b = SHOT_DOWN :=
    ⟨3, 7, by decide, by decide⟩
  ⟨h, (evaluateGrid_prefers_shotDown shotDownAt37 2 h).2.1 3 7 (by
    intro a b _ hst
    by_contra hne
    have : shotDownAt37.compTargeting a b ≠ SHOT_DOWN := by
      show (if a = 3 ∧ b = 7 then SHOT_DOWN else if a = 5 ∧ b = 5 then HIT else EMPTY)
        ≠ SHOT_DOWN
      rw [if_neg hne]
      split_ifs <;> simp
    exact this hst)⟩

/-- C3: whenever some cell of the board has a positive final weight,
`EvaluateGrid` returns a cell `(hx, hy)` of the board (as the pair `(hy, hx)`)
whose final weight is the maximum over the 100 cells, and every cell with that
same final weight comes at or after `(hx, hy)` in the order of the selection
loops (first index in the outer loop, second index in the inner loop). -/
theorem evaluateGrid_first_maximum (game : Game) (s : Int)
    (h : ∃ a b, onBoard a b ∧ 0 < finalWeights game s a b) :
    ∃ hx hy, onBoard hx hy ∧ EvaluateGrid game s = some (hy, hx) ∧
      (∀ a b, onBoard a b → finalWeights game s a b ≤ finalWeights game s hx hy) ∧
      (∀ a b, onBoard a b → finalWeights game s a b = finalWeights game s hx hy →
        hx < a ∨ (hx = a ∧ hy ≤ b)) := by
  obtain ⟨a0, b0, hab0, hp0⟩ := h
  rw [finalWeights_apply game s a0 b0 hab0] at hp0
  obtain ⟨hx, hy, hb, hres, _, hmax⟩ := evaluateGrid_some game s ⟨a0, b0, hab0, hp0⟩
  refine ⟨hx, hy, hb, hres, ?_, ?_⟩
  · intro a b hab
    rw [finalWeights_apply game s a b hab, finalWeights_apply game s hx hy hb]
    exact (hmax a b hab).1
  · intro a b hab heq
    rw [finalWeights_apply game s a b hab, finalWeights_apply game s hx hy hb] at heq
    exact (hmax a b hab).2 heq

/-- C3, witness: the grid with a SHOT_DOWN cell at `(3, 7)`, with `s = 4`. -/
theorem evaluateGrid_first_maximum_witness :
    (∃ a b, onBoard a b ∧ 0 < finalWeights shotDownAt37 4 a b) ∧
    ∃ hx hy, onBoard hx hy ∧ EvaluateGrid shotDownAt37 4 = some (hy, hx) ∧
      (∀ a b, onBoard a b →
        finalWeights shotDownAt37 4 a b ≤ finalWeights shotDownAt37 4 hx hy) ∧
      (∀ a b, onBoard a b →
        finalWeights shotDownAt37 4 a b = finalWeights shotDownAt37 4 hx hy →
        hx < a ∨ (hx = a ∧ hy ≤ b)) :=
  have h : ∃ a b, onBoard a b ∧ 0 < finalWeights shotDownAt37 4 a b := by
    refine ⟨3, 7, by decide, ?_⟩
    have h1 := weighGrid_shotDown shotDownAt37 4 3 7 (by decide) (by decide)
    rw [finalWeights_apply shotDownAt37 4 3 7 (by decide)]
    have h2 := settled_of_not_zeroed shotDownAt37 (weighGrid shotDownAt37 4) 3 7
      (not_zeroed_of_shotDown shotDownAt37 3 7 (by decide))
    omega
  ⟨h, evaluateGrid_first_maximum shotDownAt37 4 h⟩

/-- C4: on the grid whose cells are all MISS, for every `s`, no weight is
positive and `EvaluateGrid` returns `highY` and `highX` without ever having
assigned them (the source declares `int highX, highY;` without initial values):
the returned pair is not a well-defined coordinate. -/
theorem evaluateGrid_allMiss_unassigned (s : Int) : EvaluateGrid allMiss s = none := by
  apply evaluateGrid_none
  intro a b _
  have hz : zeroed allMiss a b := Or.inr (Or.inl rfl)
  unfold settled
  rw [if_pos hz]

/-- C5 (amended): for an EMPTY cell `(x, y)` of the board, the loop body adds
to every cell `(a, b)`, for every length `s + k` with `s + k ≤ 5` and every
direction whose run of that length fits, exactly 1 when `(a, b)` is one of the
first `s + k - 1` cells of the run (distance `0 .. s + k - 2` from `(x, y)`),
and nothing otherwise; a fitting run of length `i ≥ 1` adds `i - 1` to the sum
of the weight map. -/
theorem emptyCell_run_increments (game : Game) (s x y : Int) (hxy : onBoard x y)
    (hE : game.compTargeting x y = EMPTY) (tmp : Weights) :
    (∀ a b, cellStep game s x y tmp a b = tmp a b +
      ((List.range (5 - s + 1).toNat).map fun (k : Nat) =>
        (if EvalUp game x y (s + (k : Int)) = true ∧
            a = x ∧ 0 ≤ y - b ∧ y - b < s + (k : Int) - 1 then (1 : Int) else 0)
        + (if EvalDown game x y (s + (k : Int)) = true ∧
            a = x ∧ 0 ≤ b - y ∧ b - y < s + (k : Int) - 1 then 1 else 0)
        + (if EvalLeft game x y (s + (k : Int)) = true ∧
            b = y ∧ 0 ≤ x - a ∧ x - a < s + (k : Int) - 1 then 1 else 0)
        + (if EvalRight game x y (s + (k : Int)) = true ∧
            b = y ∧ 0 ≤ a - x ∧ a - x < s + (k : Int) - 1 then 1 else 0)).sum) ∧
    (∀ (i : Int) (t : Weights), 1 ≤ i →
      (EvalUp game x y i = true → boardSum (runUp game x y i t) = boardSum t + (i - 1)) ∧
      (EvalDown game x y i = true → boardSum (runDown game x y i t) = boardSum t + (i - 1)) ∧
      (EvalLeft game x y i = true → boardSum (runLeft game x y i t) = boardSum t + (i - 1)) ∧
      (EvalRight game x y i = true →
        boardSum (runRight game x y i t) = boardSum t + (i - 1))) := by
  refine ⟨?_, fun i t hi => boardSum_runs game x y i hxy hi t⟩
  intro a b
  rw [cellStep_apply, hE]
  rfl

/-- C5, witness: the cell `(0, 0)` of the all-EMPTY grid with `s = 5`; the run
of length 5 downwards fits and adds 4 to the sum of the weight map. -/
theorem emptyCell_run_increments_witness :
    onBoard 0 0 ∧ allEmpty.compTargeting 0 0 = EMPTY ∧ (1 : Int) ≤ 5 ∧
    EvalDown allEmpty 0 0 5 = true ∧
    boardSum (runDown allEmpty 0 0 5 zeroWeights) = boardSum zeroWeights + (5 - 1) :=
  ⟨by decide, rfl, by decide, by decide,
    ((emptyCell_run_increments allEmpty 5 0 0 (by decide) rfl zeroWeights).2
      5 zeroWeights (by decide)).2.1 (by decide)⟩

/-- C5, counterexample: on the all-EMPTY grid with `s = 5`, the run of length 5
downwards from the EMPTY cell `(0, 0)` fits; its cells are `(0, 0) .. (0, 4)`,
but the fifth one, `(0, 4)`, is not incremented, neither by the block of that
run nor by the whole loop body of `(0, 0)`, and the run adds 4, not 5, to the
sum of the weight map. -/
theorem run_fifth_cell_counterexample :
    allEmpty.compTargeting 0 0 = EMPTY ∧ EvalDown allEmpty 0 0 5 = true ∧
    runDown allEmpty 0 0 5 zeroWeights 0 4 = 0 ∧
    cellStep allEmpty 5 0 0 zeroWeights 0 4 = 0 ∧
    boardSum (runDown allEmpty 0 0 5 zeroWeights) = 4 := by
  decide!

/-- C6: for a HIT cell `(x, y)`, the loop body adds to every cell `(a, b)`, per
direction: 100 to the cell one step away and 50 to the cell two steps away when
a run of length 3 fits in that direction, else 100 to the cell one step away
when a run of length 2 fits, else nothing; and nothing else. -/
theorem hitCell_bonus (game : Game) (s x y : Int) (hH : game.compTargeting x y = HIT)
    (tmp : Weights) (a b : Int) :
    cellStep game s x y tmp a b = tmp a b +
      ((if EvalUp game x y 3 = true then
          (if a = x ∧ b = y - 1 then 100 else 0) + (if a = x ∧ b = y - 2 then 50 else 0)
        else if EvalUp game x y 2 = true then (if a = x ∧ b = y - 1 then 100 else 0)
        else 0)
      + (if EvalDown game x y 3 = true then
          (if a = x ∧ b = y + 1 then 100 else 0) + (if a = x ∧ b = y + 2 then 50 else 0)
        else if EvalDown game x y 2 = true then (if a = x ∧ b = y + 1 then 100 else 0)
        else 0)
      + (if EvalLeft game x y 3 = true then
          (if a = x - 1 ∧ b = y then 100 else 0) + (if a = x - 2 ∧ b = y then 50 else 0)
        else if EvalLeft game x y 2 = true then (if a = x - 1 ∧ b = y then 100 else 0)
        else 0)
      + (if EvalRight game x y 3 = true then
          (if a = x + 1 ∧ b = y then 100 else 0) + (if a = x + 2 ∧ b = y then 50 else 0)
        else if EvalRight game x y 2 = true then (if a = x + 1 ∧ b = y then 100 else 0)
        else 0)) := by
  rw [cellStep_apply, hH]
  rfl

/-- C6, witness: the HIT cell `(5, 5)` of the grid `shotDownAt37` adds 100 to
`(5, 4)` and 50 to `(5, 3)`. -/
theorem hitCell_bonus_witness :
    shotDownAt37.compTargeting 5 5 = HIT ∧
    cellStep shotDownAt37 2 5 5 zeroWeights 5 4 = 100 ∧
    cellStep shotDownAt37 2 5 5 zeroWeights 5 3 = 50 :=
  ⟨by decide,
    (hitCell_bonus shotDownAt37 2 5 5 (by decide) zeroWeights 5 4).trans (by decide!),
    (hitCell_bonus shotDownAt37 2 5 5 (by decide) zeroWeights 5 3).trans (by decide!)⟩

/-- C7: on the all-EMPTY grid with `s = 5`, `EvaluateGrid` returns `(4, 4)`, a
cell of the central 2 by 2 block (both components lie in `{4, 5}`); the final
weight of that cell is 16 and no cell of the board weighs more. -/
theorem evaluateGrid_allEmpty_five :
    EvaluateGrid allEmpty 5 = some (4, 4) ∧
    finalWeights allEmpty 5 4 4 = 16 ∧
    ∀ a b, onBoard a b → finalWeights allEmpty 5 a b ≤ finalWeights allEmpty 5 4 4 := by
  have h44 : finalWeights allEmpty 5 4 4 = 16 := by
    rw [finalWeights_allEmpty 5 4 4 (by decide), lineWeight_five_four]
    rfl
  have hle : ∀ a b, onBoard a b → finalWeights allEmpty 5 a b ≤ 16 := by
    intro a b hab
    rw [finalWeights_allEmpty 5 a b hab]
    have h1 := (lineWeight_five a ((mem_idx10 a).2 hab.1)).1
    have h2 := (lineWeight_five b ((mem_idx10 b).2 hab.2)).1
    omega
  refine ⟨?_, h44, fun a b hab => by rw [h44]; exact hle a b hab⟩
  have hfin : ∀ a b, onBoard a b →
      settled allEmpty (weighGrid allEmpty 5) a b = finalWeights allEmpty 5 a b :=
    fun a b hab => (finalWeights_apply allEmpty 5 a b hab).symm
  obtain ⟨hx, hy, hb, hres, _, hmax⟩ :=
    evaluateGrid_some allEmpty 5 ⟨4, 4, by decide, by rw [hfin 4 4 (by decide), h44]; decide⟩
  have hm := hmax 4 4 (by decide)
  rw [hfin 4 4 (by decide), hfin hx hy hb, h44] at hm
  have h16 := hle hx hy hb
  have hord := hm.2 (by omega)
  rw [finalWeights_allEmpty 5 hx hy hb] at h16 hm
  have hx1 := lineWeight_five hx ((mem_idx10 hx).2 hb.1)
  have hy1 := lineWeight_five hy ((mem_idx10 hy).2 hb.2)
  have hx2 := hx1.2 (by omega)
  have hy2 := hy1.2 (by omega)
  have hxe : hx = 4 := by omega
  have hye : hy = 4 := by omega
  rw [hres, hxe, hye]

/-- C7, witness: the corner `(0, 0)` weighs no more than the returned cell. -/
theorem evaluateGrid_allEmpty_five_witness :
    onBoard 0 0 ∧ finalWeights allEmpty 5 0 0 ≤ finalWeights allEmpty 5 4 4 :=
  ⟨by decide, evaluateGrid_allEmpty_five.2.2 0 0 (by decide)⟩

/-- C8: on a targeting grid with no HIT and no SHOT_DOWN cell on the board, and
for every `s`: if the grid is unchanged by the reflection `x -> 9 - x` then so
is the final weight map, and if the grid is unchanged by the reflection
`y -> 9 - y` then so is the final weight map. -/
theorem finalWeights_reflection (game : Game) (s : Int)
    (hne : ∀ x y, onBoard x y →
      game.compTargeting x y ≠ HIT ∧ game.compTargeting x y ≠ SHOT_DOWN) :
    ((∀ x y, onBoard x y → game.compTargeting (9 - x) y = game.compTargeting x y) →
      ∀ x y, onBoard x y → finalWeights game s (9 - x) y = finalWeights game s x y) ∧
    ((∀ x y, onBoard x y → game.compTargeting x (9 - y) = game.compTargeting x y) →
      ∀ x y, onBoard x y → finalWeights game s x (9 - y) = finalWeights game s x y) :=
  ⟨fun hsym x y hxy => finalWeights_reflX game hsym s x y hxy hne,
    fun hsym x y hxy => finalWeights_reflY game hsym s x y hxy hne⟩

/-- C8, witness: the all-EMPTY grid with `s = 3`, at the cell `(2, 6)`. -/
theorem finalWeights_reflection_witness :
    (∀ x y, onBoard x y →
      allEmpty.compTargeting x y ≠ HIT ∧ allEmpty.compTargeting x y ≠ SHOT_DOWN) ∧
    (∀ x y, onBoard x y → allEmpty.compTargeting (9 - x) y = allEmpty.compTargeting x y) ∧
    (∀ x y, onBoard x y → allEmpty.compTargeting x (9 - y) = allEmpty.compTargeting x y) ∧
    onBoard 2 6 ∧
    finalWeights allEmpty 3 (9 - 2) 6 = finalWeights allEmpty 3 2 6 ∧
    finalWeights allEmpty 3 2 (9 - 6) = finalWeights allEmpty 3 2 6 :=
  have hne : ∀ x y, onBoard x y →
      allEmpty.compTargeting x y ≠ HIT ∧ allEmpty.compTargeting x y ≠ SHOT_DOWN :=
    fun _ _ _ => ⟨(by decide : EMPTY ≠ HIT), (by decide : EMPTY ≠ SHOT_DOWN)⟩
  ⟨hne, fun _ _ _ => rfl, fun _ _ _ => rfl, by decide,
    (finalWeights_reflection allEmpty 3 hne).1 (fun _ _ _ => rfl) 2 6 (by decide),
    (finalWeights_reflection allEmpty 3 hne).2 (fun _ _ _ => rfl) 2 6 (by decide)⟩

/-- C9: on the all-EMPTY grid with `s = 2`, the final weight of every cell
`(x, y)` of the board is the entry of the grid documented above
`DisplayProbabilityGrid`, which is `f x + f y` for
`f = 4, 11, 16, 19, 20, 20, 19, 16, 11, 4`; no cell weighs more than 40, the
corners weigh 8 and the four central cells weigh 40. -/
theorem finalWeights_allEmpty_two :
    (∀ x y, onBoard x y →
      finalWeights allEmpty 2 x y = documentedAt x y ∧
      finalWeights allEmpty 2 x y = docLine x + docLine y ∧
      finalWeights allEmpty 2 x y ≤ 40) ∧
    (finalWeights allEmpty 2 0 0 = 8 ∧ finalWeights allEmpty 2 0 9 = 8 ∧
      finalWeights allEmpty 2 9 0 = 8 ∧ finalWeights allEmpty 2 9 9 = 8) ∧
    (finalWeights allEmpty 2 4 4 = 40 ∧ finalWeights allEmpty 2 4 5 = 40 ∧
      finalWeights allEmpty 2 5 4 = 40 ∧ finalWeights allEmpty 2 5 5 = 40) := by
  have hline : ∀ x y, onBoard x y → finalWeights allEmpty 2 x y = docLine x + docLine y := by
    intro x y hxy
    rw [finalWeights_allEmpty 2 x y hxy, lineWeight_two x ((mem_idx10 x).2 hxy.1),
      lineWeight_two y ((mem_idx10 y).2 hxy.2)]
  refine ⟨?_, ⟨?_, ?_, ?_, ?_⟩, ⟨?_, ?_, ?_, ?_⟩⟩
  · intro x y hxy
    have hx := (mem_idx10 x).2 hxy.1
    have hy := (mem_idx10 y).2 hxy.2
    refine ⟨?_, hline x y hxy, ?_⟩
    · rw [hline x y hxy, documentedGrid_eq x hx y hy]
    · rw [hline x y hxy]
      have := docLine_le x hx
      have := docLine_le y hy
      omega
  · rw [hline 0 0 (by decide)]; rfl
  · rw [hline 0 9 (by decide)]; rfl
  · rw [hline 9 0 (by decide)]; rfl
  · rw [hline 9 9 (by decide)]; rfl
  · rw [hline 4 4 (by decide)]; rfl
  · rw [hline 4 5 (by decide)]; rfl
  · rw [hline 5 4 (by decide)]; rfl
  · rw [hline 5 5 (by decide)]; rfl

/-- C9, witness: the cell `(2, 7)`, documented as 32 in row H, column 3. -/
theorem finalWeights_allEmpty_two_witness :
    onBoard 2 7 ∧ finalWeights allEmpty 2 2 7 = documentedAt 2 7 ∧ documentedAt 2 7 = 32 :=
  ⟨by decide, (finalWeights_allEmpty_two.1 2 7 (by decide)).1, by decide⟩

/-! ## The claim about `SmallestShipAlive` -/

/-- C10: for a user fleet of five ships, `SmallestShipAlive` returns 5 when no
ship is AFLOAT; when the ship sizes are at most 5 and some ship is AFLOAT it
returns the minimum size among the AFLOAT ships; and for the sizes
`5, 4, 3, 3, 2` of the standard fleet the result is 2, 3, 4 or 5. -/
theorem smallestShipAlive_spec (game : Game) (hlen : game.userFleet.length = 5) :
    ((∀ ship ∈ game.userFleet, ship.shipState ≠ ShipState.AFLOAT) →
      SmallestShipAlive game = 5) ∧
    ((∀ ship ∈ game.userFleet, ship.shipSize ≤ 5) →
      (∃ ship ∈ game.userFleet, ship.shipState = ShipState.AFLOAT) →
      (∃ ship ∈ game.userFleet, ship.shipState = ShipState.AFLOAT ∧
        SmallestShipAlive game = ship.shipSize) ∧
      (∀ ship ∈ game.userFleet, ship.shipState = ShipState.AFLOAT →
        SmallestShipAlive game ≤ ship.shipSize)) ∧
    (game.userFleet.map Ship.shipSize = [5, 4, 3, 3, 2] →
      SmallestShipAlive game = 2 ∨ SmallestShipAlive game = 3 ∨
      SmallestShipAlive game = 4 ∨ SmallestShipAlive game = 5) := by
  rw [smallestShipAlive_eq_foldl game hlen]
  obtain ⟨h1, h2, h3⟩ := smallest_foldl_spec game.userFleet 5
  refine ⟨?_, ?_, ?_⟩
  · intro hnone
    rcases h3 with h3 | ⟨ship, hmem, hs, _⟩
    · exact h3
    · exact absurd hs (hnone ship hmem)
  · intro hsize hex
    refine ⟨?_, h2⟩
    rcases h3 with h3 | h3
    · obtain ⟨ship, hmem, hs⟩ := hex
      refine ⟨ship, hmem, hs, ?_⟩
      have := h2 ship hmem hs
      have := hsize ship hmem
      omega
    · exact h3
  · intro hstd
    rcases h3 with h3 | ⟨ship, hmem, _, heq⟩
    · right; right; right; exact h3
    · have hin : ship.shipSize ∈ game.userFleet.map Ship.shipSize :=
        List.mem_map.2 ⟨ship, hmem, rfl⟩
      rw [hstd] at hin
      simp only [List.mem_cons, List.mem_singleton, List.not_mem_nil, or_false] at hin
      rw [heq]
      omega

/-- C10, witness: the fleet `ConstructFleets` builds, all five ships AFLOAT,
where the smallest ship afloat has size 2; and the same fleet with the
DESTROYER sunk, where it has size 3. -/
theorem smallestShipAlive_spec_witness :
    (gameOfFleet []).ConstructFleets.userFleet.length = 5 ∧
    (gameOfFleet []).ConstructFleets.userFleet.map Ship.shipSize = [5, 4, 3, 3, 2] ∧
    (SmallestShipAlive (gameOfFleet []).ConstructFleets = 2 ∨
      SmallestShipAlive (gameOfFleet []).ConstructFleets = 3 ∨
      SmallestShipAlive (gameOfFleet []).ConstructFleets = 4 ∨
      SmallestShipAlive (gameOfFleet []).ConstructFleets = 5) ∧
    SmallestShipAlive (gameOfFleet []).ConstructFleets = 2 ∧
    SmallestShipAlive (gameOfFleet fleetDestroyerSunk) = 3 :=
  ⟨rfl, rfl, (smallestShipAlive_spec (gameOfFleet []).ConstructFleets rfl).2.2 rfl,
    by decide, by decide⟩

/-! ## The fit-checks and the generic fit-check -/

theorem fitsSpec_iff (g : Grid) (disq : SquareState → Bool) (x y s : Int) (d : Direction) :
    fitsSpec g disq x y s d = true ↔
      (∀ n : Nat, (n : Int) < s → onBoard (x + d.dx * (n : Int)) (y + d.dy * (n : Int))) ∧
      (∀ k : Nat, (k : Int) < s - 2 →
        disq (g (x + d.dx * ((k : Int) + 1)) (y + d.dy * ((k : Int) + 1))) = false) := by
  unfold fitsSpec
  simp only [Bool.and_eq_true, List.all_eq_true, List.mem_range, decide_eq_true_eq,
    Bool.not_eq_true']
  constructor
  · rintro ⟨h1, h2⟩
    exact ⟨fun n hn => h1 n (by omega), fun k hk => h2 k (by omega)⟩
  · rintro ⟨h1, h2⟩
    exact ⟨fun n hn => h1 n (by omega), fun k hk => h2 k (by omega)⟩

/-- With the start cell on the board, the run of `s` cells stays on the board
exactly when its last cell does, which is the test each fit-check makes. -/
theorem run_onBoard_iff (x y s : Int) (d : Direction) (h : onBoard x y) :
    (∀ n : Nat, (n : Int) < s → onBoard (x + d.dx * (n : Int)) (y + d.dy * (n : Int))) ↔
      onBoard (x + d.dx * (s - 1)) (y + d.dy * (s - 1)) ∨ s ≤ 0 := by
  unfold onBoard at *
  constructor
  · intro hall
    by_cases hs : s ≤ 0
    · exact Or.inr hs
    · left
      have := hall (s - 1).toNat (by omega)
      have he : (((s - 1).toNat : Nat) : Int) = s - 1 := by omega
      rw [he] at this
      exact this
  · rintro (hend | hs) n hn
    · cases d <;> simp only [Direction.dx, Direction.dy] at hend ⊢ <;> omega
    · omega

theorem check_eq_fitsSpec (game : Game) (d : Direction) (x y s : Int) (h : onBoard x y) :
    game.Check d x y s = fitsSpec game.userShips occupied x y s d := by
  apply Bool.eq_iff_iff.2
  rw [fitsSpec_iff, run_onBoard_iff x y s d h]
  unfold onBoard at h
  cases d <;>
    simp only [Game.Check, Game.CheckUp, Game.CheckDown, Game.CheckLeft, Game.CheckRight,
      Direction.dx, Direction.dy, occupied, onBoard, zero_mul, add_zero, neg_mul, one_mul,
      Bool.ite_eq_true_distrib, List.all_eq_true, List.mem_range, Bool.not_eq_true',
      Bool.false_eq_true, if_false_left, ← sub_eq_add_neg] <;>
    constructor <;>
    (rintro ⟨h1, h2⟩
     exact ⟨by omega, fun k hk => h2 k (by omega)⟩)

theorem eval_eq_fitsSpec (game : Game) (d : Direction) (x y s : Int) (h : onBoard x y) :
    Eval game d x y s = fitsSpec game.compTargeting missOrSunk x y s d := by
  apply Bool.eq_iff_iff.2
  rw [fitsSpec_iff, run_onBoard_iff x y s d h]
  unfold onBoard at h
  cases d <;>
    simp only [Eval, EvalUp, EvalDown, EvalLeft, EvalRight,
      Direction.dx, Direction.dy, missOrSunk, onBoard, zero_mul, add_zero, neg_mul, one_mul,
      Bool.ite_eq_true_distrib, List.all_eq_true, List.mem_range, Bool.not_eq_true',
      Bool.false_eq_true, if_false_left, ← sub_eq_add_neg] <;>
    constructor <;>
    (rintro ⟨h1, h2⟩
     exact ⟨by omega, fun k hk => h2 k (by omega)⟩)

theorem missOrSunk_eq_false (st : SquareState) :
    missOrSunk st = false ↔ st ≠ MISS ∧ st ≠ SINK := by
  cases st <;> simp [missOrSunk]

theorem occupied_eq_false (st : SquareState) : occupied st = false ↔ st = EMPTY := by
  cases st <;> simp [occupied]

/-- C11: with the start cell `(x, y)` on the board, each of the eight
directional fit functions is the generic fit-check `fitsSpec` for its direction
and its policy (not EMPTY on `userShips` for `Check*`, MISS or SINK on
`compTargeting` for `Eval*`), for every `s` and so for `s ≥ 2`; and `fitsSpec`
holds exactly when the `s` cells of the run are on the board and no cell
`1 .. s - 2` of the run is disqualified. -/
theorem fitChecks_eq_fitsSpec (game : Game) (x y s : Int) (hxy : onBoard x y) :
    (game.CheckUp x y s = fitsSpec game.userShips occupied x y s Direction.up ∧
      game.CheckDown x y s = fitsSpec game.userShips occupied x y s Direction.down ∧
      game.CheckLeft x y s = fitsSpec game.userShips occupied x y s Direction.left ∧
      game.CheckRight x y s = fitsSpec game.userShips occupied x y s Direction.right) ∧
    (EvalUp game x y s = fitsSpec game.compTargeting missOrSunk x y s Direction.up ∧
      EvalDown game x y s = fitsSpec game.compTargeting missOrSunk x y s Direction.down ∧
      EvalLeft game x y s = fitsSpec game.compTargeting missOrSunk x y s Direction.left ∧
      EvalRight game x y s = fitsSpec game.compTargeting missOrSunk x y s Direction.right) ∧
    (∀ (g : Grid) (disq : SquareState → Bool) (d : Direction),
      fitsSpec g disq x y s d = true ↔
        (∀ n : Nat, (n : Int) < s → onBoard (x + d.dx * (n : Int)) (y + d.dy * (n : Int))) ∧
        (∀ k : Nat, (k : Int) < s - 2 →
          disq (g (x + d.dx * ((k : Int) + 1)) (y + d.dy * ((k : Int) + 1))) = false)) ∧
    (∀ st, occupied st = false ↔ st = EMPTY) ∧
    (∀ st, missOrSunk st = false ↔ st ≠ MISS ∧ st ≠ SINK) :=
  ⟨⟨check_eq_fitsSpec game Direction.up x y s hxy,
      check_eq_fitsSpec game Direction.down x y s hxy,
      check_eq_fitsSpec game Direction.left x y s hxy,
      check_eq_fitsSpec game Direction.right x y s hxy⟩,
    ⟨eval_eq_fitsSpec game Direction.up x y s hxy,
      eval_eq_fitsSpec game Direction.down x y s hxy,
      eval_eq_fitsSpec game Direction.left x y s hxy,
      eval_eq_fitsSpec game Direction.right x y s hxy⟩,
    fun g disq d => fitsSpec_iff g disq x y s d, occupied_eq_false, missOrSunk_eq_false⟩

/-- C11, witness: on the grid with the CARRIER at `(2, 0) .. (2, 4)`, from the
start cell `(5, 2)` with `s = 5`: the run to the left has the CARRIER cell
`(2, 2)` as its cell 3 and both sides of the equation are false. -/
theorem fitChecks_eq_fitsSpec_witness :
    onBoard 5 2 ∧
    carrierPlaced.CheckLeft 5 2 5 = fitsSpec carrierPlaced.userShips occupied 5 2 5
      Direction.left ∧
    carrierPlaced.CheckLeft 5 2 5 = false :=
  ⟨by decide, (fitChecks_eq_fitsSpec carrierPlaced 5 2 5 (by decide)).1.2.2.1, by decide⟩

/-- C12: on the user's grid with the CARRIER at `(2, 0) .. (2, 4)`, `CheckLeft`
accepts the run of 4 cells `(5, 0), (4, 0), (3, 0), (2, 0)` although its last
cell is occupied, and the run of 2 cells `(3, 0), (2, 0)` likewise: the loops
`for(int n = 1; n < s - 1; n++)` never look at the cell `s - 1` of the run. -/
theorem checkLeft_accepts_occupied_end :
    carrierPlaced.userShips 2 0 = SHIP ∧
    carrierPlaced.userShips 5 0 = EMPTY ∧
    carrierPlaced.CheckLeft 5 0 4 = true ∧
    carrierPlaced.CheckLeft 3 0 2 = true := by
  decide

/-- With the start cell `(x, y)` on the board, the targeting
fit-check of every direction accepts a run whose `s` cells are on the board and
are neither MISS nor SINK (HIT cells do not matter), rejects a run with a MISS
or SINK cell among its cells `1 .. s - 2`, and rejects a run that leaves the
board. -/
theorem eval_accepts_and_rejects (game : Game) (d : Direction) (x y s : Int)
    (hxy : onBoard x y) :
    ((∀ n : Int, 0 ≤ n → n < s →
        onBoard (x + d.dx * n) (y + d.dy * n) ∧
        game.compTargeting (x + d.dx * n) (y + d.dy * n) ≠ MISS ∧
        game.compTargeting (x + d.dx * n) (y + d.dy * n) ≠ SINK) →
      Eval game d x y s = true) ∧
    ((∃ n : Int, 1 ≤ n ∧ n ≤ s - 2 ∧
        (game.compTargeting (x + d.dx * n) (y + d.dy * n) = MISS ∨
          game.compTargeting (x + d.dx * n) (y + d.dy * n) = SINK)) →
      Eval game d x y s = false) ∧
    ((∃ n : Int, 0 ≤ n ∧ n < s ∧ ¬ onBoard (x + d.dx * n) (y + d.dy * n)) →
      Eval game d x y s = false) := by
  rw [eval_eq_fitsSpec game d x y s hxy]
  refine ⟨?_, ?_, ?_⟩
  · intro hall
    rw [fitsSpec_iff]
    refine ⟨fun n hn => (hall n (by omega) hn).1, fun k hk => ?_⟩
    have := hall ((k : Int) + 1) (by omega) (by omega)
    exact (missOrSunk_eq_false _).2 this.2
  · rintro ⟨n, h1, h2, hbad⟩
    apply Bool.eq_false_iff.2
    intro hfit
    rw [fitsSpec_iff] at hfit
    have := hfit.2 (n - 1).toNat (by omega)
    have he : (((n - 1).toNat : Nat) : Int) + 1 = n := by omega
    rw [he, missOrSunk_eq_false] at this
    rcases hbad with hb | hb
    · exact this.1 hb
    · exact this.2 hb
  · rintro ⟨n, h1, h2, hout⟩
    apply Bool.eq_false_iff.2
    intro hfit
    rw [fitsSpec_iff] at hfit
    have := hfit.1 n.toNat (by omega)
    have he : ((n.toNat : Nat) : Int) = n := by omega
    rw [he] at this
    exact hout this

/-- On the grid `missAt20`, the run of 3 cells to the right of
`(0, 5)` passes through the HIT cell `(1, 5)` and is accepted; the run of 4
cells to the right of `(0, 0)` has the MISS cell `(2, 0)` as its cell 2 and is
rejected; the run of 3 cells to the left of `(1, 5)` leaves the board and is
rejected. -/
theorem eval_accepts_and_rejects_witness :
    onBoard 0 5 ∧ missAt20.compTargeting 1 5 = HIT ∧ EvalRight missAt20 0 5 3 = true ∧
    EvalRight missAt20 0 0 4 = false ∧ EvalLeft missAt20 1 5 3 = false :=
  ⟨by decide, by decide,
    (eval_accepts_and_rejects missAt20 Direction.right 0 5 3 (by decide)).1 (by
      intro n h0 h3
      have hn : n = 0 ∨ n = 1 ∨ n = 2 := by omega
      rcases hn with rfl | rfl | rfl <;> decide),
    (eval_accepts_and_rejects missAt20 Direction.right 0 0 4 (by decide)).2.1
      ⟨2, by decide, by decide, Or.inl (by decide)⟩,
    (eval_accepts_and_rejects missAt20 Direction.left 1 5 3 (by decide)).2.2
      ⟨2, by decide, by decide, by decide⟩⟩

/-- C13: on the grid `missAt20` the run of 3 cells to the right of `(0, 0)`,
the cells `(0, 0), (1, 0), (2, 0)`, is on the board and has the MISS cell
`(2, 0)` as its last cell, and `EvalRight` accepts it; the run of 2 cells to
the right of `(1, 0)` ends on the same MISS cell and is accepted as well: the
loops `for(int n = 1; n < s - 1; n++)` never look at the cell `s - 1` of the
run. -/
theorem evalRight_accepts_miss_end :
    onBoard 0 0 ∧ onBoard 1 0 ∧ onBoard 2 0 ∧ missAt20.compTargeting 2 0 = MISS ∧
    EvalRight missAt20 0 0 3 = true ∧ EvalRight missAt20 1 0 2 = true := by
  decide

/-! ## `GetShip`, `SinkShip`, `ShipHit` -/

theorem setAll_apply (coords : List (Int × Int)) (v : SquareState) (grid : Grid) (a b : Int) :
    setAll coords v grid a b = if (a, b) ∈ coords then v else grid a b := by
  unfold setAll
  induction coords generalizing grid with
  | nil => simp
  | cons c l ih =>
    simp only [List.foldl_cons, List.mem_cons]
    rw [ih]
    by_cases hl : (a, b) ∈ l
    · simp [hl]
    · simp only [hl, if_false, or_false]
      unfold setSquareState
      by_cases hc : (a, b) = c
      · have h1 : a = c.1 := by rw [← hc]
        have h2 : b = c.2 := by rw [← hc]
        simp [hc, h1, h2]
      · have : ¬ (a = c.1 ∧ b = c.2) := by
          rintro ⟨h1, h2⟩
          exact hc (Prod.ext h1 h2)
        simp [hc, this]

theorem getShip_inner (c : Int × Int) (i : Nat) (l : List (Int × Int)) (loc : Nat) :
    l.foldl (fun shipLoc n => if c.1 = n.1 ∧ c.2 = n.2 then i else shipLoc) loc
      = if c ∈ l then i else loc := by
  induction l generalizing loc with
  | nil => simp
  | cons n l ih =>
    simp only [List.foldl_cons, List.mem_cons]
    rw [ih]
    by_cases hl : c ∈ l
    · simp [hl]
    · have hiff : (c.1 = n.1 ∧ c.2 = n.2) ↔ c = n :=
        ⟨fun h => Prod.ext h.1 h.2, fun h => by rw [h]; exact ⟨rfl, rfl⟩⟩
      simp only [hl, if_false, or_false, hiff]

/-- `GetShip` returns the last of the five ships whose coordinates contain
`c`, and 99 when there is none. -/
theorem getShip_eq (game : Game) (c : Int × Int) (p : Player) :
    game.GetShip c p =
      if c ∈ coordsAt (game.fleetOf p.opponent) 4 then 4
      else if c ∈ coordsAt (game.fleetOf p.opponent) 3 then 3
      else if c ∈ coordsAt (game.fleetOf p.opponent) 2 then 2
      else if c ∈ coordsAt (game.fleetOf p.opponent) 1 then 1
      else if c ∈ coordsAt (game.fleetOf p.opponent) 0 then 0
      else 99 := by
  have hfl : ∀ i : Nat, (match (if p = Player.USER then game.compFleet[i]?
        else game.userFleet[i]?) with
      | some ship => ship.shipCoords
      | none => []) = coordsAt (game.fleetOf p.opponent) i := by
    intro i
    cases p <;> simp [coordsAt, Game.fleetOf, Player.opponent]
  unfold Game.GetShip
  simp only [hfl, getShip_inner]
  simp only [List.range_succ, List.range_zero, List.nil_append, List.cons_append,
    List.foldl_cons, List.foldl_nil]

theorem mem_coordsAt (fleet : List Ship) (i : Nat) (c : Int × Int) :
    c ∈ coordsAt fleet i ↔ ∃ ship, fleet[i]? = some ship ∧ c ∈ ship.shipCoords := by
  unfold coordsAt
  cases h : fleet[i]? with
  | none => simp
  | some ship => simp

/-- When one of the five ships owns `c`, `GetShip` returns the index of a ship
that owns `c`, and no ship after it owns `c`. -/
theorem getShip_spec (game : Game) (c : Int × Int) (p : Player)
    (h : ∃ i, i < 5 ∧ c ∈ coordsAt (game.fleetOf p.opponent) i) :
    game.GetShip c p < 5 ∧ c ∈ coordsAt (game.fleetOf p.opponent) (game.GetShip c p) ∧
    ∀ i, i < 5 → c ∈ coordsAt (game.fleetOf p.opponent) i → i ≤ game.GetShip c p := by
  rw [getShip_eq]
  obtain ⟨i, hi, hc⟩ := h
  have hcases : i = 0 ∨ i = 1 ∨ i = 2 ∨ i = 3 ∨ i = 4 := by omega
  split_ifs with h4 h3 h2 h1 h0
  · exact ⟨by omega, h4, fun k hk _ => by omega⟩
  · refine ⟨by omega, h3, fun k hk hkc => ?_⟩
    by_contra hlt
    have : k = 4 := by omega
    exact h4 (this ▸ hkc)
  · refine ⟨by omega, h2, fun k hk hkc => ?_⟩
    by_contra hlt
    have : k = 3 ∨ k = 4 := by omega
    rcases this with rfl | rfl
    · exact h3 hkc
    · exact h4 hkc
  · refine ⟨by omega, h1, fun k hk hkc => ?_⟩
    by_contra hlt
    have : k = 2 ∨ k = 3 ∨ k = 4 := by omega
    rcases this with rfl | rfl | rfl
    · exact h2 hkc
    · exact h3 hkc
    · exact h4 hkc
  · refine ⟨by omega, h0, fun k hk hkc => ?_⟩
    by_contra hlt
    have : k = 1 ∨ k = 2 ∨ k = 3 ∨ k = 4 := by omega
    rcases this with rfl | rfl | rfl | rfl
    · exact h1 hkc
    · exact h2 hkc
    · exact h3 hkc
    · exact h4 hkc
  · rcases hcases with rfl | rfl | rfl | rfl | rfl
    · exact absurd hc h0
    · exact absurd hc h1
    · exact absurd hc h2
    · exact absurd hc h3
    · exact absurd hc h4

/-- What `ShipHit` returns when the user fires and `GetShip` finds `ship`. -/
theorem shipHit_user (game : Game) (tarCol tarRow : Int) (ship : Ship)
    (h : game.compFleet[game.GetShip (tarCol, tarRow) Player.USER]? = some ship) :
    game.ShipHit tarCol tarRow Player.USER = some { game with
      playerTargeting :=
        if ship.Damage.shipState = ShipState.SUNK then
          setAll ship.shipCoords SINK (setSquareState game.playerTargeting tarCol tarRow HIT)
        else setSquareState game.playerTargeting tarCol tarRow HIT
      compFleet := game.compFleet.set (game.GetShip (tarCol, tarRow) Player.USER) ship.Damage } := by
  have hlt : game.GetShip (tarCol, tarRow) Player.USER < game.compFleet.length := by
    by_contra hge
    rw [List.getElem?_eq_none (by omega)] at h
    exact absurd h (by simp)
  unfold Game.ShipHit
  simp only [h, if_true]
  by_cases hs : ship.Damage.shipState = ShipState.SUNK
  · simp only [hs, if_true]
    unfold Game.SinkShip
    simp only [if_true, List.getElem?_set_self hlt]
    have hd : ship.Damage.shipCoords = ship.shipCoords := rfl
    rw [hd]
    rfl
  · simp only [hs, if_false]

/-- What `ShipHit` returns when the computer fires and `GetShip` finds `ship`. -/
theorem shipHit_comp (game : Game) (tarCol tarRow : Int) (ship : Ship)
    (h : game.userFleet[game.GetShip (tarCol, tarRow) Player.COMP]? = some ship) :
    game.ShipHit tarCol tarRow Player.COMP = some { game with
      compTargeting :=
        if ship.Damage.shipState = ShipState.SUNK then
          setAll ship.shipCoords SINK (setSquareState game.compTargeting tarCol tarRow HIT)
        else setSquareState game.compTargeting tarCol tarRow HIT
      userShips :=
        if ship.Damage.shipState = ShipState.SUNK then
          setAll ship.shipCoords SINK (setSquareState game.userShips tarCol tarRow HIT)
        else setSquareState game.userShips tarCol tarRow HIT
      userFleet := game.userFleet.set (game.GetShip (tarCol, tarRow) Player.COMP) ship.Damage } := by
  have hlt : game.GetShip (tarCol, tarRow) Player.COMP < game.userFleet.length := by
    by_contra hge
    rw [List.getElem?_eq_none (by omega)] at h
    exact absurd h (by simp)
  unfold Game.ShipHit
  simp only [h, reduceCtorEq, if_false]
  by_cases hs : ship.Damage.shipState = ShipState.SUNK
  · simp only [hs, if_true]
    unfold Game.SinkShip
    simp only [reduceCtorEq, if_false, List.getElem?_set_self hlt]
    have hd : ship.Damage.shipCoords = ship.shipCoords := rfl
    rw [hd]
    rfl
  · simp only [hs, if_false]

/-- Under `hitApplies`, `CheckHit` is `ShipHit`. -/
theorem checkHit_of_hitApplies (game : Game) (target : Int × Int) (p : Player) (rnd : Nat)
    (h : game.hitApplies target p rnd) :
    game.CheckHit target p rnd = game.ShipHit target.2 target.1 p := by
  obtain ⟨h1, h2, h3, h4⟩ := h
  unfold Game.CheckHit
  cases p
  · simp only [Game.shipsOf, Player.opponent, reduceCtorEq, if_false] at h3
    simp only [h1, h2, if_false, if_true, h3]
    by_cases hg : game.gameType = Gametype.CRUISE_MISSILES ∨ game.gameType = Gametype.HARDCORE
    · have hr : Game.ShootDownMissile rnd = false := by
        cases hb : Game.ShootDownMissile rnd
        · rfl
        · exact absurd ⟨hg, hb⟩ h4
      simp only [hg, if_true, hr, Bool.false_eq_true, if_false]
    · simp only [hg, if_false]
  · simp only [Game.shipsOf, Player.opponent, if_true] at h3
    simp only [h1, h2, if_false, reduceCtorEq, h3, if_true]
    by_cases hg : game.gameType = Gametype.CRUISE_MISSILES ∨ game.gameType = Gametype.HARDCORE
    · have hr : Game.ShootDownMissile rnd = false := by
        cases hb : Game.ShootDownMissile rnd
        · rfl
        · exact absurd ⟨hg, hb⟩ h4
      simp only [hg, if_true, hr, Bool.false_eq_true, if_false]
    · simp only [hg, if_false]

/-! ## `CheckHit` branch by branch -/

/-- Under `intercepted`, `CheckHit` marks the cell SHOT_DOWN. -/
theorem checkHit_of_intercepted (game : Game) (target : Int × Int) (p : Player) (rnd : Nat)
    (h : game.intercepted target p rnd) :
    game.CheckHit target p rnd = some (game.markShot target.2 target.1 p SHOT_DOWN) := by
  obtain ⟨h1, h2, h3, h4, h5⟩ := h
  unfold Game.CheckHit Game.markShot
  cases p
  · simp only [Game.shipsOf, Player.opponent, reduceCtorEq, if_false] at h3
    simp only [h1, h2, if_false, if_true, h3, h4, h5]
  · simp only [Game.shipsOf, Player.opponent, if_true] at h3
    simp only [h1, h2, if_false, reduceCtorEq, h3, if_true, h4, h5]

/-- Off the sentinels and off a SHIP or SHOT_DOWN cell, `CheckHit` marks the
cell MISS. -/
theorem checkHit_of_miss (game : Game) (target : Int × Int) (p : Player) (rnd : Nat)
    (h1 : target.1 ≠ 99) (h2 : target.1 ≠ 999)
    (h3 : game.shipsOf p.opponent target.2 target.1 ≠ SHIP)
    (h4 : game.shipsOf p.opponent target.2 target.1 ≠ SHOT_DOWN) :
    game.CheckHit target p rnd = some (game.markShot target.2 target.1 p MISS) := by
  unfold Game.CheckHit Game.markShot
  cases p
  · simp only [Game.shipsOf, Player.opponent, reduceCtorEq, if_false] at h3 h4
    simp only [h1, h2, if_false, if_true, h3, h4, or_self]
  · simp only [Game.shipsOf, Player.opponent, if_true] at h3 h4
    simp only [h1, h2, if_false, reduceCtorEq, h3, h4, or_self]

/-- The five branches of `CheckHit`. -/
theorem checkHit_eq (game : Game) (target : Int × Int) (p : Player) (rnd : Nat) :
    game.CheckHit target p rnd =
      if target.1 = 99 then some (game.Forfeit Player.USER)
      else if target.1 = 999 then some (game.Forfeit Player.COMP)
      else if game.hitApplies target p rnd then game.ShipHit target.2 target.1 p
      else if game.intercepted target p rnd then
        some (game.markShot target.2 target.1 p SHOT_DOWN)
      else some (game.markShot target.2 target.1 p MISS) := by
  by_cases h1 : target.1 = 99
  · simp only [h1, if_true]
    unfold Game.CheckHit
    simp only [h1, if_true]
  by_cases h2 : target.1 = 999
  · simp only [h1, h2, if_true, if_false]
    unfold Game.CheckHit
    simp only [h2, if_true]
  simp only [h1, h2, if_false]
  by_cases hh : game.hitApplies target p rnd
  · simp only [hh, if_true]
    exact checkHit_of_hitApplies game target p rnd hh
  by_cases hi : game.intercepted target p rnd
  · simp only [hh, hi, if_true, if_false]
    exact checkHit_of_intercepted game target p rnd hi
  simp only [hh, hi, if_false]
  apply checkHit_of_miss game target p rnd h1 h2
  · intro h3
    by_cases hc : (game.gameType = Gametype.CRUISE_MISSILES ∨ game.gameType = Gametype.HARDCORE) ∧
        Game.ShootDownMissile rnd = true
    · exact hi ⟨h1, h2, Or.inl h3, hc.1, hc.2⟩
    · exact hh ⟨h1, h2, Or.inl h3, hc⟩
  · intro h3
    by_cases hc : (game.gameType = Gametype.CRUISE_MISSILES ∨ game.gameType = Gametype.HARDCORE) ∧
        Game.ShootDownMissile rnd = true
    · exact hi ⟨h1, h2, Or.inr h3, hc.1, hc.2⟩
    · exact hh ⟨h1, h2, Or.inr h3, hc⟩

/-- `ShipHit` fails exactly when `GetShip` finds no ship of the fleet. -/
theorem shipHit_none (game : Game) (tarCol tarRow : Int) (p : Player)
    (h : (game.fleetOf p.opponent)[game.GetShip (tarCol, tarRow) p]? = none) :
    game.ShipHit tarCol tarRow p = none := by
  unfold Game.ShipHit
  cases p
  · simp only [Game.fleetOf, Player.opponent, reduceCtorEq, if_false] at h
    simp only [h, if_true]
  · simp only [Game.fleetOf, Player.opponent, if_true] at h
    simp only [h, reduceCtorEq, if_false]

/-- What `ShipHit` does, for either side, when `GetShip` finds `ship`. -/
theorem shipHit_spec (game : Game) (tarCol tarRow : Int) (p : Player) (ship : Ship)
    (h : (game.fleetOf p.opponent)[game.GetShip (tarCol, tarRow) p]? = some ship) :
    ∃ game1, game.ShipHit tarCol tarRow p = some game1 ∧
      game1.fleetOf p.opponent =
        (game.fleetOf p.opponent).set (game.GetShip (tarCol, tarRow) p) ship.Damage ∧
      game1.fleetOf p = game.fleetOf p ∧
      game1.targetingOf p =
        (if ship.Damage.shipState = ShipState.SUNK then
          setAll ship.shipCoords SINK (setSquareState (game.targetingOf p) tarCol tarRow HIT)
        else setSquareState (game.targetingOf p) tarCol tarRow HIT) ∧
      game1.targetingOf p.opponent = game.targetingOf p.opponent ∧
      game1.compShips = game.compShips ∧
      (p = Player.USER → game1.userShips = game.userShips) ∧
      (p = Player.COMP → game1.userShips =
        (if ship.Damage.shipState = ShipState.SUNK then
          setAll ship.shipCoords SINK (setSquareState game.userShips tarCol tarRow HIT)
        else setSquareState game.userShips tarCol tarRow HIT)) := by
  cases p
  · simp only [Game.fleetOf, Player.opponent, reduceCtorEq, if_false] at h
    refine ⟨_, shipHit_user game tarCol tarRow ship h, ?_⟩
    simp [Game.fleetOf, Game.targetingOf, Player.opponent]
  · simp only [Game.fleetOf, Player.opponent, if_true] at h
    refine ⟨_, shipHit_comp game tarCol tarRow ship h, ?_⟩
    simp [Game.fleetOf, Game.targetingOf, Player.opponent]

/-- A property of the result of a computation that succeeds, read off its
evaluation. -/
theorem exists_of_map_decide {α : Type} (o : Option α) (P : α → Prop) [DecidablePred P]
    (h : (o.map fun a => decide (P a)) = some true) : ∃ a, o = some a ∧ P a := by
  cases o with
  | none => simp at h
  | some a =>
    refine ⟨a, rfl, ?_⟩
    simpa using h

theorem markShot_targeting (game : Game) (tarCol tarRow : Int) (p : Player) (v : SquareState) :
    (game.markShot tarCol tarRow p v).targetingOf p =
      setSquareState (game.targetingOf p) tarCol tarRow v := by
  cases p <;> simp [Game.markShot, Game.targetingOf]

theorem markShot_frame (game : Game) (tarCol tarRow : Int) (p : Player) (v : SquareState) :
    (game.markShot tarCol tarRow p v).userFleet = game.userFleet ∧
    (game.markShot tarCol tarRow p v).compFleet = game.compFleet ∧
    (game.markShot tarCol tarRow p v).compShips = game.compShips ∧
    (game.markShot tarCol tarRow p v).targetingOf p.opponent = game.targetingOf p.opponent ∧
    (p = Player.USER → (game.markShot tarCol tarRow p v).userShips = game.userShips) ∧
    (p = Player.COMP → (game.markShot tarCol tarRow p v).userShips =
      setSquareState game.userShips tarCol tarRow v) := by
  cases p <;> simp [Game.markShot, Game.targetingOf, Player.opponent]

theorem setSquareState_same (grid : Grid) (x y : Int) (v : SquareState) :
    setSquareState grid x y v x y = v := by
  simp [setSquareState]

theorem setSquareState_apply_ne (grid : Grid) (x y a b : Int) (v w : SquareState)
    (hv : v ≠ w) (h : setSquareState grid x y v a b = w) : grid a b = w := by
  unfold setSquareState at h
  by_cases hc : a = x ∧ b = y
  · simp only [hc, and_self, if_true] at h
    exact absurd h hv
  · simpa only [hc, if_false] using h

/-! ## The claims about `CheckHit` -/

/-- C14 (amended): when `CheckHit` applies a hit (the target is no sentinel,
the cell is SHIP or SHOT_DOWN on the defender's ship grid, the shot is not
intercepted) and the ship `GetShip` finds is not sunk by it, the cell is HIT
afterwards on the attacker's targeting grid; when the computer fires it is
also HIT on `userShips`; when the user fires `compShips` is left as it was. -/
theorem hit_marks_grids (game : Game) (target : Int × Int) (p : Player) (rnd : Nat)
    (ship : Ship) (happ : game.hitApplies target p rnd)
    (hship : (game.fleetOf p.opponent)[game.GetShip (target.2, target.1) p]? = some ship)
    (hafloat : ship.Damage.shipState ≠ ShipState.SUNK) :
    ∃ game1, game.CheckHit target p rnd = some game1 ∧
      game1.targetingOf p target.2 target.1 = HIT ∧
      (p = Player.COMP → game1.userShips target.2 target.1 = HIT) ∧
      (p = Player.USER → game1.compShips = game.compShips) := by
  obtain ⟨game1, h1, _, _, ht, _, hc, _, hu⟩ := shipHit_spec game target.2 target.1 p ship hship
  refine ⟨game1, ?_, ?_, ?_, fun _ => hc⟩
  · rw [checkHit_of_hitApplies game target p rnd happ]
    exact h1
  · rw [ht]
    simp only [hafloat, if_false]
    exact setSquareState_same _ _ _ _
  · intro hp
    rw [hu hp]
    simp only [hafloat, if_false]
    exact setSquareState_same _ _ _ _

/-- C14, witness: the computer fires at the cell `(2, 0)` of the user's
CARRIER in a CLASSIC game. -/
theorem hit_marks_grids_witness :
    ∃ game1, (placedGame Gametype.CLASSIC).CheckHit (0, 2) Player.COMP 0 = some game1 ∧
      game1.targetingOf Player.COMP 2 0 = HIT ∧
      (Player.COMP = Player.COMP → game1.userShips 2 0 = HIT) ∧
      (Player.COMP = Player.USER → game1.compShips = (placedGame Gametype.CLASSIC).compShips) :=
  hit_marks_grids (placedGame Gametype.CLASSIC) (0, 2) Player.COMP 0
    { Ship.construct 5 "CARRIER" with shipCoords := rowCoords 0 5 }
    (by decide) rfl (by decide)

/-- C14, counterexample: the user fires at the cell `(2, 0)` of the
computer's CARRIER in a CLASSIC game; the hit is applied, no ship is sunk, the
cell is HIT on `playerTargeting` and still SHIP on `compShips`. -/
theorem userHit_leaves_compShips :
    (placedGame Gametype.CLASSIC).hitApplies (0, 2) Player.USER 0 ∧
    ∃ game1, (placedGame Gametype.CLASSIC).CheckHit (0, 2) Player.USER 0 = some game1 ∧
      (game1.playerTargeting 2 0 = HIT ∧ game1.compShips 2 0 = SHIP ∧
        game1.compFleet.map Ship.shipState =
          [ShipState.AFLOAT, ShipState.AFLOAT, ShipState.AFLOAT, ShipState.AFLOAT,
            ShipState.AFLOAT]) :=
  ⟨by decide, exists_of_map_decide _ _ (by decide)⟩


/-- C16 (amended): when `CheckHit` applies a hit that brings the health of the
ship `GetShip` finds to 0, that ship is SUNK with health 0 afterwards and each
of its coordinates is SINK on the attacker's targeting grid; when the computer
fires they are also SINK on `userShips`; when the user fires `compShips` is
left as it was. -/
theorem sinking_hit_marks_sink (game : Game) (target : Int × Int) (p : Player) (rnd : Nat)
    (ship : Ship) (happ : game.hitApplies target p rnd)
    (hship : (game.fleetOf p.opponent)[game.GetShip (target.2, target.1) p]? = some ship)
    (hzero : ship.health - 1 = 0) :
    ∃ game1, game.CheckHit target p rnd = some game1 ∧
      (∃ ship1, (game1.fleetOf p.opponent)[game.GetShip (target.2, target.1) p]? = some ship1 ∧
        ship1.shipState = ShipState.SUNK ∧ ship1.health = 0 ∧
        ship1.shipCoords = ship.shipCoords) ∧
      (∀ c ∈ ship.shipCoords, game1.targetingOf p c.1 c.2 = SINK) ∧
      (p = Player.COMP → ∀ c ∈ ship.shipCoords, game1.userShips c.1 c.2 = SINK) ∧
      (p = Player.USER → game1.compShips = game.compShips) := by
  obtain ⟨game1, h1, hf, _, ht, _, hc, _, hu⟩ := shipHit_spec game target.2 target.1 p ship hship
  have hlt : game.GetShip (target.2, target.1) p < (game.fleetOf p.opponent).length := by
    by_contra hge
    rw [List.getElem?_eq_none (by omega)] at hship
    exact absurd hship (by simp)
  have hsunk : ship.Damage.shipState = ShipState.SUNK := by
    simp [Ship.Damage, hzero]
  refine ⟨game1, ?_, ⟨ship.Damage, ?_, hsunk, ?_, rfl⟩, ?_, ?_, fun _ => hc⟩
  · rw [checkHit_of_hitApplies game target p rnd happ]
    exact h1
  · rw [hf, List.getElem?_set_self hlt]
  · simp [Ship.Damage, hzero]
  · intro c hcm
    rw [ht]
    simp only [hsunk, if_true]
    rw [setAll_apply]
    simp [hcm]
  · intro hp c hcm
    rw [hu hp]
    simp only [hsunk, if_true]
    rw [setAll_apply]
    simp [hcm]

/-- C16, witness: the computer has hit the user's DESTROYER at `(0, 8)` and
now fires at `(1, 8)`. -/
theorem sinking_hit_marks_sink_witness :
    (placedGame Gametype.CLASSIC).CheckHit (8, 0) Player.COMP 0 = some userDestroyerHit ∧
    ∃ game1, userDestroyerHit.CheckHit (8, 1) Player.COMP 0 = some game1 ∧
      (∃ ship1, (game1.fleetOf Player.COMP.opponent)[
          userDestroyerHit.GetShip (((8 : Int), (1 : Int)).2, ((8 : Int), (1 : Int)).1)
            Player.COMP]? = some ship1 ∧
        ship1.shipState = ShipState.SUNK ∧ ship1.health = 0 ∧
        ship1.shipCoords = rowCoords 8 2) ∧
      (∀ c ∈ rowCoords 8 2, game1.targetingOf Player.COMP c.1 c.2 = SINK) ∧
      (Player.COMP = Player.COMP → ∀ c ∈ rowCoords 8 2, game1.userShips c.1 c.2 = SINK) ∧
      (Player.COMP = Player.USER → game1.compShips = userDestroyerHit.compShips) :=
  ⟨rfl, sinking_hit_marks_sink userDestroyerHit (8, 1) Player.COMP 0
    { Ship.construct 2 "DESTROYER" with shipCoords := rowCoords 8 2, health := 1 }
    (by decide) rfl (by decide)⟩

/-- C16, counterexample: in a CLASSIC game the user fires at `(0, 8)` and
then at `(1, 8)`, the two cells of the computer's DESTROYER; the second hit
brings its health to 0 and its state to SUNK, both cells are SINK on
`playerTargeting`, and both are still SHIP on `compShips`. -/
theorem userSink_leaves_compShips :
    ∃ game2, (placedGame Gametype.CLASSIC).resolveShots
        [⟨(8, 0), Player.USER, 0⟩, ⟨(8, 1), Player.USER, 0⟩] = some game2 ∧
      (game2.compFleet.map Ship.health = [5, 4, 3, 3, 0] ∧
        game2.compFleet.map Ship.shipState =
          [ShipState.AFLOAT, ShipState.AFLOAT, ShipState.AFLOAT, ShipState.AFLOAT,
            ShipState.SUNK] ∧
        game2.playerTargeting 0 8 = SINK ∧ game2.playerTargeting 1 8 = SINK ∧
        game2.compShips 0 8 = SHIP ∧ game2.compShips 1 8 = SHIP) :=
  exists_of_map_decide _ _ (by decide)

/-- C17 (amended): when the target is no sentinel and the cell is neither SHIP
nor SHOT_DOWN on the defender's ship grid, `CheckHit` marks the cell MISS on
the attacker's targeting grid and leaves both fleets as they were; when the
computer fires the cell is also MISS on `userShips`; when the user fires
`compShips` is left as it was. -/
theorem miss_marks_grids (game : Game) (target : Int × Int) (p : Player) (rnd : Nat)
    (h99 : target.1 ≠ 99) (h999 : target.1 ≠ 999)
    (hship : game.shipsOf p.opponent target.2 target.1 ≠ SHIP)
    (hdown : game.shipsOf p.opponent target.2 target.1 ≠ SHOT_DOWN) :
    ∃ game1, game.CheckHit target p rnd = some game1 ∧
      game1.targetingOf p target.2 target.1 = MISS ∧
      (p = Player.COMP → game1.userShips target.2 target.1 = MISS) ∧
      (p = Player.USER → game1.compShips = game.compShips) ∧
      game1.userFleet = game.userFleet ∧ game1.compFleet = game.compFleet := by
  obtain ⟨hf1, hf2, hc, _, _, hu⟩ := markShot_frame game target.2 target.1 p MISS
  refine ⟨_, checkHit_of_miss game target p rnd h99 h999 hship hdown, ?_, ?_, fun _ => hc,
    hf1, hf2⟩
  · rw [markShot_targeting]
    exact setSquareState_same _ _ _ _
  · intro hp
    rw [hu hp]
    exact setSquareState_same _ _ _ _

/-- C17, witness: the computer fires at the cell `(0, 1)`, where the user has
no ship. -/
theorem miss_marks_grids_witness :
    ∃ game1, (placedGame Gametype.CLASSIC).CheckHit (1, 0) Player.COMP 0 = some game1 ∧
      game1.targetingOf Player.COMP 0 1 = MISS ∧
      (Player.COMP = Player.COMP → game1.userShips 0 1 = MISS) ∧
      (Player.COMP = Player.USER → game1.compShips = (placedGame Gametype.CLASSIC).compShips) ∧
      game1.userFleet = (placedGame Gametype.CLASSIC).userFleet ∧
      game1.compFleet = (placedGame Gametype.CLASSIC).compFleet :=
  miss_marks_grids (placedGame Gametype.CLASSIC) (1, 0) Player.COMP 0
    (by decide) (by decide) (by decide) (by decide)

/-- C17, counterexample: the user fires at the cell `(0, 1)`, EMPTY on
`compShips`; the cell is MISS on `playerTargeting` and still EMPTY on
`compShips`. -/
theorem userMiss_leaves_compShips :
    (placedGame Gametype.CLASSIC).compShips 0 1 = EMPTY ∧
    ∃ game1, (placedGame Gametype.CLASSIC).CheckHit (1, 0) Player.USER 0 = some game1 ∧
      (game1.playerTargeting 0 1 = MISS ∧ game1.compShips 0 1 = EMPTY) :=
  ⟨by decide, exists_of_map_decide _ _ (by decide)⟩

/-- C18: in CRUISE_MISSILES and HARDCORE, when a shot at a SHIP or SHOT_DOWN
cell is intercepted, `CheckHit` marks the cell SHOT_DOWN on the attacker's
targeting grid, both fleets are left as they were, and a cell of any of the
four grids that is HIT or SINK afterwards was so before. -/
theorem intercepted_no_damage (game : Game) (target : Int × Int) (p : Player) (rnd : Nat)
    (hint : game.intercepted target p rnd) :
    ∃ game1, game.CheckHit target p rnd = some game1 ∧
      game1.targetingOf p target.2 target.1 = SHOT_DOWN ∧
      game1.userFleet = game.userFleet ∧ game1.compFleet = game.compFleet ∧
      ∀ (side : Player) (a b : Int) (v : SquareState), v = HIT ∨ v = SINK →
        (game1.targetingOf side a b = v → game.targetingOf side a b = v) ∧
        (game1.shipsOf side a b = v → game.shipsOf side a b = v) := by
  obtain ⟨hf1, hf2, hc, ho, hu1, hu2⟩ := markShot_frame game target.2 target.1 p SHOT_DOWN
  have ht := markShot_targeting game target.2 target.1 p SHOT_DOWN
  refine ⟨_, checkHit_of_intercepted game target p rnd hint, ?_, hf1, hf2, ?_⟩
  · rw [ht]
    exact setSquareState_same _ _ _ _
  · intro side a b v hv
    have hne : SHOT_DOWN ≠ v := by
      rcases hv with rfl | rfl <;> decide
    constructor
    · intro h
      by_cases hs : side = p
      · rw [hs, ht] at h
        rw [hs]
        exact setSquareState_apply_ne _ _ _ _ _ _ _ hne h
      · have hso : side = p.opponent := by
          cases side <;> cases p <;> simp_all [Player.opponent]
        rw [hso, ho] at h
        rw [hso]
        exact h
    · intro h
      cases side
      · simp only [Game.shipsOf, if_true] at h ⊢
        cases p
        · rw [hu1 rfl] at h
          exact h
        · rw [hu2 rfl] at h
          exact setSquareState_apply_ne _ _ _ _ _ _ _ hne h
      · simp only [Game.shipsOf, reduceCtorEq, if_false] at h ⊢
        rw [hc] at h
        exact h

/-- C18, witness: in a HARDCORE game the computer fires at the cell `(2, 0)`
of the user's CARRIER and `rand()` returns 7, so that the shot is intercepted. -/
theorem intercepted_no_damage_witness :
    ∃ game1, (placedGame Gametype.HARDCORE).CheckHit (0, 2) Player.COMP 7 = some game1 ∧
      game1.targetingOf Player.COMP 2 0 = SHOT_DOWN ∧
      game1.userFleet = (placedGame Gametype.HARDCORE).userFleet ∧
      game1.compFleet = (placedGame Gametype.HARDCORE).compFleet ∧
      ∀ (side : Player) (a b : Int) (v : SquareState), v = HIT ∨ v = SINK →
        (game1.targetingOf side a b = v → (placedGame Gametype.HARDCORE).targetingOf side a b = v) ∧
        (game1.shipsOf side a b = v → (placedGame Gametype.HARDCORE).shipsOf side a b = v) :=
  intercepted_no_damage (placedGame Gametype.HARDCORE) (0, 2) Player.COMP 7 (by decide)

/-- C19 (amended): when a shot is intercepted, `CheckHit` writes SHOT_DOWN to
the defender's ship grid exactly when the defender is the user: when the
computer fires, `userShips` at the target becomes SHOT_DOWN; when the user
fires, `compShips` is left as it was. -/
theorem interception_mirrored_on_userShips (game : Game) (target : Int × Int) (p : Player)
    (rnd : Nat) (hint : game.intercepted target p rnd) :
    ∃ game1, game.CheckHit target p rnd = some game1 ∧
      (p = Player.COMP → game1.userShips target.2 target.1 = SHOT_DOWN) ∧
      (p = Player.USER → game1.compShips = game.compShips ∧
        game1.userShips = game.userShips) := by
  obtain ⟨_, _, hc, _, hu1, hu2⟩ := markShot_frame game target.2 target.1 p SHOT_DOWN
  refine ⟨_, checkHit_of_intercepted game target p rnd hint, ?_, fun hp => ⟨hc, hu1 hp⟩⟩
  intro hp
  rw [hu2 hp]
  exact setSquareState_same _ _ _ _

/-- C19, witness: in a CRUISE_MISSILES game the computer fires at the cell
`(2, 0)` of the user's CARRIER and the shot is intercepted. -/
theorem interception_mirrored_on_userShips_witness :
    ∃ game1, (placedGame Gametype.CRUISE_MISSILES).CheckHit (0, 2) Player.COMP 0 = some game1 ∧
      (Player.COMP = Player.COMP → game1.userShips 2 0 = SHOT_DOWN) ∧
      (Player.COMP = Player.USER →
        game1.compShips = (placedGame Gametype.CRUISE_MISSILES).compShips ∧
        game1.userShips = (placedGame Gametype.CRUISE_MISSILES).userShips) :=
  interception_mirrored_on_userShips (placedGame Gametype.CRUISE_MISSILES) (0, 2)
    Player.COMP 0 (by decide)

/-- C19, counterexample: in a CRUISE_MISSILES game the user fires at the cell
`(2, 0)` of the computer's CARRIER and the shot is intercepted; the cell is
SHOT_DOWN on `playerTargeting` and still SHIP on `compShips`. -/
theorem userIntercepted_leaves_compShips :
    (placedGame Gametype.CRUISE_MISSILES).intercepted (0, 2) Player.USER 0 ∧
    ∃ game1, (placedGame Gametype.CRUISE_MISSILES).CheckHit (0, 2) Player.USER 0 = some game1 ∧
      (game1.playerTargeting 2 0 = SHOT_DOWN ∧ game1.compShips 2 0 = SHIP) :=
  ⟨by decide, exists_of_map_decide _ _ (by decide)⟩

/-! ## Health along a sequence of shots -/

theorem forfeitStep_getElem (fleet : List Ship) (i j : Nat) (ship1 : Ship)
    (h : (forfeitStep fleet i)[j]? = some ship1) :
    ∃ ship, fleet[j]? = some ship ∧ ship1.shipSize = ship.shipSize ∧
      ship1.health = ship.health := by
  unfold forfeitStep at h
  cases hi : fleet[i]? with
  | none =>
    simp only [hi] at h
    exact ⟨ship1, h, rfl, rfl⟩
  | some ship =>
    simp only [hi] at h
    by_cases hij : i = j
    · subst hij
      have hlt : i < fleet.length := by
        by_contra hge
        rw [List.getElem?_eq_none (by omega)] at hi
        exact absurd hi (by simp)
      rw [List.getElem?_set_self hlt] at h
      refine ⟨ship, hi, ?_, ?_⟩
      · rw [← Option.some.inj h]
      · rw [← Option.some.inj h]
    · rw [List.getElem?_set_ne hij] at h
      exact ⟨ship1, h, rfl, rfl⟩

theorem forfeitFold_getElem (idx : List Nat) (fleet : List Ship) (j : Nat) (ship1 : Ship)
    (h : (idx.foldl forfeitStep fleet)[j]? = some ship1) :
    ∃ ship, fleet[j]? = some ship ∧ ship1.shipSize = ship.shipSize ∧
      ship1.health = ship.health := by
  induction idx generalizing fleet with
  | nil => exact ⟨ship1, h, rfl, rfl⟩
  | cons i l ih =>
    simp only [List.foldl_cons] at h
    obtain ⟨ship2, h2, hs2, hh2⟩ := ih (forfeitStep fleet i) h
    obtain ⟨ship, h3, hs3, hh3⟩ := forfeitStep_getElem fleet i j ship2 h2
    exact ⟨ship, h3, hs2.trans hs3, hh2.trans hh3⟩

theorem forfeit_getElem (game : Game) (q side : Player) (j : Nat) (ship1 : Ship)
    (h : ((game.Forfeit q).fleetOf side)[j]? = some ship1) :
    ∃ ship, (game.fleetOf side)[j]? = some ship ∧ ship1.shipSize = ship.shipSize ∧
      ship1.health = ship.health := by
  cases q <;> cases side <;>
    simp only [Game.Forfeit, Game.fleetOf, if_true, reduceCtorEq, if_false] at h ⊢
  · exact forfeitFold_getElem _ _ _ _ h
  · exact ⟨ship1, h, rfl, rfl⟩
  · exact ⟨ship1, h, rfl, rfl⟩
  · exact forfeitFold_getElem _ _ _ _ h

theorem opponent_ne (p : Player) : p.opponent ≠ p := by
  cases p <;> simp [Player.opponent]

theorem eq_or_eq_opponent (side p : Player) : side = p ∨ side = p.opponent := by
  cases side <;> cases p <;> simp [Player.opponent]

theorem markShot_fleetOf (game : Game) (tarCol tarRow : Int) (p side : Player) (v : SquareState) :
    (game.markShot tarCol tarRow p v).fleetOf side = game.fleetOf side := by
  cases p <;> cases side <;> simp [Game.markShot, Game.fleetOf]

/-- One call of `CheckHit` takes 1 from the health of the ship it calls
`ShipHit` against and leaves the health and size of every other ship. -/
theorem checkHit_health (game game1 : Game) (shot : Shot)
    (hres : game.CheckHit shot.target shot.p shot.rnd = some game1)
    (side : Player) (j : Nat) (ship1 : Ship) (hj : (game1.fleetOf side)[j]? = some ship1) :
    ∃ ship, (game.fleetOf side)[j]? = some ship ∧ ship1.shipSize = ship.shipSize ∧
      ship1.health = ship.health -
        (((if shot.p.opponent = side ∧ game.hitApplies shot.target shot.p shot.rnd ∧
          game.GetShip (shot.target.2, shot.target.1) shot.p = j then 1 else 0 : Nat)) : Int) := by
  rw [checkHit_eq] at hres
  by_cases h99 : shot.target.1 = 99
  · simp only [h99, if_true, Option.some.injEq] at hres
    have hno : ¬ game.hitApplies shot.target shot.p shot.rnd := fun hh => hh.1 h99
    subst hres
    obtain ⟨ship, h1, h2, h3⟩ := forfeit_getElem game _ side j ship1 hj
    exact ⟨ship, h1, h2, by simp [hno, h3]⟩
  by_cases h999 : shot.target.1 = 999
  · rw [if_neg h99, if_pos h999] at hres
    simp only [Option.some.injEq] at hres
    have hno : ¬ game.hitApplies shot.target shot.p shot.rnd := fun hh => hh.2.1 h999
    subst hres
    obtain ⟨ship, h1, h2, h3⟩ := forfeit_getElem game _ side j ship1 hj
    exact ⟨ship, h1, h2, by simp [hno, h3]⟩
  simp only [h99, h999, if_false] at hres
  by_cases hh : game.hitApplies shot.target shot.p shot.rnd
  · simp only [hh, if_true] at hres
    cases hs : (game.fleetOf shot.p.opponent)[game.GetShip (shot.target.2, shot.target.1) shot.p]? with
    | none =>
      rw [shipHit_none game _ _ _ hs] at hres
      exact absurd hres (by simp)
    | some ship =>
      obtain ⟨game2, h1, hf, hfp, _⟩ := shipHit_spec game _ _ _ ship hs
      rw [h1] at hres
      have hg : game2 = game1 := Option.some.inj hres
      subst hg
      rcases eq_or_eq_opponent side shot.p with hside | hside
      · subst hside
        rw [hfp] at hj
        refine ⟨ship1, hj, rfl, ?_⟩
        simp [opponent_ne]
      · subst hside
        rw [hf] at hj
        have hlt : game.GetShip (shot.target.2, shot.target.1) shot.p <
            (game.fleetOf shot.p.opponent).length := by
          by_contra hge
          rw [List.getElem?_eq_none (by omega)] at hs
          exact absurd hs (by simp)
        by_cases hjj : game.GetShip (shot.target.2, shot.target.1) shot.p = j
        · rw [← hjj, List.getElem?_set_self hlt] at hj
          refine ⟨ship, by rw [← hjj]; exact hs, ?_, ?_⟩
          · rw [← Option.some.inj hj]
            rfl
          · rw [← Option.some.inj hj]
            simp [hh, hjj, Ship.Damage]
        · rw [List.getElem?_set_ne hjj] at hj
          exact ⟨ship1, hj, rfl, by simp [hjj]⟩
  · simp only [hh, if_false] at hres
    by_cases hi : game.intercepted shot.target shot.p shot.rnd
    · simp only [hi, if_true, Option.some.injEq] at hres
      subst hres
      rw [markShot_fleetOf] at hj
      exact ⟨ship1, hj, rfl, by simp [hh]⟩
    · simp only [hi, if_false, Option.some.injEq] at hres
      subst hres
      rw [markShot_fleetOf] at hj
      exact ⟨ship1, hj, rfl, by simp [hh]⟩

/-- Along a sequence of shots, the health of a ship goes down by the number of
hits registered against it, and its size stays. -/
theorem resolveShots_health (shots : List Shot) (game game1 : Game)
    (hres : game.resolveShots shots = some game1)
    (side : Player) (j : Nat) (ship1 : Ship) (hj : (game1.fleetOf side)[j]? = some ship1) :
    ∃ ship, (game.fleetOf side)[j]? = some ship ∧ ship1.shipSize = ship.shipSize ∧
      ship1.health + (game.hitsRegistered side j shots : Int) = ship.health := by
  induction shots generalizing game with
  | nil =>
    simp only [Game.resolveShots, Option.some.injEq] at hres
    subst hres
    exact ⟨ship1, hj, rfl, by simp [Game.hitsRegistered]⟩
  | cons shot rest ih =>
    unfold Game.resolveShots at hres
    unfold Game.hitsRegistered
    cases hc : game.CheckHit shot.target shot.p shot.rnd with
    | none =>
      simp only [hc] at hres
      exact absurd hres (by simp)
    | some game2 =>
      simp only [hc] at hres ⊢
      obtain ⟨ship2, h2, hs2, hh2⟩ := ih game2 hres
      obtain ⟨ship, h3, hs3, hh3⟩ := checkHit_health game game2 shot hc side j ship2 h2
      have key : ∀ (a b c : Int) (k m : Nat), a + (m : Int) = b → b = c - (k : Int) →
          a + ((k + m : Nat) : Int) = c := by
        intro a b c k m h1 h2
        push_cast
        omega
      exact ⟨ship, h3, hs2.trans hs3, key _ _ _ _ _ hh2 hh3⟩

/-- C15: when `CheckHit` applies a hit at a coordinate that one of the five
ships of the defending fleet owns, the ship `GetShip` finds owns the
coordinate (it is the last such ship), it is replaced by its `Damage`, whose
health is 1 less, every other ship of the defending fleet is unchanged and the
firing side's fleet is unchanged. Consequently, along any sequence of shots
resolved by `CheckHit`, a ship's health plus the number of hits registered
against it is its health at the start, and so its size when it started with
its health equal to its size. -/
theorem hit_damages_owner_only :
    (∀ (game : Game) (target : Int × Int) (p : Player) (rnd : Nat),
      game.hitApplies target p rnd →
      (∃ i, i < 5 ∧ (target.2, target.1) ∈ coordsAt (game.fleetOf p.opponent) i) →
      ∃ game1 ship, game.CheckHit target p rnd = some game1 ∧
        game.GetShip (target.2, target.1) p < 5 ∧
        (game.fleetOf p.opponent)[game.GetShip (target.2, target.1) p]? = some ship ∧
        (target.2, target.1) ∈ ship.shipCoords ∧
        (∀ i, i < 5 → (target.2, target.1) ∈ coordsAt (game.fleetOf p.opponent) i →
          i ≤ game.GetShip (target.2, target.1) p) ∧
        (game1.fleetOf p.opponent)[game.GetShip (target.2, target.1) p]? = some ship.Damage ∧
        ship.Damage.health = ship.health - 1 ∧
        (∀ i, i ≠ game.GetShip (target.2, target.1) p →
          (game1.fleetOf p.opponent)[i]? = (game.fleetOf p.opponent)[i]?) ∧
        game1.fleetOf p = game.fleetOf p) ∧
    (∀ (shots : List Shot) (game game1 : Game) (side : Player) (j : Nat) (ship1 : Ship),
      game.resolveShots shots = some game1 →
      (game1.fleetOf side)[j]? = some ship1 →
      ∃ ship, (game.fleetOf side)[j]? = some ship ∧ ship1.shipSize = ship.shipSize ∧
        ship1.health + (game.hitsRegistered side j shots : Int) = ship.health ∧
        (ship.health = ship.shipSize →
          ship1.health + (game.hitsRegistered side j shots : Int) = ship1.shipSize)) := by
  constructor
  · intro game target p rnd happ hown
    obtain ⟨hlt, hmem, hlast⟩ := getShip_spec game (target.2, target.1) p hown
    obtain ⟨ship, hship, hc⟩ := (mem_coordsAt _ _ _).1 hmem
    obtain ⟨game1, h1, hf, hfp, _⟩ := shipHit_spec game target.2 target.1 p ship hship
    have hlen : game.GetShip (target.2, target.1) p < (game.fleetOf p.opponent).length := by
      by_contra hge
      rw [List.getElem?_eq_none (by omega)] at hship
      exact absurd hship (by simp)
    refine ⟨game1, ship, ?_, hlt, hship, hc, hlast, ?_, rfl, ?_, hfp⟩
    · rw [checkHit_of_hitApplies game target p rnd happ]
      exact h1
    · rw [hf, List.getElem?_set_self hlen]
    · intro i hi
      rw [hf, List.getElem?_set_ne (Ne.symm hi)]
  · intro shots game game1 side j ship1 hres hj
    obtain ⟨ship, h1, h2, h3⟩ := resolveShots_health shots game game1 hres side j ship1 hj
    exact ⟨ship, h1, h2, h3, fun h => by rw [h3, h2, h]⟩

/-- C15, witness: the computer fires at `(0, 8)` and then at `(1, 8)`, the two
cells of the user's DESTROYER, in a CLASSIC game; two hits are registered
against it and its health goes from 2 to 0. -/
theorem hit_damages_owner_only_witness :
    (∃ game1 ship, (placedGame Gametype.CLASSIC).CheckHit (8, 0) Player.COMP 0 = some game1 ∧
        (placedGame Gametype.CLASSIC).GetShip (0, 8) Player.COMP < 5 ∧
        ((placedGame Gametype.CLASSIC).fleetOf Player.USER)[
          (placedGame Gametype.CLASSIC).GetShip (0, 8) Player.COMP]? = some ship ∧
        ((0 : Int), (8 : Int)) ∈ ship.shipCoords ∧
        (∀ i, i < 5 → ((0 : Int), (8 : Int)) ∈
            coordsAt ((placedGame Gametype.CLASSIC).fleetOf Player.USER) i →
          i ≤ (placedGame Gametype.CLASSIC).GetShip (0, 8) Player.COMP) ∧
        (game1.fleetOf Player.USER)[
          (placedGame Gametype.CLASSIC).GetShip (0, 8) Player.COMP]? = some ship.Damage ∧
        ship.Damage.health = ship.health - 1 ∧
        (∀ i, i ≠ (placedGame Gametype.CLASSIC).GetShip (0, 8) Player.COMP →
          (game1.fleetOf Player.USER)[i]? =
            ((placedGame Gametype.CLASSIC).fleetOf Player.USER)[i]?) ∧
        game1.fleetOf Player.COMP = (placedGame Gametype.CLASSIC).fleetOf Player.COMP) ∧
    (placedGame Gametype.CLASSIC).hitsRegistered Player.USER 4
      [⟨(8, 0), Player.COMP, 0⟩, ⟨(8, 1), Player.COMP, 0⟩] = 2 ∧
    (∃ ship, ((placedGame Gametype.CLASSIC).fleetOf Player.USER)[4]? = some ship ∧
      (2 : Int) = ship.shipSize ∧
      (0 : Int) + ((placedGame Gametype.CLASSIC).hitsRegistered Player.USER 4
        [⟨(8, 0), Player.COMP, 0⟩, ⟨(8, 1), Player.COMP, 0⟩] : Int) = ship.health ∧
      (ship.health = ship.shipSize →
        (0 : Int) + ((placedGame Gametype.CLASSIC).hitsRegistered Player.USER 4
          [⟨(8, 0), Player.COMP, 0⟩, ⟨(8, 1), Player.COMP, 0⟩] : Int) = 2)) :=
  ⟨hit_damages_owner_only.1 (placedGame Gametype.CLASSIC) (8, 0) Player.COMP 0 (by decide)
      ⟨4, by decide, by decide⟩,
    by decide,
    hit_damages_owner_only.2 [⟨(8, 0), Player.COMP, 0⟩, ⟨(8, 1), Player.COMP, 0⟩]
      (placedGame Gametype.CLASSIC) userDestroyerSunk Player.USER 4
      { Ship.construct 2 "DESTROYER" with
        shipCoords := rowCoords 8 2, health := 0, shipState := ShipState.SUNK }
      rfl rfl⟩

/-! ## Forfeit -/

theorem forfeit_five (fleet : List Ship) (h : fleet.length = 5) :
    (List.range 5).foldl forfeitStep fleet =
      fleet.map fun ship => { ship with shipState := ShipState.SUNK } := by
  match fleet, h with
  | [a, b, c, d, e], _ => rfl

theorem isFleetDestroyed_of_sunk (game : Game) (side : Player)
    (hlen : (game.fleetOf side).length = 5)
    (h : ∀ ship ∈ game.fleetOf side, ship.shipState = ShipState.SUNK) :
    game.IsFleetDestroyed side = true := by
  have hfl : ∀ i : Nat, (if side = Player.USER then game.userFleet[i]? else game.compFleet[i]?)
      = (game.fleetOf side)[i]? := by
    intro i
    cases side <;> simp [Game.fleetOf]
  unfold Game.IsFleetDestroyed
  simp only [hfl]
  generalize game.fleetOf side = fleet at hlen h
  match fleet, hlen, h with
  | [a, b, c, d, e], _, h =>
    have ha := h a (by simp)
    have hb := h b (by simp)
    have hc := h c (by simp)
    have hd := h d (by simp)
    have he := h e (by simp)
    simp [List.range_succ, ha, hb, hc, hd, he]

/-- C20 (amended): a target whose first component is the forfeit sentinel of a
side (99 for the user, 999 for the computer) makes `CheckHit`, whichever side
fires, set every ship of that side's fleet of five to SUNK, so that
`IsFleetDestroyed` of that side is true afterwards; the other fleet is left as
it was. -/
theorem forfeit_sentinel_sinks (game : Game) (target : Int × Int) (p side : Player) (rnd : Nat)
    (hsent : target.1 = forfeitSentinel side)
    (hlen : (game.fleetOf side).length = 5) :
    ∃ game1, game.CheckHit target p rnd = some game1 ∧
      (game1.fleetOf side).length = 5 ∧
      (∀ ship ∈ game1.fleetOf side, ship.shipState = ShipState.SUNK) ∧
      game1.IsFleetDestroyed side = true ∧
      game1.fleetOf side.opponent = game.fleetOf side.opponent := by
  have hres : game.CheckHit target p rnd = some (game.Forfeit side) := by
    rw [checkHit_eq]
    cases side
    · simp only [forfeitSentinel] at hsent
      simp only [hsent, if_true]
    · simp only [forfeitSentinel] at hsent
      rw [if_neg (by rw [hsent]; decide), if_pos hsent]
  have hfleet : (game.Forfeit side).fleetOf side =
      (game.fleetOf side).map fun ship => { ship with shipState := ShipState.SUNK } := by
    rw [← forfeit_five _ hlen]
    cases side <;> simp [Game.Forfeit, Game.fleetOf]
  have hl : ((game.Forfeit side).fleetOf side).length = 5 := by
    rw [hfleet, List.length_map, hlen]
  have hs : ∀ ship ∈ (game.Forfeit side).fleetOf side, ship.shipState = ShipState.SUNK := by
    intro ship hm
    rw [hfleet] at hm
    obtain ⟨ship0, _, rfl⟩ := List.mem_map.1 hm
    rfl
  refine ⟨_, hres, hl, hs, isFleetDestroyed_of_sunk _ _ hl hs, ?_⟩
  cases side <;> simp [Game.Forfeit, Game.fleetOf, Player.opponent]

/-- C20, witness: the computer's forfeit sentinel 999 resolved while the user
fires. -/
theorem forfeit_sentinel_sinks_witness :
    ∃ game1, (placedGame Gametype.CLASSIC).CheckHit (999, 999) Player.USER 0 = some game1 ∧
      (game1.fleetOf Player.COMP).length = 5 ∧
      (∀ ship ∈ game1.fleetOf Player.COMP, ship.shipState = ShipState.SUNK) ∧
      game1.IsFleetDestroyed Player.COMP = true ∧
      game1.fleetOf Player.COMP.opponent =
        (placedGame Gametype.CLASSIC).fleetOf Player.COMP.opponent :=
  forfeit_sentinel_sinks (placedGame Gametype.CLASSIC) (999, 999) Player.USER Player.COMP 0
    rfl rfl

/-- C20, counterexample: `CheckHit((99, 99), COMP)` sinks the user's fleet and
leaves the firing computer's fleet AFLOAT, and `CheckHit((999, 999), USER)`
sinks the computer's fleet and leaves the firing user's fleet AFLOAT; in both
cases `IsFleetDestroyed` of the firing side is false afterwards. -/
theorem forfeit_sentinel_not_firing_side :
    (∃ game1, (placedGame Gametype.CLASSIC).CheckHit (99, 99) Player.COMP 0 = some game1 ∧
      (game1.IsFleetDestroyed Player.COMP = false ∧
        game1.IsFleetDestroyed Player.USER = true ∧
        game1.compFleet.map Ship.shipState =
          [ShipState.AFLOAT, ShipState.AFLOAT, ShipState.AFLOAT, ShipState.AFLOAT,
            ShipState.AFLOAT])) ∧
    (∃ game1, (placedGame Gametype.CLASSIC).CheckHit (999, 999) Player.USER 0 = some game1 ∧
      (game1.IsFleetDestroyed Player.USER = false ∧
        game1.IsFleetDestroyed Player.COMP = true ∧
        game1.userFleet.map Ship.shipState =
          [ShipState.AFLOAT, ShipState.AFLOAT, ShipState.AFLOAT, ShipState.AFLOAT,
            ShipState.AFLOAT])) :=
  ⟨exists_of_map_decide _ _ (by decide), exists_of_map_decide _ _ (by decide)⟩

/-! ## The random draw of `ShootDownMissile` -/

theorem shootDownMissile_add_mul (m i : Nat) :
    Game.ShootDownMissile (10 * m + i) = Game.ShootDownMissile i := by
  unfold Game.ShootDownMissile
  rw [Nat.mul_add_mod]

theorem shootDownMissile_count_ten :
    ((List.range 10).filter fun r => Game.ShootDownMissile r).length = 8 := by
  decide

theorem shootDownMissile_count (m : Nat) :
    ((List.range (10 * m)).filter fun r => Game.ShootDownMissile r).length = 8 * m := by
  induction m with
  | zero => simp
  | succ m ih =>
    have hsplit : 10 * (m + 1) = 10 * m + 10 := by ring
    rw [hsplit, List.range_add, List.filter_append, List.length_append, ih, List.filter_map,
      List.length_map]
    have hfun : ((fun r => Game.ShootDownMissile r) ∘ fun x => 10 * m + x)
        = fun r => Game.ShootDownMissile r := by
      funext i
      exact shootDownMissile_add_mul m i
    rw [hfun, shootDownMissile_count_ten]
    ring

/-- C24: with `d = rand() % 10 + 1`, which lies in `[1, 10]`, `ShootDownMissile`
reports interception exactly when `d ≤ 8`; it depends on `rand()` only through
`d`; of the ten values `0 .. 9` of `rand() % 10` exactly the eight `0 .. 7`
(`d = 1 .. 8`) intercept, and of any `10 * m` consecutive values of `rand()`
from 0 on exactly `8 * m` do. -/
theorem shootDownMissile_eight_of_ten :
    (∀ rnd d : Nat, d = rnd % 10 + 1 →
      (1 ≤ d ∧ d ≤ 10) ∧ (Game.ShootDownMissile rnd = true ↔ d ≤ 8)) ∧
    (∀ rnd1 rnd2 : Nat, rnd1 % 10 + 1 = rnd2 % 10 + 1 →
      Game.ShootDownMissile rnd1 = Game.ShootDownMissile rnd2) ∧
    ((List.range 10).filter fun r => Game.ShootDownMissile r) = [0, 1, 2, 3, 4, 5, 6, 7] ∧
    (∀ m : Nat, ((List.range (10 * m)).filter fun r => Game.ShootDownMissile r).length
      = 8 * m) := by
  refine ⟨?_, ?_, by decide, shootDownMissile_count⟩
  · intro rnd d hd
    subst hd
    refine ⟨⟨by omega, by omega⟩, ?_⟩
    unfold Game.ShootDownMissile
    simp
  · intro rnd1 rnd2 h
    unfold Game.ShootDownMissile
    rw [h]

/-- C24, witness: `rand()` returning 1237 gives the draw 8, an interception;
1238 gives the draw 9, no interception. -/
theorem shootDownMissile_eight_of_ten_witness :
    ((1 ≤ 8 ∧ 8 ≤ 10) ∧ (Game.ShootDownMissile 1237 = true ↔ 8 ≤ 8)) ∧
    ((1 ≤ 9 ∧ 9 ≤ 10) ∧ (Game.ShootDownMissile 1238 = true ↔ 9 ≤ 8)) ∧
    Game.ShootDownMissile 1237 = Game.ShootDownMissile 7 :=
  ⟨shootDownMissile_eight_of_ten.1 1237 8 (by decide),
    shootDownMissile_eight_of_ten.1 1238 9 (by decide),
    shootDownMissile_eight_of_ten.2.1 1237 7 (by decide)⟩

/-! ## `PlaceShip` and `CheckWin` -/

theorem placeShip_shipsOf (game : Game) (coords : List (Int × Int)) (p : Player) (a b : Int) :
    (game.PlaceShip coords p).shipsOf p a b =
      if (a, b) ∈ coords then SHIP else game.shipsOf p a b := by
  cases p
  · simp only [Game.PlaceShip, Game.shipsOf, if_true]
    exact setAll_apply coords SHIP game.userShips a b
  · simp only [Game.PlaceShip, Game.shipsOf, reduceCtorEq, if_false]
    exact setAll_apply coords SHIP game.compShips a b

/-- C28 (amended): `PlaceShip` does not test the cells and cannot fail: on the
ship grid of `p` every cell of `coords` is SHIP afterwards, whatever it was,
and every other cell is as before; the other ship grid, the targeting grids,
the fleets, the game state and the game type are as before. -/
theorem placeShip_marks_every_cell (game : Game) (coords : List (Int × Int)) (p : Player) :
    (∀ a b, (game.PlaceShip coords p).shipsOf p a b =
      if (a, b) ∈ coords then SHIP else game.shipsOf p a b) ∧
    (game.PlaceShip coords p).shipsOf p.opponent = game.shipsOf p.opponent ∧
    (game.PlaceShip coords p).playerTargeting = game.playerTargeting ∧
    (game.PlaceShip coords p).compTargeting = game.compTargeting ∧
    (game.PlaceShip coords p).userFleet = game.userFleet ∧
    (game.PlaceShip coords p).compFleet = game.compFleet ∧
    (game.PlaceShip coords p).gameState = game.gameState ∧
    (game.PlaceShip coords p).gameType = game.gameType := by
  refine ⟨placeShip_shipsOf game coords p, ?_⟩
  cases p <;> simp [Game.PlaceShip, Game.shipsOf, Player.opponent]

/-- C28, counterexample: on the user's grid with the CARRIER at
`(2, 0) .. (2, 4)`, `PlaceShip` of the run `(5, 0), (4, 0), (3, 0), (2, 0)`,
whose last cell is occupied, is not refused: the cells `(5, 0), (4, 0), (3, 0)`
were EMPTY and are SHIP afterwards. -/
theorem placeShip_onto_occupied_cell :
    carrierPlaced.userShips 2 0 = SHIP ∧
    carrierPlaced.userShips 5 0 = EMPTY ∧ carrierPlaced.userShips 4 0 = EMPTY ∧
    carrierPlaced.userShips 3 0 = EMPTY ∧
    (carrierPlaced.PlaceShip [(5, 0), (4, 0), (3, 0), (2, 0)] Player.USER).userShips 5 0 = SHIP ∧
    (carrierPlaced.PlaceShip [(5, 0), (4, 0), (3, 0), (2, 0)] Player.USER).userShips 4 0 = SHIP ∧
    (carrierPlaced.PlaceShip [(5, 0), (4, 0), (3, 0), (2, 0)] Player.USER).userShips 3 0 = SHIP ∧
    (carrierPlaced.PlaceShip [(5, 0), (4, 0), (3, 0), (2, 0)] Player.USER).userShips 2 0 = SHIP := by
  decide

/-- C29: `CheckWin(p)` returns whether the fleet of the other side is
destroyed and, when it is, sets the state to USERWON for `p = USER` and for
`p = COMP` alike; otherwise the game is unchanged. After the user's fleet is
destroyed (here by the user's forfeit in the placed CLASSIC game),
`CheckWin(COMP)` returns true and the state is USERWON, not COMPWON. -/
theorem checkWin_comp_sets_userwon :
    (∀ (game : Game) (p : Player),
      game.CheckWin p =
        (game.IsFleetDestroyed p.opponent,
          if game.IsFleetDestroyed p.opponent = true then
            { game with gameState := Gamestate.USERWON }
          else game)) ∧
    ((placedGame Gametype.CLASSIC).Forfeit Player.USER).IsFleetDestroyed Player.USER = true ∧
    (((placedGame Gametype.CLASSIC).Forfeit Player.USER).CheckWin Player.COMP).1 = true ∧
    (((placedGame Gametype.CLASSIC).Forfeit Player.USER).CheckWin Player.COMP).2.gameState
      = Gamestate.USERWON ∧
    Gamestate.USERWON ≠ Gamestate.COMPWON := by
  refine ⟨?_, by decide, by decide, by decide, by decide⟩
  intro game p
  cases p
  · simp only [Game.CheckWin, Player.opponent, if_true]
    by_cases h : game.IsFleetDestroyed Player.COMP = true
    · rw [if_pos h, if_pos h]
      exact Prod.ext h.symm rfl
    · rw [if_neg h, if_neg h]
      exact Prod.ext (Bool.eq_false_iff.2 h).symm rfl
  · simp only [Game.CheckWin, Player.opponent, reduceCtorEq, if_false]
    by_cases h : game.IsFleetDestroyed Player.USER = true
    · rw [if_pos h, if_pos h]
      exact Prod.ext h.symm rfl
    · rw [if_neg h, if_neg h]
      exact Prod.ext (Bool.eq_false_iff.2 h).symm rfl

/-! ## What `CheckHit` writes to the grids -/

theorem forfeit_grids (game : Game) (q side : Player) :
    (game.Forfeit q).targetingOf side = game.targetingOf side ∧
    (game.Forfeit q).shipsOf side = game.shipsOf side ∧
    (game.Forfeit q).gameType = game.gameType := by
  cases q <;> cases side <;> simp [Game.Forfeit, Game.targetingOf, Game.shipsOf]

theorem setSquareState_apply (grid : Grid) (x y a b : Int) (v : SquareState) :
    setSquareState grid x y v a b = grid a b ∨
      ((a, b) = (x, y) ∧ setSquareState grid x y v a b = v) := by
  unfold setSquareState
  by_cases hc : a = x ∧ b = y
  · right
    simp [hc]
  · left
    simp only [hc, if_false]

/-- The grid `ShipHit` leaves: HIT at the target, SINK on the ship's
coordinates when it is sunk. -/
theorem hitGrid_apply (grid : Grid) (coords : List (Int × Int)) (sunk : Prop) [Decidable sunk]
    (x y a b : Int) :
    (if sunk then setAll coords SINK (setSquareState grid x y HIT)
      else setSquareState grid x y HIT) a b = grid a b ∨
    ((a, b) = (x, y) ∧
      (if sunk then setAll coords SINK (setSquareState grid x y HIT)
        else setSquareState grid x y HIT) a b = HIT) ∨
    ((if sunk then setAll coords SINK (setSquareState grid x y HIT)
        else setSquareState grid x y HIT) a b = SINK ∧ (a, b) ∈ coords ∧ sunk) := by
  by_cases hs : sunk
  · simp only [hs, if_true]
    rw [setAll_apply]
    by_cases hm : (a, b) ∈ coords
    · right; right
      simp [hm]
    · simp only [hm, if_false]
      rcases setSquareState_apply grid x y a b HIT with h | h
      · exact Or.inl h
      · exact Or.inr (Or.inl h)
  · simp only [hs, if_false]
    rcases setSquareState_apply grid x y a b HIT with h | h
    · exact Or.inl h
    · exact Or.inr (Or.inl h)

/-- What a successful `CheckHit` does to the targeting grids: the grid of the
other side is unchanged; a cell of the grid of the firing side is unchanged,
or it is the target and becomes HIT, MISS or (on interception) SHOT_DOWN, or it
is a coordinate of the ship sunk by the shot and becomes SINK. -/
theorem checkHit_targeting_cell (game game1 : Game) (target : Int × Int) (p : Player)
    (rnd : Nat) (hres : game.CheckHit target p rnd = some game1) (a b : Int) :
    game1.targetingOf p.opponent a b = game.targetingOf p.opponent a b ∧
    (game1.targetingOf p a b = game.targetingOf p a b ∨
      ((a, b) = (target.2, target.1) ∧
        (game1.targetingOf p a b = HIT ∨ game1.targetingOf p a b = MISS ∨
          (game1.targetingOf p a b = SHOT_DOWN ∧ game.intercepted target p rnd))) ∨
      (game1.targetingOf p a b = SINK ∧ game.hitApplies target p rnd ∧
        ∃ ship, (game.fleetOf p.opponent)[game.GetShip (target.2, target.1) p]? = some ship ∧
          (a, b) ∈ ship.shipCoords ∧ ship.Damage.shipState = ShipState.SUNK)) := by
  rw [checkHit_eq] at hres
  by_cases h99 : target.1 = 99
  · rw [if_pos h99] at hres
    have hg := Option.some.inj hres
    subst hg
    exact ⟨by rw [(forfeit_grids game _ _).1], Or.inl (by rw [(forfeit_grids game _ _).1])⟩
  rw [if_neg h99] at hres
  by_cases h999 : target.1 = 999
  · rw [if_pos h999] at hres
    have hg := Option.some.inj hres
    subst hg
    exact ⟨by rw [(forfeit_grids game _ _).1], Or.inl (by rw [(forfeit_grids game _ _).1])⟩
  rw [if_neg h999] at hres
  by_cases hh : game.hitApplies target p rnd
  · rw [if_pos hh] at hres
    cases hs : (game.fleetOf p.opponent)[game.GetShip (target.2, target.1) p]? with
    | none =>
      rw [shipHit_none game _ _ _ hs] at hres
      exact absurd hres (by simp)
    | some ship =>
      obtain ⟨game2, h1, _, _, ht, hto, _⟩ := shipHit_spec game _ _ _ ship hs
      rw [h1] at hres
      have hg : game2 = game1 := Option.some.inj hres
      subst hg
      refine ⟨by rw [hto], ?_⟩
      rw [ht]
      rcases hitGrid_apply (game.targetingOf p) ship.shipCoords
          (ship.Damage.shipState = ShipState.SUNK) target.2 target.1 a b with h | h | h
      · exact Or.inl h
      · exact Or.inr (Or.inl ⟨h.1, Or.inl h.2⟩)
      · exact Or.inr (Or.inr ⟨h.1, hh, ship, rfl, h.2.1, h.2.2⟩)
  · rw [if_neg hh] at hres
    by_cases hi : game.intercepted target p rnd
    · rw [if_pos hi] at hres
      have hg := Option.some.inj hres
      subst hg
      refine ⟨by rw [(markShot_frame game _ _ p SHOT_DOWN).2.2.2.1], ?_⟩
      rw [markShot_targeting]
      rcases setSquareState_apply (game.targetingOf p) target.2 target.1 a b SHOT_DOWN with h | h
      · exact Or.inl h
      · exact Or.inr (Or.inl ⟨h.1, Or.inr (Or.inr ⟨h.2, hi⟩)⟩)
    · rw [if_neg hi] at hres
      have hg := Option.some.inj hres
      subst hg
      refine ⟨by rw [(markShot_frame game _ _ p MISS).2.2.2.1], ?_⟩
      rw [markShot_targeting]
      rcases setSquareState_apply (game.targetingOf p) target.2 target.1 a b MISS with h | h
      · exact Or.inl h
      · exact Or.inr (Or.inl ⟨h.1, Or.inr (Or.inl h.2)⟩)

/-- What a successful `CheckHit` does to the ship grids: `compShips` is
unchanged; a cell of `userShips` is unchanged, or the computer fires and it is
the target and becomes HIT, MISS or (on interception) SHOT_DOWN, or it is a
coordinate of the ship sunk by the shot and becomes SINK. -/
theorem checkHit_ships_cell (game game1 : Game) (target : Int × Int) (p : Player)
    (rnd : Nat) (hres : game.CheckHit target p rnd = some game1) (a b : Int) :
    game1.compShips a b = game.compShips a b ∧
    (game1.userShips a b = game.userShips a b ∨
      (p = Player.COMP ∧ (a, b) = (target.2, target.1) ∧
        (game1.userShips a b = HIT ∨ game1.userShips a b = MISS ∨
          (game1.userShips a b = SHOT_DOWN ∧ game.intercepted target p rnd))) ∨
      (p = Player.COMP ∧ game1.userShips a b = SINK ∧ game.hitApplies target p rnd ∧
        ∃ ship, (game.fleetOf p.opponent)[game.GetShip (target.2, target.1) p]? = some ship ∧
          (a, b) ∈ ship.shipCoords ∧ ship.Damage.shipState = ShipState.SUNK)) := by
  have hfg : ∀ q : Player, (game.Forfeit q).compShips = game.compShips ∧
      (game.Forfeit q).userShips = game.userShips := by
    intro q
    cases q <;> simp [Game.Forfeit]
  rw [checkHit_eq] at hres
  by_cases h99 : target.1 = 99
  · rw [if_pos h99] at hres
    have hg := Option.some.inj hres
    subst hg
    exact ⟨by rw [(hfg _).1], Or.inl (by rw [(hfg _).2])⟩
  rw [if_neg h99] at hres
  by_cases h999 : target.1 = 999
  · rw [if_pos h999] at hres
    have hg := Option.some.inj hres
    subst hg
    exact ⟨by rw [(hfg _).1], Or.inl (by rw [(hfg _).2])⟩
  rw [if_neg h999] at hres
  by_cases hh : game.hitApplies target p rnd
  · rw [if_pos hh] at hres
    cases hs : (game.fleetOf p.opponent)[game.GetShip (target.2, target.1) p]? with
    | none =>
      rw [shipHit_none game _ _ _ hs] at hres
      exact absurd hres (by simp)
    | some ship =>
      obtain ⟨game2, h1, _, _, _, _, hc, hu1, hu2⟩ := shipHit_spec game _ _ _ ship hs
      rw [h1] at hres
      have hg : game2 = game1 := Option.some.inj hres
      subst hg
      refine ⟨by rw [hc], ?_⟩
      cases p
      · exact Or.inl (by rw [hu1 rfl])
      · rw [hu2 rfl]
        rcases hitGrid_apply game.userShips ship.shipCoords
            (ship.Damage.shipState = ShipState.SUNK) target.2 target.1 a b with h | h | h
        · exact Or.inl h
        · exact Or.inr (Or.inl ⟨rfl, h.1, Or.inl h.2⟩)
        · exact Or.inr (Or.inr ⟨rfl, h.1, hh, ship, rfl, h.2.1, h.2.2⟩)
  · rw [if_neg hh] at hres
    by_cases hi : game.intercepted target p rnd
    · rw [if_pos hi] at hres
      have hg := Option.some.inj hres
      subst hg
      obtain ⟨_, _, hc, _, hu1, hu2⟩ := markShot_frame game target.2 target.1 p SHOT_DOWN
      refine ⟨by rw [hc], ?_⟩
      cases p
      · exact Or.inl (by rw [hu1 rfl])
      · rw [hu2 rfl]
        rcases setSquareState_apply game.userShips target.2 target.1 a b SHOT_DOWN with h | h
        · exact Or.inl h
        · exact Or.inr (Or.inl ⟨rfl, h.1, Or.inr (Or.inr ⟨h.2, hi⟩)⟩)
    · rw [if_neg hi] at hres
      have hg := Option.some.inj hres
      subst hg
      obtain ⟨_, _, hc, _, hu1, hu2⟩ := markShot_frame game target.2 target.1 p MISS
      refine ⟨by rw [hc], ?_⟩
      cases p
      · exact Or.inl (by rw [hu1 rfl])
      · rw [hu2 rfl]
        rcases setSquareState_apply game.userShips target.2 target.1 a b MISS with h | h
        · exact Or.inl h
        · exact Or.inr (Or.inl ⟨rfl, h.1, Or.inr (Or.inl h.2)⟩)

/-- Without interception the draw does not enter `CheckHit`. -/
theorem checkHit_rnd_irrelevant (game : Game) (target : Int × Int) (p : Player)
    (rnd1 rnd2 : Nat)
    (hvar : game.gameType = Gametype.CLASSIC ∨ game.gameType = Gametype.MULTIFIRE) :
    game.CheckHit target p rnd1 = game.CheckHit target p rnd2 := by
  have hno : ¬ (game.gameType = Gametype.CRUISE_MISSILES ∨ game.gameType = Gametype.HARDCORE) := by
    rcases hvar with h | h <;> rw [h] <;> decide
  have hh : ∀ rnd, game.hitApplies target p rnd ↔
      (target.1 ≠ 99 ∧ target.1 ≠ 999 ∧
        (game.shipsOf p.opponent target.2 target.1 = SHIP ∨
          game.shipsOf p.opponent target.2 target.1 = SHOT_DOWN)) := by
    intro rnd
    unfold Game.hitApplies
    constructor
    · rintro ⟨h1, h2, h3, _⟩
      exact ⟨h1, h2, h3⟩
    · rintro ⟨h1, h2, h3⟩
      exact ⟨h1, h2, h3, fun h => hno h.1⟩
  have hi : ∀ rnd, ¬ game.intercepted target p rnd := fun rnd h => hno h.2.2.2.1
  rw [checkHit_eq, checkHit_eq]
  simp only [hh, hi, if_false]

theorem not_intercepted_of_variant (game : Game) (target : Int × Int) (p : Player) (rnd : Nat)
    (hvar : game.gameType = Gametype.CLASSIC ∨ game.gameType = Gametype.MULTIFIRE) :
    ¬ game.intercepted target p rnd := by
  intro h
  have := h.2.2.2.1
  rcases hvar with h1 | h1 <;> rw [h1] at this <;> revert this <;> decide

/-- C23: in CLASSIC and MULTIFIRE the result of `CheckHit` is the same for
every two values of `rand()`, and a cell of any of the four grids that is
SHOT_DOWN afterwards was SHOT_DOWN before; in CRUISE_MISSILES and in HARDCORE
there are a game, a target and two values of `rand()` for which the results
differ, one of them leaving the target SHOT_DOWN. -/
theorem interception_only_in_cruise_and_hardcore :
    (∀ (game : Game) (target : Int × Int) (p : Player) (rnd1 rnd2 : Nat),
      game.gameType = Gametype.CLASSIC ∨ game.gameType = Gametype.MULTIFIRE →
      game.CheckHit target p rnd1 = game.CheckHit target p rnd2) ∧
    (∀ (game game1 : Game) (target : Int × Int) (p : Player) (rnd : Nat),
      game.gameType = Gametype.CLASSIC ∨ game.gameType = Gametype.MULTIFIRE →
      game.CheckHit target p rnd = some game1 →
      ∀ (side : Player) (a b : Int),
        (game1.targetingOf side a b = SHOT_DOWN → game.targetingOf side a b = SHOT_DOWN) ∧
        (game1.shipsOf side a b = SHOT_DOWN → game.shipsOf side a b = SHOT_DOWN)) ∧
    (∀ gt : Gametype, gt = Gametype.CRUISE_MISSILES ∨ gt = Gametype.HARDCORE →
      ∃ (game : Game) (target : Int × Int) (p : Player) (rnd1 rnd2 : Nat),
        game.gameType = gt ∧
        game.CheckHit target p rnd1 ≠ game.CheckHit target p rnd2 ∧
        ∃ game1, game.CheckHit target p rnd1 = some game1 ∧
          game.targetingOf p target.2 target.1 ≠ SHOT_DOWN ∧
          game1.targetingOf p target.2 target.1 = SHOT_DOWN) := by
  refine ⟨fun game target p rnd1 rnd2 hvar => checkHit_rnd_irrelevant game target p rnd1 rnd2 hvar,
    ?_, ?_⟩
  · intro game game1 target p rnd hvar hres side a b
    have hni := not_intercepted_of_variant game target p rnd hvar
    obtain ⟨hto, ht⟩ := checkHit_targeting_cell game game1 target p rnd hres a b
    obtain ⟨hc, hu⟩ := checkHit_ships_cell game game1 target p rnd hres a b
    constructor
    · intro h
      rcases eq_or_eq_opponent side p with hs | hs
      · subst hs
        rcases ht with ht | ⟨_, ht | ht | ht⟩ | ⟨ht, _⟩
        · rw [← ht]; exact h
        · rw [ht] at h; exact absurd h (by decide)
        · rw [ht] at h; exact absurd h (by decide)
        · exact absurd ht.2 hni
        · rw [ht] at h; exact absurd h (by decide)
      · subst hs
        rw [← hto]; exact h
    · intro h
      cases side
      · simp only [Game.shipsOf, if_true] at h ⊢
        rcases hu with hu | ⟨_, _, hu | hu | hu⟩ | ⟨_, hu, _⟩
        · rw [← hu]; exact h
        · rw [hu] at h; exact absurd h (by decide)
        · rw [hu] at h; exact absurd h (by decide)
        · exact absurd hu.2 hni
        · rw [hu] at h; exact absurd h (by decide)
      · simp only [Game.shipsOf, reduceCtorEq, if_false] at h ⊢
        rw [← hc]; exact h
  · intro gt hgt
    refine ⟨placedGame gt, (0, 2), Player.USER, 0, 8, ?_, ?_, ?_⟩
    · rcases hgt with rfl | rfl <;> rfl
    · intro heq
      have := congrArg (Option.map fun g => g.playerTargeting 2 0) heq
      rcases hgt with rfl | rfl <;> revert this <;> decide
    · rcases hgt with rfl | rfl <;> exact exists_of_map_decide _ _ (by decide)

/-- C23, witness: in the placed CLASSIC game the computer's shot at the cell
`(2, 0)` of the user's CARRIER gives the same game for the draws 0 and 8, and
in CRUISE_MISSILES the draw matters. -/
theorem interception_only_in_cruise_and_hardcore_witness :
    (placedGame Gametype.CLASSIC).CheckHit (0, 2) Player.COMP 0
      = (placedGame Gametype.CLASSIC).CheckHit (0, 2) Player.COMP 8 ∧
    (∀ (side : Player) (a b : Int),
      (userDestroyerHit.targetingOf side a b = SHOT_DOWN →
        (placedGame Gametype.CLASSIC).targetingOf side a b = SHOT_DOWN) ∧
      (userDestroyerHit.shipsOf side a b = SHOT_DOWN →
        (placedGame Gametype.CLASSIC).shipsOf side a b = SHOT_DOWN)) ∧
    (∃ (game : Game) (target : Int × Int) (p : Player) (rnd1 rnd2 : Nat),
      game.gameType = Gametype.CRUISE_MISSILES ∧
      game.CheckHit target p rnd1 ≠ game.CheckHit target p rnd2 ∧
      ∃ game1, game.CheckHit target p rnd1 = some game1 ∧
        game.targetingOf p target.2 target.1 ≠ SHOT_DOWN ∧
        game1.targetingOf p target.2 target.1 = SHOT_DOWN) :=
  ⟨interception_only_in_cruise_and_hardcore.1 (placedGame Gametype.CLASSIC) (0, 2)
      Player.COMP 0 8 (Or.inl rfl),
    interception_only_in_cruise_and_hardcore.2.1 (placedGame Gametype.CLASSIC) userDestroyerHit
      (8, 0) Player.COMP 0 (Or.inl rfl) rfl,
    interception_only_in_cruise_and_hardcore.2.2 Gametype.CRUISE_MISSILES (Or.inl rfl)⟩

/-! ## Ship states along a sequence of shots -/

theorem forfeitStep_ship (fleet : List Ship) (i j : Nat) (ship1 : Ship)
    (h : (forfeitStep fleet i)[j]? = some ship1) :
    ∃ ship, fleet[j]? = some ship ∧
      (ship1 = ship ∨ ship1 = { ship with shipState := ShipState.SUNK }) := by
  unfold forfeitStep at h
  cases hi : fleet[i]? with
  | none =>
    simp only [hi] at h
    exact ⟨ship1, h, Or.inl rfl⟩
  | some ship =>
    simp only [hi] at h
    by_cases hij : i = j
    · subst hij
      have hlt : i < fleet.length := by
        by_contra hge
        rw [List.getElem?_eq_none (by omega)] at hi
        exact absurd hi (by simp)
      rw [List.getElem?_set_self hlt] at h
      exact ⟨ship, hi, Or.inr (Option.some.inj h).symm⟩
    · rw [List.getElem?_set_ne hij] at h
      exact ⟨ship1, h, Or.inl rfl⟩

theorem forfeitFold_ship (idx : List Nat) (fleet : List Ship) (j : Nat) (ship1 : Ship)
    (h : (idx.foldl forfeitStep fleet)[j]? = some ship1) :
    ∃ ship, fleet[j]? = some ship ∧
      (ship1 = ship ∨ ship1 = { ship with shipState := ShipState.SUNK }) := by
  induction idx generalizing fleet with
  | nil => exact ⟨ship1, h, Or.inl rfl⟩
  | cons i l ih =>
    simp only [List.foldl_cons] at h
    obtain ⟨ship2, h2, hs2⟩ := ih (forfeitStep fleet i) h
    obtain ⟨ship, h3, hs3⟩ := forfeitStep_ship fleet i j ship2 h2
    refine ⟨ship, h3, ?_⟩
    rcases hs2 with rfl | rfl <;> rcases hs3 with rfl | rfl
    · exact Or.inl rfl
    · exact Or.inr rfl
    · exact Or.inr rfl
    · exact Or.inr rfl

theorem forfeit_ship (game : Game) (q side : Player) (j : Nat) (ship1 : Ship)
    (h : ((game.Forfeit q).fleetOf side)[j]? = some ship1) :
    ∃ ship, (game.fleetOf side)[j]? = some ship ∧
      (ship1 = ship ∨ (ship1 = { ship with shipState := ShipState.SUNK } ∧ q = side)) := by
  cases q <;> cases side <;>
    simp only [Game.Forfeit, Game.fleetOf, if_true, reduceCtorEq, if_false] at h ⊢
  · obtain ⟨ship, h1, h2⟩ := forfeitFold_ship _ _ _ _ h
    exact ⟨ship, h1, by rcases h2 with h2 | h2 <;> simp [h2]⟩
  · exact ⟨ship1, h, Or.inl rfl⟩
  · exact ⟨ship1, h, Or.inl rfl⟩
  · obtain ⟨ship, h1, h2⟩ := forfeitFold_ship _ _ _ _ h
    exact ⟨ship, h1, by rcases h2 with h2 | h2 <;> simp [h2]⟩

/-- A ship after a successful `CheckHit` is the ship before, or its `Damage`
(when `ShipHit` is called against it), or the ship with its state set to SUNK
(when the target is the forfeit sentinel of its side). -/
theorem checkHit_ship (game game1 : Game) (target : Int × Int) (p : Player) (rnd : Nat)
    (hres : game.CheckHit target p rnd = some game1)
    (side : Player) (j : Nat) (ship1 : Ship) (hj : (game1.fleetOf side)[j]? = some ship1) :
    ∃ ship, (game.fleetOf side)[j]? = some ship ∧
      (ship1 = ship ∨
        (ship1 = ship.Damage ∧ side = p.opponent ∧ game.hitApplies target p rnd ∧
          game.GetShip (target.2, target.1) p = j) ∨
        (ship1 = { ship with shipState := ShipState.SUNK } ∧
          target.1 = forfeitSentinel side)) := by
  rw [checkHit_eq] at hres
  by_cases h99 : target.1 = 99
  · rw [if_pos h99] at hres
    have hg := Option.some.inj hres
    subst hg
    obtain ⟨ship, h1, h2⟩ := forfeit_ship game _ side j ship1 hj
    refine ⟨ship, h1, ?_⟩
    rcases h2 with h2 | ⟨h2, hq⟩
    · exact Or.inl h2
    · subst hq
      exact Or.inr (Or.inr ⟨h2, h99⟩)
  rw [if_neg h99] at hres
  by_cases h999 : target.1 = 999
  · rw [if_pos h999] at hres
    have hg := Option.some.inj hres
    subst hg
    obtain ⟨ship, h1, h2⟩ := forfeit_ship game _ side j ship1 hj
    refine ⟨ship, h1, ?_⟩
    rcases h2 with h2 | ⟨h2, hq⟩
    · exact Or.inl h2
    · subst hq
      exact Or.inr (Or.inr ⟨h2, h999⟩)
  rw [if_neg h999] at hres
  by_cases hh : game.hitApplies target p rnd
  · rw [if_pos hh] at hres
    cases hs : (game.fleetOf p.opponent)[game.GetShip (target.2, target.1) p]? with
    | none =>
      rw [shipHit_none game _ _ _ hs] at hres
      exact absurd hres (by simp)
    | some ship =>
      obtain ⟨game2, h1, hf, hfp, _⟩ := shipHit_spec game _ _ _ ship hs
      rw [h1] at hres
      have hg : game2 = game1 := Option.some.inj hres
      subst hg
      rcases eq_or_eq_opponent side p with hside | hside
      · subst hside
        rw [hfp] at hj
        exact ⟨ship1, hj, Or.inl rfl⟩
      · subst hside
        rw [hf] at hj
        have hlt : game.GetShip (target.2, target.1) p < (game.fleetOf p.opponent).length := by
          by_contra hge
          rw [List.getElem?_eq_none (by omega)] at hs
          exact absurd hs (by simp)
        by_cases hjj : game.GetShip (target.2, target.1) p = j
        · rw [← hjj, List.getElem?_set_self hlt] at hj
          refine ⟨ship, by rw [← hjj]; exact hs, Or.inr (Or.inl ?_)⟩
          exact ⟨(Option.some.inj hj).symm, rfl, hh, hjj⟩
        · rw [List.getElem?_set_ne hjj] at hj
          exact ⟨ship1, hj, Or.inl rfl⟩
  · rw [if_neg hh] at hres
    by_cases hi : game.intercepted target p rnd
    · rw [if_pos hi] at hres
      have hg := Option.some.inj hres
      subst hg
      rw [markShot_fleetOf] at hj
      exact ⟨ship1, hj, Or.inl rfl⟩
    · rw [if_neg hi] at hres
      have hg := Option.some.inj hres
      subst hg
      rw [markShot_fleetOf] at hj
      exact ⟨ship1, hj, Or.inl rfl⟩

/-- The relation between SUNK and health 0 that a sequence of shots keeps,
with `F` standing for a forfeit of the side before the sequence. -/
theorem resolveShots_sunk_health (shots : List Shot) (game game1 : Game) (side : Player)
    (F : Prop)
    (hinit : ∀ (j : Nat) (ship : Ship), (game.fleetOf side)[j]? = some ship →
      (ship.health = 0 → ship.shipState = ShipState.SUNK) ∧
      (ship.shipState = ShipState.SUNK → ship.health ≤ 0 ∨ F))
    (hres : game.resolveShots shots = some game1)
    (j : Nat) (ship1 : Ship) (hj : (game1.fleetOf side)[j]? = some ship1) :
    (ship1.health = 0 → ship1.shipState = ShipState.SUNK) ∧
    (ship1.shipState = ShipState.SUNK →
      ship1.health ≤ 0 ∨ F ∨ ∃ shot ∈ shots, shot.target.1 = forfeitSentinel side) := by
  induction shots generalizing game F with
  | nil =>
    simp only [Game.resolveShots, Option.some.injEq] at hres
    subst hres
    obtain ⟨h1, h2⟩ := hinit j ship1 hj
    exact ⟨h1, fun h => by rcases h2 h with h | h <;> simp [h]⟩
  | cons shot rest ih =>
    unfold Game.resolveShots at hres
    cases hc : game.CheckHit shot.target shot.p shot.rnd with
    | none =>
      simp only [hc] at hres
      exact absurd hres (by simp)
    | some game2 =>
      simp only [hc] at hres
      have hstep : ∀ (j : Nat) (ship : Ship), (game2.fleetOf side)[j]? = some ship →
          (ship.health = 0 → ship.shipState = ShipState.SUNK) ∧
          (ship.shipState = ShipState.SUNK →
            ship.health ≤ 0 ∨ (F ∨ shot.target.1 = forfeitSentinel side)) := by
        intro j2 ship2 hj2
        obtain ⟨ship, h1, h2⟩ := checkHit_ship game game2 shot.target shot.p shot.rnd hc side
          j2 ship2 hj2
        obtain ⟨hi1, hi2⟩ := hinit j2 ship h1
        rcases h2 with rfl | ⟨rfl, _⟩ | ⟨rfl, hsent⟩
        · exact ⟨hi1, fun h => by rcases hi2 h with h | h <;> simp [h]⟩
        · constructor
          · intro h0
            simp only [Ship.Damage] at h0 ⊢
            simp [h0]
          · intro hs
            by_cases h0 : ship.health - 1 = 0
            · left
              simp only [Ship.Damage]
              omega
            · have hs1 : ship.shipState = ShipState.SUNK := by
                simpa only [Ship.Damage, h0, if_false] using hs
              rcases hi2 hs1 with h | h
              · left
                simp only [Ship.Damage]
                omega
              · right; left; exact h
        · exact ⟨fun _ => rfl, fun _ => Or.inr (Or.inr hsent)⟩
      obtain ⟨r1, r2⟩ := ih game2 (F ∨ shot.target.1 = forfeitSentinel side) hstep hres
      refine ⟨r1, fun h => ?_⟩
      rcases r2 h with h | (h | h) | ⟨s, hs, hsent⟩
      · exact Or.inl h
      · exact Or.inr (Or.inl h)
      · exact Or.inr (Or.inr ⟨shot, by simp, h⟩)
      · exact Or.inr (Or.inr ⟨s, by simp [hs], hsent⟩)

/-- C26 (amended): in every state that a sequence of `CheckHit` calls reaches
from a game in which every ship is AFLOAT with positive health, a ship whose
health is 0 is SUNK, and a SUNK ship has health at most 0 unless its side has
forfeited (a target with the forfeit sentinel of its side is among the shots). -/
theorem sunk_and_health (shots : List Shot) (game game1 : Game) (side : Player)
    (j : Nat) (ship1 : Ship)
    (hfresh : ∀ ship ∈ game.fleetOf side, ship.shipState = ShipState.AFLOAT ∧ 0 < ship.health)
    (hres : game.resolveShots shots = some game1)
    (hj : (game1.fleetOf side)[j]? = some ship1) :
    (ship1.health = 0 → ship1.shipState = ShipState.SUNK) ∧
    (ship1.shipState = ShipState.SUNK →
      ship1.health ≤ 0 ∨ ∃ shot ∈ shots, shot.target.1 = forfeitSentinel side) := by
  have hinit : ∀ (j : Nat) (ship : Ship), (game.fleetOf side)[j]? = some ship →
      (ship.health = 0 → ship.shipState = ShipState.SUNK) ∧
      (ship.shipState = ShipState.SUNK → ship.health ≤ 0 ∨ False) := by
    intro j0 ship h
    obtain ⟨h1, h2⟩ := hfresh ship (List.mem_iff_getElem?.2 ⟨j0, h⟩)
    refine ⟨fun h0 => by omega, fun hs => ?_⟩
    rw [h1] at hs
    exact absurd hs (by decide)
  obtain ⟨r1, r2⟩ := resolveShots_sunk_health shots game game1 side False hinit hres j ship1 hj
  refine ⟨r1, fun h => ?_⟩
  rcases r2 h with h | h | h
  · exact Or.inl h
  · exact absurd h id
  · exact Or.inr h

/-- C26, witness: the computer sinks the user's DESTROYER with two shots in
the placed CLASSIC game; it is SUNK with health 0. -/
theorem sunk_and_health_witness :
    (∀ ship ∈ (placedGame Gametype.CLASSIC).fleetOf Player.USER,
      ship.shipState = ShipState.AFLOAT ∧ 0 < ship.health) ∧
    (((0 : Int) = 0 → ShipState.SUNK = ShipState.SUNK) ∧
      (ShipState.SUNK = ShipState.SUNK → (0 : Int) ≤ 0 ∨
        ∃ shot ∈ [(⟨(8, 0), Player.COMP, 0⟩ : Shot), ⟨(8, 1), Player.COMP, 0⟩],
          shot.target.1 = forfeitSentinel Player.USER)) :=
  ⟨by decide,
    sunk_and_health [⟨(8, 0), Player.COMP, 0⟩, ⟨(8, 1), Player.COMP, 0⟩]
      (placedGame Gametype.CLASSIC) userDestroyerSunk Player.USER 4
      { Ship.construct 2 "DESTROYER" with
        shipCoords := rowCoords 8 2, health := 0, shipState := ShipState.SUNK }
      (by decide) rfl rfl⟩

/-- C26, counterexample: the user types `ff` in the placed CLASSIC game;
`CheckHit((99, 99), USER)` leaves every ship of the user's fleet SUNK with its
health 5, 4, 3, 3, 2 unchanged. -/
theorem forfeit_sunk_with_health :
    (placedGame Gametype.CLASSIC).PromptFire [FireInput.forfeit] = some ((99, 99), []) ∧
    ∃ game1, (placedGame Gametype.CLASSIC).CheckHit (99, 99) Player.USER 0 = some game1 ∧
      (game1.userFleet.map Ship.shipState =
          [ShipState.SUNK, ShipState.SUNK, ShipState.SUNK, ShipState.SUNK, ShipState.SUNK] ∧
        game1.userFleet.map Ship.health = [5, 4, 3, 3, 2]) :=
  ⟨rfl, exists_of_map_decide _ _ (by decide)⟩

/-! ## The shots of a turn -/

theorem promptTargets_length (game : Game) (n : Nat) (inputs : List FireInput)
    (targetList : List (Int × Int)) (rest : List FireInput)
    (h : game.promptTargets n inputs = some (targetList, rest)) : targetList.length = n := by
  induction n generalizing inputs targetList rest with
  | zero =>
    simp only [Game.promptTargets, Option.some.injEq, Prod.mk.injEq] at h
    rw [← h.1]
    rfl
  | succ n ih =>
    unfold Game.promptTargets at h
    cases h1 : game.PromptFire inputs with
    | none =>
      simp only [h1] at h
      exact absurd h (by simp)
    | some r =>
      obtain ⟨target, rest1⟩ := r
      simp only [h1] at h
      cases h2 : game.promptTargets n rest1 with
      | none =>
        simp only [h2] at h
        exact absurd h (by simp)
      | some r2 =>
        obtain ⟨ts, rest2⟩ := r2
        simp only [h2, Option.some.injEq, Prod.mk.injEq] at h
        rw [← h.1, List.length_cons, ih rest1 ts rest2 h2]

theorem compTargets_length (n : Nat) (game game1 : Game) (targetList : List (Int × Int))
    (h : game.compTargets n = some (game1, targetList)) : targetList.length = n := by
  induction n generalizing game game1 targetList with
  | zero =>
    simp only [Game.compTargets, Option.some.injEq, Prod.mk.injEq] at h
    rw [← h.2]
    rfl
  | succ n ih =>
    unfold Game.compTargets at h
    cases h1 : EvaluateGrid game (SmallestShipAlive game) with
    | none =>
      simp only [h1] at h
      exact absurd h (by simp)
    | some t =>
      simp only [h1] at h
      cases h2 : Game.compTargets
          { game with compTargeting := setSquareState game.compTargeting t.2 t.1 MISS } n with
      | none =>
        simp only [h2] at h
        exact absurd h (by simp)
      | some r2 =>
        obtain ⟨g2, ts⟩ := r2
        simp only [h2, Option.some.injEq, Prod.mk.injEq] at h
        rw [← h.2, List.length_cons, ih _ g2 ts h2]

theorem checkHits_eq_resolveShots (game : Game) (p : Player) (rnd : Nat → Nat) (first : Nat)
    (targetList : List (Int × Int)) :
    game.checkHits p rnd first targetList = game.resolveShots (shotsOf p rnd first targetList) := by
  induction targetList generalizing game first with
  | nil => rfl
  | cons t ts ih =>
    unfold Game.checkHits shotsOf Game.resolveShots
    cases h : game.CheckHit t p (rnd first) with
    | none => simp only [h]
    | some game1 =>
      simp only [h]
      exact ih game1 (first + 1)

theorem shotsOf_length (p : Player) (rnd : Nat → Nat) (first : Nat)
    (targetList : List (Int × Int)) : (shotsOf p rnd first targetList).length = targetList.length := by
  induction targetList generalizing first with
  | nil => rfl
  | cons t ts ih =>
    unfold shotsOf
    rw [List.length_cons, List.length_cons, ih]

/-! ## `EvaluateGrid` on a grid without a shot, and the collection loop of `CompTurn` -/

theorem evaluateGrid_congr (game game1 : Game) (s : Int)
    (h : game.compTargeting = game1.compTargeting) :
    EvaluateGrid game s = EvaluateGrid game1 s := by
  unfold EvaluateGrid selectLoop selectStep weighGrid cellStep emptyStep hitStep lengthStep
    hitUp hitDown hitLeft hitRight runUp runDown runLeft runRight EvalUp EvalDown EvalLeft EvalRight
  simp only [h]

theorem docLine_max : ∀ c ∈ idx10, docLine c ≤ 20 ∧ (docLine c = 20 → c = 4 ∨ c = 5) := by
  decide

/-- On the all-EMPTY grid with `s = 2` the first cell of maximal weight is
`(4, 4)`. -/
theorem evaluateGrid_allEmpty_two : EvaluateGrid allEmpty 2 = some (4, 4) := by
  have hline : ∀ x y, onBoard x y →
      settled allEmpty (weighGrid allEmpty 2) x y = docLine x + docLine y := by
    intro x y hxy
    rw [← finalWeights_apply allEmpty 2 x y hxy, finalWeights_allEmpty 2 x y hxy,
      lineWeight_two x ((mem_idx10 x).2 hxy.1), lineWeight_two y ((mem_idx10 y).2 hxy.2)]
  have h44 : settled allEmpty (weighGrid allEmpty 2) 4 4 = 40 := by
    rw [hline 4 4 (by decide)]
    rfl
  obtain ⟨hx, hy, hb, hres, _, hmax⟩ :=
    evaluateGrid_some allEmpty 2 ⟨4, 4, by decide, by rw [h44]; decide⟩
  have hm := hmax 4 4 (by decide)
  rw [h44, hline hx hy hb] at hm
  have hx1 := docLine_max hx ((mem_idx10 hx).2 hb.1)
  have hy1 := docLine_max hy ((mem_idx10 hy).2 hb.2)
  have hord := hm.2 (by omega)
  have hx2 := hx1.2 (by omega)
  have hy2 := hy1.2 (by omega)
  have hxe : hx = 4 := by omega
  have hye : hy = 4 := by omega
  rw [hres, hxe, hye]

/-- The cell `EvaluateGrid` returns is a cell of the board that is not HIT,
MISS or SINK. -/
theorem evaluateGrid_cell (game : Game) (s : Int) (t : Int × Int)
    (h : EvaluateGrid game s = some t) : onBoard t.2 t.1 ∧ ¬ zeroed game t.2 t.1 := by
  by_cases hpos : ∃ a b, onBoard a b ∧ 0 < settled game (weighGrid game s) a b
  · obtain ⟨hx, hy, hb, hres, hp, _⟩ := evaluateGrid_some game s hpos
    rw [hres] at h
    have ht : t = (hy, hx) := (Option.some.inj h).symm
    subst ht
    exact ⟨hb, settled_pos_not_zeroed game _ hx hy hp⟩
  · have hnone := evaluateGrid_none game s (fun a b hab => by
      by_contra hlt
      exact hpos ⟨a, b, hab, by omega⟩)
    rw [hnone] at h
    exact absurd h (by simp)

/-- With `s ≤ 2` and an EMPTY cell on the board, `EvaluateGrid` returns a cell. -/
theorem evaluateGrid_isSome (game : Game) (s a b : Int) (hab : onBoard a b) (hs : s ≤ 2)
    (hE : game.compTargeting a b = EMPTY) : ∃ t, EvaluateGrid game s = some t := by
  have hpos := weighGrid_pos_of_empty game s a b hab hs hE
  have hset : 0 < settled game (weighGrid game s) a b := by
    rw [settled_of_not_zeroed game _ a b (not_zeroed_of_empty game a b hE)]
    exact hpos
  obtain ⟨hx, hy, _, hres, _⟩ := evaluateGrid_some game s ⟨a, b, hab, hset⟩
  exact ⟨(hy, hx), hres⟩

/-- The collection loop of `CompTurn` changes `compTargeting` only: a cell is
as before, or it was not HIT, MISS or SINK, was selected as a target and is
MISS. -/
theorem compTargets_cells (n : Nat) (game game1 : Game) (targetList : List (Int × Int))
    (h : game.compTargets n = some (game1, targetList)) :
    (game1.userShips = game.userShips ∧ game1.userFleet = game.userFleet ∧
      game1.compFleet = game.compFleet ∧ game1.gameType = game.gameType ∧
      game1.playerTargeting = game.playerTargeting ∧ game1.compShips = game.compShips ∧
      game1.gameState = game.gameState) ∧
    ∀ a b, game1.compTargeting a b = game.compTargeting a b ∨
      (game1.compTargeting a b = MISS ∧ ¬ zeroed game a b ∧ (b, a) ∈ targetList) := by
  induction n generalizing game game1 targetList with
  | zero =>
    simp only [Game.compTargets, Option.some.injEq, Prod.mk.injEq] at h
    obtain ⟨h1, _⟩ := h
    subst h1
    exact ⟨⟨rfl, rfl, rfl, rfl, rfl, rfl, rfl⟩, fun a b => Or.inl rfl⟩
  | succ n ih =>
    unfold Game.compTargets at h
    cases h1 : EvaluateGrid game (SmallestShipAlive game) with
    | none =>
      simp only [h1] at h
      exact absurd h (by simp)
    | some t =>
      simp only [h1] at h
      cases h2 : Game.compTargets
          { game with compTargeting := setSquareState game.compTargeting t.2 t.1 MISS } n with
      | none =>
        simp only [h2] at h
        exact absurd h (by simp)
      | some r2 =>
        obtain ⟨g2, ts⟩ := r2
        simp only [h2, Option.some.injEq, Prod.mk.injEq] at h
        obtain ⟨hg, hts⟩ := h
        subst hg
        subst hts
        obtain ⟨hframe, hcells⟩ := ih _ g2 ts h2
        obtain ⟨_, hnz⟩ := evaluateGrid_cell game _ t h1
        refine ⟨hframe, fun a b => ?_⟩
        · by_cases hc : a = t.2 ∧ b = t.1
          · obtain ⟨ha, hb⟩ := hc
            subst ha
            subst hb
            right
            refine ⟨?_, hnz, by simp⟩
            rcases hcells t.2 t.1 with h3 | ⟨h3, _⟩
            · rw [h3]
              exact setSquareState_same _ _ _ _
            · exact h3
          · rcases hcells a b with h3 | ⟨h3, h4, h5⟩
            · left
              rw [h3]
              simp only [setSquareState, hc, if_false]
            · right
              refine ⟨h3, ?_, List.mem_cons_of_mem _ h5⟩
              intro hz
              apply h4
              unfold zeroed at hz ⊢
              simp only [setSquareState, hc, if_false]
              exact hz


theorem exists_not_mem_of_short (marked : List (Int × Int)) (h : marked.length ≤ 4) :
    ∃ a b, onBoard a b ∧ (a, b) ∉ marked := by
  by_contra hall
  have hsub : [((0 : Int), (0 : Int)), (0, 1), (0, 2), (0, 3), (0, 4)] ⊆ marked := by
    intro c hc
    by_contra hn
    apply hall
    simp only [List.mem_cons, List.mem_singleton, List.not_mem_nil, or_false] at hc
    rcases hc with rfl | rfl | rfl | rfl | rfl
    · exact ⟨0, 0, by decide, hn⟩
    · exact ⟨0, 1, by decide, hn⟩
    · exact ⟨0, 2, by decide, hn⟩
    · exact ⟨0, 3, by decide, hn⟩
    · exact ⟨0, 4, by decide, hn⟩
  have hnd : [((0 : Int), (0 : Int)), (0, 1), (0, 2), (0, 3), (0, 4)].Nodup := by decide
  have := (hnd.subperm hsub).length_le
  simp only [List.length_cons, List.length_nil] at this
  omega

/-- The collection loop of `CompTurn` finds its targets when the smallest ship
afloat has size at most 2 and all but a few cells of the board are EMPTY. -/
theorem compTargets_isSome (n : Nat) (game : Game) (marked : List (Int × Int))
    (hs : SmallestShipAlive game ≤ 2)
    (hm : ∀ a b, onBoard a b → (a, b) ∉ marked → game.compTargeting a b = EMPTY)
    (hlen : marked.length + n ≤ 5) :
    ∃ game1 targetList, game.compTargets n = some (game1, targetList) := by
  induction n generalizing game marked with
  | zero => exact ⟨game, [], rfl⟩
  | succ n ih =>
    obtain ⟨a, b, hab, hnm⟩ := exists_not_mem_of_short marked (by omega)
    obtain ⟨t, ht⟩ := evaluateGrid_isSome game _ a b hab hs (hm a b hab hnm)
    have hs1 : SmallestShipAlive
        { game with compTargeting := setSquareState game.compTargeting t.2 t.1 MISS } ≤ 2 := hs
    obtain ⟨game1, ts, h1⟩ := ih
      { game with compTargeting := setSquareState game.compTargeting t.2 t.1 MISS }
      ((t.2, t.1) :: marked) hs1
      (fun a b hab hn => by
        have hne : ¬ (a = t.2 ∧ b = t.1) := by
          rintro ⟨h1, h2⟩
          apply hn
          rw [h1, h2]
          exact List.mem_cons_self _ _
        have hn2 : (a, b) ∉ marked := fun h => hn (List.mem_cons_of_mem _ h)
        simp only [setSquareState, hne, if_false]
        exact hm a b hab hn2)
      (by rw [List.length_cons]; omega)
    refine ⟨game1, t :: ts, ?_⟩
    unfold Game.compTargets
    simp only [ht, h1]

theorem getShip_congr (game game1 : Game) (c : Int × Int) (p : Player)
    (h : game1.fleetOf p.opponent = game.fleetOf p.opponent) :
    game1.GetShip c p = game.GetShip c p := by
  rw [getShip_eq, getShip_eq, h]

theorem centreGame_targeting (gt : Gametype) :
    (centreGame gt).compTargeting = allEmpty.compTargeting := rfl

theorem smallestShipAlive_centre (gt : Gametype) : SmallestShipAlive (centreGame gt) = 2 := by
  cases gt <;> decide

theorem evaluateGrid_centre (gt : Gametype) : EvaluateGrid (centreGame gt) 2 = some (4, 4) := by
  rw [evaluateGrid_congr (centreGame gt) allEmpty 2 (centreGame_targeting gt)]
  exact evaluateGrid_allEmpty_two

theorem compTargets_succ (game : Game) (n : Nat) :
    game.compTargets (n + 1) =
      match EvaluateGrid game (SmallestShipAlive game) with
      | none => none
      | some compTarget =>
        match Game.compTargets
            { game with compTargeting :=
                setSquareState game.compTargeting compTarget.2 compTarget.1 MISS } n with
        | none => none
        | some (game1, targetList) => some (game1, compTarget :: targetList) := by
  rw [Game.compTargets]

theorem compTargets_zero (game : Game) : game.compTargets 0 = some (game, []) := rfl

theorem compTargets_succ_of (game game1 : Game) (n : Nat) (hX hY : Int)
    (targetList : List (Int × Int))
    (he : EvaluateGrid game (SmallestShipAlive game) = some (hY, hX))
    (h : Game.compTargets
      { game with compTargeting := setSquareState game.compTargeting hX hY MISS } n
        = some (game1, targetList)) :
    game.compTargets (n + 1) = some (game1, (hY, hX) :: targetList) := by
  rw [compTargets_succ, he]
  simp only [h]

/-- The first target of the computer in `centreGame` is `(4, 4)`. -/
theorem compTargets_centre_one (gt : Gametype) :
    (centreGame gt).compTargets 1 =
      some ({ centreGame gt with
        compTargeting := setSquareState (centreGame gt).compTargeting 4 4 MISS }, [(4, 4)]) := by
  exact compTargets_succ_of (centreGame gt) _ 0 4 4 []
    (by rw [smallestShipAlive_centre]; exact evaluateGrid_centre gt) (compTargets_zero _)

/-- A hit of the computer that does not sink the ship leaves the target HIT on
`compTargeting`. -/
theorem checkHit_comp_hit (game : Game) (target : Int × Int) (rnd : Nat) (ship : Ship)
    (happ : game.hitApplies target Player.COMP rnd)
    (hship : game.userFleet[game.GetShip (target.2, target.1) Player.COMP]? = some ship)
    (hafloat : ship.Damage.shipState ≠ ShipState.SUNK) :
    ∃ game1, game.CheckHit target Player.COMP rnd = some game1 ∧
      game1.compTargeting target.2 target.1 = HIT := by
  refine ⟨_, (checkHit_of_hitApplies game target Player.COMP rnd happ).trans
    (shipHit_comp game target.2 target.1 ship hship), ?_⟩
  simp only [hafloat, if_false]
  exact setSquareState_same _ _ _ _

/-! ## The claims about turns -/

/-- C30, counterexample: in `centreGame MULTIFIRE` the computer has five ships
afloat; the collection loop of `CompTurn` selects `(4, 4)` first and finds four
more targets, the cell `(4, 4)`, EMPTY before, is MISS on `compTargeting` when
the loop ends, and the first `CheckHit` of the resolution loop, a hit on the
user's CRUISER, writes HIT into it. -/
theorem compTurn_overwrites_provisional_miss :
    (centreGame Gametype.MULTIFIRE).NumShipsAlive Player.COMP = 5 ∧
    (centreGame Gametype.MULTIFIRE).compTargeting 4 4 = EMPTY ∧
    ∃ game1 targetList,
      (centreGame Gametype.MULTIFIRE).compTargets 5 = some (game1, (4, 4) :: targetList) ∧
      game1.compTargeting 4 4 = MISS ∧
      ∃ game2, game1.CheckHit (4, 4) Player.COMP 0 = some game2 ∧
        game2.compTargeting 4 4 = HIT := by
  refine ⟨by decide, by decide, ?_⟩
  obtain ⟨game1, ts, h1⟩ := compTargets_isSome 4 centreMarked [(4, 4)] (by decide)
    (fun a b _ hn => by
      have hne : ¬ (a = 4 ∧ b = 4) := by
        rintro ⟨rfl, rfl⟩
        exact hn (List.mem_singleton.2 rfl)
      show setSquareState (centreGame Gametype.MULTIFIRE).compTargeting 4 4 MISS a b = EMPTY
      simp only [setSquareState, hne, if_false]
      rfl)
    (by decide)
  obtain ⟨⟨hu, hf, _, hg, _⟩, hcells⟩ := compTargets_cells 4 centreMarked game1 ts h1
  refine ⟨game1, ts, ?_, ?_, ?_⟩
  · exact compTargets_succ_of (centreGame Gametype.MULTIFIRE) game1 4 4 4 ts
      (by rw [smallestShipAlive_centre]; exact evaluateGrid_centre Gametype.MULTIFIRE) h1
  · rcases hcells 4 4 with h | ⟨h, _⟩
    · rw [h]
      decide
    · exact h
  · have hget : game1.GetShip (4, 4) Player.COMP = 2 := by
      rw [getShip_congr centreMarked game1 (4, 4) Player.COMP hf]
      decide
    have happ : game1.hitApplies (4, 4) Player.COMP 0 := by
      refine ⟨by decide, by decide, Or.inl ?_, ?_⟩
      · show game1.userShips 4 4 = SHIP
        rw [hu]
        decide
      · rw [hg]
        decide
    have hship : game1.userFleet[game1.GetShip (4, 4) Player.COMP]? =
        some { Ship.construct 3 "CRUISER" with shipCoords := rowCoordsFrom 2 4 3 } := by
      rw [hget, hf]
      rfl
    exact checkHit_comp_hit game1 (4, 4) 0 _ happ hship (by decide)

theorem shotsPerTurn_eq (gt : Gametype) (n : Nat) :
    shotsPerTurn gt n =
      if gt = Gametype.MULTIFIRE ∨ gt = Gametype.HARDCORE then n else 1 := by
  cases gt <;> simp [shotsPerTurn]

theorem compTurn_single (game : Game) (rnd : Nat → Nat) (t : Int × Int)
    (hnm : ¬ (game.gameType = Gametype.MULTIFIRE ∨ game.gameType = Gametype.HARDCORE))
    (he : EvaluateGrid game (SmallestShipAlive game) = some t) :
    game.CompTurn rnd = game.CheckHit t Player.COMP (rnd 0) := by
  unfold Game.CompTurn
  rw [if_neg hnm, he]

/-- C22: the targets `PlayerTurn` collects, and the shots it resolves, are
`shotsPerTurn` of the game type and of `NumShipsAlive(USER)` as it is when the
turn starts: 1 in CLASSIC and CRUISE_MISSILES, the number of the user's ships
afloat in MULTIFIRE and HARDCORE; likewise for `CompTurn` with
`NumShipsAlive(COMP)`. The shots are resolved one after the other by `CheckHit`
from the list fixed before the first of them is resolved. -/
theorem shots_per_turn (game : Game) :
    (∀ (inputs rest : List FireInput) (targetList : List (Int × Int)),
      game.playerTargets inputs = some (targetList, rest) →
      targetList.length = shotsPerTurn game.gameType (game.NumShipsAlive Player.USER)) ∧
    (∀ (inputs rest : List FireInput) (rnd : Nat → Nat) (game1 : Game),
      game.PlayerTurn inputs rnd = some (game1, rest) →
      ∃ targetList, game.playerTargets inputs = some (targetList, rest) ∧
        game.resolveShots (shotsOf Player.USER rnd 0 targetList) = some game1 ∧
        (shotsOf Player.USER rnd 0 targetList).length =
          shotsPerTurn game.gameType (game.NumShipsAlive Player.USER)) ∧
    (∀ (rnd : Nat → Nat) (game1 : Game), game.CompTurn rnd = some game1 →
      ∃ game0 targetList,
        game0.resolveShots (shotsOf Player.COMP rnd 0 targetList) = some game1 ∧
        (shotsOf Player.COMP rnd 0 targetList).length =
          shotsPerTurn game.gameType (game.NumShipsAlive Player.COMP) ∧
        (((game.gameType = Gametype.MULTIFIRE ∨ game.gameType = Gametype.HARDCORE) ∧
            game.compTargets (game.NumShipsAlive Player.COMP) = some (game0, targetList)) ∨
          ((game.gameType = Gametype.CLASSIC ∨ game.gameType = Gametype.CRUISE_MISSILES) ∧
            game0 = game ∧
            ∃ t, EvaluateGrid game (SmallestShipAlive game) = some t ∧ targetList = [t]))) := by
  have hplayer : ∀ (inputs rest : List FireInput) (targetList : List (Int × Int)),
      game.playerTargets inputs = some (targetList, rest) →
      targetList.length = shotsPerTurn game.gameType (game.NumShipsAlive Player.USER) := by
    intro inputs rest targetList h
    rw [shotsPerTurn_eq]
    unfold Game.playerTargets at h
    by_cases hm : game.gameType = Gametype.MULTIFIRE ∨ game.gameType = Gametype.HARDCORE
    · rw [if_pos hm] at h ⊢
      exact promptTargets_length game _ inputs targetList rest h
    · rw [if_neg hm] at h ⊢
      cases hp : game.PromptFire inputs with
      | none =>
        simp only [hp] at h
        exact absurd h (by simp)
      | some r =>
        simp only [hp, Option.some.injEq, Prod.mk.injEq] at h
        rw [← h.1]
        rfl
  refine ⟨hplayer, ?_, ?_⟩
  · intro inputs rest rnd game1 h
    unfold Game.PlayerTurn at h
    cases hp : game.playerTargets inputs with
    | none =>
      simp only [hp] at h
      exact absurd h (by simp)
    | some r =>
      obtain ⟨targetList, rest1⟩ := r
      simp only [hp] at h
      cases hc : game.checkHits Player.USER rnd 0 targetList with
      | none =>
        simp only [hc] at h
        exact absurd h (by simp)
      | some game2 =>
        simp only [hc, Option.some.injEq, Prod.mk.injEq] at h
        obtain ⟨hg, hr⟩ := h
        subst hg
        subst hr
        refine ⟨targetList, rfl, ?_, ?_⟩
        · rw [← checkHits_eq_resolveShots]
          exact hc
        · rw [shotsOf_length]
          exact hplayer inputs rest1 targetList hp
  · intro rnd game1 h
    unfold Game.CompTurn at h
    by_cases hm : game.gameType = Gametype.MULTIFIRE ∨ game.gameType = Gametype.HARDCORE
    · rw [if_pos hm] at h
      cases hc : game.compTargets (game.NumShipsAlive Player.COMP) with
      | none =>
        simp only [hc] at h
        exact absurd h (by simp)
      | some r =>
        obtain ⟨game0, targetList⟩ := r
        simp only [hc] at h
        refine ⟨game0, targetList, ?_, ?_, Or.inl ⟨hm, rfl⟩⟩
        · rw [← checkHits_eq_resolveShots]
          exact h
        · rw [shotsOf_length, shotsPerTurn_eq, if_pos hm]
          exact compTargets_length _ game game0 targetList hc
    · rw [if_neg hm] at h
      cases he : EvaluateGrid game (SmallestShipAlive game) with
      | none =>
        simp only [he] at h
        exact absurd h (by simp)
      | some t =>
        simp only [he] at h
        have hcl : game.gameType = Gametype.CLASSIC ∨ game.gameType = Gametype.CRUISE_MISSILES := by
          cases hgt : game.gameType <;> simp [hgt] at hm ⊢
        refine ⟨game, [t], ?_, ?_, Or.inr ⟨hcl, rfl, t, rfl, rfl⟩⟩
        · simp only [shotsOf, Game.resolveShots, h]
        · rw [shotsOf_length, shotsPerTurn_eq, if_neg hm]
          rfl

/-- C22, witness: in the placed MULTIFIRE game the user has five ships afloat
and enters five targets, the first two of which sink the computer's DESTROYER;
five shots are resolved. In `centreGame CLASSIC` the computer resolves one
shot. -/
theorem shots_per_turn_witness :
    (placedGame Gametype.MULTIFIRE).NumShipsAlive Player.USER = 5 ∧
    (∃ (game1 : Game) (targetList : List (Int × Int)),
      (placedGame Gametype.MULTIFIRE).PlayerTurn
        [FireInput.coords 8 0, FireInput.coords 8 1, FireInput.coords 1 0,
          FireInput.coords 1 1, FireInput.coords 1 2] (fun _ => 0) = some (game1, []) ∧
      game1.compFleet.map Ship.shipState =
        [ShipState.AFLOAT, ShipState.AFLOAT, ShipState.AFLOAT, ShipState.AFLOAT,
          ShipState.SUNK] ∧
      (placedGame Gametype.MULTIFIRE).resolveShots
        (shotsOf Player.USER (fun _ => 0) 0 targetList) = some game1 ∧
      (shotsOf Player.USER (fun _ => 0) 0 targetList).length = 5) ∧
    (∃ (game1 game0 : Game) (targetList : List (Int × Int)),
      (centreGame Gametype.CLASSIC).CompTurn (fun _ => 0) = some game1 ∧
      game0.resolveShots (shotsOf Player.COMP (fun _ => 0) 0 targetList) = some game1 ∧
      (shotsOf Player.COMP (fun _ => 0) 0 targetList).length = 1) := by
  refine ⟨by decide, ?_, ?_⟩
  · obtain ⟨⟨game1, rest⟩, hr, hrest, hstate⟩ := exists_of_map_decide
      ((placedGame Gametype.MULTIFIRE).PlayerTurn
        [FireInput.coords 8 0, FireInput.coords 8 1, FireInput.coords 1 0,
          FireInput.coords 1 1, FireInput.coords 1 2] (fun _ => 0))
      (fun r => r.2 = [] ∧ r.1.compFleet.map Ship.shipState =
        [ShipState.AFLOAT, ShipState.AFLOAT, ShipState.AFLOAT, ShipState.AFLOAT,
          ShipState.SUNK]) (by decide)
    simp only at hrest
    subst hrest
    obtain ⟨targetList, _, h2, h3⟩ :=
      (shots_per_turn (placedGame Gametype.MULTIFIRE)).2.1 _ _ _ game1 hr
    exact ⟨game1, targetList, hr, hstate, h2, h3⟩
  · obtain ⟨game1, h1, _⟩ := exists_of_map_decide
      ((centreGame Gametype.CLASSIC).CheckHit (4, 4) Player.COMP 0)
      (fun g => g.compTargeting 4 4 = HIT) (by decide)
    have hc : (centreGame Gametype.CLASSIC).CompTurn (fun _ => 0) = some game1 := by
      rw [compTurn_single (centreGame Gametype.CLASSIC) (fun _ => 0) (4, 4) (by decide)
        (by rw [smallestShipAlive_centre]; exact evaluateGrid_centre Gametype.CLASSIC)]
      exact h1
    obtain ⟨game0, targetList, h2, h3, _⟩ :=
      (shots_per_turn (centreGame Gametype.CLASSIC)).2.2 _ game1 hc
    exact ⟨game1, game0, targetList, hc, h2, h3⟩

/-- C25: in the placed MULTIFIRE game the user has five ships afloat and
`PromptFire` accepts the target `I1` (the cell `(0, 8)` of the computer's
DESTROYER) five times, because `playerTargeting` is not written before the
batch is resolved; the five calls of `CheckHit` are five hits, and the
DESTROYER, of size 2, ends the turn with health -3. -/
theorem playerTurn_same_target_negative_health :
    (placedGame Gametype.MULTIFIRE).playerTargets
      [FireInput.coords 8 0, FireInput.coords 8 0, FireInput.coords 8 0,
        FireInput.coords 8 0, FireInput.coords 8 0]
      = some ([(8, 0), (8, 0), (8, 0), (8, 0), (8, 0)], []) ∧
    (placedGame Gametype.MULTIFIRE).compFleet.map Ship.health = [5, 4, 3, 3, 2] ∧
    ∃ r, (placedGame Gametype.MULTIFIRE).PlayerTurn
        [FireInput.coords 8 0, FireInput.coords 8 0, FireInput.coords 8 0,
          FireInput.coords 8 0, FireInput.coords 8 0] (fun _ => 0) = some r ∧
      (r.2 = [] ∧ r.1.compFleet.map Ship.health = [5, 4, 3, 3, -3] ∧
        r.1.compFleet.map Ship.shipSize = [5, 4, 3, 3, 2]) :=
  ⟨by decide, by decide, exists_of_map_decide _ _ (by decide)⟩

/-! ## Firing at every cell of a fleet -/

theorem filter_fired_cons_of_mem (l fired : List (Int × Int)) (c : Int × Int)
    (hnd : l.Nodup) (hc : c ∈ l) (hf : c ∉ fired) :
    (l.filter fun x => decide (x ∉ c :: fired)).length + 1
      = (l.filter fun x => decide (x ∉ fired)).length := by
  induction l with
  | nil => simp at hc
  | cons x l ih =>
    rw [List.nodup_cons] at hnd
    by_cases hx : x = c
    · subst hx
      have hrest : (l.filter fun y => decide (y ∉ x :: fired))
          = l.filter fun y => decide (y ∉ fired) := by
        apply List.filter_congr
        intro y hy
        have hne : y ≠ x := fun h => hnd.1 (h ▸ hy)
        simp [hne]
      have h1 : decide (x ∉ x :: fired) = false := by simp
      have h2 : decide (x ∉ fired) = true := by simp [hf]
      simp only [List.filter_cons, h1, h2, if_true, Bool.false_eq_true, if_false, hrest,
        List.length_cons]
    · have hcl : c ∈ l := by
        rcases List.mem_cons.1 hc with h | h
        · exact absurd h.symm hx
        · exact h
      have := ih hnd.2 hcl
      by_cases hxf : x ∈ fired
      · simp only [List.filter_cons, List.mem_cons, hx, hxf, or_true, not_true_eq_false,
          decide_False, Bool.false_eq_true, if_false]
        simpa using this
      · simp only [List.filter_cons, List.mem_cons, hx, hxf, or_self, not_false_eq_true,
          decide_True, if_true, List.length_cons]
        simpa using this

theorem filter_fired_cons_of_not_mem (l fired : List (Int × Int)) (c : Int × Int)
    (hc : c ∉ l) :
    (l.filter fun x => decide (x ∉ c :: fired)) = l.filter fun x => decide (x ∉ fired) := by
  apply List.filter_congr
  intro y hy
  have hne : y ≠ c := fun h => hc (h ▸ hy)
  simp [hne]

theorem filter_fired_congr (l f1 f2 : List (Int × Int)) (h : ∀ c, c ∈ f1 ↔ c ∈ f2) :
    (l.filter fun x => decide (x ∉ f1)) = l.filter fun x => decide (x ∉ f2) := by
  apply List.filter_congr
  intro y _
  simp [h y]

theorem fleetCells_eq (fleet : List Ship) :
    fleetCells fleet = (fleet.map Ship.shipCoords).flatten := by
  unfold fleetCells
  rw [List.flatMap_def]

theorem mem_fleetCells (fleet : List Ship) (c : Int × Int) :
    c ∈ fleetCells fleet ↔ ∃ i, i < fleet.length ∧ c ∈ coordsAt fleet i := by
  unfold fleetCells
  rw [List.mem_flatMap]
  constructor
  · rintro ⟨ship, hs, hc⟩
    obtain ⟨i, hi⟩ := List.mem_iff_getElem?.1 hs
    have hlt : i < fleet.length := by
      by_contra hge
      rw [List.getElem?_eq_none (by omega)] at hi
      exact absurd hi (by simp)
    exact ⟨i, hlt, (mem_coordsAt fleet i c).2 ⟨ship, hi, hc⟩⟩
  · rintro ⟨i, _, hc⟩
    obtain ⟨ship, hs, hm⟩ := (mem_coordsAt fleet i c).1 hc
    exact ⟨ship, List.mem_iff_getElem?.2 ⟨i, hs⟩, hm⟩

/-- In a fleet no coordinate of which occurs twice, a coordinate has one owner. -/
theorem owner_unique (fleet : List Ship) (hnd : (fleetCells fleet).Nodup) (i j : Nat)
    (shipi shipj : Ship) (hi : fleet[i]? = some shipi) (hj : fleet[j]? = some shipj)
    (c : Int × Int) (hci : c ∈ shipi.shipCoords) (hcj : c ∈ shipj.shipCoords) : i = j := by
  unfold fleetCells at hnd
  obtain ⟨_, hpw⟩ := List.nodup_flatMap.1 hnd
  rw [List.pairwise_iff_getElem] at hpw
  have hil : i < fleet.length := by
    by_contra hge
    rw [List.getElem?_eq_none (by omega)] at hi
    exact absurd hi (by simp)
  have hjl : j < fleet.length := by
    by_contra hge
    rw [List.getElem?_eq_none (by omega)] at hj
    exact absurd hj (by simp)
  have hei : fleet[i] = shipi := by
    rw [List.getElem?_eq_getElem hil] at hi
    exact Option.some.inj hi
  have hej : fleet[j] = shipj := by
    rw [List.getElem?_eq_getElem hjl] at hj
    exact Option.some.inj hj
  by_contra hne
  rcases Nat.lt_or_gt_of_ne hne with hlt | hgt
  · have hd := hpw i j hil hjl hlt
    simp only [Function.onFun, hei, hej] at hd
    exact hd hci hcj
  · have hd := hpw j i hjl hil hgt
    simp only [Function.onFun, hei, hej] at hd
    exact hd hcj hci

theorem coords_nodup (fleet : List Ship) (hnd : (fleetCells fleet).Nodup) (ship : Ship)
    (hs : ship ∈ fleet) : ship.shipCoords.Nodup := by
  unfold fleetCells at hnd
  exact (List.nodup_flatMap.1 hnd).1 ship hs

theorem map_shipCoords_set (fleet : List Ship) (j : Nat) (ship ship1 : Ship)
    (hj : fleet[j]? = some ship) (hc : ship1.shipCoords = ship.shipCoords) :
    (fleet.set j ship1).map Ship.shipCoords = fleet.map Ship.shipCoords := by
  apply List.ext_getElem?
  intro n
  rw [List.getElem?_map, List.getElem?_map, List.getElem?_set]
  by_cases hn : j = n
  · subst hn
    have hlt : j < fleet.length := by
      by_contra hge
      rw [List.getElem?_eq_none (by omega)] at hj
      exact absurd hj (by simp)
    simp [hlt, hj, hc]
  · simp [hn]


theorem shipState_cases (st : ShipState) : st = ShipState.AFLOAT ∨ st = ShipState.SUNK := by
  cases st <;> simp

theorem isFleetDestroyed_iff (game : Game) (side : Player)
    (hlen : (game.fleetOf side).length = 5) :
    game.IsFleetDestroyed side = true ↔
      ∀ ship ∈ game.fleetOf side, ship.shipState = ShipState.SUNK := by
  constructor
  · intro hd ship hs
    rcases shipState_cases ship.shipState with ha | ha
    · exfalso
      have hfl : ∀ i : Nat, (if side = Player.USER then game.userFleet[i]? else game.compFleet[i]?)
          = (game.fleetOf side)[i]? := by
        intro i
        cases side <;> simp [Game.fleetOf]
      unfold Game.IsFleetDestroyed at hd
      simp only [hfl] at hd
      generalize game.fleetOf side = fleet at hlen hs hd
      match fleet, hlen, hs, hd with
      | [a, b, c, d, e], _, hs, hd =>
        simp only [List.mem_cons, List.mem_singleton, List.not_mem_nil, or_false] at hs
        simp only [List.range_succ, List.range_zero, List.nil_append, List.cons_append,
          List.foldl_cons, List.foldl_nil, List.getElem?_cons_zero, List.getElem?_cons_succ] at hd
        rcases hs with rfl | rfl | rfl | rfl | rfl <;> simp [ha] at hd
    · exact ha
  · exact isFleetDestroyed_of_sunk game side hlen

theorem checkHit_gameType (game game1 : Game) (target : Int × Int) (p : Player) (rnd : Nat)
    (hres : game.CheckHit target p rnd = some game1) : game1.gameType = game.gameType := by
  rw [checkHit_eq] at hres
  by_cases h99 : target.1 = 99
  · rw [if_pos h99] at hres
    rw [← Option.some.inj hres]
    exact (forfeit_grids game _ Player.USER).2.2
  rw [if_neg h99] at hres
  by_cases h999 : target.1 = 999
  · rw [if_pos h999] at hres
    rw [← Option.some.inj hres]
    exact (forfeit_grids game _ Player.USER).2.2
  rw [if_neg h999] at hres
  by_cases hh : game.hitApplies target p rnd
  · rw [if_pos hh] at hres
    cases hs : (game.fleetOf p.opponent)[game.GetShip (target.2, target.1) p]? with
    | none =>
      rw [shipHit_none game _ _ _ hs] at hres
      exact absurd hres (by simp)
    | some ship =>
      cases p
      · simp only [Game.fleetOf, Player.opponent, reduceCtorEq, if_false] at hs
        rw [shipHit_user game _ _ ship hs] at hres
        rw [← Option.some.inj hres]
      · simp only [Game.fleetOf, Player.opponent, if_true] at hs
        rw [shipHit_comp game _ _ ship hs] at hres
        rw [← Option.some.inj hres]
  · rw [if_neg hh] at hres
    have hm : ∀ v, (game.markShot target.2 target.1 p v).gameType = game.gameType := by
      intro v
      cases p <;> simp [Game.markShot]
    by_cases hi : game.intercepted target p rnd
    · rw [if_pos hi] at hres
      rw [← Option.some.inj hres]
      exact hm _
    · rw [if_neg hi] at hres
      rw [← Option.some.inj hres]
      exact hm _

/-- What a successful `CheckHit` does to the ship grid of the defending side. -/
theorem checkHit_defender_cell (game game1 : Game) (target : Int × Int) (p : Player)
    (rnd : Nat) (hres : game.CheckHit target p rnd = some game1) (a b : Int) :
    game1.shipsOf p.opponent a b = game.shipsOf p.opponent a b ∨
      ((a, b) = (target.2, target.1) ∧
        (game1.shipsOf p.opponent a b = HIT ∨ game1.shipsOf p.opponent a b = MISS ∨
          (game1.shipsOf p.opponent a b = SHOT_DOWN ∧ game.intercepted target p rnd))) ∨
      (game1.shipsOf p.opponent a b = SINK ∧ game.hitApplies target p rnd ∧
        ∃ ship, (game.fleetOf p.opponent)[game.GetShip (target.2, target.1) p]? = some ship ∧
          (a, b) ∈ ship.shipCoords ∧ ship.Damage.shipState = ShipState.SUNK) := by
  obtain ⟨hc, hu⟩ := checkHit_ships_cell game game1 target p rnd hres a b
  cases p
  · left
    simp only [Game.shipsOf, Player.opponent, reduceCtorEq, if_false]
    exact hc
  · simp only [Game.shipsOf, Player.opponent, if_true]
    rcases hu with hu | ⟨_, h1, h2⟩ | ⟨_, h1, h2, h3⟩
    · exact Or.inl hu
    · exact Or.inr (Or.inl ⟨h1, h2⟩)
    · exact Or.inr (Or.inr ⟨h1, h2, h3⟩)

/-- The step of the invariant `shotInv`: a shot at a cell of the board that,
if it is a coordinate of a ship, has not been fired at. -/
theorem shotInv_step (game : Game) (p : Player) (coords : List (List (Int × Int)))
    (fired : List (Int × Int)) (target : Int × Int) (rnd : Nat)
    (hinv : game.shotInv p.opponent coords fired)
    (hb : onBoard target.2 target.1)
    (hnew : (target.2, target.1) ∈ coords.flatten → (target.2, target.1) ∉ fired) :
    ∃ game1, game.CheckHit target p rnd = some game1 ∧
      game1.shotInv p.opponent coords ((target.2, target.1) :: fired) := by
  obtain ⟨hvar, hlen, hcoords, hnd, hships, hgrid, hother⟩ := hinv
  have h99 : target.1 ≠ 99 := by
    unfold onBoard at hb
    omega
  have h999 : target.1 ≠ 999 := by
    unfold onBoard at hb
    omega
  have hcells : fleetCells (game.fleetOf p.opponent) = coords.flatten := by
    rw [fleetCells_eq, hcoords]
  have hndf : (fleetCells (game.fleetOf p.opponent)).Nodup := by
    rw [hcells]
    exact hnd
  have hnovar : ¬ (game.gameType = Gametype.CRUISE_MISSILES ∨
      game.gameType = Gametype.HARDCORE) := by
    rcases hvar with h | h <;> rw [h] <;> decide
  by_cases hc : (target.2, target.1) ∈ coords.flatten
  · have hnf := hnew hc
    have hown : ∃ i, i < 5 ∧ (target.2, target.1) ∈ coordsAt (game.fleetOf p.opponent) i := by
      rw [← hcells, mem_fleetCells, hlen] at hc
      exact hc
    obtain ⟨_, hmem, _⟩ := getShip_spec game (target.2, target.1) p hown
    obtain ⟨ship, hship, hcs⟩ := (mem_coordsAt _ _ _).1 hmem
    have happ : game.hitApplies target p rnd :=
      ⟨h99, h999, Or.inl (hgrid _ hc hnf), fun h => hnovar h.1⟩
    obtain ⟨game1, h1, hf, _⟩ := shipHit_spec game target.2 target.1 p ship hship
    have hres : game.CheckHit target p rnd = some game1 :=
      (checkHit_of_hitApplies game target p rnd happ).trans h1
    refine ⟨game1, hres, ?_⟩
    have hsm : ship ∈ game.fleetOf p.opponent := List.mem_iff_getElem?.2 ⟨_, hship⟩
    obtain ⟨hh, hst⟩ := hships ship hsm
    have hcnd := coords_nodup _ hndf ship hsm
    have hcount := filter_fired_cons_of_mem ship.shipCoords fired _ hcnd hcs hnf
    have hhealth : ship.Damage.health =
        ((ship.shipCoords.filter fun c => decide (c ∉ (target.2, target.1) :: fired)).length
          : Int) := by
      simp only [Ship.Damage]
      omega
    have hstate : ship.Damage.shipState = ShipState.SUNK ↔ ship.Damage.health = 0 := by
      simp only [Ship.Damage]
      by_cases h0 : ship.health - 1 = 0
      · simp [h0]
      · simp only [h0, if_false, iff_false]
        intro hs
        have := hst.1 hs
        omega
    refine ⟨?_, ?_, ?_, hnd, ?_, ?_, ?_⟩
    · rw [checkHit_gameType game game1 target p rnd hres]
      exact hvar
    · rw [hf, List.length_set]
      exact hlen
    · rw [hf, map_shipCoords_set _ _ ship ship.Damage hship rfl]
      exact hcoords
    · intro ship1 hs1
      rw [hf] at hs1
      obtain ⟨i, hi⟩ := List.mem_iff_getElem?.1 hs1
      rw [List.getElem?_set] at hi
      by_cases hij : game.GetShip (target.2, target.1) p = i
      · rw [if_pos hij] at hi
        have hlt : game.GetShip (target.2, target.1) p < (game.fleetOf p.opponent).length := by
          by_contra hge
          rw [List.getElem?_eq_none (by omega)] at hship
          exact absurd hship (by simp)
        rw [if_pos hlt] at hi
        have he : ship1 = ship.Damage := (Option.some.inj hi).symm
        rw [he]
        exact ⟨hhealth, hstate⟩
      · rw [if_neg hij] at hi
        have hs1m : ship1 ∈ game.fleetOf p.opponent := List.mem_iff_getElem?.2 ⟨i, hi⟩
        have hnc : (target.2, target.1) ∉ ship1.shipCoords := fun hm =>
          hij (owner_unique _ hndf _ i ship ship1 hship hi _ hcs hm)
        rw [filter_fired_cons_of_not_mem _ _ _ hnc]
        exact hships ship1 hs1m
    · intro c1 hc1 hnf1
      have hne : c1 ≠ (target.2, target.1) := fun h => hnf1 (h ▸ List.mem_cons_self _ _)
      have hnf2 : c1 ∉ fired := fun h => hnf1 (List.mem_cons_of_mem _ h)
      rcases checkHit_defender_cell game game1 target p rnd hres c1.1 c1.2 with
        h | ⟨h, _⟩ | ⟨_, _, ship2, hs2, hm2, hsunk2⟩
      · rw [h]
        exact hgrid c1 hc1 hnf2
      · exact absurd h hne
      · exfalso
        have he : ship2 = ship := Option.some.inj (hs2.symm.trans hship)
        subst he
        have h0 := hstate.1 hsunk2
        rw [hhealth] at h0
        have hnil : (ship2.shipCoords.filter fun c =>
            decide (c ∉ (target.2, target.1) :: fired)) = [] := by
          apply List.length_eq_zero.1
          omega
        have hin : c1 ∈ ship2.shipCoords.filter fun c =>
            decide (c ∉ (target.2, target.1) :: fired) := by
          rw [List.mem_filter]
          exact ⟨hm2, by simpa using hnf1⟩
        rw [hnil] at hin
        exact absurd hin (List.not_mem_nil _)
    · intro a b hab hn
      rcases checkHit_defender_cell game game1 target p rnd hres a b with
        h | ⟨_, h | h | ⟨_, h⟩⟩ | ⟨h, _⟩
      · rw [h]
        exact hother a b hab hn
      · rw [h]
        exact ⟨by decide, by decide⟩
      · rw [h]
        exact ⟨by decide, by decide⟩
      · exact absurd h (not_intercepted_of_variant game target p rnd hvar)
      · rw [h]
        exact ⟨by decide, by decide⟩
  · have hE := hother target.2 target.1 hb hc
    have hres := checkHit_of_miss game target p rnd h99 h999 hE.1 hE.2
    refine ⟨_, hres, ?_⟩
    have hnh : ¬ game.hitApplies target p rnd := by
      rintro ⟨_, _, h3, _⟩
      rcases h3 with h3 | h3
      · exact hE.1 h3
      · exact hE.2 h3
    refine ⟨?_, ?_, ?_, hnd, ?_, ?_, ?_⟩
    · rw [checkHit_gameType game _ target p rnd hres]
      exact hvar
    · rw [markShot_fleetOf]
      exact hlen
    · rw [markShot_fleetOf]
      exact hcoords
    · intro ship1 hs1
      rw [markShot_fleetOf] at hs1
      have hnc : (target.2, target.1) ∉ ship1.shipCoords := by
        intro hm
        apply hc
        rw [← hcells]
        unfold fleetCells
        exact List.mem_flatMap.2 ⟨ship1, hs1, hm⟩
      rw [filter_fired_cons_of_not_mem _ _ _ hnc]
      exact hships ship1 hs1
    · intro c1 hc1 hnf1
      have hne : c1 ≠ (target.2, target.1) := fun h => hnf1 (h ▸ List.mem_cons_self _ _)
      have hnf2 : c1 ∉ fired := fun h => hnf1 (List.mem_cons_of_mem _ h)
      rcases checkHit_defender_cell game _ target p rnd hres c1.1 c1.2 with
        h | ⟨h, _⟩ | ⟨_, h, _⟩
      · rw [h]
        exact hgrid c1 hc1 hnf2
      · exact absurd h hne
      · exact absurd h hnh
    · intro a b hab hn
      rcases checkHit_defender_cell game _ target p rnd hres a b with
        h | ⟨_, h | h | ⟨_, h⟩⟩ | ⟨_, h, _⟩
      · rw [h]
        exact hother a b hab hn
      · rw [h]
        exact ⟨by decide, by decide⟩
      · rw [h]
        exact ⟨by decide, by decide⟩
      · exact absurd h (not_intercepted_of_variant game target p rnd hvar)
      · exact absurd h hnh


theorem shotInv_resolve (shots : List Shot) (game : Game) (p : Player)
    (coords : List (List (Int × Int))) (fired : List (Int × Int))
    (hinv : game.shotInv p.opponent coords fired)
    (hshots : ∀ shot ∈ shots, shot.p = p ∧ onBoard shot.cell.1 shot.cell.2)
    (hfresh : ∀ c ∈ coords.flatten, c ∈ shots.map Shot.cell → c ∉ fired)
    (honce : ∀ c ∈ coords.flatten, (shots.map Shot.cell).count c ≤ 1) :
    ∃ game1 fired1, game.resolveShots shots = some game1 ∧
      game1.shotInv p.opponent coords fired1 ∧
      ∀ c, c ∈ fired1 ↔ c ∈ shots.map Shot.cell ∨ c ∈ fired := by
  induction shots generalizing game fired with
  | nil => exact ⟨game, fired, rfl, hinv, fun c => by simp⟩
  | cons shot rest ih =>
    obtain ⟨hp, hb⟩ := hshots shot (List.mem_cons_self _ _)
    have hnew : (shot.target.2, shot.target.1) ∈ coords.flatten →
        (shot.target.2, shot.target.1) ∉ fired := fun hc =>
      hfresh _ hc (by simp [Shot.cell])
    obtain ⟨game2, h2, hinv2⟩ := shotInv_step game p coords fired shot.target shot.rnd hinv hb hnew
    obtain ⟨game1, fired1, h1, hinv1, hmem⟩ := ih game2 ((shot.target.2, shot.target.1) :: fired)
      hinv2 (fun s hs => hshots s (List.mem_cons_of_mem _ hs))
      (fun c hc hcr => by
        have hcount := honce c hc
        rw [List.map_cons, List.count_cons] at hcount
        have hpos : 0 < (rest.map Shot.cell).count c := List.count_pos_iff.2 hcr
        have hne : c ≠ (shot.target.2, shot.target.1) := by
          intro he
          have hb1 : (shot.cell == c) = true := by
            rw [he]
            simp [Shot.cell]
          rw [if_pos hb1] at hcount
          omega
        intro hm
        rcases List.mem_cons.1 hm with h | h
        · exact hne h
        · exact hfresh c hc (by simp [hcr]) h)
      (fun c hc => by
        have hcount := honce c hc
        rw [List.map_cons, List.count_cons] at hcount
        omega)
    refine ⟨game1, fired1, ?_, hinv1, fun c => ?_⟩
    · unfold Game.resolveShots
      rw [hp, h2]
      exact h1
    · rw [hmem c]
      simp only [List.map_cons, List.mem_cons, Shot.cell]
      tauto

/-- In CLASSIC or MULTIFIRE, for a defending fleet of five ships as
placement leaves it (coordinates pairwise disjoint, health the number of
coordinates, the ship grid showing exactly the fleet) and any sequence of shots
of the other side at cells of the board in which no coordinate of the fleet is
fired at twice: every shot is resolved; afterwards the health of a ship is the
number of its coordinates not fired at, and it is SUNK exactly when that is 0;
when every coordinate of the fleet has been fired at, every ship has health 0
and is SUNK and `IsFleetDestroyed` of the defender is true; as long as a
coordinate has not been fired at, it is false. -/
theorem fleet_destroyed_iff_all_cells_fired (game : Game) (p : Player) (shots : List Shot)
    (hvar : game.gameType = Gametype.CLASSIC ∨ game.gameType = Gametype.MULTIFIRE)
    (hfleet : game.freshFleet p.opponent)
    (hshots : ∀ shot ∈ shots, shot.p = p ∧ onBoard shot.cell.1 shot.cell.2)
    (honce : ∀ c ∈ fleetCells (game.fleetOf p.opponent), (shots.map Shot.cell).count c ≤ 1) :
    ∃ game1, game.resolveShots shots = some game1 ∧
      (game1.fleetOf p.opponent).map Ship.shipCoords =
        (game.fleetOf p.opponent).map Ship.shipCoords ∧
      (∀ ship ∈ game1.fleetOf p.opponent,
        ship.health =
          ((ship.shipCoords.filter fun c => decide (c ∉ shots.map Shot.cell)).length : Int) ∧
        (ship.shipState = ShipState.SUNK ↔ ship.health = 0)) ∧
      ((∀ c ∈ fleetCells (game.fleetOf p.opponent), c ∈ shots.map Shot.cell) →
        (∀ ship ∈ game1.fleetOf p.opponent,
          ship.health = 0 ∧ ship.shipState = ShipState.SUNK) ∧
        game1.IsFleetDestroyed p.opponent = true) ∧
      ((∃ c ∈ fleetCells (game.fleetOf p.opponent), c ∉ shots.map Shot.cell) →
        game1.IsFleetDestroyed p.opponent = false) := by
  obtain ⟨hlen, hfresh, hnd, hship, hother⟩ := hfleet
  have hcells : fleetCells (game.fleetOf p.opponent)
      = ((game.fleetOf p.opponent).map Ship.shipCoords).flatten := fleetCells_eq _
  have hinv : game.shotInv p.opponent ((game.fleetOf p.opponent).map Ship.shipCoords) [] := by
    refine ⟨hvar, hlen, rfl, by rw [← hcells]; exact hnd, ?_, ?_, ?_⟩
    · intro ship hs
      obtain ⟨h1, h2, h3⟩ := hfresh ship hs
      refine ⟨by simp [h2], ?_⟩
      rw [h1]
      constructor
      · intro h
        exact absurd h (by decide)
      · intro h
        omega
    · intro c hc _
      rw [← hcells] at hc
      exact hship c hc
    · intro a b hab hn
      rw [← hcells] at hn
      exact hother (a, b) ((mem_scanOrder a b).2 hab) hn
  obtain ⟨game1, fired1, hres, hinv1, hmem⟩ := shotInv_resolve shots game p _ [] hinv hshots
    (fun c _ _ => List.not_mem_nil c) (fun c hc => honce c (by rw [hcells]; exact hc))
  obtain ⟨_, hlen1, hcoords1, _, hships1, _, _⟩ := hinv1
  have hfilter : ∀ l : List (Int × Int), (l.filter fun c => decide (c ∉ fired1))
      = l.filter fun c => decide (c ∉ shots.map Shot.cell) := fun l =>
    filter_fired_congr l _ _ (fun c => by rw [hmem c]; simp)
  have hhealth : ∀ ship ∈ game1.fleetOf p.opponent,
      ship.health =
        ((ship.shipCoords.filter fun c => decide (c ∉ shots.map Shot.cell)).length : Int) ∧
      (ship.shipState = ShipState.SUNK ↔ ship.health = 0) := by
    intro ship hs
    obtain ⟨h1, h2⟩ := hships1 ship hs
    rw [hfilter] at h1
    exact ⟨h1, h2⟩
  have hcells1 : fleetCells (game1.fleetOf p.opponent)
      = fleetCells (game.fleetOf p.opponent) := by
    rw [fleetCells_eq, fleetCells_eq, hcoords1]
  refine ⟨game1, hres, hcoords1, hhealth, ?_, ?_⟩
  · intro hall
    have hzero : ∀ ship ∈ game1.fleetOf p.opponent,
        ship.health = 0 ∧ ship.shipState = ShipState.SUNK := by
      intro ship hs
      obtain ⟨h1, h2⟩ := hhealth ship hs
      have hnil : (ship.shipCoords.filter fun c => decide (c ∉ shots.map Shot.cell)) = [] := by
        rw [List.filter_eq_nil_iff]
        intro c hc
        have hin : c ∈ fleetCells (game1.fleetOf p.opponent) := by
          unfold fleetCells
          exact List.mem_flatMap.2 ⟨ship, hs, hc⟩
        rw [hcells1] at hin
        simpa using hall c hin
      rw [hnil] at h1
      have h0 : ship.health = 0 := by simpa using h1
      exact ⟨h0, h2.2 h0⟩
    exact ⟨hzero, (isFleetDestroyed_iff game1 p.opponent hlen1).2 (fun ship hs => (hzero ship hs).2)⟩
  · rintro ⟨c, hc, hnc⟩
    apply Bool.eq_false_iff.2
    intro hd
    have hsunk := (isFleetDestroyed_iff game1 p.opponent hlen1).1 hd
    rw [← hcells1] at hc
    unfold fleetCells at hc
    obtain ⟨ship, hs, hcs⟩ := List.mem_flatMap.1 hc
    obtain ⟨h1, h2⟩ := hhealth ship hs
    have hin : c ∈ ship.shipCoords.filter fun c => decide (c ∉ shots.map Shot.cell) := by
      rw [List.mem_filter]
      exact ⟨hcs, by simpa using hnc⟩
    have hpos : 0 < (ship.shipCoords.filter fun c =>
        decide (c ∉ shots.map Shot.cell)).length := List.length_pos_of_mem hin
    have h0 := h2.1 (hsunk ship hs)
    omega

/-- In the placed CLASSIC game the computer fires once at each
of the 17 coordinates of the user's fleet and destroys it; after the two
coordinates of the DESTROYER only, the fleet is not destroyed. -/
theorem fleet_destroyed_iff_all_cells_fired_witness :
    (placedGame Gametype.CLASSIC).freshFleet Player.USER ∧
    (∃ game1, (placedGame Gametype.CLASSIC).resolveShots
        (shotsAt Player.COMP (fleetCells placedFleet)) = some game1 ∧
      (∀ ship ∈ game1.fleetOf Player.USER, ship.health = 0 ∧ ship.shipState = ShipState.SUNK) ∧
      game1.IsFleetDestroyed Player.USER = true) ∧
    (∃ game1, (placedGame Gametype.CLASSIC).resolveShots
        (shotsAt Player.COMP [(0, 8), (1, 8)]) = some game1 ∧
      game1.IsFleetDestroyed Player.USER = false) := by
  refine ⟨by decide!, ?_, ?_⟩
  · obtain ⟨game1, h1, _, _, h3, _⟩ := fleet_destroyed_iff_all_cells_fired
      (placedGame Gametype.CLASSIC) Player.COMP (shotsAt Player.COMP (fleetCells placedFleet))
      (Or.inl rfl) (by decide!) (by decide) (by decide)
    exact ⟨game1, h1, h3 (by decide)⟩
  · obtain ⟨game1, h1, _, _, _, h4⟩ := fleet_destroyed_iff_all_cells_fired
      (placedGame Gametype.CLASSIC) Player.COMP (shotsAt Player.COMP [(0, 8), (1, 8)])
      (Or.inl rfl) (by decide!) (by decide) (by decide)
    exact ⟨game1, h1, h4 ⟨(0, 0), by decide, by decide⟩⟩

/-- C21: in the placed MULTIFIRE game the computer's fleet is as placement
leaves it and the user has five ships afloat. In four turns the user types
`A1` five times, `C1` four times and `E1`, `E2` twice and `G1` three times, `I1`
twice and three misses; no line is a forfeit. `PromptFire` accepts every line,
each of the 17 shots at the six cells `(0, 0)`, `(0, 2)`, `(0, 4)`, `(1, 4)`,
`(0, 6)`, `(0, 8)` is a hit, every ship of the computer ends SUNK with health 0
and `IsFleetDestroyed(COMP)` is true, although 11 of the 17 coordinates of the
fleet, `(1, 0)` among them, have not been fired at. -/
theorem repeated_targets_destroy_fleet :
    (placedGame Gametype.MULTIFIRE).freshFleet Player.COMP ∧
    (placedGame Gametype.MULTIFIRE).NumShipsAlive Player.USER = 5 ∧
    (∀ line ∈ repeatedLines, line ≠ FireInput.forfeit ∧ line ≠ FireInput.cheat) ∧
    (1, 0) ∈ fleetCells (placedGame Gametype.MULTIFIRE).compFleet ∧
    FireInput.coords 0 1 ∉ repeatedLines ∧
    ((fleetCells (placedGame Gametype.MULTIFIRE).compFleet).filter fun c =>
      decide (FireInput.coords c.2 c.1 ∉ repeatedLines)).length = 11 ∧
    ∃ game4, (placedGame Gametype.MULTIFIRE).playerTurns 4 repeatedLines = some (game4, []) ∧
      game4.compFleet.map Ship.health = [0, 0, 0, 0, 0] ∧
      (∀ ship ∈ game4.compFleet, ship.shipState = ShipState.SUNK) ∧
      game4.IsFleetDestroyed Player.COMP = true := by
  refine ⟨by decide!, by decide, by decide, by decide, by decide, by decide, ?_⟩
  obtain ⟨⟨game4, rest⟩, hr, hrest, h1, h2, h3⟩ := exists_of_map_decide
    ((placedGame Gametype.MULTIFIRE).playerTurns 4 repeatedLines)
    (fun r => r.2 = [] ∧ r.1.compFleet.map Ship.health = [0, 0, 0, 0, 0] ∧
      (∀ ship ∈ r.1.compFleet, ship.shipState = ShipState.SUNK) ∧
      r.1.IsFleetDestroyed Player.COMP = true) (by decide!)
  simp only at hrest
  subst hrest
  exact ⟨game4, hr, h1, h2, h3⟩

/-! ## Manual placement -/

/-- C27: in `ManualPlacement` the user lays the CARRIER from `A3` downwards
(`CheckDown(2, 0, 5)` holds) on `(2, 0) .. (2, 4)` and then the BATTLESHIP from
`A6` to the left (`CheckLeft(5, 0, 4)` holds on the grid with the CARRIER) on
`(5, 0), (4, 0), (3, 0), (2, 0)`: every direction is accepted by its fit-check
and the two ships share the cell `(2, 0)`. When the computer then fires once
at each of the 16 cells of the fleet, the hit at `(2, 0)` goes to the
BATTLESHIP, the CARRIER keeps health 1 and the user's fleet is not destroyed. -/
theorem manualPlacement_overlapping_ships :
    ((Game.construct Gametype.CLASSIC).ConstructFleets).CheckDown 2 0 5 = true ∧
    carrierPlaced.CheckLeft 5 0 4 = true ∧
    ∃ game1, ((Game.construct Gametype.CLASSIC).ConstructFleets).ManualPlacement
        overlapOrigins overlapDirections = some (game1, [], []) ∧
      game1.userFleet.map Ship.shipCoords =
        [[(2, 0), (2, 1), (2, 2), (2, 3), (2, 4)], [(5, 0), (4, 0), (3, 0), (2, 0)],
          [(0, 6), (1, 6), (2, 6)], [(0, 7), (1, 7), (2, 7)], [(0, 8), (1, 8)]] ∧
      ¬ (fleetCells game1.userFleet).Nodup ∧
      ∃ game2, game1.resolveShots (shotsAt Player.COMP (fleetCells game1.userFleet).dedup)
          = some game2 ∧
        game2.userFleet.map Ship.health = [1, 0, 0, 0, 0] ∧
        game2.IsFleetDestroyed Player.USER = false ∧
        ∀ c ∈ scanOrder, game2.userShips c.1 c.2 ≠ SHIP ∧ game2.userShips c.1 c.2 ≠ SHOT_DOWN := by
  refine ⟨by decide, by decide, ?_⟩
  obtain ⟨⟨game1, o, d⟩, h1, ho, hc, hn, h2⟩ := exists_of_map_decide
    (((Game.construct Gametype.CLASSIC).ConstructFleets).ManualPlacement
      overlapOrigins overlapDirections)
    (fun r => r.2 = ([], []) ∧
      r.1.userFleet.map Ship.shipCoords =
        [[(2, 0), (2, 1), (2, 2), (2, 3), (2, 4)], [(5, 0), (4, 0), (3, 0), (2, 0)],
          [(0, 6), (1, 6), (2, 6)], [(0, 7), (1, 7), (2, 7)], [(0, 8), (1, 8)]] ∧
      ¬ (fleetCells r.1.userFleet).Nodup ∧
      ((r.1.resolveShots (shotsAt Player.COMP (fleetCells r.1.userFleet).dedup)).map fun g =>
        decide (g.userFleet.map Ship.health = [1, 0, 0, 0, 0] ∧
          g.IsFleetDestroyed Player.USER = false ∧
          ∀ c ∈ scanOrder, g.userShips c.1 c.2 ≠ SHIP ∧ g.userShips c.1 c.2 ≠ SHOT_DOWN))
        = some true)
    (by decide!)
  simp only [Prod.mk.injEq] at ho
  obtain ⟨ho1, ho2⟩ := ho
  subst ho1
  subst ho2
  exact ⟨game1, h1, hc, hn, exists_of_map_decide _ _ h2⟩

/-! ## Weights of EMPTY cells and of the cells near a HIT cell (C33, C35) -/

theorem weighGrid_ge_cell (game : Game) (s x y a b : Int) (h : onBoard x y) :
    cellStep game s x y zeroWeights a b ≤ weighGrid game s a b := by
  rw [weighGrid_apply]
  have hinner : cellStep game s x y zeroWeights a b
      ≤ (idx10.map fun y => cellStep game s x y zeroWeights a b).sum := by
    apply List.single_le_sum
    · intro v hv
      rw [List.mem_map] at hv
      obtain ⟨y, _, rfl⟩ := hv
      exact cellStep_zero_nonneg game s x y a b
    · exact List.mem_map.2 ⟨y, (mem_idx10 y).2 h.2, rfl⟩
  refine le_trans hinner ?_
  apply List.single_le_sum
  · intro v hv
    rw [List.mem_map] at hv
    obtain ⟨x, _, rfl⟩ := hv
    apply List.sum_nonneg
    intro v hv
    rw [List.mem_map] at hv
    obtain ⟨y, _, rfl⟩ := hv
    exact cellStep_zero_nonneg game s x y a b
  · exact List.mem_map.2 ⟨x, (mem_idx10 x).2 h.1, rfl⟩

theorem evalUp_two (game : Game) (x y : Int) : EvalUp game x y 2 = true ↔ 1 ≤ y := by
  unfold EvalUp
  by_cases h : y - (2 - 1) < 0
  · rw [if_pos h]; simp; omega
  · rw [if_neg h]; simp; omega

theorem evalDown_two (game : Game) (x y : Int) : EvalDown game x y 2 = true ↔ y ≤ 8 := by
  unfold EvalDown
  by_cases h : y + (2 - 1) > 9
  · rw [if_pos h]; simp; omega
  · rw [if_neg h]; simp; omega

theorem evalLeft_two (game : Game) (x y : Int) : EvalLeft game x y 2 = true ↔ 1 ≤ x := by
  unfold EvalLeft
  by_cases h : x - (2 - 1) < 0
  · rw [if_pos h]; simp; omega
  · rw [if_neg h]; simp; omega

theorem evalRight_two (game : Game) (x y : Int) : EvalRight game x y 2 = true ↔ x ≤ 8 := by
  unfold EvalRight
  by_cases h : x + (2 - 1) > 9
  · rw [if_pos h]; simp; omega
  · rw [if_neg h]; simp; omega

/-- The runs of length 2 from a cell of the board fit in at least two
directions, and each adds one to the cell itself. -/
theorem lengthGain_two_own (game : Game) (a b : Int) (hab : onBoard a b) :
    2 ≤ lengthGain game a b 2 a b := by
  unfold lengthGain
  unfold onBoard at hab
  have hU := evalUp_two game a b
  have hD := evalDown_two game a b
  have hL := evalLeft_two game a b
  have hR := evalRight_two game a b
  have h : ∀ (p : Prop) [Decidable p], (0 : Int) ≤ if p then 1 else 0 := by
    intro p _; split_ifs <;> omega
  have h1 := h (EvalUp game a b 2 = true ∧ a = a ∧ 0 ≤ b - b ∧ b - b < 2 - 1)
  have h2 := h (EvalDown game a b 2 = true ∧ a = a ∧ 0 ≤ b - b ∧ b - b < 2 - 1)
  have h3 := h (EvalLeft game a b 2 = true ∧ b = b ∧ 0 ≤ a - a ∧ a - a < 2 - 1)
  have h4 := h (EvalRight game a b 2 = true ∧ b = b ∧ 0 ≤ a - a ∧ a - a < 2 - 1)
  have hV : (1 : Int) ≤ (if EvalUp game a b 2 = true ∧ a = a ∧ 0 ≤ b - b ∧ b - b < 2 - 1
      then 1 else 0) + (if EvalDown game a b 2 = true ∧ a = a ∧ 0 ≤ b - b ∧ b - b < 2 - 1
      then 1 else 0) := by
    by_cases hb : 1 ≤ b
    · rw [if_pos ⟨hU.2 hb, rfl, by omega, by omega⟩]; omega
    · rw [if_pos (⟨hD.2 (by omega), rfl, by omega, by omega⟩ :
        EvalDown game a b 2 = true ∧ a = a ∧ 0 ≤ b - b ∧ b - b < 2 - 1)]; omega
  have hH : (1 : Int) ≤ (if EvalLeft game a b 2 = true ∧ b = b ∧ 0 ≤ a - a ∧ a - a < 2 - 1
      then 1 else 0) + (if EvalRight game a b 2 = true ∧ b = b ∧ 0 ≤ a - a ∧ a - a < 2 - 1
      then 1 else 0) := by
    by_cases ha : 1 ≤ a
    · rw [if_pos ⟨hL.2 ha, rfl, by omega, by omega⟩]; omega
    · rw [if_pos (⟨hR.2 (by omega), rfl, by omega, by omega⟩ :
        EvalRight game a b 2 = true ∧ b = b ∧ 0 ≤ a - a ∧ a - a < 2 - 1)]; omega
  omega

/-- For `s ≤ 2` an EMPTY cell of the board weighs at least 2 before the
selection loops. -/
theorem weighGrid_two_of_empty (game : Game) (s a b : Int) (hab : onBoard a b) (hs : s ≤ 2)
    (hE : game.compTargeting a b = EMPTY) : 2 ≤ weighGrid game s a b := by
  refine le_trans ?_ (weighGrid_ge_own game s a b hab)
  rw [cellStep_apply, hE]
  simp only [zeroWeights, zero_add]
  have hmem : lengthGain game a b (s + (((2 - s).toNat : Nat) : Int)) a b
      ∈ (List.range (5 - s + 1).toNat).map fun (k : Nat) =>
        lengthGain game a b (s + (k : Int)) a b := by
    apply List.mem_map.2
    refine ⟨(2 - s).toNat, ?_, rfl⟩
    rw [List.mem_range]
    omega
  have hle := List.single_le_sum (fun v hv => by
    rw [List.mem_map] at hv
    obtain ⟨k, _, rfl⟩ := hv
    exact lengthGain_nonneg game a b _ a b) _ hmem
  refine le_trans ?_ hle
  have h2 : s + (((2 - s).toNat : Nat) : Int) = 2 := by omega
  rw [h2]
  exact lengthGain_two_own game a b hab

/-- The HIT branch of a cell adds at least 100 to each neighbour on the board. -/
theorem hitGain_neighbour (game : Game) (x y a b : Int) (hab : onBoard a b)
    (hn : inLineAt x y a b 1) : 100 ≤ hitGain game x y a b := by
  unfold hitGain
  unfold onBoard at hab
  have h1 := (hitTerm_bounds (EvalUp game x y 3 = true) (EvalUp game x y 2 = true)
    (a = x ∧ b = y - 1) (a = x ∧ b = y - 2)).1
  have h2 := (hitTerm_bounds (EvalDown game x y 3 = true) (EvalDown game x y 2 = true)
    (a = x ∧ b = y + 1) (a = x ∧ b = y + 2)).1
  have h3 := (hitTerm_bounds (EvalLeft game x y 3 = true) (EvalLeft game x y 2 = true)
    (a = x - 1 ∧ b = y) (a = x - 2 ∧ b = y)).1
  have h4 := (hitTerm_bounds (EvalRight game x y 3 = true) (EvalRight game x y 2 = true)
    (a = x + 1 ∧ b = y) (a = x + 2 ∧ b = y)).1
  have key : ∀ (e3 e2 p q : Prop) [Decidable e3] [Decidable e2] [Decidable p] [Decidable q],
      e2 → p → (100 : Int) ≤ (if e3 then (if p then 100 else 0) + (if q then 50 else 0)
        else if e2 then (if p then 100 else 0) else 0) := by
    intro e3 e2 p q _ _ _ _ he2 hp
    split_ifs <;> omega
  rcases hn with ⟨rfl, rfl | rfl⟩ | ⟨rfl, rfl | rfl⟩
  · have := key (EvalDown game a y 3 = true) (EvalDown game a y 2 = true)
      (a = a ∧ y + 1 = y + 1) (a = a ∧ y + 1 = y + 2) ((evalDown_two game a y).2 (by omega))
      ⟨rfl, rfl⟩
    omega
  · have := key (EvalUp game a y 3 = true) (EvalUp game a y 2 = true)
      (a = a ∧ y - 1 = y - 1) (a = a ∧ y - 1 = y - 2) ((evalUp_two game a y).2 (by omega))
      ⟨rfl, rfl⟩
    omega
  · have := key (EvalRight game x b 3 = true) (EvalRight game x b 2 = true)
      (x + 1 = x + 1 ∧ b = b) (x + 1 = x + 2 ∧ b = b) ((evalRight_two game x b).2 (by omega))
      ⟨rfl, rfl⟩
    omega
  · have := key (EvalLeft game x b 3 = true) (EvalLeft game x b 2 = true)
      (x - 1 = x - 1 ∧ b = b) (x - 1 = x - 2 ∧ b = b) ((evalLeft_two game x b).2 (by omega))
      ⟨rfl, rfl⟩
    omega

/-- A neighbour on the board of a HIT cell of the board weighs at least 100
before the selection loops. -/
theorem weighGrid_neighbour (game : Game) (s x y a b : Int) (hxy : onBoard x y)
    (hab : onBoard a b) (hH : game.compTargeting x y = HIT) (hn : inLineAt x y a b 1) :
    100 ≤ weighGrid game s a b := by
  refine le_trans ?_ (weighGrid_ge_cell game s x y a b hxy)
  rw [cellStep_apply, hH]
  simp only [zeroWeights, zero_add]
  exact hitGain_neighbour game x y a b hab hn

/-- What the loop body of the cell `(x, y)` adds to a cell that is not at
distance 1 or 2 from it when it is HIT, on a grid where it is not SHOT_DOWN:
at most `fitV` along its column and its row. -/
theorem cellStep_le_fit (game : Game) (s x y a b : Int)
    (hns : game.compTargeting x y ≠ SHOT_DOWN)
    (hfar : game.compTargeting x y = HIT → ¬ inLineAt x y a b 1 ∧ ¬ inLineAt x y a b 2) :
    cellStep game s x y zeroWeights a b
      ≤ (if a = x then fitV (y - b) else 0) + (if b = y then fitV (x - a) else 0) := by
  rw [cellStep_apply]
  simp only [zeroWeights, zero_add]
  have hf1 := fitV_nonneg (y - b)
  have hf2 := fitV_nonneg (x - a)
  have hnn : (0 : Int) ≤ (if a = x then fitV (y - b) else 0) + (if b = y then fitV (x - a) else 0) := by
    split_ifs <;> omega
  cases hst : game.compTargeting x y
  · simpa using hnn
  · have hle := hitGain_le game x y a b
    obtain ⟨hf1', hf2'⟩ := hfar hst
    show hitGain game x y a b ≤ _
    have hz : (if a = x then hitV (y - b) else 0) + (if b = y then hitV (x - a) else 0) = 0 := by
      unfold inLineAt at hf1' hf2'
      unfold hitV
      split_ifs <;> omega
    omega
  · exact emptyGain_le game s x y a b
  · simpa using hnn
  · simpa using hnn
  · exact absurd hst hns

theorem fitV_line_sum : ∀ c ∈ idx10, (idx10.map fun z => fitV (z - c)).sum ≤ 20 := by
  decide!

/-- On a grid without SHOT_DOWN cells, a cell of the board that is not at
distance 1 or 2 from a HIT cell in its column or row weighs at most 40. -/
theorem weighGrid_le_forty (game : Game) (s a b : Int) (hab : onBoard a b)
    (hns : ∀ x y, onBoard x y → game.compTargeting x y ≠ SHOT_DOWN)
    (hfar : ∀ x y, onBoard x y → game.compTargeting x y = HIT →
      ¬ inLineAt x y a b 1 ∧ ¬ inLineAt x y a b 2) : weighGrid game s a b ≤ 40 := by
  rw [weighGrid_apply]
  have hle : (idx10.map fun x => (idx10.map fun y => cellStep game s x y zeroWeights a b).sum).sum
      ≤ (idx10.map fun x => (idx10.map fun y =>
          (if a = x then fitV (y - b) else 0) + (if b = y then fitV (x - a) else 0)).sum).sum := by
    apply List.sum_le_sum
    intro x hx
    apply List.sum_le_sum
    intro y hy
    have hxy : onBoard x y := ⟨(mem_idx10 x).1 hx, (mem_idx10 y).1 hy⟩
    exact cellStep_le_fit game s x y a b (hns x y hxy) (hfar x y hxy)
  refine le_trans hle ?_
  rw [sum_cross a b ((mem_idx10 a).2 hab.1) ((mem_idx10 b).2 hab.2)
    (fun y => fitV (y - b)) (fun x => fitV (x - a))]
  have h1 := fitV_line_sum b ((mem_idx10 b).2 hab.2)
  have h2 := fitV_line_sum a ((mem_idx10 a).2 hab.1)
  omega

/-- C33: on a targeting grid without SHOT_DOWN cells on which some HIT cell
of the board has an EMPTY neighbour on the board, `EvaluateGrid` selects a
cell (for every `s`) and the selected cell `compTargeting[hx][hy]` lies in the
column or the row of a HIT cell, at distance 1 or 2 from it; its weight is at
least 100, and every cell of the board that is at distance 1 or 2 of no HIT
cell of its column and row ends with a weight of at most 40. -/
theorem evaluateGrid_follows_hit (game : Game) (s : Int)
    (hns : ∀ a b, onBoard a b → game.compTargeting a b ≠ SHOT_DOWN)
    (hhit : ∃ x y a b, onBoard x y ∧ game.compTargeting x y = HIT ∧ onBoard a b ∧
      inLineAt x y a b 1 ∧ game.compTargeting a b = EMPTY) :
    (∃ hx hy, EvaluateGrid game s = some (hy, hx) ∧ onBoard hx hy ∧
      100 ≤ finalWeights game s hx hy ∧
      ∃ x y, onBoard x y ∧ game.compTargeting x y = HIT ∧
        (inLineAt x y hx hy 1 ∨ inLineAt x y hx hy 2)) ∧
    (∀ a b, onBoard a b →
      (∀ x y, onBoard x y → game.compTargeting x y = HIT →
        ¬ inLineAt x y a b 1 ∧ ¬ inLineAt x y a b 2) →
      finalWeights game s a b ≤ 40) := by
  have hfar : ∀ a b, onBoard a b →
      (∀ x y, onBoard x y → game.compTargeting x y = HIT →
        ¬ inLineAt x y a b 1 ∧ ¬ inLineAt x y a b 2) →
      finalWeights game s a b ≤ 40 := by
    intro a b hab hf
    rw [finalWeights_apply game s a b hab]
    exact le_trans (settled_le game s a b) (weighGrid_le_forty game s a b hab hns hf)
  refine ⟨?_, hfar⟩
  obtain ⟨x, y, a, b, hxy, hH, hab, hn, hE⟩ := hhit
  have h100 : 100 ≤ settled game (weighGrid game s) a b := by
    rw [settled_of_not_zeroed game _ a b (not_zeroed_of_empty game a b hE)]
    exact weighGrid_neighbour game s x y a b hxy hab hH hn
  obtain ⟨hx, hy, hb, hres, hp, hmax⟩ :=
    evaluateGrid_some game s ⟨a, b, hab, by omega⟩
  have hge : 100 ≤ finalWeights game s hx hy := by
    rw [finalWeights_apply game s hx hy hb]
    exact le_trans h100 (hmax a b hab).1
  refine ⟨hx, hy, hres, hb, hge, ?_⟩
  by_contra hno
  have hf : ∀ x y, onBoard x y → game.compTargeting x y = HIT →
      ¬ inLineAt x y hx hy 1 ∧ ¬ inLineAt x y hx hy 2 := by
    intro x' y' hxy' hH'
    constructor
    · intro h1; exact hno ⟨x', y', hxy', hH', Or.inl h1⟩
    · intro h2; exact hno ⟨x', y', hxy', hH', Or.inr h2⟩
  have := hfar hx hy hb hf
  omega

/-- C33, witness: the grid with a HIT at `(4, 4)`, a MISS at `(4, 3)` and the
other cells EMPTY has no SHOT_DOWN cell, and the HIT cell has the EMPTY
neighbour `(4, 5)`. -/
theorem evaluateGrid_follows_hit_witness :
    (∃ hx hy, EvaluateGrid hitAt44 2 = some (hy, hx) ∧ onBoard hx hy ∧
      100 ≤ finalWeights hitAt44 2 hx hy ∧
      ∃ x y, onBoard x y ∧ hitAt44.compTargeting x y = HIT ∧
        (inLineAt x y hx hy 1 ∨ inLineAt x y hx hy 2)) ∧
    (∀ a b, onBoard a b →
      (∀ x y, onBoard x y → hitAt44.compTargeting x y = HIT →
        ¬ inLineAt x y a b 1 ∧ ¬ inLineAt x y a b 2) →
      finalWeights hitAt44 2 a b ≤ 40) :=
  evaluateGrid_follows_hit hitAt44 2
    (fun a b _ => by
      show (if a = 4 ∧ b = 4 then SquareState.HIT
        else if a = 4 ∧ b = 3 then SquareState.MISS else SquareState.EMPTY) ≠ SHOT_DOWN
      split_ifs <;> simp)
    ⟨4, 4, 4, 5, by decide, by decide, by decide, by decide, by decide⟩

/-! ## The owner of a cell (C32) -/

/-- C32: `GetShip(coords, p)` searches the fleet of the opponent of `p`.
When one of the five vessels of that fleet has `coords` among its coordinates,
the result is the index (below 5) of such a vessel; it is the index of the
only such vessel when no coordinate occurs twice in the fleet; and the result
is 99 exactly when no vessel of that fleet has `coords`. -/
theorem getShip_finds_owner (game : Game) (coords : Int × Int) (p : Player) :
    ((∃ i, i < 5 ∧ coords ∈ coordsAt (game.fleetOf p.opponent) i) →
      game.GetShip coords p < 5 ∧
      coords ∈ coordsAt (game.fleetOf p.opponent) (game.GetShip coords p)) ∧
    ((fleetCells (game.fleetOf p.opponent)).Nodup →
      ∀ i, i < 5 → coords ∈ coordsAt (game.fleetOf p.opponent) i →
        game.GetShip coords p = i) ∧
    (game.GetShip coords p = 99 ↔
      ¬ ∃ i, i < 5 ∧ coords ∈ coordsAt (game.fleetOf p.opponent) i) := by
  refine ⟨fun h => ⟨(getShip_spec game coords p h).1, (getShip_spec game coords p h).2.1⟩, ?_, ?_⟩
  · intro hnd i hi hmem
    obtain ⟨hlt, hown, _⟩ := getShip_spec game coords p ⟨i, hi, hmem⟩
    obtain ⟨shipi, hsi, hci⟩ := (mem_coordsAt _ i coords).1 hmem
    obtain ⟨shipj, hsj, hcj⟩ := (mem_coordsAt _ _ coords).1 hown
    exact owner_unique _ hnd _ i shipj shipi hsj hsi coords hcj hci
  · constructor
    · rintro h99 ⟨i, hi, hmem⟩
      have := (getShip_spec game coords p ⟨i, hi, hmem⟩).1
      omega
    · intro hno
      rw [getShip_eq]
      rw [if_neg (fun h => hno ⟨4, by omega, h⟩), if_neg (fun h => hno ⟨3, by omega, h⟩),
        if_neg (fun h => hno ⟨2, by omega, h⟩), if_neg (fun h => hno ⟨1, by omega, h⟩),
        if_neg (fun h => hno ⟨0, by omega, h⟩)]

/-- C32, witness: in the placed game the user's cell `(1, 4)` belongs to the
CRUISER, index 2, and the computer's shot at it is looked up in the user's
fleet. -/
theorem getShip_finds_owner_witness :
    (∃ i, i < 5 ∧ ((1 : Int), (4 : Int)) ∈
      coordsAt ((placedGame Gametype.CLASSIC).fleetOf Player.COMP.opponent) i) ∧
    (fleetCells ((placedGame Gametype.CLASSIC).fleetOf Player.COMP.opponent)).Nodup ∧
    (placedGame Gametype.CLASSIC).GetShip (1, 4) Player.COMP = 2 :=
  have hmem : ((1 : Int), (4 : Int)) ∈
      coordsAt ((placedGame Gametype.CLASSIC).fleetOf Player.COMP.opponent) 2 := by decide
  have hnd : (fleetCells ((placedGame Gametype.CLASSIC).fleetOf Player.COMP.opponent)).Nodup := by
    decide
  ⟨⟨2, by decide, hmem⟩, hnd,
    (getShip_finds_owner (placedGame Gametype.CLASSIC) (1, 4) Player.COMP).2.1 hnd 2
      (by decide) hmem⟩

/-! ## Random placement (C38, C39) -/

theorem drawDirection_spec (again : Int → Bool) (draws rest : List Nat) (d : Int)
    (h : drawDirection again draws = some (d, rest)) :
    (d = 1 ∨ d = 2 ∨ d = 3) ∧ again d = false ∧ rest.length < draws.length := by
  induction draws with
  | nil => simp [drawDirection] at h
  | cons r tl ih =>
    unfold drawDirection at h
    by_cases ha : again (((r % 3 + 1 : Nat) : Int)) = true
    · rw [if_pos ha] at h
      obtain ⟨h1, h2, h3⟩ := ih h
      exact ⟨h1, h2, by simp only [List.length_cons]; omega⟩
    · rw [if_neg ha] at h
      simp only [Option.some.injEq, Prod.mk.injEq] at h
      obtain ⟨hd, hr⟩ := h
      subst hd
      subst hr
      refine ⟨?_, by simpa using ha, by simp⟩
      have : r % 3 < 3 := Nat.mod_lt _ (by decide)
      omega

/-- What `getRandomDirection` returns for a cell of the board and `s ≤ 6`:
one of 1, 2, 3, with the end of the run of length `s` on the board. -/
theorem getRandomDirection_spec (x y s : Int) (draws rest : List Nat) (d : Int)
    (hxy : onBoard x y) (hs : s ≤ 6)
    (h : Game.getRandomDirection x y s draws = some (d, rest)) :
    (d = 1 ∨ d = 2 ∨ d = 3) ∧ (d = 1 → x + (s - 1) ≤ 9) ∧ (d = 2 → y + (s - 1) ≤ 9) ∧
    (d = 3 → 0 ≤ x - (s - 1)) ∧ rest.length < draws.length := by
  unfold onBoard at hxy
  unfold Game.getRandomDirection at h
  split_ifs at h with h1 h2 h3 h4 h5 h6 h7 h8
  all_goals first
    | (obtain ⟨hd, ha, hl⟩ := drawDirection_spec _ _ _ _ h
       simp only [decide_eq_false_iff_not] at ha
       refine ⟨hd, ?_, ?_, ?_, hl⟩ <;> omega)
    | (cases draws with
       | nil => simp at h
       | cons r tl =>
         simp only [Option.some.injEq, Prod.mk.injEq] at h
         obtain ⟨hd, hr⟩ := h
         subst hd
         subst hr
         have : r % 3 < 3 := Nat.mod_lt _ (by decide)
         refine ⟨by omega, ?_, ?_, ?_, by simp⟩ <;> omega)

/-- For every cell and size some value of `rand()` is kept at once as the
direction: the loops of `getRandomDirection` end with probability one. -/
theorem getRandomDirection_returns (x y s : Int) :
    ∃ r, r < 3 ∧ ∀ rest, ∃ d, Game.getRandomDirection x y s (r :: rest) = some (d, rest) := by
  unfold Game.getRandomDirection
  split_ifs
  · exact ⟨0, by decide, fun rest => ⟨1, by simp [drawDirection]⟩⟩
  · exact ⟨0, by decide, fun rest => ⟨1, by simp [drawDirection]⟩⟩
  · exact ⟨0, by decide, fun rest => ⟨1, by simp [drawDirection]⟩⟩
  · exact ⟨1, by decide, fun rest => ⟨2, by simp [drawDirection]⟩⟩
  · exact ⟨2, by decide, fun rest => ⟨3, by simp [drawDirection]⟩⟩
  · exact ⟨1, by decide, fun rest => ⟨2, by simp [drawDirection]⟩⟩
  · exact ⟨0, by decide, fun rest => ⟨1, by simp [drawDirection]⟩⟩
  · exact ⟨0, by decide, fun rest => ⟨1, by simp [drawDirection]⟩⟩
  · exact ⟨0, by decide, fun rest => ⟨1, by simp⟩⟩

theorem mem_randomCoords (x y s d : Int) (c : Int × Int) (hc : c ∈ randomCoords x y s d) :
    ∃ k : Int, 0 ≤ k ∧ k < s ∧
      ((d = 1 ∧ c = (x + k, y)) ∨ (d = 2 ∧ c = (x, y + k)) ∨ (d = 3 ∧ c = (x - k, y)) ∨
        (d = 4 ∧ c = (x, y - k))) := by
  unfold randomCoords at hc
  split_ifs at hc with h1 h2 h3 h4
  · obtain ⟨k, hk, rfl⟩ := List.mem_map.1 hc
    rw [List.mem_range] at hk
    exact ⟨k, by omega, by omega, Or.inl ⟨h1, rfl⟩⟩
  · obtain ⟨k, hk, rfl⟩ := List.mem_map.1 hc
    rw [List.mem_range] at hk
    exact ⟨k, by omega, by omega, Or.inr (Or.inl ⟨h2, rfl⟩)⟩
  · obtain ⟨k, hk, rfl⟩ := List.mem_map.1 hc
    rw [List.mem_range] at hk
    exact ⟨k, by omega, by omega, Or.inr (Or.inr (Or.inl ⟨h3, rfl⟩))⟩
  · obtain ⟨k, hk, rfl⟩ := List.mem_map.1 hc
    rw [List.mem_range] at hk
    exact ⟨k, by omega, by omega, Or.inr (Or.inr (Or.inr ⟨h4, rfl⟩))⟩
  · simp at hc

/-- C38: for a cell `(x, y)` of the board, a ship size `2 ≤ s ≤ 5` and any
draws for which `getRandomDirection` returns, the value returned is 1, 2 or 3
(never 4) and every cell of the run of `s` cells from `(x, y)` in that
direction, as `RandomPlace` lays it out, is a cell of the board. -/
theorem getRandomDirection_stays_on_board (x y s : Int) (draws rest : List Nat) (d : Int)
    (hxy : onBoard x y) (hs : 2 ≤ s ∧ s ≤ 5)
    (h : Game.getRandomDirection x y s draws = some (d, rest)) :
    (d = 1 ∨ d = 2 ∨ d = 3) ∧
    (d = 1 → x + (s - 1) ≤ 9) ∧ (d = 2 → y + (s - 1) ≤ 9) ∧ (d = 3 → 0 ≤ x - (s - 1)) ∧
    ∀ c ∈ randomCoords x y s d, onBoard c.1 c.2 := by
  obtain ⟨hd, h1, h2, h3, _⟩ := getRandomDirection_spec x y s draws rest d hxy (by omega) h
  refine ⟨hd, h1, h2, h3, ?_⟩
  intro c hc
  obtain ⟨k, hk0, hk, hcase⟩ := mem_randomCoords x y s d c hc
  unfold onBoard at hxy ⊢
  rcases hcase with ⟨hd1, rfl⟩ | ⟨hd2, rfl⟩ | ⟨hd3, rfl⟩ | ⟨hd4, rfl⟩
  · have := h1 hd1
    simp only
    omega
  · have := h2 hd2
    simp only
    omega
  · have := h3 hd3
    simp only
    omega
  · omega

/-- C38, witness: in the corner `(0, 9)` with `s = 5` the values 2 and 3 are
drawn again (the draws 1 and 2), and the value 1 is returned for the draw 3;
the run `(0, 9) .. (4, 9)` is on the board. -/
theorem getRandomDirection_stays_on_board_witness :
    Game.getRandomDirection 0 9 5 [1, 2, 3, 4] = some (1, [4]) ∧
    randomCoords 0 9 5 1 = [(0, 9), (1, 9), (2, 9), (3, 9), (4, 9)] ∧
    ∀ c ∈ randomCoords 0 9 5 1, onBoard c.1 c.2 :=
  ⟨by decide, by decide,
    (getRandomDirection_stays_on_board 0 9 5 [1, 2, 3, 4] [4] 1 (by decide)
      ⟨by decide, by decide⟩ (by decide)).2.2.2.2⟩

theorem scanUser_true (grid : Grid) (cells : List (Int × Int))
    (h : (scanUser grid cells).2 = true) :
    (scanUser grid cells).1 = cells ∧ ∀ c ∈ cells, grid c.1 c.2 = EMPTY := by
  induction cells with
  | nil => exact ⟨rfl, by simp⟩
  | cons c tl ih =>
    unfold scanUser at h ⊢
    by_cases hc : grid c.1 c.2 ≠ EMPTY
    · rw [if_pos hc] at h
      simp at h
    · rw [if_neg hc] at h ⊢
      obtain ⟨h1, h2⟩ := ih h
      refine ⟨by simp only [h1], ?_⟩
      intro c' hc'
      rcases List.mem_cons.1 hc' with rfl | hm
      · exact not_not.1 hc
      · exact h2 c' hm

theorem scanComp_true (grid : Grid) (cells : List (Int × Int))
    (h : (scanComp grid cells).2 = true) :
    (scanComp grid cells).1 = cells ∧ ∀ c ∈ cells, grid c.1 c.2 = EMPTY := by
  refine ⟨rfl, ?_⟩
  intro c hc
  unfold scanComp at h
  simp only [List.all_eq_true, decide_eq_true_eq] at h
  exact h c hc

theorem randomCoords_length (x y s d : Int) (hd : d = 1 ∨ d = 2 ∨ d = 3 ∨ d = 4) :
    (randomCoords x y s d).length = s.toNat := by
  unfold randomCoords
  rcases hd with rfl | rfl | rfl | rfl <;> simp

theorem randomCoords_nodup (x y s d : Int) : (randomCoords x y s d).Nodup := by
  unfold randomCoords
  split_ifs
  · refine List.Nodup.map ?_ (List.nodup_range _)
    intro k1 k2 h
    simp only [Prod.mk.injEq] at h
    omega
  · refine List.Nodup.map ?_ (List.nodup_range _)
    intro k1 k2 h
    simp only [Prod.mk.injEq] at h
    omega
  · refine List.Nodup.map ?_ (List.nodup_range _)
    intro k1 k2 h
    simp only [Prod.mk.injEq] at h
    omega
  · refine List.Nodup.map ?_ (List.nodup_range _)
    intro k1 k2 h
    simp only [Prod.mk.injEq] at h
    omega
  · exact List.nodup_nil

theorem placedAs_user (game : Game) (shipLoc : Nat) (ship : Ship) (coords : List (Int × Int)) :
    game.placedAs
      (Game.PlaceShip { game with
        userFleet := game.userFleet.set shipLoc { ship with shipCoords := coords } }
        coords Player.USER) shipLoc Player.USER ship coords := by
  refine ⟨rfl, ?_, rfl, rfl, rfl, rfl, rfl, rfl⟩
  intro a b
  rw [placeShip_shipsOf]
  rfl

theorem placedAs_comp (game : Game) (shipLoc : Nat) (ship : Ship) (coords : List (Int × Int)) :
    game.placedAs
      (Game.PlaceShip { game with
        compFleet := game.compFleet.set shipLoc { ship with shipCoords := coords } }
        coords Player.COMP) shipLoc Player.COMP ship coords := by
  refine ⟨rfl, ?_, rfl, rfl, rfl, rfl, rfl, rfl⟩
  intro a b
  rw [placeShip_shipsOf]
  rfl

/-- What the loop of `RandomPlace` returns when it returns: the ship is laid
from a cell of the board in a direction `getRandomDirection` gave, on cells
that were all EMPTY. -/
theorem randomPlaceLoop_spec (game : Game) (shipLoc : Nat) (p : Player) (ship : Ship)
    (hship : (game.fleetOf p)[shipLoc]? = some ship) (hsize : ship.shipSize ≤ 6) :
    ∀ (fuel : Nat) (draws : List Nat) (game1 : Game) (rest : List Nat),
      game.randomPlaceLoop shipLoc p fuel draws = some (game1, rest) →
      ∃ x y d, onBoard x y ∧ (d = 1 ∨ d = 2 ∨ d = 3) ∧
        (d = 1 → x + (ship.shipSize - 1) ≤ 9) ∧ (d = 2 → y + (ship.shipSize - 1) ≤ 9) ∧
        (d = 3 → 0 ≤ x - (ship.shipSize - 1)) ∧
        (∀ c ∈ randomCoords x y ship.shipSize d, game.shipsOf p c.1 c.2 = EMPTY) ∧
        game.placedAs game1 shipLoc p ship (randomCoords x y ship.shipSize d) := by
  intro fuel
  induction fuel with
  | zero => intro draws game1 rest h; simp [Game.randomPlaceLoop] at h
  | succ fuel ih =>
    intro draws game1 rest h
    cases draws with
    | nil => simp [Game.randomPlaceLoop] at h
    | cons rx t =>
      cases t with
      | nil => simp [Game.randomPlaceLoop] at h
      | cons ry draws =>
        have hb : onBoard ((rx % 10 : Nat) : Int) ((ry % 10 : Nat) : Int) := by
          unfold onBoard
          have h1 : rx % 10 < 10 := Nat.mod_lt _ (by decide)
          have h2 : ry % 10 < 10 := Nat.mod_lt _ (by decide)
          omega
        rw [Game.randomPlaceLoop] at h
        cases p with
        | USER =>
          have hship' : game.userFleet[shipLoc]? = some ship := hship
          simp only [if_true, hship'] at h
          by_cases hE : game.userShips ((rx % 10 : Nat) : Int) ((ry % 10 : Nat) : Int) = EMPTY
          · rw [if_pos hE] at h
            cases hdir : Game.getRandomDirection ((rx % 10 : Nat) : Int) ((ry % 10 : Nat) : Int)
                ship.shipSize draws with
            | none => rw [hdir] at h; simp at h
            | some r =>
              obtain ⟨dir, draws1⟩ := r
              rw [hdir] at h
              simp only at h
              obtain ⟨hd, h1, h2, h3, _⟩ := getRandomDirection_spec _ _ _ _ _ _ hb hsize hdir
              have hd4 : dir = 1 ∨ dir = 2 ∨ dir = 3 ∨ dir = 4 := by omega
              rw [if_pos hd4] at h
              by_cases hscan : (scanUser game.userShips
                  (randomCoords ((rx % 10 : Nat) : Int) ((ry % 10 : Nat) : Int)
                    ship.shipSize dir)).2 = true
              · rw [if_pos hscan] at h
                obtain ⟨hv, hall⟩ := scanUser_true _ _ hscan
                rw [hv] at h
                simp only [Option.some.injEq, Prod.mk.injEq] at h
                obtain ⟨hg, _⟩ := h
                subst hg
                exact ⟨_, _, dir, hb, hd, h1, h2, h3, hall, placedAs_user game shipLoc ship _⟩
              · rw [if_neg hscan] at h
                exact ih _ _ _ h
          · rw [if_neg hE] at h
            exact ih _ _ _ h
        | COMP =>
          have hship' : game.compFleet[shipLoc]? = some ship := hship
          simp only [reduceCtorEq, if_false, hship'] at h
          by_cases hE : game.compShips ((rx % 10 : Nat) : Int) ((ry % 10 : Nat) : Int) = EMPTY
          · rw [if_pos hE] at h
            cases hdir : Game.getRandomDirection ((rx % 10 : Nat) : Int) ((ry % 10 : Nat) : Int)
                ship.shipSize draws with
            | none => rw [hdir] at h; simp at h
            | some r =>
              obtain ⟨dir, draws1⟩ := r
              rw [hdir] at h
              simp only at h
              obtain ⟨hd, h1, h2, h3, _⟩ := getRandomDirection_spec _ _ _ _ _ _ hb hsize hdir
              have hd0 : ¬ dir = 0 := by omega
              rw [if_neg hd0] at h
              by_cases hscan : (scanComp game.compShips
                  (randomCoords ((rx % 10 : Nat) : Int) ((ry % 10 : Nat) : Int)
                    ship.shipSize dir)).2 = true
              · rw [if_pos hscan] at h
                obtain ⟨hv, hall⟩ := scanComp_true _ _ hscan
                rw [hv] at h
                simp only [Option.some.injEq, Prod.mk.injEq] at h
                obtain ⟨hg, _⟩ := h
                subst hg
                exact ⟨_, _, dir, hb, hd, h1, h2, h3, hall, placedAs_comp game shipLoc ship _⟩
              · rw [if_neg hscan] at h
                exact ih _ _ _ h
          · rw [if_neg hE] at h
            exact ih _ _ _ h

theorem getRandomDirection_length (x y s : Int) (draws rest : List Nat) (d : Int)
    (h : Game.getRandomDirection x y s draws = some (d, rest)) :
    rest.length < draws.length := by
  unfold Game.getRandomDirection at h
  split_ifs at h
  all_goals first
    | exact (drawDirection_spec _ _ _ _ h).2.2
    | (cases draws with
       | nil => simp at h
       | cons r tl =>
         simp only [Option.some.injEq, Prod.mk.injEq] at h
         obtain ⟨_, hr⟩ := h
         subst hr
         simp)

/-- The number of iterations allowed does not matter once it is at least the
number of draws: the loop of `RandomPlace` stops for lack of draws first. -/
theorem randomPlaceLoop_fuel (game : Game) (shipLoc : Nat) (p : Player) :
    ∀ (fuel1 fuel2 : Nat) (draws : List Nat), draws.length ≤ fuel1 → draws.length ≤ fuel2 →
      game.randomPlaceLoop shipLoc p fuel1 draws = game.randomPlaceLoop shipLoc p fuel2 draws := by
  intro fuel1
  induction fuel1 with
  | zero =>
    intro fuel2 draws h1 h2
    have : draws = [] := List.length_eq_zero.1 (by omega)
    subst this
    cases fuel2 <;> simp [Game.randomPlaceLoop]
  | succ f1 ih =>
    intro fuel2 draws h1 h2
    cases fuel2 with
    | zero =>
      have : draws = [] := List.length_eq_zero.1 (by omega)
      subst this
      simp [Game.randomPlaceLoop]
    | succ f2 =>
      cases draws with
      | nil => simp [Game.randomPlaceLoop]
      | cons rx t =>
        cases t with
        | nil => simp [Game.randomPlaceLoop]
        | cons ry draws =>
          simp only [List.length_cons] at h1 h2
          have key : ∀ d' : List Nat, d'.length ≤ draws.length →
              game.randomPlaceLoop shipLoc p f1 d' = game.randomPlaceLoop shipLoc p f2 d' :=
            fun d' hd' => ih f2 d' (by omega) (by omega)
          rw [Game.randomPlaceLoop, Game.randomPlaceLoop]
          rw [key draws (le_refl _)]
          cases p with
          | USER =>
            simp only [if_true]
            cases hfu : game.userFleet[shipLoc]? with
            | none => rfl
            | some ship =>
              simp only
              cases hdir : Game.getRandomDirection ((rx % 10 : Nat) : Int)
                  ((ry % 10 : Nat) : Int) ship.shipSize draws with
              | none => rfl
              | some r =>
                obtain ⟨dir, draws1⟩ := r
                have hl := getRandomDirection_length _ _ _ _ _ _ hdir
                simp only
                rw [key draws1 (by omega)]
          | COMP =>
            simp only [reduceCtorEq, if_false]
            cases hfc : game.compFleet[shipLoc]? with
            | none => rfl
            | some ship =>
              simp only
              cases hdir : Game.getRandomDirection ((rx % 10 : Nat) : Int)
                  ((ry % 10 : Nat) : Int) ship.shipSize draws with
              | none => rfl
              | some r =>
                obtain ⟨dir, draws1⟩ := r
                have hl := getRandomDirection_length _ _ _ _ _ _ hdir
                simp only
                rw [key draws1 (by omega)]

/-- C39: when `RandomPlace` places the ship of size `L` (2 to 5) at
`shipLoc` of the fleet of `p`, the coordinates it gives the ship are the `L`
cells of a run from a cell `(x, y)` of the board to the right, down or to the
left: no cell twice, all on the board, all EMPTY on the ship grid of `p`
before the call and SHIP after it. No other cell of that grid changes, the
other three grids, the other ships of the fleet and the other fleet are as
before; so the run shares no cell with a ship whose cells are not EMPTY on the
grid, as those of a ship placed earlier are. -/
theorem randomPlace_lays_run_on_empty_cells (game game1 : Game) (shipLoc : Nat) (p : Player)
    (draws rest : List Nat) (ship : Ship)
    (hship : (game.fleetOf p)[shipLoc]? = some ship)
    (hsize : 2 ≤ ship.shipSize ∧ ship.shipSize ≤ 5)
    (h : game.RandomPlace shipLoc p draws = some (game1, rest)) :
    ∃ (x y : Int) (coords : List (Int × Int)), onBoard x y ∧
      (coords = (List.range ship.shipSize.toNat).map (fun (k : Nat) => (x + (k : Int), y)) ∨
        coords = (List.range ship.shipSize.toNat).map (fun (k : Nat) => (x, y + (k : Int))) ∨
        coords = (List.range ship.shipSize.toNat).map (fun (k : Nat) => (x - (k : Int), y))) ∧
      (coords.length : Int) = ship.shipSize ∧ coords.Nodup ∧
      (game1.fleetOf p)[shipLoc]? = some { ship with shipCoords := coords } ∧
      (∀ c ∈ coords, onBoard c.1 c.2 ∧ game.shipsOf p c.1 c.2 = EMPTY ∧
        game1.shipsOf p c.1 c.2 = SHIP) ∧
      (∀ a b, (a, b) ∉ coords → game1.shipsOf p a b = game.shipsOf p a b) ∧
      game1.shipsOf p.opponent = game.shipsOf p.opponent ∧
      game1.playerTargeting = game.playerTargeting ∧
      game1.compTargeting = game.compTargeting ∧
      (∀ j, j ≠ shipLoc → (game1.fleetOf p)[j]? = (game.fleetOf p)[j]?) ∧
      game1.fleetOf p.opponent = game.fleetOf p.opponent ∧
      (∀ (j : Nat) (other : Ship), (game.fleetOf p)[j]? = some other →
        (∀ c ∈ other.shipCoords, game.shipsOf p c.1 c.2 ≠ EMPTY) →
        ∀ c ∈ coords, c ∉ other.shipCoords) := by
  obtain ⟨x, y, d, hxy, hd, h1, h2, h3, hall, hfl, hgrid, hfo, hso, hpt, hct, _, _⟩ :=
    randomPlaceLoop_spec game shipLoc p ship hship (by omega) _ _ _ _ h
  have hlt : shipLoc < (game.fleetOf p).length := by
    rcases Nat.lt_or_ge shipLoc (game.fleetOf p).length with hl | hl
    · exact hl
    · rw [List.getElem?_eq_none hl] at hship
      exact absurd hship (by simp)
  refine ⟨x, y, randomCoords x y ship.shipSize d, hxy, ?_, ?_, randomCoords_nodup _ _ _ _, ?_,
    ?_, ?_, hso, hpt, hct, ?_, hfo, ?_⟩
  · unfold randomCoords
    rcases hd with rfl | rfl | rfl
    · exact Or.inl (by simp)
    · exact Or.inr (Or.inl (by simp))
    · exact Or.inr (Or.inr (by simp))
  · rw [randomCoords_length x y _ d (by omega)]
    omega
  · rw [hfl, List.getElem?_set_self hlt]
  · intro c hc
    refine ⟨?_, hall c hc, ?_⟩
    · obtain ⟨k, hk0, hk, hcase⟩ := mem_randomCoords x y _ d c hc
      unfold onBoard at hxy ⊢
      rcases hcase with ⟨hd1, rfl⟩ | ⟨hd2, rfl⟩ | ⟨hd3, rfl⟩ | ⟨hd4, rfl⟩
      · have := h1 hd1
        simp only
        omega
      · have := h2 hd2
        simp only
        omega
      · have := h3 hd3
        simp only
        omega
      · omega
    · rw [hgrid c.1 c.2, if_pos hc]
  · intro a b hab
    rw [hgrid a b, if_neg hab]
  · intro j hj
    rw [hfl, List.getElem?_set_ne (Ne.symm hj)]
  · intro j other _ hother c hc hmem
    exact hother c hmem (hall c hc)

/-- C39, witness: in the game just constructed, `RandomPlace(0, USER)` with
the draws 3 and 4 for the cell and 0 for the direction lays the CARRIER on
`(3, 4) .. (7, 4)`. -/
theorem randomPlace_lays_run_on_empty_cells_witness :
    (freshGame Gametype.CLASSIC).RandomPlace 0 Player.USER [3, 4, 0, 6, 7]
      = some (carrierAtRandom, [6, 7]) ∧
    (carrierAtRandom.fleetOf Player.USER)[0]? = some { Ship.construct 5 "CARRIER" with
      shipCoords := [(3, 4), (4, 4), (5, 4), (6, 4), (7, 4)] } ∧
    ∃ (x y : Int) (coords : List (Int × Int)), onBoard x y ∧
      (coords = (List.range (Ship.construct 5 "CARRIER").shipSize.toNat).map
          (fun (k : Nat) => (x + (k : Int), y)) ∨
        coords = (List.range (Ship.construct 5 "CARRIER").shipSize.toNat).map
          (fun (k : Nat) => (x, y + (k : Int))) ∨
        coords = (List.range (Ship.construct 5 "CARRIER").shipSize.toNat).map
          (fun (k : Nat) => (x - (k : Int), y))) ∧
      (coords.length : Int) = (Ship.construct 5 "CARRIER").shipSize ∧ coords.Nodup ∧
      (carrierAtRandom.fleetOf Player.USER)[0]?
        = some { Ship.construct 5 "CARRIER" with shipCoords := coords } ∧
      (∀ c ∈ coords, onBoard c.1 c.2 ∧
        (freshGame Gametype.CLASSIC).shipsOf Player.USER c.1 c.2 = EMPTY ∧
        carrierAtRandom.shipsOf Player.USER c.1 c.2 = SHIP) ∧
      (∀ a b, (a, b) ∉ coords → carrierAtRandom.shipsOf Player.USER a b
        = (freshGame Gametype.CLASSIC).shipsOf Player.USER a b) ∧
      carrierAtRandom.shipsOf Player.USER.opponent
        = (freshGame Gametype.CLASSIC).shipsOf Player.USER.opponent ∧
      carrierAtRandom.playerTargeting = (freshGame Gametype.CLASSIC).playerTargeting ∧
      carrierAtRandom.compTargeting = (freshGame Gametype.CLASSIC).compTargeting ∧
      (∀ j, j ≠ 0 → (carrierAtRandom.fleetOf Player.USER)[j]?
        = ((freshGame Gametype.CLASSIC).fleetOf Player.USER)[j]?) ∧
      carrierAtRandom.fleetOf Player.USER.opponent
        = (freshGame Gametype.CLASSIC).fleetOf Player.USER.opponent ∧
      (∀ (j : Nat) (other : Ship),
        ((freshGame Gametype.CLASSIC).fleetOf Player.USER)[j]? = some other →
        (∀ c ∈ other.shipCoords,
          (freshGame Gametype.CLASSIC).shipsOf Player.USER c.1 c.2 ≠ EMPTY) →
        ∀ c ∈ coords, c ∉ other.shipCoords) :=
  ⟨rfl, rfl,
    randomPlace_lays_run_on_empty_cells (freshGame Gametype.CLASSIC) carrierAtRandom 0
      Player.USER [3, 4, 0, 6, 7] [6, 7] (Ship.construct 5 "CARRIER") rfl
      ⟨by decide, by decide⟩ rfl⟩

/-! ## The lines typed at the prompt of `PromptFire` (C34) -/

theorem stoi_eq_none_iff (str : List Char) (h : str.all isdigit = true) :
    stoi str = none ↔ str = [] := by
  cases str with
  | nil => simp [stoi]
  | cons d ds =>
    simp only [List.all_cons, Bool.and_eq_true] at h
    simp [stoi, List.takeWhile_cons, h.1]

/-- The loop body of `PromptFire` on a line that is none of the special
words and has at most 3 characters. -/
theorem fireLine_entry (game : Game) (input : String) (h1 : ¬ input = "~")
    (h2 : ¬ (input = "ff" ∨ input = "FF")) (h3 : ¬ input = "YOUSUNKMYBATTLESHIP")
    (h4 : ¬ input.data.length > 3) :
    game.fireLine input =
      if (!isalpha (input.data.headD (Char.ofNat 0)) || !(input.data.drop 1).all isdigit) = true
      then LineOutcome.again
      else
        match stoi (input.data.drop 1) with
        | none => LineOutcome.thrown
        | some v =>
          if ((input.data.headD (Char.ofNat 0)).toNat : Int)
                - (if isupper (input.data.headD (Char.ofNat 0)) = true then 65 else 97) > 9 ∨
              ((input.data.headD (Char.ofNat 0)).toNat : Int)
                - (if isupper (input.data.headD (Char.ofNat 0)) = true then 65 else 97) < 0 ∨
              v - 1 > 9 ∨ v - 1 < 0 then LineOutcome.again
          else if game.playerTargeting (v - 1)
              (((input.data.headD (Char.ofNat 0)).toNat : Int)
                - (if isupper (input.data.headD (Char.ofNat 0)) = true then 65 else 97))
              ≠ EMPTY then
            if game.playerTargeting (v - 1)
                (((input.data.headD (Char.ofNat 0)).toNat : Int)
                  - (if isupper (input.data.headD (Char.ofNat 0)) = true then 65 else 97))
                ≠ SHOT_DOWN then LineOutcome.again
            else LineOutcome.valid
              (((input.data.headD (Char.ofNat 0)).toNat : Int)
                - (if isupper (input.data.headD (Char.ofNat 0)) = true then 65 else 97), v - 1)
          else LineOutcome.valid
            (((input.data.headD (Char.ofNat 0)).toNat : Int)
              - (if isupper (input.data.headD (Char.ofNat 0)) = true then 65 else 97), v - 1) := by
  unfold Game.fireLine
  rw [if_neg h1, if_neg h2, if_neg h3, if_neg h4]
  have hX : (if (!isupper (input.data.headD (Char.ofNat 0))) = true
        then ((input.data.headD (Char.ofNat 0)).toNat : Int) - 97
        else ((input.data.headD (Char.ofNat 0)).toNat : Int) - 65)
      = ((input.data.headD (Char.ofNat 0)).toNat : Int)
        - (if isupper (input.data.headD (Char.ofNat 0)) = true then 65 else 97) := by
    cases isupper (input.data.headD (Char.ofNat 0)) <;> simp
  simp only [hX]

/-- The loop body of `PromptFire` is left by the exception of `stoi` exactly
on the lines that consist of one letter. -/
theorem fireLine_thrown_iff (game : Game) (input : String) :
    game.fireLine input = LineOutcome.thrown ↔
      ∃ c, input.data = [c] ∧ isalpha c = true := by
  constructor
  · intro h
    by_cases h1 : input = "~"
    · unfold Game.fireLine at h
      rw [if_pos h1] at h
      exact absurd h (by simp)
    by_cases h2 : input = "ff" ∨ input = "FF"
    · unfold Game.fireLine at h
      rw [if_neg h1, if_pos h2] at h
      exact absurd h (by simp)
    by_cases h3 : input = "YOUSUNKMYBATTLESHIP"
    · unfold Game.fireLine at h
      rw [if_neg h1, if_neg h2, if_pos h3] at h
      exact absurd h (by simp)
    by_cases h4 : input.data.length > 3
    · unfold Game.fireLine at h
      rw [if_neg h1, if_neg h2, if_neg h3, if_pos h4] at h
      exact absurd h (by simp)
    rw [fireLine_entry game input h1 h2 h3 h4] at h
    by_cases h5 : (!isalpha (input.data.headD (Char.ofNat 0))
        || !(input.data.drop 1).all isdigit) = true
    · rw [if_pos h5] at h
      exact absurd h (by simp)
    rw [if_neg h5] at h
    simp only [Bool.or_eq_true, Bool.not_eq_true', not_or, Bool.not_eq_false] at h5
    obtain ⟨halpha, hnum⟩ := h5
    cases hst : stoi (input.data.drop 1) with
    | none =>
      have hnil := (stoi_eq_none_iff _ hnum).1 hst
      cases hd : input.data with
      | nil =>
        rw [hd] at halpha
        exact absurd halpha (by decide)
      | cons c tl =>
        rw [hd] at hnil halpha
        simp only [List.drop_succ_cons, List.drop_zero] at hnil
        subst hnil
        exact ⟨c, rfl, by simpa using halpha⟩
    | some v =>
      rw [hst] at h
      simp only at h
      split_ifs at h
  · rintro ⟨c, hc, halpha⟩
    have h1 : ¬ input = "~" := by
      intro he
      rw [he] at hc
      have : c = '~' := by
        have := hc
        simp only [List.cons.injEq, and_true] at this
        exact this.symm
      subst this
      exact absurd halpha (by decide)
    have hlen : input.data.length = 1 := by rw [hc]; rfl
    have h2 : ¬ (input = "ff" ∨ input = "FF") := by
      rintro (he | he) <;> (rw [he] at hlen; exact absurd hlen (by decide))
    have h3 : ¬ input = "YOUSUNKMYBATTLESHIP" := by
      intro he
      rw [he] at hlen
      exact absurd hlen (by decide)
    rw [fireLine_entry game input h1 h2 h3 (by omega)]
    simp only [hc, List.drop_succ_cons, List.drop_zero, List.all_nil, List.headD_cons, halpha,
      Bool.not_true, Bool.or_self, Bool.false_eq_true, if_false]
    rfl

/-- A line `PromptFire` accepts is a forfeit word, or a letter `A` to `J` in
either case followed by digits whose value is 1 to 10: the target is the pair
`(letter index, number - 1)`, both between 0 and 9, of a cell that is EMPTY or
SHOT_DOWN on `playerTargeting`. -/
theorem fireLine_valid (game : Game) (input : String) (target : Int × Int)
    (h : game.fireLine input = LineOutcome.valid target) :
    ((input = "ff" ∨ input = "FF") ∧ target = (99, 99)) ∨
    (input = "YOUSUNKMYBATTLESHIP" ∧ target = (999, 999)) ∨
    (∃ (c : Char) (digits : List Char) (v : Int), input.data = c :: digits ∧
      isalpha c = true ∧ digits ≠ [] ∧ digits.all isdigit = true ∧ stoi digits = some v ∧
      target.1 = (c.toNat : Int) - (if isupper c = true then 65 else 97) ∧
      target.2 = v - 1 ∧ (0 ≤ target.1 ∧ target.1 ≤ 9) ∧ (0 ≤ target.2 ∧ target.2 ≤ 9) ∧
      (game.playerTargeting target.2 target.1 = EMPTY ∨
        game.playerTargeting target.2 target.1 = SHOT_DOWN)) := by
  by_cases h1 : input = "~"
  · unfold Game.fireLine at h
    rw [if_pos h1] at h
    exact absurd h (by simp)
  by_cases h2 : input = "ff" ∨ input = "FF"
  · unfold Game.fireLine at h
    rw [if_neg h1, if_pos h2] at h
    simp only [LineOutcome.valid.injEq] at h
    exact Or.inl ⟨h2, h.symm⟩
  by_cases h3 : input = "YOUSUNKMYBATTLESHIP"
  · unfold Game.fireLine at h
    rw [if_neg h1, if_neg h2, if_pos h3] at h
    simp only [LineOutcome.valid.injEq] at h
    exact Or.inr (Or.inl ⟨h3, h.symm⟩)
  by_cases h4 : input.data.length > 3
  · unfold Game.fireLine at h
    rw [if_neg h1, if_neg h2, if_neg h3, if_pos h4] at h
    exact absurd h (by simp)
  rw [fireLine_entry game input h1 h2 h3 h4] at h
  by_cases h5 : (!isalpha (input.data.headD (Char.ofNat 0))
      || !(input.data.drop 1).all isdigit) = true
  · rw [if_pos h5] at h
    exact absurd h (by simp)
  rw [if_neg h5] at h
  simp only [Bool.or_eq_true, Bool.not_eq_true', not_or, Bool.not_eq_false] at h5
  obtain ⟨halpha, hnum⟩ := h5
  right; right
  cases hd : input.data with
  | nil =>
    rw [hd] at halpha
    exact absurd halpha (by decide)
  | cons c digits =>
    rw [hd] at h halpha hnum
    simp only [List.drop_succ_cons, List.drop_zero, List.headD_cons] at h halpha hnum
    cases hst : stoi digits with
    | none =>
      rw [hst] at h
      exact absurd h (by simp)
    | some v =>
      rw [hst] at h
      simp only at h
      have hne : digits ≠ [] := by
        intro he
        rw [he] at hst
        exact absurd hst (by simp [stoi])
      by_cases hb : (c.toNat : Int) - (if isupper c = true then 65 else 97) > 9 ∨
          (c.toNat : Int) - (if isupper c = true then 65 else 97) < 0 ∨ v - 1 > 9 ∨ v - 1 < 0
      · rw [if_pos hb] at h
        exact absurd h (by simp)
      rw [if_neg hb] at h
      by_cases he : game.playerTargeting (v - 1)
          ((c.toNat : Int) - (if isupper c = true then 65 else 97)) ≠ EMPTY
      · rw [if_pos he] at h
        by_cases hs : game.playerTargeting (v - 1)
            ((c.toNat : Int) - (if isupper c = true then 65 else 97)) ≠ SHOT_DOWN
        · rw [if_pos hs] at h
          exact absurd h (by simp)
        · rw [if_neg hs] at h
          simp only [LineOutcome.valid.injEq] at h
          subst h
          exact ⟨c, digits, v, rfl, halpha, hne, hnum, hst, rfl, rfl, by omega, by omega,
            Or.inr (not_not.1 hs)⟩
      · rw [if_neg he] at h
        simp only [LineOutcome.valid.injEq] at h
        subst h
        exact ⟨c, digits, v, rfl, halpha, hne, hnum, hst, rfl, rfl, by omega, by omega,
          Or.inl (not_not.1 he)⟩

/-- C34 (defect): `PromptFire` is left by an uncaught exception on a line
that consists of one letter, such as `A`: the line passes the tests
(`isalpha(input[0])`, no character after the first that is not a digit), and
`stoi` is called on the empty rest of the line and throws
`std::invalid_argument`.  This happens on these lines only; every other line
that is not accepted makes the prompt go round again, the empty line too. -/
theorem promptFire_single_letter_throws :
    (∀ (game : Game) (rest : List String),
      game.PromptFireLines ("A" :: rest) = FireOutcome.thrown) ∧
    (∀ (game : Game) (rest : List String),
      game.PromptFireLines ("" :: rest) = game.PromptFireLines rest) ∧
    (∀ (game : Game) (input : String),
      game.fireLine input = LineOutcome.thrown ↔ ∃ c, input.data = [c] ∧ isalpha c = true) := by
  refine ⟨?_, ?_, fireLine_thrown_iff⟩
  · intro game rest
    have h : game.fireLine "A" = LineOutcome.thrown :=
      (fireLine_thrown_iff game "A").2 ⟨'A', rfl, by decide⟩
    rw [Game.PromptFireLines, h]
  · intro game rest
    have h : game.fireLine "" = LineOutcome.again := rfl
    rw [Game.PromptFireLines, h]

/-! ## What a shot writes, and what the targeting grids show (C37, C36, C31) -/

theorem forfeitStep_forward (fleet : List Ship) (i j : Nat) (ship : Ship)
    (h : fleet[j]? = some ship) :
    ∃ ship1, (forfeitStep fleet i)[j]? = some ship1 ∧ ship1.shipCoords = ship.shipCoords ∧
      (ship.shipState = ShipState.SUNK → ship1.shipState = ShipState.SUNK) := by
  unfold forfeitStep
  cases hi : fleet[i]? with
  | none => exact ⟨ship, h, rfl, id⟩
  | some s =>
    simp only
    by_cases hij : i = j
    · subst hij
      have hlt : i < fleet.length := by
        rcases Nat.lt_or_ge i fleet.length with hl | hl
        · exact hl
        · rw [List.getElem?_eq_none hl] at hi
          exact absurd hi (by simp)
      rw [h] at hi
      have hs : ship = s := Option.some.inj hi
      subst hs
      exact ⟨_, List.getElem?_set_self hlt, rfl, fun _ => rfl⟩
    · exact ⟨ship, by rw [List.getElem?_set_ne hij]; exact h, rfl, id⟩

theorem forfeitFold_forward (idx : List Nat) (fleet : List Ship) (j : Nat) (ship : Ship)
    (h : fleet[j]? = some ship) :
    ∃ ship1, (idx.foldl forfeitStep fleet)[j]? = some ship1 ∧
      ship1.shipCoords = ship.shipCoords ∧
      (ship.shipState = ShipState.SUNK → ship1.shipState = ShipState.SUNK) := by
  induction idx generalizing fleet ship with
  | nil => exact ⟨ship, h, rfl, id⟩
  | cons i l ih =>
    simp only [List.foldl_cons]
    obtain ⟨ship2, h2, hc2, hs2⟩ := forfeitStep_forward fleet i j ship h
    obtain ⟨ship1, h1, hc1, hs1⟩ := ih (forfeitStep fleet i) ship2 h2
    exact ⟨ship1, h1, hc1.trans hc2, fun hs => hs1 (hs2 hs)⟩

theorem forfeit_forward (game : Game) (q side : Player) (j : Nat) (ship : Ship)
    (h : (game.fleetOf side)[j]? = some ship) :
    ∃ ship1, ((game.Forfeit q).fleetOf side)[j]? = some ship1 ∧
      ship1.shipCoords = ship.shipCoords ∧
      (ship.shipState = ShipState.SUNK → ship1.shipState = ShipState.SUNK) := by
  cases q <;> cases side <;>
    simp only [Game.Forfeit, Game.fleetOf, if_true, reduceCtorEq, if_false] at h ⊢
  · exact forfeitFold_forward _ _ _ _ h
  · exact ⟨ship, h, rfl, id⟩
  · exact ⟨ship, h, rfl, id⟩
  · exact forfeitFold_forward _ _ _ _ h

theorem damage_coords (ship : Ship) : ship.Damage.shipCoords = ship.shipCoords := rfl

theorem damage_sunk (ship : Ship) (h : ship.shipState = ShipState.SUNK) :
    ship.Damage.shipState = ShipState.SUNK := by
  unfold Ship.Damage
  simp only
  split_ifs
  · rfl
  · exact h

/-- A ship keeps its place and its coordinates through a `CheckHit`, and a
SUNK ship stays SUNK. -/
theorem checkHit_forward (game game1 : Game) (target : Int × Int) (p : Player) (rnd : Nat)
    (hres : game.CheckHit target p rnd = some game1) (side : Player) (j : Nat) (ship : Ship)
    (h : (game.fleetOf side)[j]? = some ship) :
    ∃ ship1, (game1.fleetOf side)[j]? = some ship1 ∧ ship1.shipCoords = ship.shipCoords ∧
      (ship.shipState = ShipState.SUNK → ship1.shipState = ShipState.SUNK) := by
  rw [checkHit_eq] at hres
  by_cases h99 : target.1 = 99
  · rw [if_pos h99] at hres
    have hg := Option.some.inj hres
    subst hg
    exact forfeit_forward game _ side j ship h
  rw [if_neg h99] at hres
  by_cases h999 : target.1 = 999
  · rw [if_pos h999] at hres
    have hg := Option.some.inj hres
    subst hg
    exact forfeit_forward game _ side j ship h
  rw [if_neg h999] at hres
  by_cases hh : game.hitApplies target p rnd
  · rw [if_pos hh] at hres
    cases hs : (game.fleetOf p.opponent)[game.GetShip (target.2, target.1) p]? with
    | none =>
      rw [shipHit_none game _ _ _ hs] at hres
      exact absurd hres (by simp)
    | some hitShip =>
      obtain ⟨game2, h1, hfo, hfp, _⟩ := shipHit_spec game _ _ _ hitShip hs
      rw [h1] at hres
      have hg : game2 = game1 := Option.some.inj hres
      subst hg
      rcases eq_or_eq_opponent side p with hsp | hsp
      · subst hsp
        rw [hfp]
        exact ⟨ship, h, rfl, id⟩
      · subst hsp
        rw [hfo]
        by_cases hj : game.GetShip (target.2, target.1) p = j
        · have hlt : j < (game.fleetOf p.opponent).length := by
            rcases Nat.lt_or_ge j (game.fleetOf p.opponent).length with hl | hl
            · exact hl
            · rw [List.getElem?_eq_none hl] at h
              exact absurd h (by simp)
          rw [hj] at hs ⊢
          rw [h] at hs
          have he : ship = hitShip := Option.some.inj hs
          subst he
          exact ⟨ship.Damage, List.getElem?_set_self hlt, damage_coords ship, damage_sunk ship⟩
        · exact ⟨ship, by rw [List.getElem?_set_ne hj]; exact h, rfl, id⟩
  · rw [if_neg hh] at hres
    by_cases hi : game.intercepted target p rnd
    · rw [if_pos hi] at hres
      have hg := Option.some.inj hres
      subst hg
      rw [markShot_fleetOf]
      exact ⟨ship, h, rfl, id⟩
    · rw [if_neg hi] at hres
      have hg := Option.some.inj hres
      subst hg
      rw [markShot_fleetOf]
      exact ⟨ship, h, rfl, id⟩

/-- A cell of a SUNK ship is still a cell of a SUNK ship after a `CheckHit`. -/
theorem checkHit_sunkAt (game game1 : Game) (target : Int × Int) (p : Player) (rnd : Nat)
    (hres : game.CheckHit target p rnd = some game1) (side : Player) (c : Int × Int)
    (h : game.sunkAt side c) : game1.sunkAt side c := by
  obtain ⟨ship, hmem, hs, hc⟩ := h
  obtain ⟨j, hj⟩ := List.mem_iff_getElem?.1 hmem
  obtain ⟨ship1, h1, hc1, hs1⟩ := checkHit_forward game game1 target p rnd hres side j ship hj
  exact ⟨ship1, List.mem_iff_getElem?.2 ⟨j, h1⟩, hs1 hs, by rw [hc1]; exact hc⟩

/-- The grids after a `CheckHit` at a target that is not a forfeit sentinel:
the value `v` (HIT, SHOT_DOWN on interception, else MISS) is written to the
target cell, then SINK to the coordinates `coords` of the ship the shot sinks
(none if it sinks no ship); on the targeting grid of the firing side, and on
`userShips` as well when the computer fires. -/
theorem checkHit_grids (game game1 : Game) (target : Int × Int) (p : Player) (rnd : Nat)
    (h99 : target.1 ≠ 99) (h999 : target.1 ≠ 999)
    (hres : game.CheckHit target p rnd = some game1) :
    ∃ (coords : List (Int × Int)) (v : SquareState),
      ((game.hitApplies target p rnd ∧ v = HIT) ∨
        (game.intercepted target p rnd ∧ v = SHOT_DOWN ∧ coords = []) ∨
        (¬ game.hitApplies target p rnd ∧ ¬ game.intercepted target p rnd ∧ v = MISS ∧
          coords = [])) ∧
      game1.targetingOf p =
        setAll coords SINK (setSquareState (game.targetingOf p) target.2 target.1 v) ∧
      game1.targetingOf p.opponent = game.targetingOf p.opponent ∧
      (p = Player.COMP → game1.userShips =
        setAll coords SINK (setSquareState game.userShips target.2 target.1 v)) ∧
      (∀ c ∈ coords, game1.sunkAt p.opponent c) := by
  rw [checkHit_eq, if_neg h99, if_neg h999] at hres
  by_cases hh : game.hitApplies target p rnd
  · rw [if_pos hh] at hres
    cases hs : (game.fleetOf p.opponent)[game.GetShip (target.2, target.1) p]? with
    | none =>
      rw [shipHit_none game _ _ _ hs] at hres
      exact absurd hres (by simp)
    | some ship =>
      obtain ⟨game2, h1, hfo, _, ht, hto, _, _, hus⟩ := shipHit_spec game _ _ _ ship hs
      rw [h1] at hres
      have hg : game2 = game1 := Option.some.inj hres
      subst hg
      have hlt : game.GetShip (target.2, target.1) p < (game.fleetOf p.opponent).length := by
        rcases Nat.lt_or_ge (game.GetShip (target.2, target.1) p)
            (game.fleetOf p.opponent).length with hl | hl
        · exact hl
        · rw [List.getElem?_eq_none hl] at hs
          exact absurd hs (by simp)
      by_cases hsunk : ship.Damage.shipState = ShipState.SUNK
      · refine ⟨ship.shipCoords, HIT, Or.inl ⟨hh, rfl⟩, ?_, hto, ?_, ?_⟩
        · rw [ht, if_pos hsunk]
        · intro hp
          rw [hus hp, if_pos hsunk]
        · intro c hc
          refine ⟨ship.Damage, ?_, hsunk, hc⟩
          rw [hfo]
          exact List.mem_iff_getElem?.2 ⟨_, List.getElem?_set_self hlt⟩
      · refine ⟨[], HIT, Or.inl ⟨hh, rfl⟩, ?_, hto, ?_, by simp⟩
        · rw [ht, if_neg hsunk]
          rfl
        · intro hp
          rw [hus hp, if_neg hsunk]
          rfl
  · rw [if_neg hh] at hres
    by_cases hi : game.intercepted target p rnd
    · rw [if_pos hi] at hres
      have hg := Option.some.inj hres
      subst hg
      refine ⟨[], SHOT_DOWN, Or.inr (Or.inl ⟨hi, rfl, rfl⟩), ?_,
        (markShot_frame game _ _ p SHOT_DOWN).2.2.2.1, ?_, by simp⟩
      · rw [markShot_targeting]
        rfl
      · intro hp
        rw [(markShot_frame game _ _ p SHOT_DOWN).2.2.2.2.2 hp]
        rfl
    · rw [if_neg hi] at hres
      have hg := Option.some.inj hres
      subst hg
      refine ⟨[], MISS, Or.inr (Or.inr ⟨hh, hi, rfl, rfl⟩), ?_,
        (markShot_frame game _ _ p MISS).2.2.2.1, ?_, by simp⟩
      · rw [markShot_targeting]
        rfl
      · intro hp
        rw [(markShot_frame game _ _ p MISS).2.2.2.2.2 hp]
        rfl

/-- The target cell after a `CheckHit` at a target that is not a forfeit
sentinel, on the targeting grid of the firing side: HIT or SINK when the shot
is a hit, SHOT_DOWN when it is intercepted, else MISS. -/
theorem checkHit_target_cell (game game1 : Game) (target : Int × Int) (p : Player) (rnd : Nat)
    (h99 : target.1 ≠ 99) (h999 : target.1 ≠ 999)
    (hres : game.CheckHit target p rnd = some game1) :
    (game.hitApplies target p rnd ∧
      (game1.targetingOf p target.2 target.1 = HIT ∨
        game1.targetingOf p target.2 target.1 = SINK)) ∨
    (game.intercepted target p rnd ∧ game1.targetingOf p target.2 target.1 = SHOT_DOWN) ∨
    (¬ game.hitApplies target p rnd ∧ ¬ game.intercepted target p rnd ∧
      game1.targetingOf p target.2 target.1 = MISS) := by
  obtain ⟨coords, v, hv, ht, _, _, _⟩ := checkHit_grids game game1 target p rnd h99 h999 hres
  rw [ht, setAll_apply]
  rcases hv with ⟨hh, rfl⟩ | ⟨hi, rfl, rfl⟩ | ⟨hh, hi, rfl, rfl⟩
  · left
    refine ⟨hh, ?_⟩
    by_cases hm : (target.2, target.1) ∈ coords
    · right; rw [if_pos hm]
    · left; rw [if_neg hm, setSquareState_same]
  · right; left
    refine ⟨hi, ?_⟩
    rw [if_neg (by simp), setSquareState_same]
  · right; right
    refine ⟨hh, hi, ?_⟩
    rw [if_neg (by simp), setSquareState_same]

/-- After a computer's `CheckHit` at a target that is not a forfeit sentinel,
a cell either is not the target and is as before on `compTargeting` and on
`userShips`, or holds the same state, one of HIT, MISS, SHOT_DOWN and SINK, on
both grids; the target cell is of the second kind. -/
theorem checkHit_comp_cell (game game1 : Game) (target : Int × Int) (rnd : Nat)
    (h99 : target.1 ≠ 99) (h999 : target.1 ≠ 999)
    (hres : game.CheckHit target Player.COMP rnd = some game1) (a b : Int) :
    ((a, b) ≠ (target.2, target.1) ∧ game1.compTargeting a b = game.compTargeting a b ∧
      game1.userShips a b = game.userShips a b) ∨
    (game1.userShips a b = game1.compTargeting a b ∧
      (game1.compTargeting a b = MISS ∨ game1.compTargeting a b = HIT ∨
        game1.compTargeting a b = SINK ∨ game1.compTargeting a b = SHOT_DOWN)) := by
  obtain ⟨coords, v, hv, ht, _, hus, _⟩ :=
    checkHit_grids game game1 target Player.COMP rnd h99 h999 hres
  have ht' : game1.compTargeting =
      setAll coords SINK (setSquareState game.compTargeting target.2 target.1 v) := ht
  have hv' : v = MISS ∨ v = HIT ∨ v = SINK ∨ v = SHOT_DOWN := by
    rcases hv with ⟨_, rfl⟩ | ⟨_, rfl, _⟩ | ⟨_, _, rfl, _⟩ <;> simp
  rw [ht', hus rfl, setAll_apply, setAll_apply]
  by_cases hm : (a, b) ∈ coords
  · right
    simp [if_pos hm]
  · simp only [if_neg hm]
    by_cases hab : (a, b) = (target.2, target.1)
    · right
      have ha : a = target.2 := (Prod.mk.inj hab).1
      have hb : b = target.1 := (Prod.mk.inj hab).2
      subst ha
      subst hb
      rw [setSquareState_same, setSquareState_same]
      exact ⟨rfl, hv'⟩
    · left
      refine ⟨hab, ?_, ?_⟩
      · rcases setSquareState_apply game.compTargeting target.2 target.1 a b v with h | h
        · exact h
        · exact absurd h.1 hab
      · rcases setSquareState_apply game.userShips target.2 target.1 a b v with h | h
        · exact h
        · exact absurd h.1 hab

/-- The pair `EvaluateGrid` returns is `(highY, highX)` for the index
`[highX][highY]` of the greatest weight: a cell of the board with a positive
final weight that no cell of the board exceeds. -/
theorem evaluateGrid_selected (game : Game) (s hx hy : Int)
    (h : EvaluateGrid game s = some (hy, hx)) :
    onBoard hx hy ∧ 0 < finalWeights game s hx hy ∧
    ∀ a b, onBoard a b → finalWeights game s a b ≤ finalWeights game s hx hy := by
  by_cases hpos : ∃ a b, onBoard a b ∧ 0 < settled game (weighGrid game s) a b
  · obtain ⟨hx', hy', hb, hres, hp, hmax⟩ := evaluateGrid_some game s hpos
    rw [hres] at h
    have he := Option.some.inj h
    have h1 : hy' = hy := (Prod.mk.inj he).1
    have h2 : hx' = hx := (Prod.mk.inj he).2
    subst h1
    subst h2
    refine ⟨hb, by rw [finalWeights_apply game s _ _ hb]; exact hp, ?_⟩
    intro a b hab
    rw [finalWeights_apply game s a b hab, finalWeights_apply game s _ _ hb]
    exact (hmax a b hab).1
  · have hnone := evaluateGrid_none game s (fun a b hab => by
      by_contra hc
      exact hpos ⟨a, b, hab, by omega⟩)
    rw [hnone] at h
    exact absurd h (by simp)

/-- C37: in a single-shot computer turn (CLASSIC or CRUISE_MISSILES), when
`EvaluateGrid` returns `(hy, hx)`, the cell `[hx][hy]` is the index of the
weight selected, and `CompTurn` is the call `CheckHit((hy, hx), COMP)`, which
resolves the shot against `userShips[hx][hy]` and writes the outcome to
`compTargeting[hx][hy]` and `userShips[hx][hy]`: MISS when the user's cell is
neither SHIP nor SHOT_DOWN, else HIT, SINK or SHOT_DOWN. The selected cell is
not EMPTY on `compTargeting` afterwards. The turn returns whenever a SHIP or
SHOT_DOWN cell of `userShips` is a coordinate of a ship of the user's fleet. -/
theorem compTurn_resolves_selected_cell (game : Game) (rnd : Nat → Nat) (hx hy : Int)
    (hsingle : ¬ (game.gameType = Gametype.MULTIFIRE ∨ game.gameType = Gametype.HARDCORE))
    (hsel : EvaluateGrid game (SmallestShipAlive game) = some (hy, hx)) :
    (onBoard hx hy ∧ 0 < finalWeights game (SmallestShipAlive game) hx hy ∧
      ∀ a b, onBoard a b →
        finalWeights game (SmallestShipAlive game) a b
          ≤ finalWeights game (SmallestShipAlive game) hx hy) ∧
    game.CompTurn rnd = game.CheckHit (hy, hx) Player.COMP (rnd 0) ∧
    (((game.userShips hx hy = SHIP ∨ game.userShips hx hy = SHOT_DOWN) →
        ∃ i, i < 5 ∧ (hx, hy) ∈ coordsAt game.userFleet i) →
      ∃ game1, game.CompTurn rnd = some game1) ∧
    ∀ game1, game.CompTurn rnd = some game1 →
      game1.compTargeting hx hy ≠ EMPTY ∧
      game1.userShips hx hy = game1.compTargeting hx hy ∧
      ((game.userShips hx hy ≠ SHIP ∧ game.userShips hx hy ≠ SHOT_DOWN) →
        game1.compTargeting hx hy = MISS) ∧
      ((game.userShips hx hy = SHIP ∨ game.userShips hx hy = SHOT_DOWN) →
        game1.compTargeting hx hy = HIT ∨ game1.compTargeting hx hy = SINK ∨
          game1.compTargeting hx hy = SHOT_DOWN) := by
  have hseld := evaluateGrid_selected game _ hx hy hsel
  have hturn := compTurn_single game rnd (hy, hx) hsingle hsel
  have hb := hseld.1
  have h99 : ((hy, hx) : Int × Int).1 ≠ 99 := by
    unfold onBoard at hb
    simp only
    omega
  have h999 : ((hy, hx) : Int × Int).1 ≠ 999 := by
    unfold onBoard at hb
    simp only
    omega
  have hcases : (game.userShips hx hy = SHIP ∨ game.userShips hx hy = SHOT_DOWN) →
      game.hitApplies (hy, hx) Player.COMP (rnd 0) ∨
        game.intercepted (hy, hx) Player.COMP (rnd 0) := by
    intro hs
    by_cases hi : (game.gameType = Gametype.CRUISE_MISSILES ∨ game.gameType = Gametype.HARDCORE) ∧
        Game.ShootDownMissile (rnd 0) = true
    · exact Or.inr ⟨h99, h999, hs, hi.1, hi.2⟩
    · exact Or.inl ⟨h99, h999, hs, hi⟩
  refine ⟨hseld, hturn, ?_, ?_⟩
  · intro hown
    rw [hturn, checkHit_eq, if_neg h99, if_neg h999]
    by_cases hh : game.hitApplies (hy, hx) Player.COMP (rnd 0)
    · rw [if_pos hh]
      obtain ⟨_, hmem, _⟩ := getShip_spec game (hx, hy) Player.COMP (hown hh.2.2.1)
      obtain ⟨ship, hship, _⟩ := (mem_coordsAt _ _ _).1 hmem
      obtain ⟨game1, h1, _⟩ := shipHit_spec game hx hy Player.COMP ship hship
      exact ⟨game1, h1⟩
    · rw [if_neg hh]
      by_cases hi : game.intercepted (hy, hx) Player.COMP (rnd 0)
      · rw [if_pos hi]; exact ⟨_, rfl⟩
      · rw [if_neg hi]; exact ⟨_, rfl⟩
  · intro game1 hres
    rw [hturn] at hres
    have hout := checkHit_target_cell game game1 (hy, hx) Player.COMP (rnd 0) h99 h999 hres
    have hmir := checkHit_comp_cell game game1 (hy, hx) (rnd 0) h99 h999 hres hx hy
    have hmir' : game1.userShips hx hy = game1.compTargeting hx hy := by
      rcases hmir with ⟨hne, _⟩ | ⟨he, _⟩
      · exact absurd rfl hne
      · exact he
    have hout' : (game.hitApplies (hy, hx) Player.COMP (rnd 0) ∧
          (game1.compTargeting hx hy = HIT ∨ game1.compTargeting hx hy = SINK)) ∨
        (game.intercepted (hy, hx) Player.COMP (rnd 0) ∧
          game1.compTargeting hx hy = SHOT_DOWN) ∨
        (¬ game.hitApplies (hy, hx) Player.COMP (rnd 0) ∧
          ¬ game.intercepted (hy, hx) Player.COMP (rnd 0) ∧
          game1.compTargeting hx hy = MISS) := hout
    refine ⟨?_, hmir', ?_, ?_⟩
    · rcases hout' with ⟨_, h | h⟩ | ⟨_, h⟩ | ⟨_, _, h⟩ <;> rw [h] <;> simp
    · rintro ⟨hn1, hn2⟩
      rcases hout' with ⟨hh, _⟩ | ⟨hi, _⟩ | ⟨_, _, h⟩
      · rcases hh.2.2.1 with h | h
        · exact absurd h hn1
        · exact absurd h hn2
      · rcases hi.2.2.1 with h | h
        · exact absurd h hn1
        · exact absurd h hn2
      · exact h
    · intro hs
      rcases hout' with ⟨_, h | h⟩ | ⟨_, h⟩ | ⟨hnh, hni, _⟩
      · exact Or.inl h
      · exact Or.inr (Or.inl h)
      · exact Or.inr (Or.inr h)
      · rcases hcases hs with h | h
        · exact absurd h hnh
        · exact absurd h hni

/-- C37, witness: `centreGame CLASSIC`, where `EvaluateGrid` returns `(4, 4)`
and the user's CRUISER lies on the cell: the cell is HIT after the turn. -/
theorem compTurn_resolves_selected_cell_witness :
    EvaluateGrid (centreGame Gametype.CLASSIC) (SmallestShipAlive (centreGame Gametype.CLASSIC))
      = some (4, 4) ∧
    (centreGame Gametype.CLASSIC).compTargeting 4 4 = EMPTY ∧
    (centreGame Gametype.CLASSIC).userShips 4 4 = SHIP ∧
    ∃ game1, (centreGame Gametype.CLASSIC).CompTurn (fun _ => 0) = some game1 ∧
      game1.compTargeting 4 4 = HIT ∧ game1.userShips 4 4 = HIT := by
  have hsel : EvaluateGrid (centreGame Gametype.CLASSIC)
      (SmallestShipAlive (centreGame Gametype.CLASSIC)) = some (4, 4) := by
    rw [smallestShipAlive_centre]
    exact evaluateGrid_centre Gametype.CLASSIC
  have hthm := compTurn_resolves_selected_cell (centreGame Gametype.CLASSIC) (fun _ => 0) 4 4
    (by decide) hsel
  obtain ⟨game1, h1, h2⟩ := exists_of_map_decide
    ((centreGame Gametype.CLASSIC).CheckHit (4, 4) Player.COMP 0)
    (fun g => g.compTargeting 4 4 = HIT) (by decide)
  have hturn : (centreGame Gametype.CLASSIC).CompTurn (fun _ => 0) = some game1 := by
    rw [hthm.2.1]
    exact h1
  exact ⟨hsel, by decide, by decide, game1, hturn, h2,
    by rw [(hthm.2.2.2 game1 hturn).2.1]; exact h2⟩

/-- The targets of the collection loop of a multi-fire `CompTurn` are cells
of the board that are not HIT, MISS or SINK when the loop starts, each is MISS
on `compTargeting` when the loop ends, and no target occurs twice. -/
theorem compTargets_nodup (n : Nat) (game game1 : Game) (targetList : List (Int × Int))
    (h : game.compTargets n = some (game1, targetList)) :
    targetList.Nodup ∧
    ∀ t ∈ targetList, onBoard t.2 t.1 ∧ ¬ zeroed game t.2 t.1 ∧
      game1.compTargeting t.2 t.1 = MISS := by
  induction n generalizing game game1 targetList with
  | zero =>
    simp only [Game.compTargets, Option.some.injEq, Prod.mk.injEq] at h
    rw [← h.2]
    exact ⟨List.nodup_nil, by simp⟩
  | succ n ih =>
    rw [compTargets_succ] at h
    cases h1 : EvaluateGrid game (SmallestShipAlive game) with
    | none =>
      simp only [h1] at h
      exact absurd h (by simp)
    | some t =>
      simp only [h1] at h
      cases h2 : Game.compTargets
          { game with compTargeting := setSquareState game.compTargeting t.2 t.1 MISS } n with
      | none =>
        simp only [h2] at h
        exact absurd h (by simp)
      | some r2 =>
        obtain ⟨g2, ts⟩ := r2
        simp only [h2, Option.some.injEq, Prod.mk.injEq] at h
        obtain ⟨hg, hts⟩ := h
        subst hg
        subst hts
        obtain ⟨hnd, hall⟩ := ih _ g2 ts h2
        obtain ⟨hbt, hnzt⟩ := evaluateGrid_cell game _ t h1
        have hmarked : zeroed
            { game with compTargeting := setSquareState game.compTargeting t.2 t.1 MISS }
            t.2 t.1 := by
          unfold zeroed
          right; left
          exact setSquareState_same _ _ _ _
        have hnot : t ∉ ts := fun hm => (hall t hm).2.1 hmarked
        refine ⟨List.nodup_cons.2 ⟨hnot, hnd⟩, ?_⟩
        intro t' ht'
        rcases List.mem_cons.1 ht' with rfl | hm
        · refine ⟨hbt, hnzt, ?_⟩
          rcases (compTargets_cells n _ g2 ts h2).2 t'.2 t'.1 with h3 | ⟨h3, _⟩
          · rw [h3]
            exact setSquareState_same _ _ _ _
          · exact h3
        · obtain ⟨hb', hnz', hm'⟩ := hall t' hm
          refine ⟨hb', ?_, hm'⟩
          intro hz
          apply hnz'
          by_cases hc : t'.2 = t.2 ∧ t'.1 = t.1
          · rw [hc.1, hc.2]
            exact hmarked
          · unfold zeroed at hz ⊢
            simp only [setSquareState, hc, if_false]
            exact hz

/-- After the resolution loop of a computer's batch, every cell that was
targeted holds the outcome `CheckHit` wrote: the same state on `compTargeting`
and on `userShips`, one of MISS, HIT, SINK and SHOT_DOWN. -/
theorem checkHits_comp_resolved (rnd : Nat → Nat) (targetList : List (Int × Int)) :
    ∀ (game game2 : Game) (first : Nat),
      (∀ t ∈ targetList, t.1 ≠ 99 ∧ t.1 ≠ 999) →
      game.checkHits Player.COMP rnd first targetList = some game2 →
      ∀ a b,
        ((game.userShips a b = game.compTargeting a b ∧
            (game.compTargeting a b = MISS ∨ game.compTargeting a b = HIT ∨
              game.compTargeting a b = SINK ∨ game.compTargeting a b = SHOT_DOWN)) ∨
          (b, a) ∈ targetList) →
        game2.userShips a b = game2.compTargeting a b ∧
          (game2.compTargeting a b = MISS ∨ game2.compTargeting a b = HIT ∨
            game2.compTargeting a b = SINK ∨ game2.compTargeting a b = SHOT_DOWN) := by
  induction targetList with
  | nil =>
    intro game game2 first _ h a b hab
    simp only [Game.checkHits, Option.some.injEq] at h
    subst h
    rcases hab with hk | hm
    · exact hk
    · exact absurd hm (by simp)
  | cons t rest ih =>
    intro game game2 first hsent h a b hab
    rw [Game.checkHits] at h
    cases h1 : game.CheckHit t Player.COMP (rnd first) with
    | none =>
      simp only [h1] at h
      exact absurd h (by simp)
    | some g1 =>
      simp only [h1] at h
      obtain ⟨h99, h999⟩ := hsent t (List.mem_cons_self _ _)
      have hcell := checkHit_comp_cell game g1 t (rnd first) h99 h999 h1 a b
      apply ih g1 game2 (first + 1) (fun t' ht' => hsent t' (List.mem_cons_of_mem _ ht')) h a b
      rcases hcell with ⟨hne, hc, hu⟩ | hk
      · rcases hab with hk | hm
        · left
          rw [hc, hu]
          exact hk
        · rcases List.mem_cons.1 hm with he | hm'
          · exfalso
            apply hne
            rw [← he]
          · exact Or.inr hm'
      · exact Or.inl hk

/-- A computer's `CheckHit` at a cell of the board returns when the SHIP and
SHOT_DOWN cells of `userShips` belong to ships of the fleet, and they still do
afterwards. -/
theorem checkHit_comp_owned (game : Game) (target : Int × Int) (rnd : Nat)
    (h99 : target.1 ≠ 99) (h999 : target.1 ≠ 999) (hown : game.userCellsOwned) :
    ∃ game1, game.CheckHit target Player.COMP rnd = some game1 ∧ game1.userCellsOwned := by
  have hex : ∃ game1, game.CheckHit target Player.COMP rnd = some game1 := by
    rw [checkHit_eq, if_neg h99, if_neg h999]
    by_cases hh : game.hitApplies target Player.COMP rnd
    · rw [if_pos hh]
      obtain ⟨_, hmem, _⟩ := getShip_spec game (target.2, target.1) Player.COMP
        (hown target.2 target.1 hh.2.2.1)
      obtain ⟨ship, hship, _⟩ := (mem_coordsAt _ _ _).1 hmem
      obtain ⟨game1, h1, _⟩ := shipHit_spec game target.2 target.1 Player.COMP ship hship
      exact ⟨game1, h1⟩
    · rw [if_neg hh]
      by_cases hi : game.intercepted target Player.COMP rnd
      · rw [if_pos hi]; exact ⟨_, rfl⟩
      · rw [if_neg hi]; exact ⟨_, rfl⟩
  obtain ⟨game1, hres⟩ := hex
  refine ⟨game1, hres, ?_⟩
  intro a b hab
  have hold : game.userShips a b = SHIP ∨ game.userShips a b = SHOT_DOWN := by
    obtain ⟨coords, v, hv, _, _, hus, _⟩ :=
      checkHit_grids game game1 target Player.COMP rnd h99 h999 hres
    rw [hus rfl, setAll_apply] at hab
    by_cases hm : (a, b) ∈ coords
    · rw [if_pos hm] at hab
      rcases hab with h | h <;> exact absurd h (by simp)
    · rw [if_neg hm] at hab
      rcases setSquareState_apply game.userShips target.2 target.1 a b v with h | ⟨hcell, hvv⟩
      · rw [h] at hab
        exact hab
      · have ha : a = target.2 := (Prod.mk.inj hcell).1
        have hb : b = target.1 := (Prod.mk.inj hcell).2
        rw [ha, hb]
        rcases hv with ⟨hh, _⟩ | ⟨hi, _⟩ | ⟨_, _, rfl, _⟩
        · exact hh.2.2.1
        · exact hi.2.2.1
        · rw [hvv] at hab
          rcases hab with h | h <;> exact absurd h (by simp)
  obtain ⟨i, hi, hmem⟩ := hown a b hold
  obtain ⟨ship, hship, hc⟩ := (mem_coordsAt _ _ _).1 hmem
  obtain ⟨ship1, h1, hc1, _⟩ :=
    checkHit_forward game game1 target Player.COMP rnd hres Player.USER i ship hship
  exact ⟨i, hi, (mem_coordsAt _ _ _).2 ⟨ship1, h1, by rw [hc1]; exact hc⟩⟩

/-- The resolution loop of a computer's batch returns when the SHIP and
SHOT_DOWN cells of `userShips` belong to ships of the fleet. -/
theorem checkHits_comp_isSome (rnd : Nat → Nat) (targetList : List (Int × Int)) :
    ∀ (game : Game) (first : Nat), (∀ t ∈ targetList, t.1 ≠ 99 ∧ t.1 ≠ 999) →
      game.userCellsOwned →
      ∃ game2, game.checkHits Player.COMP rnd first targetList = some game2 := by
  induction targetList with
  | nil => exact fun game _ _ _ => ⟨game, rfl⟩
  | cons t rest ih =>
    intro game first hsent hown
    obtain ⟨h99, h999⟩ := hsent t (List.mem_cons_self _ _)
    obtain ⟨g1, h1, hown1⟩ := checkHit_comp_owned game t (rnd first) h99 h999 hown
    obtain ⟨game2, h2⟩ := ih g1 (first + 1)
      (fun t' ht' => hsent t' (List.mem_cons_of_mem _ ht')) hown1
    refine ⟨game2, ?_⟩
    rw [Game.checkHits, h1]
    exact h2

/-- C36: in a MULTIFIRE or HARDCORE computer turn whose collection loop finds
a target at each of its `NumShipsAlive(COMP)` passes, the targets are pairwise
distinct cells of the board, none of them HIT, MISS or SINK before the turn,
each marked MISS on `compTargeting` when the loop ends; and when the turn has
resolved the batch every targeted cell holds the outcome of a `CheckHit`, the
same state on `compTargeting` and on `userShips`, one of MISS, HIT, SINK and
SHOT_DOWN. The resolution returns when every SHIP or SHOT_DOWN cell of
`userShips` is a coordinate of a ship of the user's fleet. -/
theorem compTurn_batch_distinct_resolved (game game1 : Game) (targetList : List (Int × Int))
    (rnd : Nat → Nat)
    (hmulti : game.gameType = Gametype.MULTIFIRE ∨ game.gameType = Gametype.HARDCORE)
    (hcollect : game.compTargets (game.NumShipsAlive Player.COMP) = some (game1, targetList)) :
    targetList.Nodup ∧ targetList.length = game.NumShipsAlive Player.COMP ∧
    (∀ t ∈ targetList, onBoard t.2 t.1 ∧ ¬ zeroed game t.2 t.1 ∧
      game1.compTargeting t.2 t.1 = MISS) ∧
    game.CompTurn rnd = game1.checkHits Player.COMP rnd 0 targetList ∧
    (game.userCellsOwned → ∃ game2, game.CompTurn rnd = some game2) ∧
    ∀ game2, game.CompTurn rnd = some game2 →
      ∀ t ∈ targetList, game2.userShips t.2 t.1 = game2.compTargeting t.2 t.1 ∧
        (game2.compTargeting t.2 t.1 = MISS ∨ game2.compTargeting t.2 t.1 = HIT ∨
          game2.compTargeting t.2 t.1 = SINK ∨ game2.compTargeting t.2 t.1 = SHOT_DOWN) := by
  obtain ⟨hnd, hall⟩ := compTargets_nodup _ game game1 targetList hcollect
  have hturn : game.CompTurn rnd = game1.checkHits Player.COMP rnd 0 targetList := by
    unfold Game.CompTurn
    rw [if_pos hmulti, hcollect]
  have hsent : ∀ t ∈ targetList, t.1 ≠ 99 ∧ t.1 ≠ 999 := by
    intro t' ht'
    have hb := (hall t' ht').1
    unfold onBoard at hb
    constructor <;> omega
  refine ⟨hnd, compTargets_length _ game game1 targetList hcollect, hall, hturn, ?_, ?_⟩
  · intro hown
    rw [hturn]
    obtain ⟨⟨hus, huf, _⟩, _⟩ := compTargets_cells _ game game1 targetList hcollect
    apply checkHits_comp_isSome rnd targetList game1 0 hsent
    intro a b hab
    rw [hus] at hab
    rw [huf]
    exact hown a b hab
  · intro game2 hres t ht
    rw [hturn] at hres
    exact checkHits_comp_resolved rnd targetList game1 game2 0 hsent hres t.2 t.1 (Or.inr ht)

/-- C36, witness: in `lateGame` the computer has two ships afloat; the
collection loop selects `(1, 8)` and then `(0, 8)`, the two cells of the
user's DESTROYER, and the resolution sinks it: both cells are SINK. -/
theorem compTurn_batch_distinct_resolved_witness :
    lateGame.NumShipsAlive Player.COMP = 2 ∧
    ∃ game1 game2, lateGame.compTargets 2 = some (game1, [(8, 1), (8, 0)]) ∧
      [((8 : Int), (1 : Int)), (8, 0)].Nodup ∧
      lateGame.CompTurn (fun _ => 0) = some game2 ∧
      (game1.compTargeting 1 8 = MISS ∧ game1.compTargeting 0 8 = MISS) ∧
      (game2.compTargeting 1 8 = SINK ∧ game2.compTargeting 0 8 = SINK) ∧
      (game2.userShips 1 8 = SINK ∧ game2.userShips 0 8 = SINK) := by
  have hn : lateGame.NumShipsAlive Player.COMP = 2 := by decide
  obtain ⟨⟨game1, ts⟩, hc, hts⟩ := exists_of_map_decide (lateGame.compTargets 2)
    (fun r => r.2 = [(8, 1), (8, 0)]) (by decide!)
  simp only at hts
  subst hts
  obtain ⟨game2, h2, hs1, hs0⟩ := exists_of_map_decide (lateGame.CompTurn (fun _ => 0))
    (fun g => g.compTargeting 1 8 = SINK ∧ g.compTargeting 0 8 = SINK) (by decide!)
  have hthm := compTurn_batch_distinct_resolved lateGame game1 [(8, 1), (8, 0)] (fun _ => 0)
    (Or.inl rfl) (by rw [hn]; exact hc)
  refine ⟨hn, game1, game2, hc, hthm.1, h2, ?_, ⟨hs1, hs0⟩, ?_⟩
  · exact ⟨(hthm.2.2.1 (8, 1) (by simp)).2.2, (hthm.2.2.1 (8, 0) (by simp)).2.2⟩
  · have h1 := (hthm.2.2.2.2.2 game2 h2 (8, 1) (by simp)).1
    have h0 := (hthm.2.2.2.2.2 game2 h2 (8, 0) (by simp)).1
    exact ⟨h1.trans hs1, h0.trans hs0⟩

theorem compTurn_eq (game : Game) (rnd : Nat → Nat) :
    game.CompTurn rnd =
      match game.compTurnTargets with
      | none => none
      | some (game1, targetList) => game1.checkHits Player.COMP rnd 0 targetList := by
  unfold Game.CompTurn Game.compTurnTargets
  by_cases hm : game.gameType = Gametype.MULTIFIRE ∨ game.gameType = Gametype.HARDCORE
  · rw [if_pos hm, if_pos hm]
  · rw [if_neg hm, if_neg hm]
    cases EvaluateGrid game (SmallestShipAlive game) with
    | none => rfl
    | some t =>
      simp only [Game.checkHits]
      cases game.CheckHit t Player.COMP (rnd 0) <;> rfl

theorem firedAt_append_left (shots new : List Shot) (side : Player) (c : Int × Int)
    (h : firedAt shots side c) : firedAt (shots ++ new) side c := by
  obtain ⟨shot, hm, hp⟩ := h
  exact ⟨shot, List.mem_append_left _ hm, hp⟩

theorem firedAt_append_right (shots new : List Shot) (side : Player) (c : Int × Int)
    (h : firedAt new side c) : firedAt (shots ++ new) side c := by
  obtain ⟨shot, hm, hp⟩ := h
  exact ⟨shot, List.mem_append_right _ hm, hp⟩

theorem firedAt_shotsOf (p : Player) (rnd : Nat → Nat) (targetList : List (Int × Int))
    (t : Int × Int) (ht : t ∈ targetList) :
    ∀ first, firedAt (shotsOf p rnd first targetList) p (t.2, t.1) := by
  induction targetList with
  | nil => exact absurd ht (by simp)
  | cons t' rest ih =>
    intro first
    rcases List.mem_cons.1 ht with rfl | hm
    · exact ⟨⟨t, p, rnd first⟩, List.mem_cons_self _ _, rfl, rfl⟩
    · obtain ⟨shot, hs, hp⟩ := ih hm (first + 1)
      exact ⟨shot, List.mem_cons_of_mem _ hs, hp⟩

/-- One `CheckHit` keeps the targeting grids to what has been observed. -/
theorem observedOnly_checkHit (game game1 : Game) (shots : List Shot)
    (marked : List (Int × Int)) (shot : Shot)
    (hinv : game.observedOnly shots marked)
    (hres : game.CheckHit shot.target shot.p shot.rnd = some game1) :
    game1.observedOnly (shots ++ [shot]) marked := by
  have hkeep : ∀ (side : Player) (a b : Int),
      game1.targetingOf side a b = game.targetingOf side a b →
      game1.targetingOf side a b ≠ SHIP ∧
      (game1.targetingOf side a b ≠ EMPTY →
        firedAt (shots ++ [shot]) side (a, b) ∨ (side = Player.COMP ∧ (b, a) ∈ marked) ∨
          game1.sunkAt side.opponent (a, b)) := by
    intro side a b he
    rw [he]
    obtain ⟨h1, h2⟩ := hinv side a b
    refine ⟨h1, fun hne => ?_⟩
    rcases h2 hne with h | h | h
    · exact Or.inl (firedAt_append_left _ _ _ _ h)
    · exact Or.inr (Or.inl h)
    · exact Or.inr (Or.inr (checkHit_sunkAt game game1 _ _ _ hres _ _ h))
  intro side a b
  by_cases hsent : shot.target.1 = 99 ∨ shot.target.1 = 999
  · apply hkeep
    rw [checkHit_eq] at hres
    rcases hsent with h99 | h999
    · rw [if_pos h99] at hres
      have hg := Option.some.inj hres
      subst hg
      rw [(forfeit_grids game _ side).1]
    · have h99 : ¬ shot.target.1 = 99 := by omega
      rw [if_neg h99, if_pos h999] at hres
      have hg := Option.some.inj hres
      subst hg
      rw [(forfeit_grids game _ side).1]
  · have h99 : shot.target.1 ≠ 99 := fun h => hsent (Or.inl h)
    have h999 : shot.target.1 ≠ 999 := fun h => hsent (Or.inr h)
    obtain ⟨coords, v, hv, ht, hto, _, hsunk⟩ :=
      checkHit_grids game game1 shot.target shot.p shot.rnd h99 h999 hres
    rcases eq_or_eq_opponent side shot.p with hs | hs
    · subst hs
      by_cases hm : (a, b) ∈ coords
      · have hval : game1.targetingOf shot.p a b = SINK := by
          rw [ht, setAll_apply, if_pos hm]
        rw [hval]
        exact ⟨by simp, fun _ => Or.inr (Or.inr (hsunk (a, b) hm))⟩
      · have hval : game1.targetingOf shot.p a b =
            setSquareState (game.targetingOf shot.p) shot.target.2 shot.target.1 v a b := by
          rw [ht, setAll_apply, if_neg hm]
        rcases setSquareState_apply (game.targetingOf shot.p) shot.target.2 shot.target.1
            a b v with h | ⟨hcell, hvv⟩
        · exact hkeep shot.p a b (hval.trans h)
        · rw [hval, hvv]
          refine ⟨?_, fun _ => Or.inl ?_⟩
          · rcases hv with ⟨_, rfl⟩ | ⟨_, rfl, _⟩ | ⟨_, _, rfl, _⟩ <;> simp
          · exact firedAt_append_right _ _ _ _
              ⟨shot, List.mem_singleton.2 rfl, rfl, hcell.symm⟩
    · subst hs
      exact hkeep shot.p.opponent a b (by rw [hto])

/-- A sequence of `CheckHit` calls keeps the targeting grids to what has been
observed. -/
theorem observedOnly_resolveShots (new : List Shot) :
    ∀ (game game1 : Game) (shots : List Shot) (marked : List (Int × Int)),
      game.observedOnly shots marked → game.resolveShots new = some game1 →
      game1.observedOnly (shots ++ new) marked := by
  induction new with
  | nil =>
    intro game game1 shots marked hinv hres
    simp only [Game.resolveShots, Option.some.injEq] at hres
    subst hres
    rw [List.append_nil]
    exact hinv
  | cons shot rest ih =>
    intro game game1 shots marked hinv hres
    rw [Game.resolveShots] at hres
    cases h1 : game.CheckHit shot.target shot.p shot.rnd with
    | none =>
      simp only [h1] at hres
      exact absurd hres (by simp)
    | some g1 =>
      simp only [h1] at hres
      have h2 := ih g1 game1 (shots ++ [shot]) marked
        (observedOnly_checkHit game g1 shots marked shot hinv h1) hres
      rw [List.append_assoc] at h2
      exact h2

/-- The collection half of `CompTurn` changes `compTargeting` only at the
targets it returns. -/
theorem observedOnly_compTurnTargets (game gameM : Game) (shots : List Shot)
    (targetList : List (Int × Int)) (hinv : game.observedOnly shots [])
    (hc : game.compTurnTargets = some (gameM, targetList)) :
    gameM.observedOnly shots targetList := by
  unfold Game.compTurnTargets at hc
  by_cases hm : game.gameType = Gametype.MULTIFIRE ∨ game.gameType = Gametype.HARDCORE
  · rw [if_pos hm] at hc
    obtain ⟨⟨_, huf, hcf, _, hpt, _, _⟩, hcells⟩ := compTargets_cells _ game gameM targetList hc
    have hsunk : ∀ q c, game.sunkAt q c → gameM.sunkAt q c := by
      intro q c h
      obtain ⟨ship, hmem, hs⟩ := h
      refine ⟨ship, ?_, hs⟩
      cases q
      · show ship ∈ gameM.userFleet
        rw [huf]
        exact hmem
      · show ship ∈ gameM.compFleet
        rw [hcf]
        exact hmem
    intro side a b
    cases side
    · have he : gameM.targetingOf Player.USER a b = game.targetingOf Player.USER a b := by
        show gameM.playerTargeting a b = game.playerTargeting a b
        rw [hpt]
      rw [he]
      obtain ⟨h1, h2⟩ := hinv Player.USER a b
      refine ⟨h1, fun hne => ?_⟩
      rcases h2 hne with h | h | h
      · exact Or.inl h
      · exact absurd h.2 (by simp)
      · exact Or.inr (Or.inr (hsunk _ _ h))
    · rcases hcells a b with h | ⟨h, _, hmem⟩
      · have he : gameM.targetingOf Player.COMP a b = game.targetingOf Player.COMP a b := h
        rw [he]
        obtain ⟨h1, h2⟩ := hinv Player.COMP a b
        refine ⟨h1, fun hne => ?_⟩
        rcases h2 hne with h | h | h
        · exact Or.inl h
        · exact absurd h.2 (by simp)
        · exact Or.inr (Or.inr (hsunk _ _ h))
      · have he : gameM.targetingOf Player.COMP a b = MISS := h
        rw [he]
        exact ⟨by simp, fun _ => Or.inr (Or.inl ⟨rfl, hmem⟩)⟩
  · rw [if_neg hm] at hc
    cases he : EvaluateGrid game (SmallestShipAlive game) with
    | none =>
      rw [he] at hc
      exact absurd hc (by simp)
    | some t =>
      rw [he] at hc
      simp only [Option.some.injEq, Prod.mk.injEq] at hc
      obtain ⟨hg, _⟩ := hc
      subst hg
      intro side a b
      obtain ⟨h1, h2⟩ := hinv side a b
      refine ⟨h1, fun hne => ?_⟩
      rcases h2 hne with h | h | h
      · exact Or.inl h
      · exact absurd h.2 (by simp)
      · exact Or.inr (Or.inr h)

/-- In every game reached by turns from a game whose targeting grids are
EMPTY, the targeting grids show only what has been observed. -/
theorem observedOnly_reached (start game : Game) (shots : List Shot)
    (hstart : ∀ side a b, start.targetingOf side a b = EMPTY)
    (hreach : start.ReachedBy game shots) : game.observedOnly shots [] := by
  induction hreach with
  | init =>
    intro side a b
    rw [hstart side a b]
    exact ⟨by simp, fun h => absurd rfl h⟩
  | playerTurn game game1 shots inputs rest targetList rnd _ htargets hturn ih =>
    unfold Game.PlayerTurn at hturn
    rw [htargets] at hturn
    simp only at hturn
    cases hc : game.checkHits Player.USER rnd 0 targetList with
    | none =>
      rw [hc] at hturn
      exact absurd hturn (by simp)
    | some g1 =>
      rw [hc] at hturn
      simp only [Option.some.injEq, Prod.mk.injEq] at hturn
      obtain ⟨hg, _⟩ := hturn
      subst hg
      rw [checkHits_eq_resolveShots] at hc
      exact observedOnly_resolveShots _ game g1 shots [] ih hc
  | compTurn game gameM game1 shots targetList rnd _ htargets hturn ih =>
    rw [compTurn_eq, htargets] at hturn
    simp only at hturn
    rw [checkHits_eq_resolveShots] at hturn
    have hM := observedOnly_compTurnTargets game gameM shots targetList ih htargets
    have h1 := observedOnly_resolveShots _ gameM game1 shots targetList hM hturn
    intro side a b
    obtain ⟨h2, h3⟩ := h1 side a b
    refine ⟨h2, fun hne => ?_⟩
    rcases h3 hne with h | ⟨hs, hmem⟩ | h
    · exact Or.inl h
    · subst hs
      exact Or.inl (firedAt_append_right _ _ _ _
        (firedAt_shotsOf Player.COMP rnd targetList (b, a) hmem 0))
    · exact Or.inr (Or.inr h)
  | checkWin game shots p _ ih =>
    have hsame : ∀ side, (game.CheckWin p).2.targetingOf side = game.targetingOf side ∧
        (game.CheckWin p).2.fleetOf side = game.fleetOf side := by
      intro side
      unfold Game.CheckWin
      split_ifs <;> exact ⟨rfl, rfl⟩
    intro side a b
    rw [(hsame side).1]
    obtain ⟨h1, h2⟩ := ih side a b
    refine ⟨h1, fun hne => ?_⟩
    rcases h2 hne with h | h | h
    · exact Or.inl h
    · exact Or.inr (Or.inl h)
    · right; right
      obtain ⟨ship, hm, hs⟩ := h
      exact ⟨ship, by rw [(hsame side.opponent).2]; exact hm, hs⟩

/-- C31: in every game reached by turns of the user and of the computer (and
calls of `CheckWin`) from a game whose two targeting grids are EMPTY, no cell
of `playerTargeting` or `compTargeting` is SHIP, and a cell of a targeting
grid that is not EMPTY has been fired at by the owner of the grid or is a
coordinate of a SUNK ship of the other side: a cell that was not fired at and
belongs to no SUNK ship of the other side is EMPTY. -/
theorem targeting_grid_shows_only_observed (start game : Game) (shots : List Shot)
    (hstart : ∀ side a b, start.targetingOf side a b = EMPTY)
    (hreach : start.ReachedBy game shots) (side : Player) (a b : Int) :
    game.targetingOf side a b ≠ SHIP ∧
    (game.targetingOf side a b ≠ EMPTY →
      firedAt shots side (a, b) ∨ game.sunkAt side.opponent (a, b)) ∧
    (¬ firedAt shots side (a, b) → ¬ game.sunkAt side.opponent (a, b) →
      game.targetingOf side a b = EMPTY) := by
  obtain ⟨h1, h2⟩ := observedOnly_reached start game shots hstart hreach side a b
  have h3 : game.targetingOf side a b ≠ EMPTY →
      firedAt shots side (a, b) ∨ game.sunkAt side.opponent (a, b) := by
    intro hne
    rcases h2 hne with h | h | h
    · exact Or.inl h
    · exact absurd h.2 (by simp)
    · exact Or.inr h
  refine ⟨h1, h3, ?_⟩
  intro hnf hns
  by_contra hne
  rcases h3 hne with h | h
  · exact hnf h
  · exact hns h

/-- C31, witness: the user's first turn in the placed CLASSIC game, a shot at
`I1`, the cell `(0, 8)` of the computer's DESTROYER: the cell is HIT on
`playerTargeting`, and it has been fired at. -/
theorem targeting_grid_shows_only_observed_witness :
    (∀ side a b, (placedGame Gametype.CLASSIC).targetingOf side a b = EMPTY) ∧
    ∃ game1, (placedGame Gametype.CLASSIC).PlayerTurn [FireInput.coords 8 0] (fun _ => 0)
        = some (game1, []) ∧
      (placedGame Gametype.CLASSIC).ReachedBy game1
        (shotsOf Player.USER (fun _ => 0) 0 [(8, 0)]) ∧
      game1.targetingOf Player.USER 0 8 = HIT ∧
      firedAt (shotsOf Player.USER (fun _ => 0) 0 [(8, 0)]) Player.USER (0, 8) ∧
      (game1.targetingOf Player.USER 0 8 ≠ SHIP ∧
        (game1.targetingOf Player.USER 0 8 ≠ EMPTY →
          firedAt (shotsOf Player.USER (fun _ => 0) 0 [(8, 0)]) Player.USER (0, 8) ∨
            game1.sunkAt Player.USER.opponent (0, 8)) ∧
        (¬ firedAt (shotsOf Player.USER (fun _ => 0) 0 [(8, 0)]) Player.USER (0, 8) →
          ¬ game1.sunkAt Player.USER.opponent (0, 8) →
          game1.targetingOf Player.USER 0 8 = EMPTY)) := by
  have hstart : ∀ side a b, (placedGame Gametype.CLASSIC).targetingOf side a b = EMPTY := by
    intro side a b
    cases side <;> rfl
  obtain ⟨⟨game1, rest⟩, hr, hrest, hhit⟩ := exists_of_map_decide
    ((placedGame Gametype.CLASSIC).PlayerTurn [FireInput.coords 8 0] (fun _ => 0))
    (fun r => r.2 = [] ∧ r.1.targetingOf Player.USER 0 8 = HIT) (by decide)
  simp only at hrest
  subst hrest
  have hreach : (placedGame Gametype.CLASSIC).ReachedBy game1
      (shotsOf Player.USER (fun _ => 0) 0 [(8, 0)]) :=
    Game.ReachedBy.playerTurn _ game1 [] [FireInput.coords 8 0] [] [(8, 0)] (fun _ => 0)
      Game.ReachedBy.init (by decide) hr
  exact ⟨hstart, game1, hr, hreach, hhit,
    ⟨⟨(8, 0), Player.USER, 0⟩, List.mem_singleton.2 rfl, rfl, rfl⟩,
    targeting_grid_shows_only_observed (placedGame Gametype.CLASSIC) game1 _ hstart hreach
      Player.USER 0 8⟩

/-! ## Targeting cells over a whole turn (C30) -/

/-- The target `PromptFire` returns is a forfeit sentinel, or a cell that is
EMPTY or SHOT_DOWN on `playerTargeting`. -/
theorem promptFire_target (game : Game) (inputs rest : List FireInput) (t : Int × Int)
    (h : game.PromptFire inputs = some (t, rest)) :
    t.2 = 99 ∨ t.2 = 999 ∨
      game.playerTargeting t.2 t.1 = EMPTY ∨ game.playerTargeting t.2 t.1 = SHOT_DOWN := by
  induction inputs with
  | nil => simp [Game.PromptFire] at h
  | cons input inputs ih =>
    cases input with
    | secret => exact ih (by simpa [Game.PromptFire] using h)
    | forfeit =>
      simp only [Game.PromptFire, Option.some.injEq, Prod.mk.injEq] at h
      rw [← h.1]
      exact Or.inl rfl
    | cheat =>
      simp only [Game.PromptFire, Option.some.injEq, Prod.mk.injEq] at h
      rw [← h.1]
      exact Or.inr (Or.inl rfl)
    | malformed => exact ih (by simpa [Game.PromptFire] using h)
    | coords inX inY =>
      unfold Game.PromptFire at h
      by_cases hb : inX > 9 ∨ inX < 0 ∨ inY > 9 ∨ inY < 0
      · rw [if_pos hb] at h
        exact ih h
      · rw [if_neg hb] at h
        by_cases he : game.playerTargeting inY inX = EMPTY
        · simp only [he, ne_eq, not_true_eq_false, if_false, Option.some.injEq,
            Prod.mk.injEq] at h
          rw [← h.1]
          exact Or.inr (Or.inr (Or.inl he))
        · by_cases hs : game.playerTargeting inY inX = SHOT_DOWN
          · simp only [hs, ne_eq, not_true_eq_false, if_false, Option.some.injEq,
              Prod.mk.injEq, reduceCtorEq, not_false_eq_true, if_true] at h
            rw [← h.1]
            exact Or.inr (Or.inr (Or.inr hs))
          · simp only [ne_eq, he, hs, not_false_eq_true, if_true] at h
            exact ih h

theorem promptTargets_target (game : Game) (n : Nat) (inputs rest : List FireInput)
    (targetList : List (Int × Int))
    (h : game.promptTargets n inputs = some (targetList, rest)) :
    ∀ t ∈ targetList, t.2 = 99 ∨ t.2 = 999 ∨
      game.playerTargeting t.2 t.1 = EMPTY ∨ game.playerTargeting t.2 t.1 = SHOT_DOWN := by
  induction n generalizing inputs targetList rest with
  | zero =>
    simp only [Game.promptTargets, Option.some.injEq, Prod.mk.injEq] at h
    rw [← h.1]
    simp
  | succ n ih =>
    unfold Game.promptTargets at h
    cases hp : game.PromptFire inputs with
    | none =>
      simp only [hp] at h
      exact absurd h (by simp)
    | some r =>
      obtain ⟨t0, rest0⟩ := r
      simp only [hp] at h
      cases hq : game.promptTargets n rest0 with
      | none =>
        simp only [hq] at h
        exact absurd h (by simp)
      | some r1 =>
        obtain ⟨ts, rest1⟩ := r1
        simp only [hq, Option.some.injEq, Prod.mk.injEq] at h
        rw [← h.1]
        intro t ht
        rcases List.mem_cons.1 ht with rfl | ht
        · exact promptFire_target game inputs rest0 t hp
        · exact ih rest0 rest1 ts hq t ht

theorem playerTargets_target (game : Game) (inputs rest : List FireInput)
    (targetList : List (Int × Int))
    (h : game.playerTargets inputs = some (targetList, rest)) :
    ∀ t ∈ targetList, t.2 = 99 ∨ t.2 = 999 ∨
      game.playerTargeting t.2 t.1 = EMPTY ∨ game.playerTargeting t.2 t.1 = SHOT_DOWN := by
  unfold Game.playerTargets at h
  by_cases hm : game.gameType = Gametype.MULTIFIRE ∨ game.gameType = Gametype.HARDCORE
  · rw [if_pos hm] at h
    exact promptTargets_target game _ inputs rest targetList h
  · rw [if_neg hm] at h
    cases hp : game.PromptFire inputs with
    | none =>
      simp only [hp] at h
      exact absurd h (by simp)
    | some r =>
      obtain ⟨t0, rest0⟩ := r
      simp only [hp, Option.some.injEq, Prod.mk.injEq] at h
      rw [← h.1]
      intro t ht
      rw [List.mem_singleton] at ht
      subst ht
      exact promptFire_target game inputs rest0 t hp

/-- The shots of a batch leave the other side's targeting grid as it was, and
a cell of the firing side's grid that none of them is aimed at as it was or
SINK. -/
theorem checkHits_frame (p : Player) (rnd : Nat → Nat) (targetList : List (Int × Int)) :
    ∀ (game game1 : Game) (first : Nat),
      game.checkHits p rnd first targetList = some game1 →
      ∀ a b, game1.targetingOf p.opponent a b = game.targetingOf p.opponent a b ∧
        ((∀ t ∈ targetList, (a, b) ≠ (t.2, t.1)) →
          game1.targetingOf p a b = game.targetingOf p a b ∨
          game1.targetingOf p a b = SINK) := by
  induction targetList with
  | nil =>
    intro game game1 first h a b
    simp only [Game.checkHits, Option.some.injEq] at h
    subst h
    exact ⟨rfl, fun _ => Or.inl rfl⟩
  | cons t ts ih =>
    intro game game1 first h a b
    unfold Game.checkHits at h
    cases hc : game.CheckHit t p (rnd first) with
    | none =>
      simp only [hc] at h
      exact absurd h (by simp)
    | some gameI =>
      simp only [hc] at h
      obtain ⟨ho, hcell⟩ := checkHit_targeting_cell game gameI t p (rnd first) hc a b
      obtain ⟨ho1, hcell1⟩ := ih gameI game1 (first + 1) h a b
      refine ⟨ho1.trans ho, fun hne => ?_⟩
      have hrest := hcell1 (fun t1 ht1 => hne t1 (List.mem_cons_of_mem _ ht1))
      rcases hcell with hs | ⟨ht, _⟩ | ⟨hs, _⟩
      · rw [← hs]
        exact hrest
      · exact absurd ht (hne t (List.mem_cons_self _ _))
      · rcases hrest with hr | hr
        · exact Or.inr (hr.trans hs)
        · exact Or.inr hr

/-- C30 (amended): a successful `CheckHit` leaves the other side's targeting
grid as it was and every cell of the firing side's grid other than the target
cell as it was, except that the coordinates of the ship sunk by the shot
become SINK; the target cell is written whatever it held: HIT (SINK when the
ship sinks) after a hit, SHOT_DOWN after an interception, MISS otherwise. Over
a whole turn of the user and over a whole turn of the computer the other
side's targeting grid is as it was, and a cell of the board that was MISS, HIT
or SINK on the firing side's grid when the turn started is as it was or SINK
when the turn ends. Within a turn of the computer the collection loop writes
MISS into the cells it selects, none of which was HIT, MISS or SINK, and the
`CheckHit` calls of the same turn write into each of these cells again: when
the turn ends it holds the outcome of the shot, the same state on
`compTargeting` and on `userShips`. -/
theorem targeting_cells_forward :
    (∀ (game game1 : Game) (target : Int × Int) (p : Player) (rnd : Nat),
      game.CheckHit target p rnd = some game1 →
      (∀ a b, game1.targetingOf p.opponent a b = game.targetingOf p.opponent a b ∧
        ((a, b) ≠ (target.2, target.1) →
          game1.targetingOf p a b = game.targetingOf p a b ∨
          (game1.targetingOf p a b = SINK ∧
            ∃ ship, (game.fleetOf p.opponent)[game.GetShip (target.2, target.1) p]? = some ship ∧
              (a, b) ∈ ship.shipCoords ∧ ship.Damage.shipState = ShipState.SUNK))) ∧
      (target.1 ≠ 99 → target.1 ≠ 999 →
        (game.hitApplies target p rnd ∧
          (game1.targetingOf p target.2 target.1 = HIT ∨
            game1.targetingOf p target.2 target.1 = SINK)) ∨
        (game.intercepted target p rnd ∧ game1.targetingOf p target.2 target.1 = SHOT_DOWN) ∨
        (¬ game.hitApplies target p rnd ∧ ¬ game.intercepted target p rnd ∧
          game1.targetingOf p target.2 target.1 = MISS))) ∧
    (∀ (game game1 : Game) (inputs rest : List FireInput) (rnd : Nat → Nat),
      game.PlayerTurn inputs rnd = some (game1, rest) →
      ∀ a b, onBoard a b →
        game1.compTargeting a b = game.compTargeting a b ∧
        ((game.playerTargeting a b = MISS ∨ game.playerTargeting a b = HIT ∨
            game.playerTargeting a b = SINK) →
          game1.playerTargeting a b = game.playerTargeting a b ∨
          game1.playerTargeting a b = SINK)) ∧
    (∀ (game game1 : Game) (rnd : Nat → Nat),
      game.CompTurn rnd = some game1 →
      ∀ a b, onBoard a b →
        game1.playerTargeting a b = game.playerTargeting a b ∧
        ((game.compTargeting a b = MISS ∨ game.compTargeting a b = HIT ∨
            game.compTargeting a b = SINK) →
          game1.compTargeting a b = game.compTargeting a b ∨
          game1.compTargeting a b = SINK)) ∧
    (∀ (n : Nat) (game gameM : Game) (targetList : List (Int × Int)),
      game.compTargets n = some (gameM, targetList) →
      gameM.playerTargeting = game.playerTargeting ∧
      (∀ a b, gameM.compTargeting a b = game.compTargeting a b ∨
        (gameM.compTargeting a b = MISS ∧ (b, a) ∈ targetList ∧
          game.compTargeting a b ≠ HIT ∧ game.compTargeting a b ≠ MISS ∧
          game.compTargeting a b ≠ SINK)) ∧
      (∀ t ∈ targetList, gameM.compTargeting t.2 t.1 = MISS ∧
        game.compTargeting t.2 t.1 ≠ HIT ∧ game.compTargeting t.2 t.1 ≠ MISS ∧
        game.compTargeting t.2 t.1 ≠ SINK) ∧
      ∀ (rnd : Nat → Nat) (game2 : Game),
        gameM.checkHits Player.COMP rnd 0 targetList = some game2 →
        ∀ t ∈ targetList,
          game2.compTargeting t.2 t.1 = game2.userShips t.2 t.1 ∧
          (game2.compTargeting t.2 t.1 = MISS ∨ game2.compTargeting t.2 t.1 = HIT ∨
            game2.compTargeting t.2 t.1 = SINK ∨ game2.compTargeting t.2 t.1 = SHOT_DOWN)) := by
  refine ⟨?_, ?_, ?_, ?_⟩
  · intro game game1 target p rnd hres
    refine ⟨fun a b => ?_, fun h99 h999 => checkHit_target_cell game game1 target p rnd h99 h999 hres⟩
    obtain ⟨hto, ht⟩ := checkHit_targeting_cell game game1 target p rnd hres a b
    refine ⟨hto, fun hne => ?_⟩
    rcases ht with ht | ⟨hc, _⟩ | ⟨ht, _, ship, hs, hm, hsunk⟩
    · exact Or.inl ht
    · exact absurd hc hne
    · exact Or.inr ⟨ht, ship, hs, hm, hsunk⟩
  · intro game game1 inputs rest rnd h a b hab
    unfold Game.PlayerTurn at h
    cases hp : game.playerTargets inputs with
    | none =>
      simp only [hp] at h
      exact absurd h (by simp)
    | some r =>
      obtain ⟨targetList, rest1⟩ := r
      simp only [hp] at h
      cases hc : game.checkHits Player.USER rnd 0 targetList with
      | none =>
        simp only [hc] at h
        exact absurd h (by simp)
      | some game2 =>
        simp only [hc, Option.some.injEq, Prod.mk.injEq] at h
        obtain ⟨hg, _⟩ := h
        subst hg
        obtain ⟨ho, hcell⟩ := checkHits_frame Player.USER rnd targetList game game2 0 hc a b
        refine ⟨ho, fun hold => hcell (fun t ht he => ?_)⟩
        have ha : a = t.2 := congrArg Prod.fst he
        have hb : b = t.1 := congrArg Prod.snd he
        unfold onBoard at hab
        rcases playerTargets_target game inputs rest1 targetList hp t ht with
          h1 | h1 | h1 | h1
        · omega
        · omega
        · rw [← ha, ← hb] at h1
          rw [h1] at hold
          rcases hold with h2 | h2 | h2 <;> exact absurd h2 (by decide)
        · rw [← ha, ← hb] at h1
          rw [h1] at hold
          rcases hold with h2 | h2 | h2 <;> exact absurd h2 (by decide)
  · intro game game1 rnd h a b _
    rw [compTurn_eq] at h
    cases hc : game.compTurnTargets with
    | none =>
      simp only [hc] at h
      exact absurd h (by simp)
    | some r =>
      obtain ⟨gameM, targetList⟩ := r
      simp only [hc] at h
      obtain ⟨ho, hcell⟩ := checkHits_frame Player.COMP rnd targetList gameM game1 0 h a b
      have hM : gameM.playerTargeting = game.playerTargeting ∧
          (∀ a b, zeroed game a b → gameM.compTargeting a b = game.compTargeting a b) ∧
          ∀ t ∈ targetList, ¬ zeroed game t.2 t.1 := by
        unfold Game.compTurnTargets at hc
        by_cases hm : game.gameType = Gametype.MULTIFIRE ∨ game.gameType = Gametype.HARDCORE
        · rw [if_pos hm] at hc
          obtain ⟨hframe, hcells⟩ := compTargets_cells _ game gameM targetList hc
          refine ⟨hframe.2.2.2.2.1, fun a b hz => ?_, fun t ht =>
            ((compTargets_nodup _ game gameM targetList hc).2 t ht).2.1⟩
          rcases hcells a b with h1 | ⟨_, h2, _⟩
          · exact h1
          · exact absurd hz h2
        · rw [if_neg hm] at hc
          cases he : EvaluateGrid game (SmallestShipAlive game) with
          | none =>
            simp only [he] at hc
            exact absurd hc (by simp)
          | some t0 =>
            simp only [he, Option.some.injEq, Prod.mk.injEq] at hc
            obtain ⟨hg, hl⟩ := hc
            subst hg
            subst hl
            refine ⟨rfl, fun _ _ _ => rfl, fun t ht => ?_⟩
            rw [List.mem_singleton] at ht
            subst ht
            exact (evaluateGrid_cell game _ t he).2
      obtain ⟨hpt, hkeep, hfree⟩ := hM
      refine ⟨?_, fun hold => ?_⟩
      · have : game1.playerTargeting a b = gameM.playerTargeting a b := ho
        rw [this, hpt]
      · have hz : zeroed game a b := by
          rcases hold with h1 | h1 | h1
          · exact Or.inr (Or.inl h1)
          · exact Or.inl h1
          · exact Or.inr (Or.inr h1)
        have hres := hcell (fun t ht he => by
          have ha : a = t.2 := congrArg Prod.fst he
          have hb : b = t.1 := congrArg Prod.snd he
          rw [ha, hb] at hz
          exact hfree t ht hz)
        have hk := hkeep a b hz
        rcases hres with h1 | h1
        · exact Or.inl (h1.trans hk)
        · exact Or.inr h1
  · intro n game gameM targetList h
    obtain ⟨hframe, hcells⟩ := compTargets_cells n game gameM targetList h
    obtain ⟨_, hts⟩ := compTargets_nodup n game gameM targetList h
    refine ⟨hframe.2.2.2.2.1, fun a b => ?_, fun t ht => ?_, fun rnd game2 h2 t ht => ?_⟩
    · rcases hcells a b with h1 | ⟨h1, h2, h3⟩
      · exact Or.inl h1
      · refine Or.inr ⟨h1, h3, ?_, ?_, ?_⟩
        · exact fun h => h2 (Or.inl h)
        · exact fun h => h2 (Or.inr (Or.inl h))
        · exact fun h => h2 (Or.inr (Or.inr h))
    · obtain ⟨_, hz, hm⟩ := hts t ht
      exact ⟨hm, fun h => hz (Or.inl h), fun h => hz (Or.inr (Or.inl h)),
        fun h => hz (Or.inr (Or.inr h))⟩
    · have hres := checkHits_comp_resolved rnd targetList gameM game2 0
        (fun t1 ht1 => by
          have hb := (hts t1 ht1).1
          unfold onBoard at hb
          constructor <;> omega)
        h2 t.2 t.1 (Or.inr ht)
      exact ⟨hres.1.symm, hres.2⟩

/-- C30, witness: the computer's hit at `(0, 8)` in the placed CLASSIC game;
the user's first turn of five shots in the placed MULTIFIRE game; the
computer's turn in `centreGame CLASSIC`, a shot at `(4, 4)`; and the first
target `(4, 4)` the computer selects in `centreGame MULTIFIRE`, MISS when the
collection ends and resolved by `CheckHit`. -/
theorem targeting_cells_forward_witness :
    (∀ a b, userDestroyerHit.targetingOf Player.COMP.opponent a b =
        (placedGame Gametype.CLASSIC).targetingOf Player.COMP.opponent a b ∧
      ((a, b) ≠ (((8 : Int), (0 : Int)).2, ((8 : Int), (0 : Int)).1) →
        userDestroyerHit.targetingOf Player.COMP a b =
            (placedGame Gametype.CLASSIC).targetingOf Player.COMP a b ∨
        (userDestroyerHit.targetingOf Player.COMP a b = SINK ∧
          ∃ ship, ((placedGame Gametype.CLASSIC).fleetOf Player.COMP.opponent)[
              (placedGame Gametype.CLASSIC).GetShip
                (((8 : Int), (0 : Int)).2, ((8 : Int), (0 : Int)).1) Player.COMP]? = some ship ∧
            (a, b) ∈ ship.shipCoords ∧ ship.Damage.shipState = ShipState.SUNK))) ∧
    userDestroyerHit.compTargeting 0 8 = HIT ∧
    (∃ game1, (placedGame Gametype.MULTIFIRE).PlayerTurn
        [FireInput.coords 8 0, FireInput.coords 8 1, FireInput.coords 1 0,
          FireInput.coords 1 1, FireInput.coords 1 2] (fun _ => 0) = some (game1, []) ∧
      ∀ a b, onBoard a b →
        game1.compTargeting a b = (placedGame Gametype.MULTIFIRE).compTargeting a b ∧
        (((placedGame Gametype.MULTIFIRE).playerTargeting a b = MISS ∨
            (placedGame Gametype.MULTIFIRE).playerTargeting a b = HIT ∨
            (placedGame Gametype.MULTIFIRE).playerTargeting a b = SINK) →
          game1.playerTargeting a b = (placedGame Gametype.MULTIFIRE).playerTargeting a b ∨
          game1.playerTargeting a b = SINK)) ∧
    (∃ game1, (centreGame Gametype.CLASSIC).CompTurn (fun _ => 0) = some game1 ∧
      ∀ a b, onBoard a b →
        game1.playerTargeting a b = (centreGame Gametype.CLASSIC).playerTargeting a b ∧
        (((centreGame Gametype.CLASSIC).compTargeting a b = MISS ∨
            (centreGame Gametype.CLASSIC).compTargeting a b = HIT ∨
            (centreGame Gametype.CLASSIC).compTargeting a b = SINK) →
          game1.compTargeting a b = (centreGame Gametype.CLASSIC).compTargeting a b ∨
          game1.compTargeting a b = SINK)) ∧
    (centreGame Gametype.MULTIFIRE).compTargets 1 = some (centreMarked, [(4, 4)]) ∧
    (centreGame Gametype.MULTIFIRE).compTargeting 4 4 = EMPTY ∧
    centreMarked.compTargeting 4 4 = MISS ∧
    (∀ (rnd : Nat → Nat) (game2 : Game),
      centreMarked.checkHits Player.COMP rnd 0 [(4, 4)] = some game2 →
      game2.compTargeting 4 4 = game2.userShips 4 4 ∧
      (game2.compTargeting 4 4 = MISS ∨ game2.compTargeting 4 4 = HIT ∨
        game2.compTargeting 4 4 = SINK ∨ game2.compTargeting 4 4 = SHOT_DOWN)) := by
  have hone := targeting_cells_forward.2.2.2 1 (centreGame Gametype.MULTIFIRE) centreMarked
    [(4, 4)] (compTargets_centre_one Gametype.MULTIFIRE)
  refine ⟨(targeting_cells_forward.1 (placedGame Gametype.CLASSIC) userDestroyerHit (8, 0)
      Player.COMP 0 rfl).1, by decide, ?_, ?_, compTargets_centre_one Gametype.MULTIFIRE,
    by decide, by decide, fun rnd game2 h2 => hone.2.2.2 rnd game2 h2 (4, 4) (by simp)⟩
  · obtain ⟨⟨game1, rest⟩, hr, hrest⟩ := exists_of_map_decide
      ((placedGame Gametype.MULTIFIRE).PlayerTurn
        [FireInput.coords 8 0, FireInput.coords 8 1, FireInput.coords 1 0,
          FireInput.coords 1 1, FireInput.coords 1 2] (fun _ => 0))
      (fun r => r.2 = []) (by decide)
    simp only at hrest
    subst hrest
    exact ⟨game1, hr, targeting_cells_forward.2.1 _ game1 _ _ _ hr⟩
  · obtain ⟨game1, h1, _⟩ := exists_of_map_decide
      ((centreGame Gametype.CLASSIC).CheckHit (4, 4) Player.COMP 0)
      (fun g => g.compTargeting 4 4 = HIT) (by decide)
    have hc : (centreGame Gametype.CLASSIC).CompTurn (fun _ => 0) = some game1 := by
      rw [compTurn_single (centreGame Gametype.CLASSIC) (fun _ => 0) (4, 4) (by decide)
        (by rw [smallestShipAlive_centre]; exact evaluateGrid_centre Gametype.CLASSIC)]
      exact h1
    exact ⟨game1, hc, targeting_cells_forward.2.2.1 _ game1 _ hc⟩

/-! ## EMPTY cells when the smallest ship afloat has two cells (C35) -/

/-- C35: for `s ≤ 2` every EMPTY cell of the board ends `EvaluateGrid` with a
weight of at least 2; hence when the board has an EMPTY cell a cell is
selected, its weight is the greatest of the board and at least 2, so positive,
and the cell is not HIT, MISS or SINK: it is EMPTY or SHOT_DOWN on every grid
without a SHIP cell, which `compTargeting` is in every game reached by turns
of the user and of the computer from a game with EMPTY targeting grids (no
function writes SHIP to a targeting grid). -/
theorem emptyCell_weight_at_least_two (game : Game) (s : Int) (hs : s ≤ 2) :
    (∀ a b, onBoard a b → game.compTargeting a b = EMPTY → 2 ≤ finalWeights game s a b) ∧
    ((∃ a b, onBoard a b ∧ game.compTargeting a b = EMPTY) →
      ∃ hx hy, onBoard hx hy ∧ EvaluateGrid game s = some (hy, hx) ∧
        2 ≤ finalWeights game s hx hy ∧
        (∀ a b, onBoard a b → finalWeights game s a b ≤ finalWeights game s hx hy) ∧
        game.compTargeting hx hy ≠ HIT ∧ game.compTargeting hx hy ≠ MISS ∧
        game.compTargeting hx hy ≠ SINK ∧
        ((∀ a b, onBoard a b → game.compTargeting a b ≠ SHIP) →
          game.compTargeting hx hy = EMPTY ∨ game.compTargeting hx hy = SHOT_DOWN) ∧
        (∀ (start : Game) (shots : List Shot),
          (∀ side a b, start.targetingOf side a b = EMPTY) → start.ReachedBy game shots →
          game.compTargeting hx hy = EMPTY ∨ game.compTargeting hx hy = SHOT_DOWN)) := by
  have hall : ∀ a b, onBoard a b → game.compTargeting a b = EMPTY →
      2 ≤ finalWeights game s a b := by
    intro a b hab hE
    rw [finalWeights_apply game s a b hab,
      settled_of_not_zeroed game _ a b (not_zeroed_of_empty game a b hE)]
    exact weighGrid_two_of_empty game s a b hab hs hE
  refine ⟨hall, ?_⟩
  rintro ⟨a, b, hab, hE⟩
  have h2 := hall a b hab hE
  rw [finalWeights_apply game s a b hab] at h2
  obtain ⟨hx, hy, hb, hres, hp, hmax⟩ := evaluateGrid_some game s ⟨a, b, hab, by omega⟩
  have hz := settled_pos_not_zeroed game _ hx hy hp
  unfold zeroed at hz
  have hcell : game.compTargeting hx hy ≠ SHIP →
      game.compTargeting hx hy = EMPTY ∨ game.compTargeting hx hy = SHOT_DOWN := by
    intro h1
    cases hst : game.compTargeting hx hy
    · exact absurd (Or.inr (Or.inl hst)) hz
    · exact absurd (Or.inl hst) hz
    · exact Or.inl rfl
    · exact absurd hst h1
    · exact absurd (Or.inr (Or.inr hst)) hz
    · exact Or.inr rfl
  refine ⟨hx, hy, hb, hres, ?_, ?_, fun h => hz (Or.inl h), fun h => hz (Or.inr (Or.inl h)),
    fun h => hz (Or.inr (Or.inr h)), fun hnoship => hcell (hnoship hx hy hb), ?_⟩
  · rw [finalWeights_apply game s hx hy hb]
    exact le_trans h2 (hmax a b hab).1
  · intro a' b' hab'
    rw [finalWeights_apply game s a' b' hab', finalWeights_apply game s hx hy hb]
    exact (hmax a' b' hab').1
  · intro start shots hstart hreach
    exact hcell (observedOnly_reached start game shots hstart hreach Player.COMP hx hy).1

/-- C35, witness: `s = 2` on the grid with the single EMPTY cell `(0, 0)`, and
in the placed CLASSIC game before the first shot. -/
theorem emptyCell_weight_at_least_two_witness :
    (2 : Int) ≤ 2 ∧
    (∀ a b, onBoard a b → lonelyCell.compTargeting a b = EMPTY →
      2 ≤ finalWeights lonelyCell 2 a b) ∧
    (∃ a b, onBoard a b ∧ lonelyCell.compTargeting a b = EMPTY) ∧
    (∃ hx hy, onBoard hx hy ∧ EvaluateGrid lonelyCell 2 = some (hy, hx) ∧
      2 ≤ finalWeights lonelyCell 2 hx hy ∧
      (lonelyCell.compTargeting hx hy = EMPTY ∨ lonelyCell.compTargeting hx hy = SHOT_DOWN)) ∧
    (∀ side a b, (placedGame Gametype.CLASSIC).targetingOf side a b = EMPTY) ∧
    (placedGame Gametype.CLASSIC).ReachedBy (placedGame Gametype.CLASSIC) [] ∧
    (∃ hx hy, onBoard hx hy ∧ EvaluateGrid (placedGame Gametype.CLASSIC) 2 = some (hy, hx) ∧
      ((placedGame Gametype.CLASSIC).compTargeting hx hy = EMPTY ∨
        (placedGame Gametype.CLASSIC).compTargeting hx hy = SHOT_DOWN)) := by
  have hstart : ∀ side a b, (placedGame Gametype.CLASSIC).targetingOf side a b = EMPTY := by
    intro side a b
    cases side <;> rfl
  have hlonely : ∃ a b, onBoard a b ∧ lonelyCell.compTargeting a b = EMPTY :=
    ⟨0, 0, by decide, by decide⟩
  obtain ⟨hx, hy, hb, hres, h2, _, _, _, _, hgrid, _⟩ :=
    (emptyCell_weight_at_least_two lonelyCell 2 (le_refl _)).2 hlonely
  obtain ⟨px, py, pb, pres, _, _, _, _, _, _, preach⟩ :=
    (emptyCell_weight_at_least_two (placedGame Gametype.CLASSIC) 2 (le_refl _)).2
      ⟨0, 0, by decide, rfl⟩
  refine ⟨le_refl _, (emptyCell_weight_at_least_two lonelyCell 2 (le_refl _)).1, hlonely,
    ⟨hx, hy, hb, hres, h2, hgrid fun a b _ => ?_⟩, hstart, Game.ReachedBy.init,
    ⟨px, py, pb, pres, preach _ [] hstart Game.ReachedBy.init⟩⟩
  show (if a = 0 ∧ b = 0 then SquareState.EMPTY else SquareState.MISS) ≠ SHIP
  split_ifs <;> simp

/-! ## The array accesses of `EvaluateGrid` (C40) -/

theorem foldl_flatMap_eq {α β γ : Type} (l : List α) (f : α → List β) (g : γ → β → γ) (init : γ) :
    (l.flatMap f).foldl g init = l.foldl (fun acc a => (f a).foldl g acc) init := by
  induction l generalizing init with
  | nil => rfl
  | cons a tl ih => simp only [List.flatMap_cons, List.foldl_append, List.foldl_cons, ih]

theorem readsUntil_apply (game : Game) (cells : List (Int × Int)) (t : Weights) :
    (readsUntil game cells).foldl Access.apply t = t := by
  induction cells with
  | nil => rfl
  | cons c tl ih =>
    unfold readsUntil
    simp only [List.foldl_cons, Access.apply]
    split_ifs
    · rfl
    · exact ih

theorem mem_readsUntil (game : Game) (cells : List (Int × Int)) (acc : Access)
    (h : acc ∈ readsUntil game cells) : acc.index ∈ cells := by
  induction cells with
  | nil => simp [readsUntil] at h
  | cons c tl ih =>
    unfold readsUntil at h
    rcases List.mem_cons.1 h with rfl | hm
    · exact List.mem_cons_self _ _
    · split_ifs at hm
      · simp at hm
      · exact List.mem_cons_of_mem _ (ih hm)

/-- The cells the loop of an `Eval` function reads decide its result: no cell
of the run is MISS or SINK exactly when no cell read is. -/
theorem readsUntil_all (game : Game) (cells : List (Int × Int)) :
    (cells.all fun c => !(decide (game.compTargeting c.1 c.2 = MISS)
        || decide (game.compTargeting c.1 c.2 = SINK))) =
      ((readsUntil game cells).all fun acc =>
        !(decide (game.compTargeting acc.index.1 acc.index.2 = MISS)
          || decide (game.compTargeting acc.index.1 acc.index.2 = SINK))) := by
  induction cells with
  | nil => rfl
  | cons c tl ih =>
    unfold readsUntil
    by_cases hc : game.compTargeting c.1 c.2 = MISS ∨ game.compTargeting c.1 c.2 = SINK
    · rw [if_pos hc]
      rcases hc with h | h <;> simp [Access.index, h]
    · rw [if_neg hc, List.all_cons, List.all_cons, ih]
      rfl

theorem evalUpAccesses_apply (game : Game) (x y s : Int) (t : Weights) :
    (evalUpAccesses game x y s).foldl Access.apply t = t := by
  unfold evalUpAccesses
  split_ifs
  · rfl
  · exact readsUntil_apply _ _ _

theorem evalDownAccesses_apply (game : Game) (x y s : Int) (t : Weights) :
    (evalDownAccesses game x y s).foldl Access.apply t = t := by
  unfold evalDownAccesses
  split_ifs
  · rfl
  · exact readsUntil_apply _ _ _

theorem evalLeftAccesses_apply (game : Game) (x y s : Int) (t : Weights) :
    (evalLeftAccesses game x y s).foldl Access.apply t = t := by
  unfold evalLeftAccesses
  split_ifs
  · rfl
  · exact readsUntil_apply _ _ _

theorem evalRightAccesses_apply (game : Game) (x y s : Int) (t : Weights) :
    (evalRightAccesses game x y s).foldl Access.apply t = t := by
  unfold evalRightAccesses
  split_ifs
  · rfl
  · exact readsUntil_apply _ _ _

theorem lengthAccesses_apply (game : Game) (x y i : Int) (t : Weights) :
    (lengthAccesses game x y i).foldl Access.apply t = lengthStep game x y i t := by
  unfold lengthAccesses lengthStep runUpAccesses runDownAccesses runLeftAccesses
    runRightAccesses runUp runDown runLeft runRight
  simp only [List.foldl_append, evalUpAccesses_apply, evalDownAccesses_apply,
    evalLeftAccesses_apply, evalRightAccesses_apply]
  split_ifs <;> simp only [List.foldl_map, List.foldl_nil, Access.apply]

theorem emptyAccesses_apply (game : Game) (s x y : Int) (t : Weights) :
    (emptyAccesses game s x y).foldl Access.apply t = emptyStep game s x y t := by
  unfold emptyAccesses emptyStep
  rw [foldl_flatMap_eq]
  congr 1
  funext acc k
  exact lengthAccesses_apply game x y _ acc

theorem hitUpAccesses_apply (game : Game) (x y : Int) (t : Weights) :
    (hitUpAccesses game x y).foldl Access.apply t = hitUp game x y t := by
  unfold hitUpAccesses hitUp
  simp only [List.foldl_append, evalUpAccesses_apply]
  split_ifs <;>
    simp only [List.foldl_append, evalUpAccesses_apply, List.foldl_cons, List.foldl_nil,
      Access.apply]

theorem hitDownAccesses_apply (game : Game) (x y : Int) (t : Weights) :
    (hitDownAccesses game x y).foldl Access.apply t = hitDown game x y t := by
  unfold hitDownAccesses hitDown
  simp only [List.foldl_append, evalDownAccesses_apply]
  split_ifs <;>
    simp only [List.foldl_append, evalDownAccesses_apply, List.foldl_cons, List.foldl_nil,
      Access.apply]

theorem hitLeftAccesses_apply (game : Game) (x y : Int) (t : Weights) :
    (hitLeftAccesses game x y).foldl Access.apply t = hitLeft game x y t := by
  unfold hitLeftAccesses hitLeft
  simp only [List.foldl_append, evalLeftAccesses_apply]
  split_ifs <;>
    simp only [List.foldl_append, evalLeftAccesses_apply, List.foldl_cons, List.foldl_nil,
      Access.apply]

theorem hitRightAccesses_apply (game : Game) (x y : Int) (t : Weights) :
    (hitRightAccesses game x y).foldl Access.apply t = hitRight game x y t := by
  unfold hitRightAccesses hitRight
  simp only [List.foldl_append, evalRightAccesses_apply]
  split_ifs <;>
    simp only [List.foldl_append, evalRightAccesses_apply, List.foldl_cons, List.foldl_nil,
      Access.apply]

theorem hitAccesses_apply (game : Game) (x y : Int) (t : Weights) :
    (hitAccesses game x y).foldl Access.apply t = hitStep game x y t := by
  unfold hitAccesses hitStep
  simp only [List.foldl_append, hitUpAccesses_apply, hitDownAccesses_apply,
    hitLeftAccesses_apply, hitRightAccesses_apply]

theorem cellAccesses_apply (game : Game) (s x y : Int) (t : Weights) :
    (cellAccesses game s x y).foldl Access.apply t = cellStep game s x y t := by
  unfold cellAccesses cellStep
  simp only [List.foldl_cons, Access.apply]
  cases game.compTargeting x y
  · rfl
  · exact hitAccesses_apply game x y t
  · exact emptyAccesses_apply game s x y t
  · rfl
  · rfl
  · rfl

/-- The writes listed for the first pair of loops are the writes of the
loops: applied to the zero map they give the weight map. -/
theorem weighAccesses_apply (game : Game) (s : Int) :
    (weighAccesses game s).foldl Access.apply zeroWeights = weighGrid game s := by
  unfold weighAccesses weighGrid
  rw [foldl_flatMap_eq]
  congr 1
  funext acc x
  rw [foldl_flatMap_eq]
  congr 1
  funext acc2 y
  exact cellAccesses_apply game s x y acc2

theorem foldl_tmp {α : Type} (l : List α) (f : Selection → α → Selection)
    (g : Weights → α → Weights) (hfg : ∀ st a, (f st a).tmp = g st.tmp a) (st : Selection) :
    (l.foldl f st).tmp = l.foldl g st.tmp := by
  induction l generalizing st with
  | nil => rfl
  | cons a tl ih => simp only [List.foldl_cons, ih, hfg]

/-- The writes listed for the second pair of loops are the writes of the
loops. -/
theorem selectAccesses_apply (game : Game) (tmp : Weights) :
    (selectAccesses game).foldl Access.apply tmp = (selectLoop game tmp).tmp := by
  unfold selectAccesses selectLoop
  rw [foldl_flatMap_eq]
  symm
  apply foldl_tmp
  intro st x
  rw [foldl_flatMap_eq]
  apply foldl_tmp
  intro st2 y
  unfold selectStep
  simp only [List.foldl_cons, List.foldl_append, List.foldl_nil, Access.apply]
  by_cases hz : game.compTargeting x y = HIT ∨ game.compTargeting x y = MISS
      ∨ game.compTargeting x y = SINK
  · simp only [if_pos hz, List.foldl_cons, List.foldl_nil, Access.apply]
    split_ifs <;> rfl
  · simp only [if_neg hz, List.foldl_nil]
    split_ifs <;> rfl

theorem all_map_cells (l : List Nat) (f : Nat → Int × Int) (p : Int × Int → Bool) :
    (l.map f).all p = l.all fun k => p (f k) := by
  induction l with
  | nil => rfl
  | cons a tl ih => simp only [List.map_cons, List.all_cons, ih]

/-- `EvalUp` is decided by the bound test and the cells listed as read. -/
theorem evalUp_eq_reads (game : Game) (x y s : Int) :
    EvalUp game x y s = (decide (¬ y - (s - 1) < 0) &&
      (evalUpAccesses game x y s).all fun acc =>
        !(decide (game.compTargeting acc.index.1 acc.index.2 = MISS)
          || decide (game.compTargeting acc.index.1 acc.index.2 = SINK))) := by
  unfold EvalUp evalUpAccesses
  by_cases hb : y - (s - 1) < 0
  · simp [hb]
  · rw [if_neg hb, if_neg hb, ← readsUntil_all, all_map_cells]
    simp [hb]

/-- `EvalDown` is decided by the bound test and the cells listed as read. -/
theorem evalDown_eq_reads (game : Game) (x y s : Int) :
    EvalDown game x y s = (decide (¬ y + (s - 1) > 9) &&
      (evalDownAccesses game x y s).all fun acc =>
        !(decide (game.compTargeting acc.index.1 acc.index.2 = MISS)
          || decide (game.compTargeting acc.index.1 acc.index.2 = SINK))) := by
  unfold EvalDown evalDownAccesses
  by_cases hb : y + (s - 1) > 9
  · simp [hb]
  · rw [if_neg hb, if_neg hb, ← readsUntil_all, all_map_cells]
    simp [hb]

/-- `EvalLeft` is decided by the bound test and the cells listed as read. -/
theorem evalLeft_eq_reads (game : Game) (x y s : Int) :
    EvalLeft game x y s = (decide (¬ x - (s - 1) < 0) &&
      (evalLeftAccesses game x y s).all fun acc =>
        !(decide (game.compTargeting acc.index.1 acc.index.2 = MISS)
          || decide (game.compTargeting acc.index.1 acc.index.2 = SINK))) := by
  unfold EvalLeft evalLeftAccesses
  by_cases hb : x - (s - 1) < 0
  · simp [hb]
  · rw [if_neg hb, if_neg hb, ← readsUntil_all, all_map_cells]
    simp [hb]

/-- `EvalRight` is decided by the bound test and the cells listed as read. -/
theorem evalRight_eq_reads (game : Game) (x y s : Int) :
    EvalRight game x y s = (decide (¬ x + (s - 1) > 9) &&
      (evalRightAccesses game x y s).all fun acc =>
        !(decide (game.compTargeting acc.index.1 acc.index.2 = MISS)
          || decide (game.compTargeting acc.index.1 acc.index.2 = SINK))) := by
  unfold EvalRight evalRightAccesses
  by_cases hb : x + (s - 1) > 9
  · simp [hb]
  · rw [if_neg hb, if_neg hb, ← readsUntil_all, all_map_cells]
    simp [hb]

theorem evalUpAccesses_onBoard (game : Game) (x y s : Int) (hxy : onBoard x y) :
    ∀ acc ∈ evalUpAccesses game x y s, onBoard acc.index.1 acc.index.2 := by
  intro acc hacc
  unfold evalUpAccesses at hacc
  split_ifs at hacc with hb
  · simp at hacc
  · obtain ⟨k, hk, hidx⟩ := List.mem_map.1 (mem_readsUntil game _ acc hacc)
    rw [List.mem_range] at hk
    rw [← hidx]
    unfold onBoard at hxy ⊢
    simp only
    omega

theorem evalDownAccesses_onBoard (game : Game) (x y s : Int) (hxy : onBoard x y) :
    ∀ acc ∈ evalDownAccesses game x y s, onBoard acc.index.1 acc.index.2 := by
  intro acc hacc
  unfold evalDownAccesses at hacc
  split_ifs at hacc with hb
  · simp at hacc
  · obtain ⟨k, hk, hidx⟩ := List.mem_map.1 (mem_readsUntil game _ acc hacc)
    rw [List.mem_range] at hk
    rw [← hidx]
    unfold onBoard at hxy ⊢
    simp only
    omega

theorem evalLeftAccesses_onBoard (game : Game) (x y s : Int) (hxy : onBoard x y) :
    ∀ acc ∈ evalLeftAccesses game x y s, onBoard acc.index.1 acc.index.2 := by
  intro acc hacc
  unfold evalLeftAccesses at hacc
  split_ifs at hacc with hb
  · simp at hacc
  · obtain ⟨k, hk, hidx⟩ := List.mem_map.1 (mem_readsUntil game _ acc hacc)
    rw [List.mem_range] at hk
    rw [← hidx]
    unfold onBoard at hxy ⊢
    simp only
    omega

theorem evalRightAccesses_onBoard (game : Game) (x y s : Int) (hxy : onBoard x y) :
    ∀ acc ∈ evalRightAccesses game x y s, onBoard acc.index.1 acc.index.2 := by
  intro acc hacc
  unfold evalRightAccesses at hacc
  split_ifs at hacc with hb
  · simp at hacc
  · obtain ⟨k, hk, hidx⟩ := List.mem_map.1 (mem_readsUntil game _ acc hacc)
    rw [List.mem_range] at hk
    rw [← hidx]
    unfold onBoard at hxy ⊢
    simp only
    omega

theorem lengthAccesses_onBoard (game : Game) (x y i : Int) (hxy : onBoard x y) :
    ∀ acc ∈ lengthAccesses game x y i, onBoard acc.index.1 acc.index.2 := by
  intro acc hacc
  unfold lengthAccesses runUpAccesses runDownAccesses runLeftAccesses runRightAccesses at hacc
  simp only [List.mem_append] at hacc
  rcases hacc with ((((h | h) | (h | h)) | (h | h)) | (h | h))
  · exact evalUpAccesses_onBoard game x y i hxy acc h
  · split_ifs at h with he
    · obtain ⟨n, hn, rfl⟩ := List.mem_map.1 h
      rw [List.mem_range] at hn
      have := evalUp_bound game x y i he
      unfold onBoard at hxy ⊢
      simp only [Access.index]
      omega
    · simp at h
  · exact evalDownAccesses_onBoard game x y i hxy acc h
  · split_ifs at h with he
    · obtain ⟨n, hn, rfl⟩ := List.mem_map.1 h
      rw [List.mem_range] at hn
      have := evalDown_bound game x y i he
      unfold onBoard at hxy ⊢
      simp only [Access.index]
      omega
    · simp at h
  · exact evalLeftAccesses_onBoard game x y i hxy acc h
  · split_ifs at h with he
    · obtain ⟨n, hn, rfl⟩ := List.mem_map.1 h
      rw [List.mem_range] at hn
      have := evalLeft_bound game x y i he
      unfold onBoard at hxy ⊢
      simp only [Access.index]
      omega
    · simp at h
  · exact evalRightAccesses_onBoard game x y i hxy acc h
  · split_ifs at h with he
    · obtain ⟨n, hn, rfl⟩ := List.mem_map.1 h
      rw [List.mem_range] at hn
      have := evalRight_bound game x y i he
      unfold onBoard at hxy ⊢
      simp only [Access.index]
      omega
    · simp at h

theorem hitUpAccesses_onBoard (game : Game) (x y : Int) (hxy : onBoard x y) :
    ∀ acc ∈ hitUpAccesses game x y, onBoard acc.index.1 acc.index.2 := by
  intro acc hacc
  unfold hitUpAccesses at hacc
  rcases List.mem_append.1 hacc with h | h
  · exact evalUpAccesses_onBoard game x y 3 hxy acc h
  · by_cases h3 : EvalUp game x y 3 = true
    · rw [if_pos h3] at h
      have := evalUp_bound game x y 3 h3
      unfold onBoard at hxy ⊢
      simp only [List.mem_cons, List.mem_singleton, List.not_mem_nil, or_false] at h
      rcases h with rfl | rfl <;> (simp only [Access.index]; omega)
    · rw [if_neg h3] at h
      rcases List.mem_append.1 h with h' | h'
      · exact evalUpAccesses_onBoard game x y 2 hxy acc h'
      · by_cases h2 : EvalUp game x y 2 = true
        · rw [if_pos h2] at h'
          have := evalUp_bound game x y 2 h2
          unfold onBoard at hxy ⊢
          simp only [List.mem_singleton] at h'
          subst h'
          simp only [Access.index]
          omega
        · rw [if_neg h2] at h'
          simp at h'

theorem hitDownAccesses_onBoard (game : Game) (x y : Int) (hxy : onBoard x y) :
    ∀ acc ∈ hitDownAccesses game x y, onBoard acc.index.1 acc.index.2 := by
  intro acc hacc
  unfold hitDownAccesses at hacc
  rcases List.mem_append.1 hacc with h | h
  · exact evalDownAccesses_onBoard game x y 3 hxy acc h
  · by_cases h3 : EvalDown game x y 3 = true
    · rw [if_pos h3] at h
      have := evalDown_bound game x y 3 h3
      unfold onBoard at hxy ⊢
      simp only [List.mem_cons, List.mem_singleton, List.not_mem_nil, or_false] at h
      rcases h with rfl | rfl <;> (simp only [Access.index]; omega)
    · rw [if_neg h3] at h
      rcases List.mem_append.1 h with h' | h'
      · exact evalDownAccesses_onBoard game x y 2 hxy acc h'
      · by_cases h2 : EvalDown game x y 2 = true
        · rw [if_pos h2] at h'
          have := evalDown_bound game x y 2 h2
          unfold onBoard at hxy ⊢
          simp only [List.mem_singleton] at h'
          subst h'
          simp only [Access.index]
          omega
        · rw [if_neg h2] at h'
          simp at h'

theorem hitLeftAccesses_onBoard (game : Game) (x y : Int) (hxy : onBoard x y) :
    ∀ acc ∈ hitLeftAccesses game x y, onBoard acc.index.1 acc.index.2 := by
  intro acc hacc
  unfold hitLeftAccesses at hacc
  rcases List.mem_append.1 hacc with h | h
  · exact evalLeftAccesses_onBoard game x y 3 hxy acc h
  · by_cases h3 : EvalLeft game x y 3 = true
    · rw [if_pos h3] at h
      have := evalLeft_bound game x y 3 h3
      unfold onBoard at hxy ⊢
      simp only [List.mem_cons, List.mem_singleton, List.not_mem_nil, or_false] at h
      rcases h with rfl | rfl <;> (simp only [Access.index]; omega)
    · rw [if_neg h3] at h
      rcases List.mem_append.1 h with h' | h'
      · exact evalLeftAccesses_onBoard game x y 2 hxy acc h'
      · by_cases h2 : EvalLeft game x y 2 = true
        · rw [if_pos h2] at h'
          have := evalLeft_bound game x y 2 h2
          unfold onBoard at hxy ⊢
          simp only [List.mem_singleton] at h'
          subst h'
          simp only [Access.index]
          omega
        · rw [if_neg h2] at h'
          simp at h'

theorem hitRightAccesses_onBoard (game : Game) (x y : Int) (hxy : onBoard x y) :
    ∀ acc ∈ hitRightAccesses game x y, onBoard acc.index.1 acc.index.2 := by
  intro acc hacc
  unfold hitRightAccesses at hacc
  rcases List.mem_append.1 hacc with h | h
  · exact evalRightAccesses_onBoard game x y 3 hxy acc h
  · by_cases h3 : EvalRight game x y 3 = true
    · rw [if_pos h3] at h
      have := evalRight_bound game x y 3 h3
      unfold onBoard at hxy ⊢
      simp only [List.mem_cons, List.mem_singleton, List.not_mem_nil, or_false] at h
      rcases h with rfl | rfl <;> (simp only [Access.index]; omega)
    · rw [if_neg h3] at h
      rcases List.mem_append.1 h with h' | h'
      · exact evalRightAccesses_onBoard game x y 2 hxy acc h'
      · by_cases h2 : EvalRight game x y 2 = true
        · rw [if_pos h2] at h'
          have := evalRight_bound game x y 2 h2
          unfold onBoard at hxy ⊢
          simp only [List.mem_singleton] at h'
          subst h'
          simp only [Access.index]
          omega
        · rw [if_neg h2] at h'
          simp at h'

theorem cellAccesses_onBoard (game : Game) (s x y : Int) (hxy : onBoard x y) :
    ∀ acc ∈ cellAccesses game s x y, onBoard acc.index.1 acc.index.2 := by
  intro acc hacc
  unfold cellAccesses at hacc
  rcases List.mem_cons.1 hacc with rfl | h
  · exact hxy
  · cases hst : game.compTargeting x y <;> rw [hst] at h <;> simp only at h
    · simp at h
    · unfold hitAccesses at h
      simp only [List.mem_append] at h
      rcases h with ((h | h) | h) | h
      · exact hitUpAccesses_onBoard game x y hxy acc h
      · exact hitDownAccesses_onBoard game x y hxy acc h
      · exact hitLeftAccesses_onBoard game x y hxy acc h
      · exact hitRightAccesses_onBoard game x y hxy acc h
    · unfold emptyAccesses at h
      obtain ⟨k, _, hk⟩ := List.mem_flatMap.1 h
      exact lengthAccesses_onBoard game x y _ hxy acc hk
    · simp at h
    · simp at h
    · simp only [List.mem_singleton] at h
      subst h
      exact hxy

/-! ## The accesses in 32-bit arithmetic -/

theorem wrap32_eq (v : Int) (h1 : -2147483648 ≤ v) (h2 : v ≤ 2147483647) : wrap32 v = v := by
  unfold wrap32
  omega

theorem map_range_congr {α : Type} (n : Nat) (f g : Nat → α) (h : ∀ k, k < n → f k = g k) :
    (List.range n).map f = (List.range n).map g :=
  List.map_congr_left fun k hk => h k (List.mem_range.1 hk)

theorem evalUp32_eq (game : Game) (x y i : Int) (hxy : onBoard x y)
    (hlo : -2147483637 ≤ i) (hhi : i ≤ 5) : EvalUp32 game x y i = EvalUp game x y i := by
  unfold onBoard at hxy
  unfold EvalUp32 EvalUp
  rw [wrap32_eq (i - 1) (by omega) (by omega), wrap32_eq (y - (i - 1)) (by omega) (by omega)]
  have he : (i - 1 - 1).toNat = (i - 2).toNat := by omega
  rw [he]
  by_cases hc : y - (i - 1) < 0
  · rw [if_pos hc, if_pos hc]
  · rw [if_neg hc, if_neg hc]
    exact all_range_congr _ _ _ fun k hk => by
      rw [wrap32_eq (y - ((k : Int) + 1)) (by omega) (by omega)]

theorem evalDown32_eq (game : Game) (x y i : Int) (hxy : onBoard x y)
    (hlo : -2147483637 ≤ i) (hhi : i ≤ 5) : EvalDown32 game x y i = EvalDown game x y i := by
  unfold onBoard at hxy
  unfold EvalDown32 EvalDown
  rw [wrap32_eq (i - 1) (by omega) (by omega), wrap32_eq (y + (i - 1)) (by omega) (by omega)]
  have he : (i - 1 - 1).toNat = (i - 2).toNat := by omega
  rw [he]
  by_cases hc : y + (i - 1) > 9
  · rw [if_pos hc, if_pos hc]
  · rw [if_neg hc, if_neg hc]
    exact all_range_congr _ _ _ fun k hk => by
      rw [wrap32_eq (y + ((k : Int) + 1)) (by omega) (by omega)]

theorem evalRight32_eq (game : Game) (x y i : Int) (hxy : onBoard x y)
    (hlo : -2147483637 ≤ i) (hhi : i ≤ 5) : EvalRight32 game x y i = EvalRight game x y i := by
  unfold onBoard at hxy
  unfold EvalRight32 EvalRight
  rw [wrap32_eq (i - 1) (by omega) (by omega), wrap32_eq (x + (i - 1)) (by omega) (by omega)]
  have he : (i - 1 - 1).toNat = (i - 2).toNat := by omega
  rw [he]
  by_cases hc : x + (i - 1) > 9
  · rw [if_pos hc, if_pos hc]
  · rw [if_neg hc, if_neg hc]
    exact all_range_congr _ _ _ fun k hk => by
      rw [wrap32_eq (x + ((k : Int) + 1)) (by omega) (by omega)]

theorem evalLeft32_eq (game : Game) (x y i : Int) (hxy : onBoard x y)
    (hlo : -2147483637 ≤ i) (hhi : i ≤ 5) : EvalLeft32 game x y i = EvalLeft game x y i := by
  unfold onBoard at hxy
  unfold EvalLeft32 EvalLeft
  rw [wrap32_eq (i - 1) (by omega) (by omega), wrap32_eq (x - (i - 1)) (by omega) (by omega)]
  have he : (i - 1 - 1).toNat = (i - 2).toNat := by omega
  rw [he]
  by_cases hc : x - (i - 1) < 0
  · rw [if_pos hc, if_pos hc]
  · rw [if_neg hc, if_neg hc]
    exact all_range_congr _ _ _ fun k hk => by
      rw [wrap32_eq (x - ((k : Int) + 1)) (by omega) (by omega)]

theorem evalUpAccesses32_eq (game : Game) (x y i : Int) (hxy : onBoard x y)
    (hlo : -2147483637 ≤ i) (hhi : i ≤ 5) :
    evalUpAccesses32 game x y i = evalUpAccesses game x y i := by
  unfold onBoard at hxy
  unfold evalUpAccesses32 evalUpAccesses
  rw [wrap32_eq (i - 1) (by omega) (by omega), wrap32_eq (y - (i - 1)) (by omega) (by omega)]
  have he : (i - 1 - 1).toNat = (i - 2).toNat := by omega
  rw [he]
  by_cases hc : y - (i - 1) < 0
  · rw [if_pos hc, if_pos hc]
  · rw [if_neg hc, if_neg hc]
    exact congrArg (readsUntil game) (map_range_congr _ _ _ fun k hk => by
      rw [wrap32_eq (y - ((k : Int) + 1)) (by omega) (by omega)])

theorem evalDownAccesses32_eq (game : Game) (x y i : Int) (hxy : onBoard x y)
    (hlo : -2147483637 ≤ i) (hhi : i ≤ 5) :
    evalDownAccesses32 game x y i = evalDownAccesses game x y i := by
  unfold onBoard at hxy
  unfold evalDownAccesses32 evalDownAccesses
  rw [wrap32_eq (i - 1) (by omega) (by omega), wrap32_eq (y + (i - 1)) (by omega) (by omega)]
  have he : (i - 1 - 1).toNat = (i - 2).toNat := by omega
  rw [he]
  by_cases hc : y + (i - 1) > 9
  · rw [if_pos hc, if_pos hc]
  · rw [if_neg hc, if_neg hc]
    exact congrArg (readsUntil game) (map_range_congr _ _ _ fun k hk => by
      rw [wrap32_eq (y + ((k : Int) + 1)) (by omega) (by omega)])

theorem evalRightAccesses32_eq (game : Game) (x y i : Int) (hxy : onBoard x y)
    (hlo : -2147483637 ≤ i) (hhi : i ≤ 5) :
    evalRightAccesses32 game x y i = evalRightAccesses game x y i := by
  unfold onBoard at hxy
  unfold evalRightAccesses32 evalRightAccesses
  rw [wrap32_eq (i - 1) (by omega) (by omega), wrap32_eq (x + (i - 1)) (by omega) (by omega)]
  have he : (i - 1 - 1).toNat = (i - 2).toNat := by omega
  rw [he]
  by_cases hc : x + (i - 1) > 9
  · rw [if_pos hc, if_pos hc]
  · rw [if_neg hc, if_neg hc]
    exact congrArg (readsUntil game) (map_range_congr _ _ _ fun k hk => by
      rw [wrap32_eq (x + ((k : Int) + 1)) (by omega) (by omega)])

theorem evalLeftAccesses32_eq (game : Game) (x y i : Int) (hxy : onBoard x y)
    (hlo : -2147483637 ≤ i) (hhi : i ≤ 5) :
    evalLeftAccesses32 game x y i = evalLeftAccesses game x y i := by
  unfold onBoard at hxy
  unfold evalLeftAccesses32 evalLeftAccesses
  rw [wrap32_eq (i - 1) (by omega) (by omega), wrap32_eq (x - (i - 1)) (by omega) (by omega)]
  have he : (i - 1 - 1).toNat = (i - 2).toNat := by omega
  rw [he]
  by_cases hc : x - (i - 1) < 0
  · rw [if_pos hc, if_pos hc]
  · rw [if_neg hc, if_neg hc]
    exact congrArg (readsUntil game) (map_range_congr _ _ _ fun k hk => by
      rw [wrap32_eq (x - ((k : Int) + 1)) (by omega) (by omega)])

theorem runUpAccesses32_eq (game : Game) (x y i : Int) (hxy : onBoard x y)
    (hlo : -2147483637 ≤ i) (hhi : i ≤ 5) :
    runUpAccesses32 game x y i = runUpAccesses game x y i := by
  unfold runUpAccesses32 runUpAccesses
  rw [evalUpAccesses32_eq game x y i hxy hlo hhi, evalUp32_eq game x y i hxy hlo hhi,
    wrap32_eq (i - 1) (by omega) (by omega)]
  unfold onBoard at hxy
  congr 2
  exact map_range_congr _ _ _ fun n hn => by
    rw [wrap32_eq (y - (n : Int)) (by omega) (by omega)]

theorem runDownAccesses32_eq (game : Game) (x y i : Int) (hxy : onBoard x y)
    (hlo : -2147483637 ≤ i) (hhi : i ≤ 5) :
    runDownAccesses32 game x y i = runDownAccesses game x y i := by
  unfold runDownAccesses32 runDownAccesses
  rw [evalDownAccesses32_eq game x y i hxy hlo hhi, evalDown32_eq game x y i hxy hlo hhi,
    wrap32_eq (i - 1) (by omega) (by omega)]
  unfold onBoard at hxy
  congr 2
  exact map_range_congr _ _ _ fun n hn => by
    rw [wrap32_eq (y + (n : Int)) (by omega) (by omega)]

theorem runLeftAccesses32_eq (game : Game) (x y i : Int) (hxy : onBoard x y)
    (hlo : -2147483637 ≤ i) (hhi : i ≤ 5) :
    runLeftAccesses32 game x y i = runLeftAccesses game x y i := by
  unfold runLeftAccesses32 runLeftAccesses
  rw [evalLeftAccesses32_eq game x y i hxy hlo hhi, evalLeft32_eq game x y i hxy hlo hhi,
    wrap32_eq (i - 1) (by omega) (by omega)]
  unfold onBoard at hxy
  congr 2
  exact map_range_congr _ _ _ fun n hn => by
    rw [wrap32_eq (x - (n : Int)) (by omega) (by omega)]

theorem runRightAccesses32_eq (game : Game) (x y i : Int) (hxy : onBoard x y)
    (hlo : -2147483637 ≤ i) (hhi : i ≤ 5) :
    runRightAccesses32 game x y i = runRightAccesses game x y i := by
  unfold runRightAccesses32 runRightAccesses
  rw [evalRightAccesses32_eq game x y i hxy hlo hhi, evalRight32_eq game x y i hxy hlo hhi,
    wrap32_eq (i - 1) (by omega) (by omega)]
  unfold onBoard at hxy
  congr 2
  exact map_range_congr _ _ _ fun n hn => by
    rw [wrap32_eq (x + (n : Int)) (by omega) (by omega)]

theorem lengthAccesses32_eq (game : Game) (x y i : Int) (hxy : onBoard x y)
    (hlo : -2147483637 ≤ i) (hhi : i ≤ 5) :
    lengthAccesses32 game x y i = lengthAccesses game x y i := by
  unfold lengthAccesses32 lengthAccesses
  rw [runUpAccesses32_eq game x y i hxy hlo hhi, runDownAccesses32_eq game x y i hxy hlo hhi,
    runLeftAccesses32_eq game x y i hxy hlo hhi, runRightAccesses32_eq game x y i hxy hlo hhi]

theorem emptyAccesses32_eq (game : Game) (s x y : Int) (hxy : onBoard x y)
    (hlo : -2147483637 ≤ s) : emptyAccesses32 game s x y = emptyAccesses game s x y := by
  unfold emptyAccesses32 emptyAccesses
  rw [List.flatMap_def, List.flatMap_def]
  exact congrArg List.flatten (map_range_congr _ _ _ fun k hk =>
    lengthAccesses32_eq game x y _ hxy (by omega) (by omega))

theorem hitUpAccesses32_eq (game : Game) (x y : Int) (hxy : onBoard x y) :
    hitUpAccesses32 game x y = hitUpAccesses game x y := by
  unfold hitUpAccesses32 hitUpAccesses
  rw [evalUpAccesses32_eq game x y 3 hxy (by decide) (by decide),
    evalUpAccesses32_eq game x y 2 hxy (by decide) (by decide),
    evalUp32_eq game x y 3 hxy (by decide) (by decide),
    evalUp32_eq game x y 2 hxy (by decide) (by decide)]
  unfold onBoard at hxy
  rw [wrap32_eq (y - 1) (by omega) (by omega), wrap32_eq (y - 2) (by omega) (by omega)]

theorem hitDownAccesses32_eq (game : Game) (x y : Int) (hxy : onBoard x y) :
    hitDownAccesses32 game x y = hitDownAccesses game x y := by
  unfold hitDownAccesses32 hitDownAccesses
  rw [evalDownAccesses32_eq game x y 3 hxy (by decide) (by decide),
    evalDownAccesses32_eq game x y 2 hxy (by decide) (by decide),
    evalDown32_eq game x y 3 hxy (by decide) (by decide),
    evalDown32_eq game x y 2 hxy (by decide) (by decide)]
  unfold onBoard at hxy
  rw [wrap32_eq (y + 1) (by omega) (by omega), wrap32_eq (y + 2) (by omega) (by omega)]

theorem hitLeftAccesses32_eq (game : Game) (x y : Int) (hxy : onBoard x y) :
    hitLeftAccesses32 game x y = hitLeftAccesses game x y := by
  unfold hitLeftAccesses32 hitLeftAccesses
  rw [evalLeftAccesses32_eq game x y 3 hxy (by decide) (by decide),
    evalLeftAccesses32_eq game x y 2 hxy (by decide) (by decide),
    evalLeft32_eq game x y 3 hxy (by decide) (by decide),
    evalLeft32_eq game x y 2 hxy (by decide) (by decide)]
  unfold onBoard at hxy
  rw [wrap32_eq (x - 1) (by omega) (by omega), wrap32_eq (x - 2) (by omega) (by omega)]

theorem hitRightAccesses32_eq (game : Game) (x y : Int) (hxy : onBoard x y) :
    hitRightAccesses32 game x y = hitRightAccesses game x y := by
  unfold hitRightAccesses32 hitRightAccesses
  rw [evalRightAccesses32_eq game x y 3 hxy (by decide) (by decide),
    evalRightAccesses32_eq game x y 2 hxy (by decide) (by decide),
    evalRight32_eq game x y 3 hxy (by decide) (by decide),
    evalRight32_eq game x y 2 hxy (by decide) (by decide)]
  unfold onBoard at hxy
  rw [wrap32_eq (x + 1) (by omega) (by omega), wrap32_eq (x + 2) (by omega) (by omega)]

theorem cellAccesses32_eq (game : Game) (s x y : Int) (hxy : onBoard x y)
    (hlo : -2147483637 ≤ s) : cellAccesses32 game s x y = cellAccesses game s x y := by
  unfold cellAccesses32 cellAccesses hitAccesses32 hitAccesses
  congr 1
  cases game.compTargeting x y <;>
    simp only [emptyAccesses32_eq game s x y hxy hlo, hitUpAccesses32_eq game x y hxy,
      hitDownAccesses32_eq game x y hxy, hitLeftAccesses32_eq game x y hxy,
      hitRightAccesses32_eq game x y hxy]

/-- As long as no operation leaves the range of `int`, the accesses in 32-bit
arithmetic are the accesses in exact arithmetic. -/
theorem evaluateGridAccesses32_eq (game : Game) (s : Int) (hlo : -2147483637 ≤ s) :
    weighAccesses32 game s = weighAccesses game s ∧
    evaluateGridAccesses32 game s = evaluateGridAccesses game s := by
  have hw : weighAccesses32 game s = weighAccesses game s := by
    unfold weighAccesses32 weighAccesses
    rw [List.flatMap_def, List.flatMap_def]
    refine congrArg List.flatten (List.map_congr_left fun x hx => ?_)
    rw [List.flatMap_def, List.flatMap_def]
    exact congrArg List.flatten (List.map_congr_left fun y hy =>
      cellAccesses32_eq game s x y ⟨(mem_idx10 x).1 hx, (mem_idx10 y).1 hy⟩ hlo)
  refine ⟨hw, ?_⟩
  unfold evaluateGridAccesses32 evaluateGridAccesses
  rw [hw]

/-- Every access of `EvaluateGrid` in exact arithmetic uses an index pair of
the board. -/
theorem evaluateGridAccesses_onBoard (game : Game) (s : Int) :
    ∀ acc ∈ evaluateGridAccesses game s, onBoard acc.index.1 acc.index.2 := by
  intro acc hacc
  unfold evaluateGridAccesses at hacc
  rcases List.mem_append.1 hacc with h | h
  · unfold weighAccesses at h
    obtain ⟨x, hx, h1⟩ := List.mem_flatMap.1 h
    obtain ⟨y, hy, h2⟩ := List.mem_flatMap.1 h1
    exact cellAccesses_onBoard game s x y ⟨(mem_idx10 x).1 hx, (mem_idx10 y).1 hy⟩ acc h2
  · unfold selectAccesses at h
    obtain ⟨x, hx, h1⟩ := List.mem_flatMap.1 h
    obtain ⟨y, hy, h2⟩ := List.mem_flatMap.1 h1
    have hxy : onBoard x y := ⟨(mem_idx10 x).1 hx, (mem_idx10 y).1 hy⟩
    rcases List.mem_cons.1 h2 with rfl | h3
    · exact hxy
    · rcases List.mem_append.1 h3 with h4 | h4
      · split_ifs at h4
        · simp only [List.mem_singleton] at h4
          subst h4
          exact hxy
        · simp at h4
      · simp only [List.mem_singleton] at h4
        subst h4
        exact hxy

/-- A cell of the list is read by the loop of an `Eval` function when no cell
before it is MISS or SINK. -/
theorem readGrid_mem_readsUntil (game : Game) (cells : List (Int × Int)) :
    ∀ (k : Nat) (c : Int × Int), cells[k]? = some c →
      (∀ (j : Nat) (c1 : Int × Int), j < k → cells[j]? = some c1 →
        ¬ (game.compTargeting c1.1 c1.2 = MISS ∨ game.compTargeting c1.1 c1.2 = SINK)) →
      Access.readGrid c.1 c.2 ∈ readsUntil game cells := by
  induction cells with
  | nil =>
    intro k c hk
    simp at hk
  | cons c0 rest ih =>
    intro k c hk hpre
    cases k with
    | zero =>
      simp only [List.getElem?_cons_zero, Option.some.injEq] at hk
      subst hk
      unfold readsUntil
      exact List.mem_cons_self _ _
    | succ k =>
      rw [List.getElem?_cons_succ] at hk
      have h0 := hpre 0 c0 (Nat.succ_pos k) (by simp)
      unfold readsUntil
      rw [if_neg h0]
      exact List.mem_cons_of_mem _ (ih k c hk fun j c1 hj hc1 =>
        hpre (j + 1) c1 (Nat.succ_lt_succ hj) (by rw [List.getElem?_cons_succ]; exact hc1))

/-- C40 (amended): for every targeting grid and every `int` `s` from
`-2147483637` (that is `INT_MIN + 11`) on, no operation of `EvaluateGrid` and of
the `Eval` functions it calls leaves the range of `int`: for every cell of the
board and every length `i` from `s` to 5, `i - 1` and the four sums and
differences of the bound tests have their exact values in 32 bits, the results
of the `Eval` functions are those of exact arithmetic, and so are the accesses.
Every access to `compTargeting` and to the weight map uses an index pair
within `[0, 9] x [0, 9]`, and the writes among the accesses, applied to the
zero map, give the weight map the function ends with. -/
theorem evaluateGrid_accesses_in_bounds (game : Game) (s : Int)
    (hs : -2147483637 ≤ s ∧ s ≤ 2147483647) :
    (∀ acc ∈ evaluateGridAccesses32 game s, onBoard acc.index.1 acc.index.2) ∧
    evaluateGridAccesses32 game s = evaluateGridAccesses game s ∧
    (∀ x y i, onBoard x y → s ≤ i → i ≤ 5 →
      wrap32 (i - 1) = i - 1 ∧
      wrap32 (y - (i - 1)) = y - (i - 1) ∧ wrap32 (y + (i - 1)) = y + (i - 1) ∧
      wrap32 (x - (i - 1)) = x - (i - 1) ∧ wrap32 (x + (i - 1)) = x + (i - 1)) ∧
    (∀ x y i, onBoard x y → (s ≤ i ∧ i ≤ 5) ∨ i = 3 ∨ i = 2 →
      EvalUp32 game x y i = EvalUp game x y i ∧ EvalDown32 game x y i = EvalDown game x y i ∧
      EvalLeft32 game x y i = EvalLeft game x y i ∧
      EvalRight32 game x y i = EvalRight game x y i) ∧
    (weighAccesses32 game s).foldl Access.apply zeroWeights = weighGrid game s ∧
    (evaluateGridAccesses32 game s).foldl Access.apply zeroWeights = finalWeights game s := by
  obtain ⟨hw, he⟩ := evaluateGridAccesses32_eq game s hs.1
  refine ⟨?_, he, ?_, ?_, ?_, ?_⟩
  · rw [he]
    exact evaluateGridAccesses_onBoard game s
  · intro x y i hxy hlo hhi
    unfold onBoard at hxy
    exact ⟨wrap32_eq _ (by omega) (by omega), wrap32_eq _ (by omega) (by omega),
      wrap32_eq _ (by omega) (by omega), wrap32_eq _ (by omega) (by omega),
      wrap32_eq _ (by omega) (by omega)⟩
  · intro x y i hxy hi
    have hlo : -2147483637 ≤ i := by omega
    have hhi : i ≤ 5 := by omega
    exact ⟨evalUp32_eq game x y i hxy hlo hhi, evalDown32_eq game x y i hxy hlo hhi,
      evalLeft32_eq game x y i hxy hlo hhi, evalRight32_eq game x y i hxy hlo hhi⟩
  · rw [hw]
    exact weighAccesses_apply game s
  · rw [he]
    unfold evaluateGridAccesses finalWeights
    rw [List.foldl_append, weighAccesses_apply, selectAccesses_apply]

/-- C40, witness: `s = 2`, the smallest size the program passes, on the grid
`missAt20`. -/
theorem evaluateGrid_accesses_in_bounds_witness :
    ((-2147483637 : Int) ≤ 2 ∧ (2 : Int) ≤ 2147483647) ∧
    (∀ acc ∈ evaluateGridAccesses32 missAt20 2, onBoard acc.index.1 acc.index.2) ∧
    evaluateGridAccesses32 missAt20 2 = evaluateGridAccesses missAt20 2 ∧
    (evaluateGridAccesses32 missAt20 2).foldl Access.apply zeroWeights = finalWeights missAt20 2 :=
  ⟨by decide, (evaluateGrid_accesses_in_bounds missAt20 2 (by decide)).1,
    (evaluateGrid_accesses_in_bounds missAt20 2 (by decide)).2.1,
    (evaluateGrid_accesses_in_bounds missAt20 2 (by decide)).2.2.2.2.2⟩

/-- C40, counterexample: `s = -2147483648` (`INT_MIN`) on the grid with every
cell EMPTY. `s - 1` leaves the range of `int` and is `2147483647` in 32 bits.
`EvalUp(0, 0, s)` is then false, where exact arithmetic gives true. In
`EvalDown(0, 1, s)` the sum `y + (s - 1)` leaves the range again and is
`-2147483648`, the test `> 9` fails, the loop runs for `n < 2147483647` and,
the cells `(0, 2) .. (0, 9)` being EMPTY, reads `compTargeting[0][10]`; this
read is one of the accesses of `EvaluateGrid` and its index is not within
`[0, 9] x [0, 9]`. -/
theorem evaluateGrid_reads_off_board_at_int_min :
    wrap32 (-2147483648 - 1) = 2147483647 ∧
    wrap32 (1 + 2147483647) = -2147483648 ∧
    EvalUp allEmpty 0 0 (-2147483648) = true ∧
    EvalUp32 allEmpty 0 0 (-2147483648) = false ∧
    Access.readGrid 0 10 ∈ evalDownAccesses32 allEmpty 0 1 (-2147483648) ∧
    Access.readGrid 0 10 ∈ evaluateGridAccesses32 allEmpty (-2147483648) ∧
    ¬ onBoard (Access.readGrid 0 10).index.1 (Access.readGrid 0 10).index.2 := by
  have h1 : wrap32 (-2147483648 - 1) = 2147483647 := by
    unfold wrap32
    omega
  have h2 : wrap32 (1 + 2147483647) = -2147483648 := by
    unfold wrap32
    omega
  have hup : EvalUp32 allEmpty 0 0 (-2147483648) = false := by
    unfold EvalUp32
    rw [h1, if_pos (by unfold wrap32; omega)]
  have hdown : Access.readGrid 0 10 ∈ evalDownAccesses32 allEmpty 0 1 (-2147483648) := by
    unfold evalDownAccesses32
    rw [h1, h2, if_neg (by omega)]
    have hk : ((List.range (2147483647 - 1 : Int).toNat).map fun (k : Nat) =>
        ((0 : Int), wrap32 (1 + ((k : Int) + 1))))[8]? = some (0, 10) := by
      rw [List.getElem?_map, List.getElem?_range (by omega)]
      simp only [Option.map_some', Option.some.injEq, Prod.mk.injEq, true_and]
      unfold wrap32
      omega
    exact readGrid_mem_readsUntil allEmpty _ 8 (0, 10) hk fun j c1 _ _ h => by
      have he : allEmpty.compTargeting c1.1 c1.2 = EMPTY := rfl
      rw [he] at h
      rcases h with h | h <;> exact absurd h (by decide)
  refine ⟨h1, h2, by decide, hup, hdown, ?_, by decide⟩
  unfold evaluateGridAccesses32 weighAccesses32
  refine List.mem_append_left _ (List.mem_flatMap.2 ⟨0, by decide, List.mem_flatMap.2
    ⟨1, by decide, ?_⟩⟩)
  have hc : cellAccesses32 allEmpty (-2147483648) 0 1 =
      Access.readGrid 0 1 :: emptyAccesses32 allEmpty (-2147483648) 0 1 := rfl
  rw [hc]
  refine List.mem_cons_of_mem _ ?_
  unfold emptyAccesses32
  refine List.mem_flatMap.2 ⟨0, List.mem_range.2 (by omega), ?_⟩
  have hz : (-2147483648 : Int) + ((0 : Nat) : Int) = -2147483648 := by omega
  rw [hz]
  unfold lengthAccesses32 runDownAccesses32
  simp only [List.mem_append]
  exact Or.inl (Or.inl (Or.inr (Or.inl hdown)))

end Battleship
